import Mathlib

/-!
# Semantic clone detection: machine state, input groups and output groups

A shallow embedding of `projects/BinaryCloneDetection/semantic/CloneDetectionLib.h`.
Mutable C++ objects become values that are passed in and returned; a C++ `throw`
becomes an `Except` result paired with the object as it is at the throw.
-/

namespace CloneDetection

/-! ## Analysis faults and exceptions -/

/-- Special output values for when something goes wrong (`AnalysisFault::Fault`). -/
inductive AnalysisFault where
  | NONE
  | DISASSEMBLY
  | INSN_LIMIT
  | HALT
  | INTERRUPT
  | SEMANTICS
  | SMTSOLVER
  | INPUT_LIMIT
deriving DecidableEq, Repr

/-- What a method can throw: a `FaultException` carrying a fault, a plain `Exception`
carrying a message, or a failed `assert`. -/
inductive Thrown where
  | FaultException (fault : AnalysisFault)
  | Exception (mesg : String)
  | AssertionFailure
deriving DecidableEq, Repr

/-! ## Word-of-bits values -/

/-- Modelled from the spec: the value type of the partial-symbolic base
(`PartialSymbolicSemantics::ValueType<nBits>`, not part of these sources). A value is
either known, carrying a concrete unsigned integer of `nBits` bits, or unknown
(opaque). -/
inductive ValueType (nBits : Nat) where
  | known (v : Nat) (h : v < 2 ^ nBits)
  | unknown
deriving DecidableEq, Repr

namespace ValueType

/-- Modelled from the spec: the constructor `ValueType<nBits>(uint64_t)`, which keeps the
low `nBits` bits of its argument. -/
def number (nBits : Nat) (n : Nat) : ValueType nBits :=
  known (n % 2 ^ nBits) (Nat.mod_lt n (Nat.pos_pow_of_pos nBits (by decide)))

/-- Modelled from the spec: whether the value carries a concrete integer. -/
def is_known {nBits : Nat} : ValueType nBits → Bool
  | known _ _ => true
  | unknown => false

/-- Modelled from the spec: the concrete integer of a known value. The base asserts
`is_known()`; the embedding returns 0 for an unknown value, and every use below is
either guarded by `is_known` or applied to a known address. -/
def known_value {nBits : Nat} : ValueType nBits → Nat
  | known v _ => v
  | unknown => 0

/-- Modelled from the spec: `concat(a, b)` puts `a` in the low bits and `b` above it;
constant folding when both are known. -/
def concat {A B : Nat} (a : ValueType A) (b : ValueType B) : ValueType (A + B) :=
  match a, b with
  | known x _, known y _ => number (A + B) (x ||| (y <<< A))
  | _, _ => unknown

/-- Modelled from the spec: `extract<lo, hi>(a)` is bits `lo .. hi-1` of `a`. -/
def extract (lo hi : Nat) {n : Nat} (a : ValueType n) : ValueType (hi - lo) :=
  match a with
  | known x _ => number (hi - lo) (x >>> lo)
  | unknown => unknown

/-- Modelled from the spec: bitwise or, folded when both operands are known. -/
def or_ {n : Nat} (a b : ValueType n) : ValueType n :=
  match a, b with
  | known x _, known y _ => number n (x ||| y)
  | _, _ => unknown

/-- Modelled from the spec: addition modulo `2 ^ n`, folded when both are known. -/
def add {n : Nat} (a b : ValueType n) : ValueType n :=
  match a, b with
  | known x _, known y _ => number n (x + y)
  | _, _ => unknown

/-- Modelled from the spec: `unsignedExtend<From, To>` zero-extends or truncates. -/
def unsignedExtend {From : Nat} (To : Nat) (a : ValueType From) : ValueType To :=
  match a with
  | known x _ => number To x
  | unknown => unknown

/-- Modelled from the spec: `signExtend<From, To>` copies the top bit of `a` into the
bits above it (and truncates when `To` is smaller). -/
def signExtend {From : Nat} (To : Nat) (a : ValueType From) : ValueType To :=
  match a with
  | known x _ =>
    if From = 0 then number To 0
    else if x.testBit (From - 1) then number To (x + (2 ^ To - 2 ^ From)) else number To x
  | unknown => unknown

end ValueType

/-! ## Output groups -/

/-- Collection of output values (`OutputGroup`), with `OUTPUTGROUP_VALUE_CONTAINER == 2`:
the values are a `std::set<uint32_t>`. -/
structure OutputGroup where
  values : Finset Nat
  callee_ids : List Int
  syscalls : List Int
  fault : AnalysisFault
  ninsns : Nat
deriving DecidableEq

namespace OutputGroup

/-- The default constructor: no values, no fault, no instructions. -/
def new : OutputGroup :=
  { values := ∅, callee_ids := [], syscalls := [], fault := AnalysisFault.NONE, ninsns := 0 }

/-- Modelled from the spec: `OutputGroup::clear` (declared in the header, defined
elsewhere) empties the group. -/
def clear (_g : OutputGroup) : OutputGroup := new

/-- The method `add_value(int64_t value)`: `values.insert(value)`, where the element type is
`uint32_t`, so the low 32 bits of the argument are stored. -/
def add_value (g : OutputGroup) (value : Nat) : OutputGroup :=
  { g with values := insert (value % 2 ^ 32) g.values }

end OutputGroup

/-! ## Input groups -/

/-- Initial values to supply for inputs (`InputGroup`). The cursors are `size_t`
counters that advance by one per call; they are unbounded naturals here. -/
structure InputGroup where
  integers_ : List Nat
  pointers_ : List Nat
  next_integer_ : Nat
  next_pointer_ : Nat
  limit_consumption_ : Bool
deriving DecidableEq, Repr

namespace InputGroup

/-- The kind of input wanted (`InputGroup::Type`). -/
inductive Type_ where
  | INTEGER
  | POINTER
  | UNKNOWN_TYPE
deriving DecidableEq, Repr

/-- The default constructor. -/
def new : InputGroup :=
  { integers_ := [], pointers_ := [], next_integer_ := 0, next_pointer_ := 0,
    limit_consumption_ := false }

def add_integer (g : InputGroup) (i : Nat) : InputGroup :=
  { g with integers_ := g.integers_ ++ [i] }

def add_pointer (g : InputGroup) (p : Nat) : InputGroup :=
  { g with pointers_ := g.pointers_ ++ [p] }

def limit_consumption (g : InputGroup) (b : Bool) : InputGroup :=
  { g with limit_consumption_ := b }

/-- The method `next_integer()`: the result (or the exception) and the group afterwards. -/
def next_integer (g : InputGroup) : Except Thrown Nat × InputGroup :=
  if g.limit_consumption_ && decide (g.next_integer_ ≥ g.integers_.length) then
    (Except.error (Thrown.FaultException AnalysisFault.INPUT_LIMIT), g)
  else
    let retval := if g.next_integer_ < g.integers_.length then g.integers_.getD g.next_integer_ 0 else 0
    (Except.ok retval, { g with next_integer_ := g.next_integer_ + 1 })

/-- The method `next_pointer()`: the result (or the exception) and the group afterwards. -/
def next_pointer (g : InputGroup) : Except Thrown Nat × InputGroup :=
  if g.limit_consumption_ && decide (g.next_pointer_ ≥ g.pointers_.length) then
    (Except.error (Thrown.FaultException AnalysisFault.INPUT_LIMIT), g)
  else
    let retval := if g.next_pointer_ < g.pointers_.length then g.pointers_.getD g.next_pointer_ 0 else 0
    (Except.ok retval, { g with next_pointer_ := g.next_pointer_ + 1 })

def integers_consumed (g : InputGroup) : Nat := g.next_integer_

def pointers_consumed (g : InputGroup) : Nat := g.next_pointer_

def reset (g : InputGroup) : InputGroup :=
  { g with next_integer_ := 0, next_pointer_ := 0 }

def clear (g : InputGroup) : InputGroup :=
  { g.reset with integers_ := [], pointers_ := [] }

/-- The results of `k` successive calls of `next_integer()` and the group after them. -/
def next_integers : Nat → InputGroup → List (Except Thrown Nat) × InputGroup
  | 0, g => ([], g)
  | k + 1, g =>
    let r := g.next_integer
    let rest := next_integers k r.2
    (r.1 :: rest.1, rest.2)

/-- The results of `k` successive calls of `next_pointer()` and the group after them. -/
def next_pointers : Nat → InputGroup → List (Except Thrown Nat) × InputGroup
  | 0, g => ([], g)
  | k + 1, g =>
    let r := g.next_pointer
    let rest := next_pointers k r.2
    (r.1 :: rest.1, rest.2)

end InputGroup

/-! ## Machine state -/

/-- Bits to track variable access. -/
abbrev NO_ACCESS : Nat := 0

abbrev HAS_BEEN_READ : Nat := 1

abbrev HAS_BEEN_WRITTEN : Nat := 2

/-- Semantic value to track the read/write state of registers (`ReadWriteState<nBits>`). -/
structure ReadWriteState (nBits : Nat) where
  state : Nat
deriving DecidableEq, Repr

/-- One value stored in memory (`MemoryValue`). -/
structure MemoryValue where
  val : ValueType 8
  rw_state : Nat
deriving DecidableEq, Repr

/-- Modelled from the spec: the x86 segment registers (`X86SegmentRegister`, declared outside
these sources), in their encoding order. -/
inductive X86SegmentRegister where
  | x86_segreg_es
  | x86_segreg_cs
  | x86_segreg_ss
  | x86_segreg_ds
  | x86_segreg_fs
  | x86_segreg_gs
deriving DecidableEq, Repr

/-- Modelled from the spec: indices of the general-purpose registers
(`X86GeneralPurposeRegister`): AX, CX, DX, BX, SP, BP, SI, DI. -/
abbrev x86_gpr_ax : Nat := 0

abbrev x86_gpr_cx : Nat := 1

abbrev x86_gpr_dx : Nat := 2

abbrev x86_gpr_bx : Nat := 3

abbrev x86_gpr_sp : Nat := 4

abbrev x86_gpr_bp : Nat := 5

abbrev x86_gpr_si : Nat := 6

abbrev x86_gpr_di : Nat := 7

/-- Modelled from the spec: the register file template `BaseSemantics::RegisterStateX86<T>`
(declared outside these sources): a 32-bit instruction pointer, 8 general-purpose 32-bit
registers, 6 segment registers of 16 bits and 32 single-bit flags. The arrays are
functions of the index; only indices below `n_gprs`, `n_segregs`, `n_flags` are used. -/
structure RegisterStateX86 (T : Nat → Type) where
  ip : T 32
  gpr : Nat → T 32
  segreg : Nat → T 16
  flag : Nat → T 1

namespace RegisterStateX86

abbrev n_gprs : Nat := 8

abbrev n_segregs : Nat := 6

abbrev n_flags : Nat := 32

/-- Modelled from the spec: `clear()` gives every register the default value of `T`. -/
def clear {T : Nat → Type} (d : (n : Nat) → T n) : RegisterStateX86 T :=
  { ip := d 32, gpr := fun _ => d 32, segreg := fun _ => d 16, flag := fun _ => d 1 }

end RegisterStateX86

/-- Memory cells indexed by address (`std::map<uint32_t, MemoryValue>`): the entries in
ascending order of address. -/
abbrev MemoryCells := List (Nat × MemoryValue)

namespace MemoryCells

/-- The lookup `cells.find(addr)`: the cell at `addr`, if there is one. -/
def find : MemoryCells → Nat → Option MemoryValue
  | [], _ => none
  | (k, v) :: rest, addr => if k = addr then some v else find rest addr

/-- The assignment `cells[addr] = mval`: replaces the cell at `addr` or inserts one. -/
def assign : MemoryCells → Nat → MemoryValue → MemoryCells
  | [], addr, mval => [(addr, mval)]
  | (k, v) :: rest, addr, mval =>
    if addr < k then (addr, mval) :: (k, v) :: rest
    else if addr = k then (addr, mval) :: rest
    else (k, v) :: assign rest addr mval

end MemoryCells

/-- The invariant of a `std::map`: one entry per address, in ascending order. -/
def MemoryCells.wf (m : MemoryCells) : Prop :=
  m.Pairwise (fun c d => c.1 < d.1)

/-- Analysis machine state (`State<ValueType>`). -/
structure State where
  stack_cells : MemoryCells
  data_cells : MemoryCells
  registers : RegisterStateX86 ValueType
  register_rw_state : RegisterStateX86 ReadWriteState
  output_group : OutputGroup

namespace State

/-- The state a fresh policy holds: no memory, default registers, empty output group. -/
def new : State :=
  { stack_cells := [], data_cells := [],
    registers := RegisterStateX86.clear (fun _ => ValueType.unknown),
    register_rw_state := RegisterStateX86.clear (fun _ => ReadWriteState.mk NO_ACCESS),
    output_group := OutputGroup.new }

/-- The map a segment register selects, `x86_segreg_ss==sr ? stack_cells : data_cells`. -/
def cells (s : State) (sr : X86SegmentRegister) : MemoryCells :=
  if X86SegmentRegister.x86_segreg_ss = sr then s.stack_cells else s.data_cells

/-- Write a single byte to memory: `cells[addr.known_value()] = MemoryValue(value, rw_state)`
in the stack map for SS and in the data map for every other segment. -/
def mem_write_byte (s : State) (sr : X86SegmentRegister) (addr : ValueType 32)
    (value : ValueType 8) (rw_state : Nat) : State :=
  if X86SegmentRegister.x86_segreg_ss = sr then
    { s with stack_cells := s.stack_cells.assign addr.known_value (MemoryValue.mk value rw_state) }
  else
    { s with data_cells := s.data_cells.assign addr.known_value (MemoryValue.mk value rw_state) }

/-- Read a single byte from memory. `rnd` is what `rand()` returns in this call and
`uninitialized_read` the flag on entry; the result is the byte and the flag on exit (set
when no cell is found, never cleared). -/
def mem_read_byte (s : State) (sr : X86SegmentRegister) (addr : ValueType 32) (rnd : Nat)
    (uninitialized_read : Bool) : ValueType 8 × Bool :=
  let cells := s.cells sr
  let found : List (ValueType 8) :=
    match cells.find addr.known_value with
    | some ci => [ci.val]
    | none => []
  if !found.isEmpty then
    (found.getD (rnd % found.length) ValueType.unknown, uninitialized_read)
  else
    (ValueType.number 8 (rnd % 256), true)

/-- Returns true if two memory addresses can be equal. -/
def may_alias (addr1 addr2 : ValueType 32) : Bool :=
  addr1.known_value == addr2.known_value

/-- Returns true if two memory addresses are equivalent. -/
def must_alias (addr1 addr2 : ValueType 32) : Bool :=
  addr1.known_value == addr2.known_value

/-- Reset the analysis state: clear all memory, the registers, their read/write status
and the output group. A cleared register is a default-constructed value, which is
unknown. -/
def reset_for_analysis (s : State) : State :=
  { stack_cells := [], data_cells := [],
    registers := RegisterStateX86.clear (fun _ => ValueType.unknown),
    register_rw_state := RegisterStateX86.clear (fun _ => ReadWriteState.mk NO_ACCESS),
    output_group := s.output_group.clear }

/-- The test `addr <= stack_frame_top && addr > stack_frame_top - frame_size` of
`get_outputs`, as C++ evaluates it: `stack_frame_top` is a `uint32_t`, `frame_size` a
64-bit `size_t`, so the difference is taken modulo `2 ^ 64`. -/
def cell_in_frame (addr stack_frame_top frame_size : Nat) : Bool :=
  decide (addr ≤ stack_frame_top % 2 ^ 32) &&
    decide (addr > (stack_frame_top % 2 ^ 32 + (2 ^ 64 - frame_size % 2 ^ 64)) % 2 ^ 64)

/-- The body of the loop over the stack cells in `get_outputs`. -/
def add_stack_cell (stack_frame_top frame_size : Nat) (outputs : OutputGroup)
    (ci : Nat × MemoryValue) : OutputGroup :=
  if (ci.2.rw_state &&& HAS_BEEN_WRITTEN != 0) && ci.2.val.is_known then
    if !cell_in_frame ci.1 stack_frame_top frame_size then
      outputs.add_value ci.2.val.known_value
    else outputs
  else outputs

/-- The body of the loop over the data cells in `get_outputs`. -/
def add_data_cell (outputs : OutputGroup) (ci : Nat × MemoryValue) : OutputGroup :=
  if (ci.2.rw_state &&& HAS_BEEN_WRITTEN != 0) && ci.2.val.is_known then
    outputs.add_value ci.2.val.known_value
  else outputs

/-- Return output values (`State::get_outputs`): the accumulated output group, EAX if it
has been written and is known, the written known stack cells outside the local frame
and the written known data cells. The state is only read. -/
def get_outputs (s : State) (stack_frame_top frame_size : Nat) : OutputGroup :=
  let outputs := s.output_group
  let outputs :=
    if ((s.register_rw_state.gpr x86_gpr_ax).state &&& HAS_BEEN_WRITTEN != 0) &&
        (s.registers.gpr x86_gpr_ax).is_known then
      outputs.add_value (s.registers.gpr x86_gpr_ax).known_value
    else outputs
  let outputs := s.stack_cells.foldl (add_stack_cell stack_frame_top frame_size) outputs
  let outputs := s.data_cells.foldl add_data_cell outputs
  outputs

end State

/-! ## Collaborators of the policy -/

/-- How much diagnostic output to produce (`Verbosity`); it never influences a result. -/
inductive Verbosity where
  | SILENT
  | LACONIC
  | EFFUSIVE
deriving DecidableEq, Repr

/-- Modelled from the spec: the instruction kinds the policy looks at
(`X86InstructionKind`, declared outside these sources); every other kind is
`x86_other`. -/
inductive X86InstructionKind where
  | x86_call
  | x86_ret
  | x86_int
  | x86_hlt
  | x86_other
deriving DecidableEq, Repr

/-- Modelled from the spec: what the policy reads of a function node (`SgAsmFunction`):
its entry address and its name. -/
structure SgAsmFunction where
  entry_va : Nat
  name : String
deriving DecidableEq, Repr

/-- Modelled from the spec: what the policy reads of a decoded x86 instruction
(`SgAsmx86Instruction`): address, size in bytes, kind and the enclosing function. -/
structure SgAsmx86Instruction where
  address : Nat
  size : Nat
  kind : X86InstructionKind
  enclosing_function : Option SgAsmFunction
deriving DecidableEq, Repr

/-- Efficient mapping from address to instruction (`InstructionProvidor`). -/
structure InstructionProvidor where
  addr2insn : List (Nat × SgAsmx86Instruction)
deriving DecidableEq, Repr

namespace InstructionProvidor

def get_instruction (ip : InstructionProvidor) (addr : Nat) : Option SgAsmx86Instruction :=
  (ip.addr2insn.find? (fun e => e.1 == addr)).map (fun e => e.2)

end InstructionProvidor

/-- Modelled from the spec: the pointer oracle (`PointerDetector`), a predicate on
addresses. -/
structure PointerDetector where
  is_pointer : Nat → Bool

/-- Modelled from the spec: the loader image of an interpretation (`MemoryMap`), of
which the policy asks only whether an address is mapped. -/
structure MemoryMap where
  exists_ : Nat → Bool

/-- Modelled from the spec: the interpretation in which the function executes
(`SgAsmInterpretation`); `get_map()` may be null. -/
structure SgAsmInterpretation where
  get_map : Option MemoryMap

/-- Modelled from the spec: the linear congruential generator
(`LinearCongruentialGenerator`, declared outside these sources). Its state is the
current value; the transition `step` is a parameter of every definition that draws. -/
structure LinearCongruentialGenerator where
  value_ : Nat
deriving DecidableEq, Repr

namespace LinearCongruentialGenerator

/-- Modelled from the spec: one draw, the generator's `operator()`. -/
def next (step : Nat → Nat) (g : LinearCongruentialGenerator) :
    Nat × LinearCongruentialGenerator :=
  (step g.value_, { value_ := step g.value_ })

end LinearCongruentialGenerator

/-- Hashes a virtual address to a small integer (`AddressHasher`). -/
structure AddressHasher where
  lcg : LinearCongruentialGenerator
  tab : List Nat
deriving DecidableEq, Repr

namespace AddressHasher

/-- The loop of `init_table`: `n` successive entries `lcg() % 256`. -/
def fill_table (step : Nat → Nat) :
    Nat → LinearCongruentialGenerator → List Nat × LinearCongruentialGenerator
  | 0, g => ([], g)
  | n + 1, g =>
    let d := g.next step
    let rest := fill_table step n d.2
    (d.1 % 256 :: rest.1, rest.2)

def init_table (step : Nat → Nat) (h : AddressHasher) : AddressHasher :=
  let r := fill_table step 256 h.lcg
  { lcg := r.2, tab := r.1 }

/-- The constructor `AddressHasher(unsigned seed)`. -/
def ofSeed (step : Nat → Nat) (seed : Nat) : AddressHasher :=
  init_table step { lcg := { value_ := seed % 2 ^ 32 }, tab := [] }

/-- One round of the hash: `retval = tab[(retval + byte) & 0xff]` with
`byte = (addr >> 8*i) & 0xff`; the table holds `uint8_t` entries. -/
def round (h : AddressHasher) (addr : Nat) (retval i : Nat) : Nat :=
  h.tab.getD ((retval + ((addr >>> (8 * i)) &&& 0xff)) &&& 0xff) 0 % 256

/-- The call operator: four rounds, over byte positions 0 to 3 of the address. -/
def hash (h : AddressHasher) (addr : Nat) : Nat :=
  (List.range 4).foldl (round h addr) 0

end AddressHasher

/-- Semantic policy parameters (`PolicyParams`). -/
structure PolicyParams where
  timeout : Nat
  verbosity : Verbosity
  follow_calls : Bool
  init_memory : Bool
  initial_stack : Nat
deriving DecidableEq, Repr

namespace PolicyParams

/-- The default constructor. -/
def new : PolicyParams :=
  { timeout := 5000, verbosity := Verbosity.SILENT, follow_calls := false,
    init_memory := false, initial_stack := 0x80000000 }

end PolicyParams

/-- Modelled from the spec: the classes of x86 registers (`X86RegisterClass`, declared
outside these sources). -/
inductive X86RegisterClass where
  | x86_regclass_gpr
  | x86_regclass_segment
  | x86_regclass_cr
  | x86_regclass_dr
  | x86_regclass_st
  | x86_regclass_mm
  | x86_regclass_xmm
  | x86_regclass_ip
  | x86_regclass_st_top
  | x86_regclass_flags
deriving DecidableEq, Repr

/-- Modelled from the spec: a register descriptor (`RegisterDescriptor`, declared outside
these sources): class, number within the class, bit offset and width. -/
structure RegisterDescriptor where
  major : X86RegisterClass
  minor : Nat
  offset : Nat
  nbits : Nat
deriving DecidableEq, Repr

/-! ## The semantic policy -/

/-- The analysis semantic policy (`Policy`). `cur_insn` is the base policy's current
instruction (`get_insn()`), null outside an instruction. -/
structure Policy where
  state : State
  inputs : Option InputGroup
  pointers : Option PointerDetector
  interp : Option SgAsmInterpretation
  ninsns : Nat
  address_hasher : AddressHasher
  insns : Option InstructionProvidor
  params : PolicyParams
  entry2id : List (Nat × Int)
  cur_insn : Option SgAsmx86Instruction

/-- The result of a policy method: what it returns or throws, and the policy afterwards. -/
abbrev Outcome (α : Type) := Except Thrown α × Policy

namespace Policy

/-- Special return address to mark the end of the analysis. -/
abbrev FUNC_RET_ADDR : Nat := 4083

/-- Sequencing of two methods: the second runs only when the first did not throw. -/
def andThen {α β : Type} (r : Outcome α) (f : α → Policy → Outcome β) : Outcome β :=
  match r with
  | (Except.ok a, p) => f a p
  | (Except.error e, p) => (Except.error e, p)

/-- The method `next_input_value<nBits>(type)`: zero when no input group is installed,
otherwise the next pointer or the next integer, reduced to `nBits` bits. -/
def next_input_value (nBits : Nat) (type : InputGroup.Type_) (p : Policy) :
    Outcome (ValueType nBits) :=
  match p.inputs with
  | none => (Except.ok (ValueType.number nBits 0), p)
  | some inputs =>
    match type with
    | InputGroup.Type_.POINTER =>
      match inputs.next_pointer with
      | (Except.ok value, g) => (Except.ok (ValueType.number nBits value), { p with inputs := some g })
      | (Except.error e, g) => (Except.error e, { p with inputs := some g })
    | _ =>
      match inputs.next_integer with
      | (Except.ok value, g) => (Except.ok (ValueType.number nBits value), { p with inputs := some g })
      | (Except.error e, g) => (Except.error e, { p with inputs := some g })

/-- Return output values (`Policy::get_outputs`); the first parameter of
`State::get_outputs` is a `uint32_t`. -/
def get_outputs (p : Policy) : OutputGroup :=
  p.state.get_outputs (p.params.initial_stack % 2 ^ 32) 8192

/-- The method `writeMemory<nBits>(sr, a0, data, cond, rw_state)`: the bytes of `data` go
to `a0`, `a0+1`, ... in little-endian order, each with access mask `rw_state`. -/
def writeMemory (nBits : Nat) (p : Policy) (sr : X86SegmentRegister) (a0 : ValueType 32)
    (data : ValueType nBits) (rw_state : Nat) : Outcome Unit :=
  if ¬ (8 = nBits ∨ 16 = nBits ∨ 32 = nBits) then (Except.error Thrown.AssertionFailure, p)
  else
    let b0 := ValueType.extract 0 8 data
    let s := p.state.mem_write_byte sr a0 b0 rw_state
    let s :=
      if nBits ≥ 16 then
        let a1 := ValueType.add a0 (ValueType.number 32 1)
        let b1 := ValueType.extract 8 16 data
        s.mem_write_byte sr a1 b1 rw_state
      else s
    let s :=
      if nBits ≥ 24 then
        let a2 := ValueType.add a0 (ValueType.number 32 2)
        let b2 := ValueType.extract 16 24 data
        s.mem_write_byte sr a2 b2 rw_state
      else s
    let s :=
      if nBits ≥ 32 then
        let a3 := ValueType.add a0 (ValueType.number 32 3)
        let b3 := ValueType.extract 24 32 data
        s.mem_write_byte sr a3 b3 rw_state
      else s
    (Except.ok (), { p with state := s })

/-- The little-endian assembly of the bytes in `readMemory`: the 32-bit word and the
`uninitialized_read` flag after the `nBits/8` byte reads. `rnd i` is what `rand()`
returns in the byte read number `i`. -/
def readMemory_dword (nBits : Nat) (p : Policy) (sr : X86SegmentRegister) (a0 : ValueType 32)
    (rnd : Nat → Nat) : ValueType 32 × Bool :=
  let r0 := p.state.mem_read_byte sr a0 (rnd 0) false
  let dword : ValueType 32 := ValueType.concat r0.1 (ValueType.number 24 0)
  let uninitialized_read := r0.2
  let r1 : ValueType 32 × Bool :=
    if nBits ≥ 16 then
      let a1 := ValueType.add a0 (ValueType.number 32 1)
      let b := p.state.mem_read_byte sr a1 (rnd 1) uninitialized_read
      (ValueType.or_ dword (ValueType.concat (ValueType.number 8 0)
        (ValueType.concat b.1 (ValueType.number 16 0))), b.2)
    else (dword, uninitialized_read)
  let r2 : ValueType 32 × Bool :=
    if nBits ≥ 24 then
      let a2 := ValueType.add a0 (ValueType.number 32 2)
      let b := p.state.mem_read_byte sr a2 (rnd 2) r1.2
      (ValueType.or_ r1.1 (ValueType.concat (ValueType.number 16 0)
        (ValueType.concat b.1 (ValueType.number 8 0))), b.2)
    else r1
  let r3 : ValueType 32 × Bool :=
    if nBits ≥ 32 then
      let a3 := ValueType.add a0 (ValueType.number 32 3)
      let b := p.state.mem_read_byte sr a3 (rnd 3) r2.2
      (ValueType.or_ r2.1 (ValueType.concat (ValueType.number 24 0) b.1), b.2)
    else r2
  r3

/-- Whether `readMemory` takes its shortcut: a 32-bit read at `params.initial_stack` while
the current instruction is a RET. -/
def reads_return_address (nBits : Nat) (p : Policy) (a0 : ValueType 32) : Bool :=
  (decide (32 = nBits) &&
    (match p.cur_insn with
     | some insn => decide (X86InstructionKind.x86_ret = insn.kind)
     | none => false)) &&
    decide (a0.known_value = p.params.initial_stack)

/-- Whether an uninitialized read at `a0` consumes an input: `init_memory` is off and,
when the interpretation has a loader map, the address is mapped in it. -/
def consume_input (p : Policy) (a0 : ValueType 32) : Bool :=
  let consume_input := !p.params.init_memory
  if consume_input then
    match p.interp with
    | some interp =>
      match interp.get_map with
      | some map => map.exists_ a0.known_value
      | none => consume_input
    | none => consume_input
  else consume_input

/-- The input type chosen for an uninitialized read at `a0`. -/
def input_type (p : Policy) (a0 : ValueType 32) : InputGroup.Type_ :=
  match p.pointers with
  | some pointers =>
    if pointers.is_pointer a0.known_value then InputGroup.Type_.POINTER
    else InputGroup.Type_.INTEGER
  | none => InputGroup.Type_.INTEGER

/-- The method `readMemory<nBits>(sr, a0, cond)`. `rnd i` is what `rand()` returns in the
byte read number `i`. -/
def readMemory (nBits : Nat) (p : Policy) (sr : X86SegmentRegister) (a0 : ValueType 32)
    (rnd : Nat → Nat) : Outcome (ValueType nBits) :=
  if reads_return_address nBits p a0 then
    (Except.ok (ValueType.number nBits FUNC_RET_ADDR), p)
  else if ¬ (8 = nBits ∨ 16 = nBits ∨ 32 = nBits) then (Except.error Thrown.AssertionFailure, p)
  else
    let r := readMemory_dword nBits p sr a0 rnd
    let retval : ValueType nBits := ValueType.extract 0 nBits r.1
    if r.2 then
      let v : Outcome (ValueType nBits) :=
        if consume_input p a0 then next_input_value nBits (input_type p a0) p
        else (Except.ok (ValueType.number nBits (p.address_hasher.hash a0.known_value)), p)
      andThen v (fun retval p1 =>
        andThen (writeMemory nBits p1 sr a0 retval HAS_BEEN_READ) (fun _ p2 =>
          (Except.ok retval, p2)))
    else (Except.ok retval, p)

/-- Modelled from the spec: the register dictionary lookup `findRegister(regname, nBits)`
of the base policy, for the register names this policy uses; an unknown name or a
width that differs from the register's is an exception. -/
def findRegister (regname : String) (nBits : Nat) : Except Thrown RegisterDescriptor :=
  let found : Option RegisterDescriptor :=
    if regname = "eip" then some ⟨X86RegisterClass.x86_regclass_ip, 0, 0, 32⟩
    else if regname = "eax" then some ⟨X86RegisterClass.x86_regclass_gpr, x86_gpr_ax, 0, 32⟩
    else if regname = "ecx" then some ⟨X86RegisterClass.x86_regclass_gpr, x86_gpr_cx, 0, 32⟩
    else if regname = "edx" then some ⟨X86RegisterClass.x86_regclass_gpr, x86_gpr_dx, 0, 32⟩
    else if regname = "ebx" then some ⟨X86RegisterClass.x86_regclass_gpr, x86_gpr_bx, 0, 32⟩
    else if regname = "esp" then some ⟨X86RegisterClass.x86_regclass_gpr, x86_gpr_sp, 0, 32⟩
    else if regname = "ebp" then some ⟨X86RegisterClass.x86_regclass_gpr, x86_gpr_bp, 0, 32⟩
    else if regname = "esi" then some ⟨X86RegisterClass.x86_regclass_gpr, x86_gpr_si, 0, 32⟩
    else if regname = "edi" then some ⟨X86RegisterClass.x86_regclass_gpr, x86_gpr_di, 0, 32⟩
    else if regname = "flags" then some ⟨X86RegisterClass.x86_regclass_flags, 0, 0, 16⟩
    else if regname = "eflags" then some ⟨X86RegisterClass.x86_regclass_flags, 0, 0, 32⟩
    else none
  match found with
  | some reg =>
    if reg.nbits = nBits then Except.ok reg
    else Except.error (Thrown.Exception "register width mismatch")
  | none => Except.error (Thrown.Exception "register not found")

/-- The assignment `state.registers.gpr[i] = v`. -/
def set_gpr (p : Policy) (i : Nat) (v : ValueType 32) : Policy :=
  { p with state := { p.state with registers :=
      { p.state.registers with gpr := Function.update p.state.registers.gpr i v } } }

/-- The update `state.register_rw_state.gpr[i].state |= bits`. -/
def or_gpr_rw (p : Policy) (i : Nat) (bits : Nat) : Policy :=
  { p with state := { p.state with register_rw_state :=
      { p.state.register_rw_state with
        gpr := Function.update p.state.register_rw_state.gpr i
          (ReadWriteState.mk ((p.state.register_rw_state.gpr i).state ||| bits)) } } }

/-- The assignment `state.registers.segreg[i] = v`. -/
def set_segreg (p : Policy) (i : Nat) (v : ValueType 16) : Policy :=
  { p with state := { p.state with registers :=
      { p.state.registers with segreg := Function.update p.state.registers.segreg i v } } }

/-- The update `state.register_rw_state.segreg[i].state |= bits`. -/
def or_segreg_rw (p : Policy) (i : Nat) (bits : Nat) : Policy :=
  { p with state := { p.state with register_rw_state :=
      { p.state.register_rw_state with
        segreg := Function.update p.state.register_rw_state.segreg i
          (ReadWriteState.mk ((p.state.register_rw_state.segreg i).state ||| bits)) } } }

/-- The assignment `state.registers.ip = v`. -/
def set_ip (p : Policy) (v : ValueType 32) : Policy :=
  { p with state := { p.state with registers := { p.state.registers with ip := v } } }

/-- The update `state.register_rw_state.ip.state |= bits`. -/
def or_ip_rw (p : Policy) (bits : Nat) : Policy :=
  { p with state := { p.state with register_rw_state :=
      { p.state.register_rw_state with ip := ⟨p.state.register_rw_state.ip.state ||| bits⟩ } } }

/-- The assignment `state.registers.flag[i] = v`. -/
def set_flag (p : Policy) (i : Nat) (v : ValueType 1) : Policy :=
  { p with state := { p.state with registers :=
      { p.state.registers with flag := Function.update p.state.registers.flag i v } } }

/-- The update `state.register_rw_state.flag[i].state |= bits`. -/
def or_flag_rw (p : Policy) (i : Nat) (bits : Nat) : Policy :=
  { p with state := { p.state with register_rw_state :=
      { p.state.register_rw_state with
        flag := Function.update p.state.register_rw_state.flag i
          (ReadWriteState.mk ((p.state.register_rw_state.flag i).state ||| bits)) } } }

/-- The bit `extract<i, i+1>(value)`, as a one-bit value. -/
def extract_bit {n : Nat} (i : Nat) (value : ValueType n) : ValueType 1 :=
  match value with
  | ValueType.known x _ => ValueType.number 1 (x >>> i)
  | ValueType.unknown => ValueType.unknown

/-- The assignments `state.registers.flag[i] = extract<i, i+1>(value)` for `lo ≤ i < hi`. -/
def set_flags_from {n : Nat} (p : Policy) (lo hi : Nat) (value : ValueType n) : Policy :=
  { p with state := { p.state with registers :=
      { p.state.registers with flag := fun i =>
          if lo ≤ i ∧ i < hi then extract_bit i value else p.state.registers.flag i } } }

/-- The loop `for i < n_flags: state.register_rw_state.flag[i].state |= bits`. -/
def or_all_flags_rw (p : Policy) (bits : Nat) : Policy :=
  { p with state := { p.state with register_rw_state :=
      { p.state.register_rw_state with flag := fun i =>
          if i < RegisterStateX86.n_flags then ⟨(p.state.register_rw_state.flag i).state ||| bits⟩
          else p.state.register_rw_state.flag i } } }

/-- The 16-bit FLAGS case of `writeRegister`. -/
def writeRegister_flags16 (p : Policy) (reg : RegisterDescriptor) (value : ValueType 16)
    (update_access : Nat) : Outcome Unit :=
  if reg.minor ≠ 0 ∨ RegisterStateX86.n_flags < 16 then
    (Except.error (Thrown.Exception "register not implemented in semantic policy"), p)
  else (Except.ok (), or_all_flags_rw (set_flags_from p 0 16 value) update_access)

/-- The 8-bit case of `writeRegister`. -/
def writeRegister8 {nBits : Nat} (p : Policy) (reg : RegisterDescriptor)
    (value : ValueType nBits) (update_access : Nat) : Outcome Unit :=
  if reg.major ≠ X86RegisterClass.x86_regclass_gpr then
    (Except.error (Thrown.Exception "byte access only valid for general purpose registers."), p)
  else if reg.minor ≥ RegisterStateX86.n_gprs then
    (Except.error (Thrown.Exception "register not implemented in semantic policy"), p)
  else if reg.nbits ≠ 8 then (Except.error Thrown.AssertionFailure, p)
  else
    let never_accessed := decide (0 = (p.state.register_rw_state.gpr reg.minor).state)
    let p := or_gpr_rw p reg.minor update_access
    let r : Outcome Unit :=
      if never_accessed then
        andThen (next_input_value 32 InputGroup.Type_.INTEGER p) (fun v p1 =>
          (Except.ok (), set_gpr p1 reg.minor v))
      else (Except.ok (), p)
    andThen r (fun _ p =>
      if reg.offset = 0 then
        (Except.ok (), set_gpr p reg.minor
          (ValueType.concat (ValueType.signExtend 8 value)
            (ValueType.extract 8 32 (p.state.registers.gpr reg.minor))))
      else if reg.offset = 8 then
        (Except.ok (), set_gpr p reg.minor
          (ValueType.concat (ValueType.extract 0 8 (p.state.registers.gpr reg.minor))
            (ValueType.concat (ValueType.unsignedExtend 8 value)
              (ValueType.extract 16 32 (p.state.registers.gpr reg.minor)))))
      else (Except.error (Thrown.Exception "invalid byte access offset"), p))

/-- The 16-bit case of `writeRegister`. -/
def writeRegister16 {nBits : Nat} (p : Policy) (reg : RegisterDescriptor)
    (value : ValueType nBits) (update_access : Nat) : Outcome Unit :=
  if reg.nbits ≠ 16 then (Except.error (Thrown.Exception "invalid 2-byte register"), p)
  else if reg.offset ≠ 0 then
    (Except.error (Thrown.Exception
      "policy does not support non-zero offsets for word granularity register access"), p)
  else
    match reg.major with
    | X86RegisterClass.x86_regclass_segment =>
      if reg.minor ≥ RegisterStateX86.n_segregs then
        (Except.error (Thrown.Exception "register not implemented in semantic policy"), p)
      else
        (Except.ok (), or_segreg_rw (set_segreg p reg.minor (ValueType.unsignedExtend 16 value))
          reg.minor update_access)
    | X86RegisterClass.x86_regclass_gpr =>
      if reg.minor ≥ RegisterStateX86.n_gprs then
        (Except.error (Thrown.Exception "register not implemented in semantic policy"), p)
      else
        let never_accessed := decide (0 = (p.state.register_rw_state.gpr reg.minor).state)
        let p := or_gpr_rw p reg.minor update_access
        let r : Outcome Unit :=
          if never_accessed then
            andThen (next_input_value 32 InputGroup.Type_.INTEGER p) (fun v p1 =>
              (Except.ok (), set_gpr p1 reg.minor v))
          else (Except.ok (), p)
        andThen r (fun _ p =>
          (Except.ok (), set_gpr p reg.minor
            (ValueType.concat (ValueType.unsignedExtend 16 value)
              (ValueType.extract 16 32 (p.state.registers.gpr reg.minor)))))
    | X86RegisterClass.x86_regclass_flags =>
      writeRegister_flags16 p reg (ValueType.unsignedExtend 16 value) update_access
    | _ =>
      (Except.error (Thrown.Exception "word access not valid for this register type"), p)

/-- The 32-bit case of `writeRegister`. -/
def writeRegister32 {nBits : Nat} (p : Policy) (reg : RegisterDescriptor)
    (value : ValueType nBits) (update_access : Nat) : Outcome Unit :=
  if reg.offset ≠ 0 then
    (Except.error (Thrown.Exception
      "policy does not support non-zero offsets for double word granularity register access"), p)
  else
    match reg.major with
    | X86RegisterClass.x86_regclass_gpr =>
      if reg.minor ≥ RegisterStateX86.n_gprs then
        (Except.error (Thrown.Exception "register not implemented in semantic policy"), p)
      else
        (Except.ok (), or_gpr_rw (set_gpr p reg.minor (ValueType.signExtend 32 value))
          reg.minor update_access)
    | X86RegisterClass.x86_regclass_ip =>
      if reg.minor ≠ 0 then
        (Except.error (Thrown.Exception "register not implemented in semantic policy"), p)
      else (Except.ok (), or_ip_rw (set_ip p (ValueType.unsignedExtend 32 value)) update_access)
    | X86RegisterClass.x86_regclass_flags =>
      if reg.minor ≠ 0 ∨ RegisterStateX86.n_flags < 32 then
        (Except.error (Thrown.Exception "register not implemented in semantic policy"), p)
      else if reg.nbits ≠ 32 then (Except.error (Thrown.Exception "register is not 32 bits"), p)
      else
        match findRegister "flags" 16 with
        | Except.error e => (Except.error e, p)
        | Except.ok flags =>
          andThen (writeRegister_flags16 p flags (ValueType.unsignedExtend 16 value)
              HAS_BEEN_WRITTEN) (fun _ p =>
            (Except.ok (), or_all_flags_rw (set_flags_from p 16 32 value) update_access))
    | _ =>
      (Except.error (Thrown.Exception "double word access not valid for this register type"), p)

/-- The method `writeRegister<nBits>(reg, value, update_access)`. -/
def writeRegister {nBits : Nat} (p : Policy) (reg : RegisterDescriptor) (value : ValueType nBits)
    (update_access : Nat) : Outcome Unit :=
  if nBits = 1 then
    if reg.major ≠ X86RegisterClass.x86_regclass_flags then
      (Except.error (Thrown.Exception "bit access only valid for FLAGS/EFLAGS register"), p)
    else if reg.minor ≠ 0 ∨ reg.offset ≥ RegisterStateX86.n_flags then
      (Except.error (Thrown.Exception "register not implemented in semantic policy"), p)
    else if reg.nbits ≠ 1 then
      (Except.error (Thrown.Exception "semantic policy supports only single-bit flags"), p)
    else
      (Except.ok (), or_flag_rw (set_flag p reg.offset (ValueType.unsignedExtend 1 value))
        reg.offset update_access)
  else if nBits = 8 then writeRegister8 p reg value update_access
  else if nBits = 16 then writeRegister16 p reg value update_access
  else if nBits = 32 then writeRegister32 p reg value update_access
  else (Except.error (Thrown.Exception "invalid register access width"), p)

/-- The method `writeRegister<nBits>(regname, value)`, by register name. -/
def writeRegisterNamed {nBits : Nat} (p : Policy) (regname : String) (value : ValueType nBits) :
    Outcome Unit :=
  match findRegister regname nBits with
  | Except.error e => (Except.error e, p)
  | Except.ok reg => writeRegister p reg value HAS_BEEN_WRITTEN

/-- The first statements of `reset`: rewind and install the input group, install the
collaborators, reset the state and, when `init_memory` is set, seed the address hasher
from the first integer input. -/
def reset_install (step : Nat → Nat) (p : Policy) (interp : Option SgAsmInterpretation)
    (inputs : InputGroup) (insns : Option InstructionProvidor)
    (pointers : Option PointerDetector) : Outcome Unit :=
  let inputs := inputs.reset
  let p : Policy :=
    { p with inputs := some inputs, insns := insns, pointers := pointers, ninsns := 0,
             interp := interp, state := p.state.reset_for_analysis }
  if p.params.init_memory then
    match inputs.next_integer with
    | (Except.ok seed, g) =>
      (Except.ok (), { p with inputs := some g, address_hasher := AddressHasher.ofSeed step seed })
    | (Except.error e, g) => (Except.error e, { p with inputs := some g })
  else (Except.ok (), p)

/-- The statement `ValueType<32> rval(inputs->next_integer())` of `reset`, on the input group
that `reset` has just installed. -/
def reset_rval (p : Policy) : Outcome (ValueType 32) :=
  match p.inputs with
  | some inputs =>
    match inputs.next_integer with
    | (Except.ok value, g) => (Except.ok (ValueType.number 32 value), { p with inputs := some g })
    | (Except.error e, g) => (Except.error e, { p with inputs := some g })
  | none => (Except.error Thrown.AssertionFailure, p)

/-- Sets up the machine state to start the analysis of one function (`Policy::reset`).
`step` is the transition of the linear congruential generator. -/
def reset (step : Nat → Nat) (p : Policy) (interp : Option SgAsmInterpretation)
    (func : SgAsmFunction) (inputs : InputGroup) (insns : Option InstructionProvidor)
    (pointers : Option PointerDetector) : Outcome Unit :=
  andThen (reset_install step p interp inputs insns pointers) (fun _ p =>
    let target_va := func.entry_va
    let eip : ValueType 32 := ValueType.number 32 target_va
    andThen (writeRegisterNamed p "eip" eip) (fun _ p =>
    let esp : ValueType 32 := ValueType.number 32 p.params.initial_stack
    andThen (writeRegisterNamed p "esp" esp) (fun _ p =>
    let ebp : ValueType 32 := ValueType.number 32 p.params.initial_stack
    andThen (writeRegisterNamed p "ebp" ebp) (fun _ p =>
    andThen (reset_rval p) (fun rval p =>
    andThen (writeRegisterNamed p "ebx" rval) (fun _ p =>
    andThen (writeRegisterNamed p "esi" rval) (fun _ p =>
    andThen (writeRegisterNamed p "edi" rval) (fun _ p =>
    andThen (writeRegisterNamed p "eax" rval) (fun _ p =>
    andThen (writeRegisterNamed p "ecx" rval) (fun _ p =>
    writeRegisterNamed p "edx" rval))))))))))

/-- The constructor `Policy(params, entry2id)`: no input group, no pointer oracle, no
instruction executed. The default-constructed address hasher is a parameter (its
generator is seeded outside these sources); `interp`, `insns` and the current
instruction start out null. -/
def new (hasher : AddressHasher) (params : PolicyParams) (entry2id : List (Nat × Int)) : Policy :=
  { state := State.new, inputs := none, pointers := none, interp := none, ninsns := 0,
    address_hasher := hasher, insns := none, params := params, entry2id := entry2id,
    cur_insn := none }

/-- The cells at `a`, `a+1`, ... (modulo `2 ^ 32`) of the map selected by `sr` hold the
`nBits/8` bytes of `v`, least significant first, each with access mask `mask`. -/
def holds_bytes (nBits : Nat) (p : Policy) (sr : X86SegmentRegister) (a : Nat)
    (v : ValueType nBits) (mask : Nat) : Prop :=
  (p.state.cells sr).find (a % 2 ^ 32) = some (MemoryValue.mk (ValueType.extract 0 8 v) mask) ∧
  (16 ≤ nBits →
    (p.state.cells sr).find ((a + 1) % 2 ^ 32) =
      some (MemoryValue.mk (ValueType.extract 8 16 v) mask)) ∧
  (32 ≤ nBits →
    (p.state.cells sr).find ((a + 2) % 2 ^ 32) =
        some (MemoryValue.mk (ValueType.extract 16 24 v) mask) ∧
      (p.state.cells sr).find ((a + 3) % 2 ^ 32) =
        some (MemoryValue.mk (ValueType.extract 24 32 v) mask))

end Policy

/-! ## Register reads and the instruction hooks -/

namespace Policy

/-- The seeding step shared by the register reads: when the register has never been
accessed, the next input of the given type and width is stored by `store`. -/
def seed_register {n : Nat} (p : Policy) (never_accessed : Bool) (type : InputGroup.Type_)
    (store : Policy → ValueType n → Policy) : Outcome Unit :=
  if never_accessed then
    andThen (next_input_value n type p) (fun v p1 => (Except.ok (), store p1 v))
  else (Except.ok (), p)

/-- The body of the loop over the flags in `readRegister`: mark flag `i` as read and seed
it with a one-bit integer input when it has never been accessed. -/
def read_flag_step (p : Policy) (i : Nat) : Outcome Unit :=
  let never_accessed := decide (0 = (p.state.register_rw_state.flag i).state)
  let p := or_flag_rw p i HAS_BEEN_READ
  seed_register p never_accessed InputGroup.Type_.INTEGER (fun q v => set_flag q i v)

/-- The loop `for (size_t i=0; i<n; ++i)` over the flags in `readRegister`, from flag `lo`
for `k` flags; it stops at the first exception. -/
def read_flags_loop : Nat → Nat → Policy → Outcome Unit
  | 0, _, p => (Except.ok (), p)
  | k + 1, lo, p => andThen (read_flag_step p lo) (fun _ q => read_flags_loop k (lo + 1) q)

/-- The nested `concat(flag[lo], concat(flag[lo+1], ... flag[lo+k-1]))` of `k` flags as a
value of `k` bits; flag `lo` is the least significant bit. -/
def concat_flags (p : Policy) : (k : Nat) → Nat → ValueType k
  | 0, _ => ValueType.number 0 0
  | k + 1, lo =>
    match p.state.registers.flag lo, concat_flags p k (lo + 1) with
    | ValueType.known x _, ValueType.known y _ => ValueType.number (k + 1) (x ||| (y <<< 1))
    | _, _ => ValueType.unknown

end Policy

/-- Transport of a value along an equality of widths. In the C++ templates the two widths
are the same template argument, so this has no counterpart there. -/
def ValueType.width_cast {m n : Nat} (h : m = n) (a : ValueType m) : ValueType n := h ▸ a

namespace Policy

/-- The first statements of the general-purpose register cases of `readRegister`:
`never_accessed` is taken from the access mask of `gpr[i]`, the mask is or-ed with
`HAS_BEEN_READ` by `mark`, and a never accessed `gpr[i]` is seeded with the next input
of the given type. -/
def read_gpr_step (p : Policy) (i : Nat) (mark : Policy → Policy) (type : InputGroup.Type_) :
    Outcome Unit :=
  let never_accessed := decide (0 = (p.state.register_rw_state.gpr i).state)
  let p := mark p
  seed_register p never_accessed type (fun q v => set_gpr q i v)

/-- The same statements for a segment register. -/
def read_segreg_step (p : Policy) (i : Nat) (type : InputGroup.Type_) : Outcome Unit :=
  let never_accessed := decide (0 = (p.state.register_rw_state.segreg i).state)
  let p := or_segreg_rw p i HAS_BEEN_READ
  seed_register p never_accessed type (fun q v => set_segreg q i v)

/-- The same statements for the instruction pointer. -/
def read_ip_step (p : Policy) (type : InputGroup.Type_) : Outcome Unit :=
  let never_accessed := decide (0 = p.state.register_rw_state.ip.state)
  let p := or_ip_rw p HAS_BEEN_READ
  seed_register p never_accessed type (fun q v => set_ip q v)

/-- The 1-bit case of `readRegister`. -/
def readRegister1 (nBits : Nat) (p : Policy) (reg : RegisterDescriptor) :
    Outcome (ValueType nBits) :=
  if reg.major ≠ X86RegisterClass.x86_regclass_flags then
    (Except.error (Thrown.Exception "bit access only valid for FLAGS/EFLAGS register"), p)
  else if reg.minor ≠ 0 ∨ reg.offset ≥ RegisterStateX86.n_flags then
    (Except.error (Thrown.Exception "register not implemented in semantic policy"), p)
  else if reg.nbits ≠ 1 then
    (Except.error (Thrown.Exception "semantic policy supports only single-bit flags"), p)
  else
    andThen (read_flag_step p reg.offset) (fun _ p =>
      (Except.ok (ValueType.unsignedExtend nBits (p.state.registers.flag reg.offset)), p))

/-- The 8-bit case of `readRegister`. -/
def readRegister8 (nBits : Nat) (p : Policy) (reg : RegisterDescriptor) :
    Outcome (ValueType nBits) :=
  if reg.major ≠ X86RegisterClass.x86_regclass_gpr then
    (Except.error (Thrown.Exception "byte access only valid for general purpose registers"), p)
  else if reg.minor ≥ RegisterStateX86.n_gprs then
    (Except.error (Thrown.Exception "register not implemented in semantic policy"), p)
  else if reg.nbits ≠ 8 then (Except.error Thrown.AssertionFailure, p)
  else
    andThen (read_gpr_step p reg.minor (fun q => or_gpr_rw q reg.minor HAS_BEEN_READ)
        InputGroup.Type_.INTEGER) (fun _ p =>
      if reg.offset = 0 then
        (Except.ok (ValueType.extract 0 nBits (p.state.registers.gpr reg.minor)), p)
      else if reg.offset = 8 then
        (Except.ok (ValueType.width_cast (Nat.add_sub_cancel_left 8 nBits)
          (ValueType.extract 8 (8 + nBits) (p.state.registers.gpr reg.minor))), p)
      else (Except.error (Thrown.Exception "invalid one-byte access offset"), p))

/-- The value `concat(flag[0], concat(flag[1], ... flag[15]))` read by the 16-bit FLAGS
case. -/
def flags_word16 (p : Policy) :=
  let f := p.state.registers.flag
  ValueType.concat (f 0) (ValueType.concat (f 1) (ValueType.concat (f 2) (ValueType.concat (f 3)
  (ValueType.concat (f 4) (ValueType.concat (f 5) (ValueType.concat (f 6) (ValueType.concat (f 7)
  (ValueType.concat (f 8) (ValueType.concat (f 9) (ValueType.concat (f 10)
  (ValueType.concat (f 11) (ValueType.concat (f 12) (ValueType.concat (f 13)
  (ValueType.concat (f 14) (f 15)))))))))))))))

/-- The value `concat(flag[0], concat(flag[1], ... flag[31]))` read by the 32-bit EFLAGS
case. -/
def flags_word32 (p : Policy) :=
  let f := p.state.registers.flag
  ValueType.concat (f 0) (ValueType.concat (f 1) (ValueType.concat (f 2) (ValueType.concat (f 3)
  (ValueType.concat (f 4) (ValueType.concat (f 5) (ValueType.concat (f 6) (ValueType.concat (f 7)
  (ValueType.concat (f 8) (ValueType.concat (f 9) (ValueType.concat (f 10)
  (ValueType.concat (f 11) (ValueType.concat (f 12) (ValueType.concat (f 13)
  (ValueType.concat (f 14) (ValueType.concat (f 15) (ValueType.concat (f 16)
  (ValueType.concat (f 17) (ValueType.concat (f 18) (ValueType.concat (f 19)
  (ValueType.concat (f 20) (ValueType.concat (f 21) (ValueType.concat (f 22)
  (ValueType.concat (f 23) (ValueType.concat (f 24) (ValueType.concat (f 25)
  (ValueType.concat (f 26) (ValueType.concat (f 27) (ValueType.concat (f 28)
  (ValueType.concat (f 29) (ValueType.concat (f 30) (f 31)))))))))))))))))))))))))))))))

/-- The 16-bit case of `readRegister`. In the general-purpose branch the statement that
marks the register as read is `state.register_rw_state.segreg[reg.get_minor()].state |=
HAS_BEEN_READ`: it updates the segment-register mask with the same index, not the mask
of the general-purpose register. (For SI and DI the index is 6 or 7, past the end of the
C++ array of 6 segment masks; the function-valued array of the embedding records the mark
at that index, which nothing else reads.) -/
def readRegister16 (nBits : Nat) (p : Policy) (reg : RegisterDescriptor) :
    Outcome (ValueType nBits) :=
  if reg.nbits ≠ 16 then (Except.error (Thrown.Exception "invalid 2-byte register"), p)
  else if reg.offset ≠ 0 then
    (Except.error (Thrown.Exception
      "policy does not support non-zero offsets for word granularity register access"), p)
  else
    match reg.major with
    | X86RegisterClass.x86_regclass_segment =>
      if reg.minor ≥ RegisterStateX86.n_segregs then
        (Except.error (Thrown.Exception "register not implemented in semantic policy"), p)
      else
        andThen (read_segreg_step p reg.minor InputGroup.Type_.INTEGER) (fun _ p =>
          (Except.ok (ValueType.unsignedExtend nBits (p.state.registers.segreg reg.minor)), p))
    | X86RegisterClass.x86_regclass_gpr =>
      if reg.minor ≥ RegisterStateX86.n_gprs then
        (Except.error (Thrown.Exception "register not implemented in semantic policy"), p)
      else
        andThen (read_gpr_step p reg.minor (fun q => or_segreg_rw q reg.minor HAS_BEEN_READ)
            InputGroup.Type_.INTEGER) (fun _ p =>
          (Except.ok (ValueType.extract 0 nBits (p.state.registers.gpr reg.minor)), p))
    | X86RegisterClass.x86_regclass_flags =>
      if reg.minor ≠ 0 ∨ RegisterStateX86.n_flags < 16 then
        (Except.error (Thrown.Exception "register not implemented in semantic policy"), p)
      else
        andThen (read_flags_loop 16 0 p) (fun _ p =>
          (Except.ok (ValueType.unsignedExtend nBits (flags_word16 p)), p))
    | _ =>
      (Except.error (Thrown.Exception "word access not valid for this register type"), p)

/-- The 32-bit case of `readRegister`. -/
def readRegister32 (nBits : Nat) (p : Policy) (reg : RegisterDescriptor) :
    Outcome (ValueType nBits) :=
  if reg.offset ≠ 0 then
    (Except.error (Thrown.Exception
      "policy does not support non-zero offsets for double word granularity register access"), p)
  else
    match reg.major with
    | X86RegisterClass.x86_regclass_gpr =>
      if reg.minor ≥ RegisterStateX86.n_gprs then
        (Except.error (Thrown.Exception "register not implemented in semantic policy"), p)
      else
        andThen (read_gpr_step p reg.minor (fun q => or_gpr_rw q reg.minor HAS_BEEN_READ)
            InputGroup.Type_.UNKNOWN_TYPE) (fun _ p =>
          (Except.ok (ValueType.unsignedExtend nBits (p.state.registers.gpr reg.minor)), p))
    | X86RegisterClass.x86_regclass_ip =>
      if reg.minor ≠ 0 then
        (Except.error (Thrown.Exception "register not implemented in semantic policy"), p)
      else
        andThen (read_ip_step p InputGroup.Type_.POINTER) (fun _ p =>
          (Except.ok (ValueType.unsignedExtend nBits p.state.registers.ip), p))
    | X86RegisterClass.x86_regclass_segment =>
      if reg.minor ≥ RegisterStateX86.n_segregs ∨ reg.nbits ≠ 16 then
        (Except.error (Thrown.Exception "register not implemented in semantic policy"), p)
      else
        andThen (read_segreg_step p reg.minor InputGroup.Type_.UNKNOWN_TYPE) (fun _ p =>
          (Except.ok (ValueType.unsignedExtend nBits (p.state.registers.segreg reg.minor)), p))
    | X86RegisterClass.x86_regclass_flags =>
      if reg.minor ≠ 0 ∨ RegisterStateX86.n_flags < 32 then
        (Except.error (Thrown.Exception "register not implemented in semantic policy"), p)
      else if reg.nbits ≠ 32 then (Except.error (Thrown.Exception "register is not 32 bits"), p)
      else
        andThen (read_flags_loop 32 0 p) (fun _ p =>
          (Except.ok (ValueType.unsignedExtend nBits (flags_word32 p)), p))
    | _ =>
      (Except.error (Thrown.Exception "double word access not valid for this register type"), p)

/-- The method `readRegister<nBits>(reg)`. -/
def readRegister (nBits : Nat) (p : Policy) (reg : RegisterDescriptor) :
    Outcome (ValueType nBits) :=
  if nBits = 1 then readRegister1 nBits p reg
  else if nBits = 8 then readRegister8 nBits p reg
  else if nBits = 16 then readRegister16 nBits p reg
  else if nBits = 32 then readRegister32 nBits p reg
  else (Except.error (Thrown.Exception "invalid register access width"), p)

/-- The method `readRegister<nBits>(regname)`, by register name. -/
def readRegisterNamed (nBits : Nat) (p : Policy) (regname : String) : Outcome (ValueType nBits) :=
  match findRegister regname nBits with
  | Except.error e => (Except.error e, p)
  | Except.ok reg => readRegister nBits p reg

end Policy

namespace Policy

/-- Modelled from the spec: `Super::startInstruction`, the hook of the partial-symbolic
base policy (declared outside these sources). Of the members this policy reads, it sets
the current instruction. -/
def Super_startInstruction (p : Policy) (insn : SgAsmx86Instruction) : Policy :=
  { p with cur_insn := some insn }

/-- Modelled from the spec: `Super::finishInstruction`, which leaves no current
instruction. -/
def Super_finishInstruction (p : Policy) (_insn : SgAsmx86Instruction) : Policy :=
  { p with cur_insn := none }

/-- Modelled from the spec: `Super::interrupt`, which acts on the base policy's own state
only; no member of this policy changes. -/
def Super_interrupt (p : Policy) (_inum : Fin 256) : Policy := p

/-- The method `startInstruction(insn_)`. The argument is the result of the downcast
`isSgAsmx86Instruction(insn_)`, null for an instruction that is not x86. The counter
`ninsns` is a `size_t`, held as a natural number. -/
def startInstruction (p : Policy) (insn_ : Option SgAsmx86Instruction) : Outcome Unit :=
  let p := { p with ninsns := p.ninsns + 1 }
  if p.ninsns ≥ p.params.timeout then
    (Except.error (Thrown.FaultException AnalysisFault.INSN_LIMIT), p)
  else
    match insn_ with
    | none => (Except.error Thrown.AssertionFailure, p)
    | some insn =>
      andThen (writeRegisterNamed p "eip" (ValueType.number 32 insn.address)) (fun _ p =>
        (Except.ok (), Super_startInstruction p insn))

/-- The computation of `follow` in `finishInstruction`: calls are followed when
`follow_calls` is set and the callee address holds an instruction that lies in a function,
unless the name of that function has more than 4 characters and ends in `@plt`. A null
instruction provider is dereferenced in C++; here that is a failure. -/
def follows_call (p : Policy) (callee_va : ValueType 32) : Except Thrown Bool :=
  let follow := p.params.follow_calls
  if follow then
    match p.insns with
    | none => Except.error Thrown.AssertionFailure
    | some insns =>
      let called_insn := insns.get_instruction callee_va.known_value
      let called_func : Option SgAsmFunction :=
        match called_insn with
        | some i => i.enclosing_function
        | none => none
      match called_insn, called_func with
      | some _, some f =>
        let func_name := f.name
        if func_name.length > 4 ∧ func_name.drop (func_name.length - 4) = "@plt" then
          Except.ok false
        else Except.ok true
      | _, _ => Except.ok false
  else Except.ok follow

/-- The special handling of a call that is not followed: fall through and return a newly
consumed integer input via EAX, popping the return address. -/
def skip_call (p : Policy) (insn : SgAsmx86Instruction) : Outcome Unit :=
  let call_fallthrough_va : ValueType 32 := ValueType.number 32 (insn.address + insn.size)
  andThen (writeRegisterNamed p "eip" call_fallthrough_va) (fun _ p =>
  andThen (next_input_value 32 InputGroup.Type_.INTEGER p) (fun v p =>
  andThen (writeRegisterNamed p "eax" v) (fun _ p =>
  andThen (readRegisterNamed 32 p "esp") (fun esp p =>
  let esp := ValueType.add esp (ValueType.number 32 4)
  writeRegisterNamed p "esp" esp))))

/-- The method `finishInstruction(insn)`, with `OUTPUTGROUP_SAVE_CALLGRAPH` undefined as in
the header. The argument is the result of the downcast `isSgAsmx86Instruction(insn)`. -/
def finishInstruction (p : Policy) (insn : Option SgAsmx86Instruction) : Outcome Unit :=
  match insn with
  | none => (Except.error Thrown.AssertionFailure, p)
  | some insn_x86 =>
    let p : Policy :=
      { p with
        state :=
          { p.state with
            output_group :=
              { p.state.output_group with ninsns := p.state.output_group.ninsns + 1 } } }
    let r : Outcome Unit :=
      if X86InstructionKind.x86_call = insn_x86.kind then
        andThen (readRegisterNamed 32 p "eip") (fun callee_va p =>
          match follows_call p callee_va with
          | Except.error e => (Except.error e, p)
          | Except.ok follow =>
            if !follow then skip_call p insn_x86 else (Except.ok (), p))
      else (Except.ok (), p)
    andThen r (fun _ p => (Except.ok (), Super_finishInstruction p insn_x86))

/-- The method `interrupt(inum)`, with `OUTPUTGROUP_SAVE_SYSCALLS` undefined as in the
header; `inum` is a `uint8_t`. -/
def interrupt (p : Policy) (inum : Fin 256) : Outcome Unit :=
  if 0x80 = inum.val then
    andThen (next_input_value 32 InputGroup.Type_.INTEGER p) (fun v p =>
      writeRegisterNamed p "eax" v)
  else
    (Except.error (Thrown.FaultException AnalysisFault.INTERRUPT), Super_interrupt p inum)

/-- Handle the HLT instruction by throwing an exception. -/
def hlt (p : Policy) : Outcome Unit :=
  (Except.error (Thrown.FaultException AnalysisFault.HALT), p)

/-- A run of `k` instructions `insn`, each started and finished in turn; it stops at the
first exception. -/
def run_insns (insn : SgAsmx86Instruction) : Nat → Policy → Outcome Unit
  | 0, p => (Except.ok (), p)
  | k + 1, p =>
    andThen (startInstruction p (some insn)) (fun _ p =>
      andThen (finishInstruction p (some insn)) (fun _ p => run_insns insn k p))

end Policy

namespace Policy

/-- The policy that `finishInstruction` leaves after a call that is not followed, when EIP
and ESP had been accessed before and the input group `g` delivers its next integer: the
updates of `finishInstruction` and `skip_call` in the order in which they are made. -/
def after_skipped_call (p : Policy) (g : InputGroup) (insn : SgAsmx86Instruction) :
    Policy :=
  Super_finishInstruction
    (or_gpr_rw (set_gpr
      (or_gpr_rw
        (or_gpr_rw (set_gpr
          { or_ip_rw (set_ip
              (or_ip_rw
                { p with
                  state :=
                    { p.state with
                      output_group :=
                        { p.state.output_group with
                          ninsns := p.state.output_group.ninsns + 1 } } }
                HAS_BEEN_READ)
              (ValueType.number 32 (insn.address + insn.size))) HAS_BEEN_WRITTEN with
            inputs := some { g with next_integer_ := g.next_integer_ + 1 } }
          x86_gpr_ax (ValueType.number 32 (g.integers_.getD g.next_integer_ 0)))
          x86_gpr_ax HAS_BEEN_WRITTEN)
        x86_gpr_sp HAS_BEEN_READ)
      x86_gpr_sp (ValueType.add (p.state.registers.gpr x86_gpr_sp) (ValueType.number 32 4)))
      x86_gpr_sp HAS_BEEN_WRITTEN) insn

end Policy

namespace Policy

/-- General-purpose register `i` holds the number `r` for a sub-register write: either
the register has been accessed and its value is `r`, or its access mask is NO_ACCESS and
`r` is the next integer input, which the installed input group delivers (the write
seeds the register with it first). -/
def gpr_holds (p : Policy) (i r : Nat) : Prop :=
  ((p.state.register_rw_state.gpr i).state ≠ NO_ACCESS ∧
    p.state.registers.gpr i = ValueType.number 32 r) ∨
  ((p.state.register_rw_state.gpr i).state = NO_ACCESS ∧
    ∃ g, p.inputs = some g ∧
      (g.limit_consumption_ = false ∨ g.next_integer_ < g.integers_.length) ∧
      r = g.integers_.getD g.next_integer_ 0)

/-- The machine state of `p` with general-purpose register `i` set to `v` and `bits` or-ed
into its access mask; every other register, every other mask, the memory maps and the
output group are those of `p`. -/
def with_gpr (p : Policy) (i : Nat) (v : ValueType 32) (bits : Nat) : State :=
  { p.state with
    registers :=
      { p.state.registers with gpr := Function.update p.state.registers.gpr i v },
    register_rw_state :=
      { p.state.register_rw_state with
        gpr := Function.update p.state.register_rw_state.gpr i
          (ReadWriteState.mk ((p.state.register_rw_state.gpr i).state ||| bits)) } }

end Policy

namespace Policy

/-- The register round trip at `p`: `writeRegister<n>(reg, v)` returns normally, and
`readRegister<n>(reg)` executed right after it returns `v` and leaves the input group as
the write left it. -/
def round_trips {n : Nat} (p : Policy) (reg : RegisterDescriptor) (v : ValueType n) : Prop :=
  ∃ q, writeRegister p reg v HAS_BEEN_WRITTEN = (Except.ok (), q) ∧
    ∃ q', readRegister n q reg = (Except.ok v, q') ∧ q'.inputs = q.inputs

end Policy

namespace AddressHasher

/-- The accumulator as the specification words it: `acc 0 = 0` and
`acc (i+1) = tab[(acc i + byte_i) & 0xff]`, with `byte_i` bits `8i .. 8i+7` of the address.
It is compared with `hash`, the embedding of the call operator. -/
def acc (tab : List Nat) (addr : Nat) : Nat → Nat
  | 0 => 0
  | i + 1 => tab.getD ((acc tab addr i + ((addr >>> (8 * i)) &&& 0xff)) &&& 0xff) 0

end AddressHasher

namespace State

/-- The byte `b` is held by an externally visible written cell of `s`: a written cell
with a known value that is a data cell, or a stack cell outside the frame that
`get_outputs` is asked to skip. -/
def visible_byte (s : State) (stack_frame_top frame_size : Nat) (b : Nat) : Prop :=
  (∃ a mv, (a, mv) ∈ s.stack_cells ∧ mv.rw_state &&& HAS_BEEN_WRITTEN ≠ 0 ∧
    cell_in_frame a stack_frame_top frame_size = false ∧
    ∃ hb : b < 2 ^ 8, mv.val = ValueType.known b hb) ∨
  (∃ a mv, (a, mv) ∈ s.data_cells ∧ mv.rw_state &&& HAS_BEEN_WRITTEN ≠ 0 ∧
    ∃ hb : b < 2 ^ 8, mv.val = ValueType.known b hb)

end State

namespace InputGroup

/-- The exchange `std::swap(v[i], v[j])` of two entries of a vector. -/
def swap_entries (v : List Nat) (i j : Nat) : List Nat :=
  (v.set i (v.getD j 0)).set j (v.getD i 0)

/-- One loop of `shuffle` over the positions `is`: at position `i` the entry is exchanged
with the one at `rand() % v.size()`, where `rnd i` is what `rand()` returns there. A
remainder by zero is undefined in C++; here it is a failure. -/
def shuffle_from (rnd : Nat → Nat) : List Nat → List Nat → Except Thrown (List Nat)
  | [], v => Except.ok v
  | i :: rest, v =>
    if v.length = 0 then Except.error Thrown.AssertionFailure
    else shuffle_from rnd rest (swap_entries v i (rnd i % v.length))

/-- The loop `for (size_t i=0; i<v.size(); ++i)` of `shuffle` over one pool. -/
def shuffle_pool (rnd : Nat → Nat) (v : List Nat) : Except Thrown (List Nat) :=
  shuffle_from rnd (List.range v.length) v

/-- The method `shuffle()`. `rnd k` is what call number `k` of `rand()` returns: the loop
over the integers makes the first `integers_.size()` calls, the loop over the pointers
the calls after them. -/
def shuffle (g : InputGroup) (rnd : Nat → Nat) : Except Thrown InputGroup :=
  match shuffle_pool rnd g.integers_ with
  | Except.error e => Except.error e
  | Except.ok integers =>
    match shuffle_pool (fun k => rnd (g.integers_.length + k)) g.pointers_ with
    | Except.error e => Except.error e
    | Except.ok pointers =>
      Except.ok { g with integers_ := integers, pointers_ := pointers }

end InputGroup

namespace Policy

/-- The value of `inputs->integers_consumed()`; zero when no input group is installed. -/
def integers_consumed (p : Policy) : Nat :=
  match p.inputs with
  | some g => g.integers_consumed
  | none => 0

/-- The value of `inputs->pointers_consumed()`; zero when no input group is installed. -/
def pointers_consumed (p : Policy) : Nat :=
  match p.inputs with
  | some g => g.pointers_consumed
  | none => 0

/-- Neither consumption counter is smaller in `q` than in `p`. -/
def consumed_le (p q : Policy) : Prop :=
  p.integers_consumed ≤ q.integers_consumed ∧ p.pointers_consumed ≤ q.pointers_consumed

end Policy

/-! ## CNF encodings of bit-vector operations (`satProblem.h`) -/

/-- A variable (`typedef int Var`). -/
abbrev Var := Int

/-- A literal (`typedef int Lit`): "using Dimacs conventions, but with 0 for false and
0x80000000 for true". The embedding uses the integers for `int`; theorems state the range
of an `int` where it matters. -/
abbrev Lit := Int

/-- A clause (`typedef std::vector<Lit> Clause`). -/
abbrev Clause := List Lit

/-- The constant `TRUE = 0x80000000` converted to `int`, that is `-2^31`. -/
abbrev TRUE : Lit := -2147483648

/-- The constant `FALSE = 0`. -/
abbrev FALSE : Lit := 0

/-- The test `(lit & 0x7fffffff) == 0`: the low 31 bits of `lit` are zero. -/
def isConstantBool (lit : Lit) : Bool := lit % 2147483648 == 0

/-- The value of `lit ^ 0x80000000` converted to `int`: the sign bit of the 32-bit
two's complement pattern of `lit` is flipped. -/
def flip_sign_bit (lit : Lit) : Lit :=
  if lit < 0 then lit + 2147483648 else lit - 2147483648

/-- The function `invert(lit)`. -/
def invert (lit : Lit) : Lit :=
  if isConstantBool lit then flip_sign_bit lit else -lit

/-- The loop of `number`: bit `i` of the result is `TRUE` when `n % 2 == 1`; then
`n >>= 1`. -/
def number_loop : Nat → Nat → List Lit
  | 0, _ => []
  | k + 1, n => (if n % 2 = 1 then TRUE else FALSE) :: number_loop k (n / 2)

/-- The function `number<NumBits>(unsigned int n)`: the `NumBits` low bits of `n`, least
significant first, as constants. The argument is an `unsigned int`, so it is taken
modulo `2^32`. -/
def number (NumBits : Nat) (n : Nat) : List Lit :=
  number_loop NumBits (n % 2 ^ 32)

/-- The C function `abs` on an `int` other than `INT_MIN`. -/
def int_abs (a : Int) : Int := if a < 0 then -a else a

/-- The function `absLess(a, b)`. -/
def absLess (a b : Lit) : Bool :=
  if int_abs a < int_abs b then true
  else if int_abs a > int_abs b then false
  else decide (a < b)

/-- The comparison `a < b` of two `std::vector<int>`: lexicographic. -/
def vector_less : List Int → List Int → Bool
  | _, [] => false
  | [], _ :: _ => true
  | a :: as, b :: bs =>
    if a < b then true else if b < a then false else vector_less as bs

/-- The function `clauseLess(a, b)`. -/
def clauseLess (a b : Clause) : Bool :=
  let absa := a.map int_abs
  let absb := b.map int_abs
  if vector_less absa absb then true
  else if vector_less absb absa then false
  else vector_less a b

/-- The insertion of one element into a list in the order `less`. -/
def sort_insert (less : Lit → Lit → Bool) (x : Lit) : List Lit → List Lit
  | [] => [x]
  | y :: ys => if less x y then x :: y :: ys else y :: sort_insert less x ys

/-- The call `std::sort(v.begin(), v.end(), less)`. The standard fixes the result, not the
algorithm: a rearrangement of `v` that is in the order `less`. The embedding sorts by
insertion. -/
def std_sort (less : Lit → Lit → Bool) : List Lit → List Lit
  | [] => []
  | x :: xs => sort_insert less x (std_sort less xs)

/-- The call `v.erase(std::unique(v.begin(), v.end()), v.end())`: of every run of equal
adjacent elements one is kept. -/
def std_unique : List Lit → List Lit
  | [] => []
  | [a] => [a]
  | a :: b :: rest => if a = b then std_unique (b :: rest) else a :: std_unique (b :: rest)

/-- The call `s.insert(x)` on a `std::set` with comparison `less`: the elements are kept
in the order `less`, and `x` is not inserted when the set holds an element that is
neither before nor after it. -/
def set_insert (less : Clause → Clause → Bool) (x : Clause) : List Clause → List Clause
  | [] => [x]
  | y :: ys =>
    if less x y then x :: y :: ys
    else if less y x then y :: set_insert less x ys
    else y :: ys

/-- The call `m.find(k)` on a `std::map` keyed by vectors of literals: the value stored
under `k`, if any. The map is held as a list of entries with distinct keys; no modelled
method looks at their order. -/
def map_find : List (List Lit × Lit) → List Lit → Option Lit
  | [], _ => none
  | (k, v) :: rest, key => if k = key then some v else map_find rest key

/-- The call `m.insert(std::make_pair(k, v))`: nothing changes when `k` has an entry. -/
def map_insert (m : List (List Lit × Lit)) (k : List Lit) (v : Lit) : List (List Lit × Lit) :=
  match map_find m k with
  | some _ => m
  | none => (k, v) :: m

/-- How a method of `SatProblem` ends when it does not return: the
`UnsatisfiableException` it throws, or behaviour that C++ leaves undefined, namely an
element access outside the bounds of a vector or a shift of an `int` by its width or
more. -/
inductive Abort where
  | UnsatisfiableException
  | IndexOutOfBounds
  | ShiftOverflow
deriving DecidableEq, Repr

/-- The problem under construction (`struct SatProblem`), without the output file. The
clause set is a `std::set` ordered by `clauseLess`; the two tables are `std::map`s, the
second one keyed by the three literals `sel`, `ifTrue`, `ifFalse`. -/
structure SatProblem where
  numVariables : Int
  clauses : List Clause
  andGateCSE : List (List Lit × Lit)
  muxCSE : List (List Lit × Lit)
  interfaceLiterals : List (String × List Lit)
deriving DecidableEq, Repr

namespace SatProblem

/-- The constructor `SatProblem(FILE* f)`. -/
def new : SatProblem :=
  { numVariables := 0, clauses := [], andGateCSE := [], muxCSE := [], interfaceLiterals := [] }

/-- The method `newVar()`: `return ++numVariables`. The counter is an `int`; the
embedding does not wrap it, and theorems about fresh variables assume that it stays
below `2^31`. -/
def newVar (p : SatProblem) : Var × SatProblem :=
  (p.numVariables + 1, { p with numVariables := p.numVariables + 1 })

/-- The method `newVars<Count>()`. -/
def newVars : Nat → SatProblem → List Lit × SatProblem
  | 0, p => ([], p)
  | k + 1, p => ((newVar p).1 :: (newVars k (newVar p).2).1, (newVars k (newVar p).2).2)

/-- The method `addInterface(name, values)`. -/
def addInterface (p : SatProblem) (name : String) (values : List Lit) : SatProblem :=
  { p with interfaceLiterals := p.interfaceLiterals ++ [(name, values)] }

/-- The first loop of `addClause`: `FALSE` literals are dropped and the other literals
collected in `newCl`; `none` when a `TRUE` literal makes the method return. -/
def addClause_collect : Clause → Option Clause
  | [] => some []
  | l :: rest =>
    if l = FALSE then addClause_collect rest
    else if l = TRUE then none
    else (addClause_collect rest).map (fun newCl => l :: newCl)

/-- The test `newCl[i] == -newCl[j]` of the tautology check; `operator[]` of a vector
outside its bounds is undefined. -/
def addClause_test (newCl : Clause) (i j : Nat) : Except Abort Bool :=
  match newCl.get? i, newCl.get? j with
  | some a, some b => Except.ok (a == -b)
  | _, _ => Except.error Abort.IndexOutOfBounds

/-- The inner loop `for (j = 0; j < i; ++j)` of the tautology check over the remaining
values of `j`: `true` when the test succeeds and the method returns. -/
def addClause_inner (newCl : Clause) (i : Nat) : List Nat → Except Abort Bool
  | [] => Except.ok false
  | j :: js =>
    match addClause_test newCl i j with
    | Except.error e => Except.error e
    | Except.ok true => Except.ok true
    | Except.ok false => addClause_inner newCl i js

/-- The outer loop `for (i = 0; i < cl.size(); ++i)` of the tautology check over the
remaining values of `i`. -/
def addClause_outer (newCl : Clause) : List Nat → Except Abort Bool
  | [] => Except.ok false
  | i :: is =>
    match addClause_inner newCl i (List.range i) with
    | Except.error e => Except.error e
    | Except.ok true => Except.ok true
    | Except.ok false => addClause_outer newCl is

/-- The method `addClause(const Clause& cl)`. The bound of the outer loop of the
tautology check is `cl.size()`, the size of the argument. -/
def addClause (p : SatProblem) (cl : Clause) : Except Abort SatProblem :=
  match addClause_collect cl with
  | none => Except.ok p
  | some newCl =>
    if newCl.isEmpty then Except.error Abort.UnsatisfiableException
    else
      let newCl := std_unique (std_sort absLess newCl)
      match addClause_outer newCl (List.range cl.length) with
      | Except.error e => Except.error e
      | Except.ok true => Except.ok p
      | Except.ok false => Except.ok { p with clauses := set_insert clauseLess newCl p.clauses }

/-- The method `condEquivalence(sel, a, b)`. -/
def condEquivalence (p : SatProblem) (sel a b : Lit) : Except Abort SatProblem :=
  match addClause p [invert sel, invert a, b] with
  | Except.error e => Except.error e
  | Except.ok p => addClause p [invert sel, a, invert b]

/-- The last branch of `mux`, after a negative selector has been inverted and the two
branches swapped: the table lookup and, when nothing is found, the new gate. -/
def mux_encode (p : SatProblem) (sel ifTrue ifFalse : Lit) : Except Abort (Lit × SatProblem) :=
  let cseLookup : List Lit := [sel, ifTrue, ifFalse]
  match map_find p.muxCSE cseLookup with
  | some out => Except.ok (out, p)
  | none =>
    let output := (newVar p).1
    match condEquivalence (newVar p).2 sel ifTrue output with
    | Except.error e => Except.error e
    | Except.ok p1 =>
      match condEquivalence p1 (invert sel) ifFalse output with
      | Except.error e => Except.error e
      | Except.ok p2 =>
        Except.ok (output, { p2 with muxCSE := map_insert p2.muxCSE cseLookup output })

/-- The method `mux(sel, ifTrue, ifFalse)`: the literal returned and the problem
afterwards. -/
def mux (p : SatProblem) (sel ifTrue ifFalse : Lit) : Except Abort (Lit × SatProblem) :=
  if sel = FALSE then Except.ok (ifFalse, p)
  else if sel = TRUE then Except.ok (ifTrue, p)
  else if ifTrue = ifFalse then Except.ok (ifTrue, p)
  else if ifTrue = TRUE ∧ ifFalse = FALSE then Except.ok (sel, p)
  else if ifTrue = FALSE ∧ ifFalse = TRUE then Except.ok (invert sel, p)
  else if sel < 0 then mux_encode p (invert sel) ifFalse ifTrue
  else mux_encode p sel ifTrue ifFalse

/-- The first loop of `andAcross`: `TRUE` literals are dropped and the other literals
collected in `newA`; `none` when a `FALSE` literal makes the method return `FALSE`. -/
def andAcross_collect : List Lit → Option (List Lit)
  | [] => some []
  | l :: rest =>
    if l = FALSE then none
    else if l = TRUE then andAcross_collect rest
    else (andAcross_collect rest).map (fun newA => l :: newA)

/-- The loop of `andAcross` that adds the clause `(not output) or newA[i]` for every
`i`. -/
def andAcross_implied (output : Lit) : List Lit → SatProblem → Except Abort SatProblem
  | [], p => Except.ok p
  | x :: xs, p =>
    match addClause p [invert output, x] with
    | Except.error e => Except.error e
    | Except.ok p1 => andAcross_implied output xs p1

/-- The method `andAcross(a)`. -/
def andAcross (p : SatProblem) (a : List Lit) : Except Abort (Lit × SatProblem) :=
  match andAcross_collect a with
  | none => Except.ok (FALSE, p)
  | some newA =>
    if newA.length = 1 then Except.ok (newA.headD FALSE, p)
    else if newA.isEmpty then Except.ok (TRUE, p)
    else
      let newA := std_sort absLess newA
      match map_find p.andGateCSE newA with
      | some out => Except.ok (out, p)
      | none =>
        let output := (newVar p).1
        match andAcross_implied output newA (newVar p).2 with
        | Except.error e => Except.error e
        | Except.ok p1 =>
          match addClause p1 (newA.map invert ++ [output]) with
          | Except.error e => Except.error e
          | Except.ok p2 =>
            Except.ok (output, { p2 with andGateCSE := map_insert p2.andGateCSE newA output })

/-- The method `andGate(a, b)`. -/
def andGate (p : SatProblem) (a b : Lit) : Except Abort (Lit × SatProblem) :=
  andAcross p [a, b]

/-- The method `orGate(a, b)`. -/
def orGate (p : SatProblem) (a b : Lit) : Except Abort (Lit × SatProblem) :=
  match andGate p (invert a) (invert b) with
  | Except.error e => Except.error e
  | Except.ok (r, p1) => Except.ok (invert r, p1)

/-- The method `xorGate(a, b)`. -/
def xorGate (p : SatProblem) (a b : Lit) : Except Abort (Lit × SatProblem) :=
  mux p a (invert b) b

/-- One iteration of the loop of `adder`: the sum bit and the carry out of one position.
C++ leaves unspecified in which order the two arguments of the outer `orGate` (and of the
outer `xorGate`, whose second argument makes no call) are evaluated. The embedding takes
them from left to right; a build that takes them from right to left calls
`andGate(b, carryIn)` before `andGate(a, orGate(b, carryIn))`, so the variables that these
gates create are numbered the other way round. The sum bit and the state after the two
`xorGate` calls do not depend on that choice. -/
def adder_bit (p : SatProblem) (a b carryIn : Lit) : Except Abort ((Lit × Lit) × SatProblem) :=
  match xorGate p a b with
  | Except.error e => Except.error e
  | Except.ok (x, p1) =>
    match xorGate p1 x carryIn with
    | Except.error e => Except.error e
    | Except.ok (sumOut, p2) =>
      match orGate p2 b carryIn with
      | Except.error e => Except.error e
      | Except.ok (o, p3) =>
        match andGate p3 a o with
        | Except.error e => Except.error e
        | Except.ok (g1, p4) =>
          match andGate p4 b carryIn with
          | Except.error e => Except.error e
          | Except.ok (g2, p5) =>
            match orGate p5 g1 g2 with
            | Except.error e => Except.error e
            | Except.ok (carryOut, p6) => Except.ok ((sumOut, carryOut), p6)

/-- The loop of `adder` over the bit positions, from the least significant one. -/
def adder_loop : List Lit → List Lit → Lit → SatProblem →
    Except Abort ((List Lit × List Lit) × SatProblem)
  | ai :: as, bi :: bs, carryIn, p =>
    match adder_bit p ai bi carryIn with
    | Except.error e => Except.error e
    | Except.ok ((sumOut, carryOut), p1) =>
      match adder_loop as bs carryOut p1 with
      | Except.error e => Except.error e
      | Except.ok ((result, carries), p2) =>
        Except.ok ((sumOut :: result, carryOut :: carries), p2)
  | _, _, _, p => Except.ok (([], []), p)

/-- The method `adder(a, b, carryIn, carriesOutOpt)` for two words of the same width: the
sum word, the carries that are stored through `carriesOutOpt` when it is given, and the
problem afterwards. -/
def adder (p : SatProblem) (a b : List Lit) (carryIn : Lit) :
    Except Abort ((List Lit × List Lit) × SatProblem) :=
  adder_loop a b carryIn p

/-- The value of `n - 1` for a `size_t` (64 bits): zero wraps around to `2^64 - 1`. -/
def size_t_pred (n : Nat) : Nat :=
  if n = 0 then 2 ^ 64 - 1 else n - 1

/-- The initial value of `pow2scBit`, the `int` expression `1 << n` converted to `size_t`
(64 bits): `2^n` when that fits an `int`; for `n = 31` the result is the `int` with the
bit pattern `0x80000000`, which is `INT_MIN` and converts to `2^64 - 2^31`; a shift by
32 or more is undefined. -/
def int_shl_one (n : Nat) : Option Nat :=
  if n < 31 then some (2 ^ n)
  else if n = 31 then some (2 ^ 64 - 2 ^ 31)
  else none

/-- The inner loop of `rightShifter` over the remaining positions `i`:
`resultCopy[i] = mux(sel, (i >= pow2scBit ? result[i - pow2scBit] : FALSE), result[i])`. -/
def rightShifter_row (sel : Lit) (pow2scBit : Nat) (result : List Lit) :
    List Nat → SatProblem → Except Abort (List Lit × SatProblem)
  | [], p => Except.ok ([], p)
  | i :: is, p =>
    match mux p sel (if i ≥ pow2scBit then result.getD (i - pow2scBit) FALSE else FALSE)
        (result.getD i FALSE) with
    | Except.error e => Except.error e
    | Except.ok (v, p1) =>
      match rightShifter_row sel pow2scBit result is p1 with
      | Except.error e => Except.error e
      | Except.ok (vs, p2) => Except.ok (v :: vs, p2)

/-- The outer loop of `rightShifter`, `for (scBit, pow2scBit; scBit > 0; --scBit,
pow2scBit >>= 1)`, from the current values of `scBit` and `pow2scBit`. -/
def rightShifter_loop (shiftCount : List Lit) :
    Nat → Nat → List Lit → SatProblem → Except Abort (List Lit × SatProblem)
  | 0, _, result, p => Except.ok (result, p)
  | scBit + 1, pow2scBit, result, p =>
    match rightShifter_row (shiftCount.getD scBit FALSE) pow2scBit result
        (List.range result.length) p with
    | Except.error e => Except.error e
    | Except.ok (resultCopy, p1) =>
      rightShifter_loop shiftCount scBit (pow2scBit / 2) resultCopy p1

/-- The method `rightShifter<Len, SCLen>(in, shiftCount)`, with `Len` and `SCLen` the
lengths of the two words. `SCLen - 1` is a `size_t` (64 bits) and `1 << (SCLen - 1)` a
shift of the `int` 1. -/
def rightShifter (p : SatProblem) (inp shiftCount : List Lit) :
    Except Abort (List Lit × SatProblem) :=
  match int_shl_one (size_t_pred shiftCount.length) with
  | none => Except.error Abort.ShiftOverflow
  | some pow2scBit => rightShifter_loop shiftCount shiftCount.length pow2scBit inp p

/-- The inner loop of `leftShifter` over the remaining positions `i`:
`resultCopy[i] = mux(sel, (i + pow2scBit >= Len ? FALSE : result[i + pow2scBit]),
result[i])`. -/
def leftShifter_row (sel : Lit) (pow2scBit : Nat) (result : List Lit) :
    List Nat → SatProblem → Except Abort (List Lit × SatProblem)
  | [], p => Except.ok ([], p)
  | i :: is, p =>
    match mux p sel
        (if i + pow2scBit ≥ result.length then FALSE else result.getD (i + pow2scBit) FALSE)
        (result.getD i FALSE) with
    | Except.error e => Except.error e
    | Except.ok (v, p1) =>
      match leftShifter_row sel pow2scBit result is p1 with
      | Except.error e => Except.error e
      | Except.ok (vs, p2) => Except.ok (v :: vs, p2)

/-- The outer loop of `leftShifter`. -/
def leftShifter_loop (shiftCount : List Lit) :
    Nat → Nat → List Lit → SatProblem → Except Abort (List Lit × SatProblem)
  | 0, _, result, p => Except.ok (result, p)
  | scBit + 1, pow2scBit, result, p =>
    match leftShifter_row (shiftCount.getD scBit FALSE) pow2scBit result
        (List.range result.length) p with
    | Except.error e => Except.error e
    | Except.ok (resultCopy, p1) =>
      leftShifter_loop shiftCount scBit (pow2scBit / 2) resultCopy p1

/-- The method `leftShifter<Len, SCLen>(in, shiftCount)`. -/
def leftShifter (p : SatProblem) (inp shiftCount : List Lit) :
    Except Abort (List Lit × SatProblem) :=
  match int_shl_one (size_t_pred shiftCount.length) with
  | none => Except.error Abort.ShiftOverflow
  | some pow2scBit => leftShifter_loop shiftCount shiftCount.length pow2scBit inp p

end SatProblem

/-! ## Truth assignments -/

/-- A truth assignment: the value of every variable. -/
abbrev Assignment := Var → Bool

/-- The value of a literal under an assignment, by the conventions stated for `Lit`:
`TRUE` and `FALSE` are the constants, a positive literal is its variable and a negative
one the negation of its variable. -/
def lit_value (σ : Assignment) (l : Lit) : Bool :=
  if l = TRUE then true
  else if l = FALSE then false
  else if 0 < l then σ l
  else !σ (-l)

/-- A clause holds when one of its literals is true. -/
def clause_holds (σ : Assignment) (c : Clause) : Bool :=
  c.any (lit_value σ)

namespace SatProblem

/-- The assignment satisfies every clause of the problem. -/
def satisfied_by (p : SatProblem) (σ : Assignment) : Prop :=
  ∀ c, c ∈ p.clauses → clause_holds σ c = true

/-- The literal is over a variable that the problem has allocated: it is `v` or `-v` for
some `1 ≤ v ≤ numVariables`. -/
def has_lit (p : SatProblem) (l : Lit) : Prop :=
  l ≠ 0 ∧ -p.numVariables ≤ l ∧ l ≤ p.numVariables

/-- What the two tables promise: a literal stored for a list of inputs is their
conjunction, and a literal stored for `sel`, `ifTrue`, `ifFalse` is the selection, in
every assignment that satisfies the clauses. -/
def tables_sound (p : SatProblem) : Prop :=
  (∀ k out, (k, out) ∈ p.andGateCSE → ∀ σ, p.satisfied_by σ →
    lit_value σ out = k.all (lit_value σ)) ∧
  (∀ sel t f out, ([sel, t, f], out) ∈ p.muxCSE → ∀ σ, p.satisfied_by σ →
    lit_value σ out = if lit_value σ sel then lit_value σ t else lit_value σ f)

/-- The value of a word of constants, least significant bit first. -/
def word_value : List Lit → Nat
  | [] => 0
  | l :: rest => (if l = TRUE then 1 else 0) + 2 * word_value rest

end SatProblem

/-! # Theorems -/

/-! ## Input groups: consumption -/

theorem InputGroup.next_integer_of_no_limit (g : InputGroup) (h : g.limit_consumption_ = false) :
    g.next_integer =
      (Except.ok (g.integers_.getD g.next_integer_ 0),
        { g with next_integer_ := g.next_integer_ + 1 }) := by
  unfold InputGroup.next_integer
  by_cases hc : g.next_integer_ < g.integers_.length
  · simp [h, hc]
  · simp [h, hc, List.getElem?_eq_none (Nat.le_of_not_lt hc)]

theorem InputGroup.next_pointer_of_no_limit (g : InputGroup) (h : g.limit_consumption_ = false) :
    g.next_pointer =
      (Except.ok (g.pointers_.getD g.next_pointer_ 0),
        { g with next_pointer_ := g.next_pointer_ + 1 }) := by
  unfold InputGroup.next_pointer
  by_cases hc : g.next_pointer_ < g.pointers_.length
  · simp [h, hc]
  · simp [h, hc, List.getElem?_eq_none (Nat.le_of_not_lt hc)]

theorem InputGroup.next_integers_eq (k : Nat) (g : InputGroup) (h : g.limit_consumption_ = false) :
    InputGroup.next_integers k g =
      ((List.range k).map (fun i => Except.ok (g.integers_.getD (g.next_integer_ + i) 0)),
        { g with next_integer_ := g.next_integer_ + k }) := by
  induction k generalizing g with
  | zero => simp [InputGroup.next_integers]
  | succ k ih =>
    have ih1 := ih { g with next_integer_ := g.next_integer_ + 1 } h
    rw [InputGroup.next_integers, InputGroup.next_integer_of_no_limit g h]
    simp only []
    rw [ih1]
    simp only [List.range_succ_eq_map, List.map_cons, List.map_map, Nat.add_zero]
    refine Prod.ext ?_ ?_
    · simp only [List.cons.injEq, true_and]
      apply List.map_congr_left
      intro i _
      simp [Nat.add_assoc, Nat.add_comm 1 i]
    · simp [Nat.add_assoc, Nat.add_comm 1 k]

theorem InputGroup.next_pointers_eq (k : Nat) (g : InputGroup) (h : g.limit_consumption_ = false) :
    InputGroup.next_pointers k g =
      ((List.range k).map (fun i => Except.ok (g.pointers_.getD (g.next_pointer_ + i) 0)),
        { g with next_pointer_ := g.next_pointer_ + k }) := by
  induction k generalizing g with
  | zero => simp [InputGroup.next_pointers]
  | succ k ih =>
    have ih1 := ih { g with next_pointer_ := g.next_pointer_ + 1 } h
    rw [InputGroup.next_pointers, InputGroup.next_pointer_of_no_limit g h]
    simp only []
    rw [ih1]
    simp only [List.range_succ_eq_map, List.map_cons, List.map_map, Nat.add_zero]
    refine Prod.ext ?_ ?_
    · simp only [List.cons.injEq, true_and]
      apply List.map_congr_left
      intro i _
      simp [Nat.add_assoc, Nat.add_comm 1 i]
    · simp [Nat.add_assoc, Nat.add_comm 1 k]

/-- The value a pool yields at cursor `c`: the entry when `c` is inside the pool, zero when
`c` is at or past its end. -/
theorem pool_getD (pool : List Nat) (c : Nat) :
    pool.getD c 0 = if h : c < pool.length then pool[c] else 0 := by
  by_cases hc : c < pool.length
  · simp [hc]
  · simp [hc, List.getElem?_eq_none (Nat.le_of_not_lt hc)]

/-- When `next_integer()` and `next_pointer()` throw, and what they leave behind. -/
theorem InputGroup.throws_iff (g : InputGroup) :
    ((g.next_integer.1 = Except.error (Thrown.FaultException AnalysisFault.INPUT_LIMIT) ↔
        (g.limit_consumption_ = true ∧ g.integers_.length ≤ g.next_integer_)) ∧
      (∀ e, g.next_integer.1 = Except.error e →
        e = Thrown.FaultException AnalysisFault.INPUT_LIMIT ∧ g.next_integer.2 = g)) ∧
    ((g.next_pointer.1 = Except.error (Thrown.FaultException AnalysisFault.INPUT_LIMIT) ↔
        (g.limit_consumption_ = true ∧ g.pointers_.length ≤ g.next_pointer_)) ∧
      (∀ e, g.next_pointer.1 = Except.error e →
        e = Thrown.FaultException AnalysisFault.INPUT_LIMIT ∧ g.next_pointer.2 = g)) := by
  refine ⟨⟨?_, ?_⟩, ⟨?_, ?_⟩⟩
  · unfold InputGroup.next_integer
    by_cases hc : g.limit_consumption_ = true ∧ g.integers_.length ≤ g.next_integer_
    · simp [hc.1, hc.2]
    · have : (g.limit_consumption_ && decide (g.next_integer_ ≥ g.integers_.length)) = false := by
        simpa using hc
      simp [this, hc]
  · intro e
    unfold InputGroup.next_integer
    by_cases hc : (g.limit_consumption_ && decide (g.next_integer_ ≥ g.integers_.length)) = true
    · simp only [hc, if_true]
      intro he
      exact ⟨(Except.error.inj he).symm, trivial⟩
    · simp only [hc]
      intro he
      simp at he
  · unfold InputGroup.next_pointer
    by_cases hc : g.limit_consumption_ = true ∧ g.pointers_.length ≤ g.next_pointer_
    · simp [hc.1, hc.2]
    · have : (g.limit_consumption_ && decide (g.next_pointer_ ≥ g.pointers_.length)) = false := by
        simpa using hc
      simp [this, hc]
  · intro e
    unfold InputGroup.next_pointer
    by_cases hc : (g.limit_consumption_ && decide (g.next_pointer_ ≥ g.pointers_.length)) = true
    · simp only [hc, if_true]
      intro he
      exact ⟨(Except.error.inj he).symm, trivial⟩
    · simp only [hc]
      intro he
      simp at he

/-- C8: `next_integer()` raises INPUT_LIMIT exactly when `limit_consumption` is set and the
integer cursor is at or past the end of the integer pool; it raises nothing else, and
when it raises the group (both cursors, both pools, the flag) is unchanged. The same
holds for `next_pointer()` with the pointer cursor and pool. -/
theorem input_limit_raised_iff (g : InputGroup) :
    ((g.next_integer.1 = Except.error (Thrown.FaultException AnalysisFault.INPUT_LIMIT) ↔
        (g.limit_consumption_ = true ∧ g.integers_.length ≤ g.next_integer_)) ∧
      (∀ e, g.next_integer.1 = Except.error e →
        e = Thrown.FaultException AnalysisFault.INPUT_LIMIT ∧ g.next_integer.2 = g)) ∧
    ((g.next_pointer.1 = Except.error (Thrown.FaultException AnalysisFault.INPUT_LIMIT) ↔
        (g.limit_consumption_ = true ∧ g.pointers_.length ≤ g.next_pointer_)) ∧
      (∀ e, g.next_pointer.1 = Except.error e →
        e = Thrown.FaultException AnalysisFault.INPUT_LIMIT ∧ g.next_pointer.2 = g)) :=
  InputGroup.throws_iff g

/-- C9: with `limit_consumption` off, `next_integer()` returns `integers[c]` when the cursor
`c` is inside the pool and 0 when it is at or past the end; either way
`integers_consumed()` grows by exactly 1 and the pointer cursor, both pools and the
flag are unchanged. Hence `k` calls after `reset()` leave `integers_consumed() = k`, and
call number `i` (from 0) returned `integers[i]` for `i` inside the pool and 0 otherwise.
The same holds for `next_pointer()`. -/
theorem consumption_without_limit (g : InputGroup) (h : g.limit_consumption_ = false) :
    (g.next_integer.1 =
        Except.ok (if hc : g.next_integer_ < g.integers_.length then g.integers_[g.next_integer_]
          else 0) ∧
      g.next_integer.2.integers_consumed = g.integers_consumed + 1 ∧
      g.next_integer.2.pointers_consumed = g.pointers_consumed ∧
      g.next_integer.2.integers_ = g.integers_ ∧ g.next_integer.2.pointers_ = g.pointers_ ∧
      g.next_integer.2.limit_consumption_ = false) ∧
    (∀ k : Nat,
      (InputGroup.next_integers k g.reset).2.integers_consumed = k ∧
      (InputGroup.next_integers k g.reset).2.pointers_consumed = 0 ∧
      (InputGroup.next_integers k g.reset).1 =
        (List.range k).map (fun i =>
          Except.ok (if hi : i < g.integers_.length then g.integers_[i] else 0))) ∧
    (g.next_pointer.1 =
        Except.ok (if hc : g.next_pointer_ < g.pointers_.length then g.pointers_[g.next_pointer_]
          else 0) ∧
      g.next_pointer.2.pointers_consumed = g.pointers_consumed + 1 ∧
      g.next_pointer.2.integers_consumed = g.integers_consumed ∧
      g.next_pointer.2.integers_ = g.integers_ ∧ g.next_pointer.2.pointers_ = g.pointers_ ∧
      g.next_pointer.2.limit_consumption_ = false) ∧
    (∀ k : Nat,
      (InputGroup.next_pointers k g.reset).2.pointers_consumed = k ∧
      (InputGroup.next_pointers k g.reset).2.integers_consumed = 0 ∧
      (InputGroup.next_pointers k g.reset).1 =
        (List.range k).map (fun i =>
          Except.ok (if hi : i < g.pointers_.length then g.pointers_[i] else 0))) := by
  have hr : g.reset.limit_consumption_ = false := h
  refine ⟨?_, ?_, ?_, ?_⟩
  · rw [InputGroup.next_integer_of_no_limit g h, pool_getD]
    simp [InputGroup.integers_consumed, InputGroup.pointers_consumed, h]
  · intro k
    rw [InputGroup.next_integers_eq k g.reset hr]
    refine ⟨by simp [InputGroup.integers_consumed, InputGroup.reset],
      by simp [InputGroup.pointers_consumed, InputGroup.reset], ?_⟩
    apply List.map_congr_left
    intro i _
    simp only [InputGroup.reset, Nat.zero_add, pool_getD]
  · rw [InputGroup.next_pointer_of_no_limit g h, pool_getD]
    simp [InputGroup.integers_consumed, InputGroup.pointers_consumed, h]
  · intro k
    rw [InputGroup.next_pointers_eq k g.reset hr]
    refine ⟨by simp [InputGroup.pointers_consumed, InputGroup.reset],
      by simp [InputGroup.integers_consumed, InputGroup.reset], ?_⟩
    apply List.map_congr_left
    intro i _
    simp only [InputGroup.reset, Nat.zero_add, pool_getD]


/-! ## Memory cells -/

theorem MemoryCells.find_assign (m : MemoryCells) (a b : Nat) (v : MemoryValue) :
    (MemoryCells.assign m a v).find b = if b = a then some v else MemoryCells.find m b := by
  induction m with
  | nil =>
    by_cases h : b = a
    · simp [MemoryCells.assign, MemoryCells.find, h]
    · have h' : ¬ a = b := fun e => h e.symm
      simp [MemoryCells.assign, MemoryCells.find, h, h']
  | cons c rest ih =>
    obtain ⟨k, w⟩ := c
    unfold MemoryCells.assign
    by_cases h1 : a < k
    · by_cases h : b = a
      · simp [h1, MemoryCells.find, h]
      · have h' : ¬ a = b := fun e => h e.symm
        simp [h1, MemoryCells.find, h, h']
    · by_cases h2 : a = k
      · subst h2
        by_cases h : b = a
        · simp [MemoryCells.find, h]
        · have h' : ¬ a = b := fun e => h e.symm
          simp [MemoryCells.find, h, h']
      · simp only [h1, h2, if_false]
        by_cases h : b = a
        · subst h
          have h3 : ¬ k = b := fun e => h2 e.symm
          simp [MemoryCells.find, h3, ih]
        · by_cases h4 : k = b
          · simp [MemoryCells.find, h4, h]
          · simp [MemoryCells.find, h4, h, ih]

theorem State.find_mem_write_byte (s : State) (sr sr' : X86SegmentRegister) (addr : ValueType 32)
    (v : ValueType 8) (m : Nat) (b : Nat) :
    ((s.mem_write_byte sr addr v m).cells sr').find b =
      if (X86SegmentRegister.x86_segreg_ss = sr ↔ X86SegmentRegister.x86_segreg_ss = sr') ∧
          b = addr.known_value
      then some (MemoryValue.mk v m) else (s.cells sr').find b := by
  cases sr <;> cases sr' <;>
    simp [State.mem_write_byte, State.cells, MemoryCells.find_assign]

theorem State.mem_read_byte_eq (s : State) (sr : X86SegmentRegister) (addr : ValueType 32)
    (rnd : Nat) (u : Bool) :
    s.mem_read_byte sr addr rnd u =
      match (s.cells sr).find addr.known_value with
      | some ci => (ci.val, u)
      | none => (ValueType.number 8 (rnd % 256), true) := by
  cases h : (s.cells sr).find addr.known_value with
  | none => simp [State.mem_read_byte, h]
  | some ci => simp [State.mem_read_byte, h, Nat.mod_one]


theorem ValueType.known_congr {n : Nat} {a b : Nat} (ha : a < 2 ^ n) (hb : b < 2 ^ n) (h : a = b) :
    (ValueType.known a ha : ValueType n) = ValueType.known b hb := by
  subst h; rfl

theorem testBit_of_lt_pow (x j k : Nat) (hx : x < 2 ^ k) (h : k ≤ j) : x.testBit j = false :=
  Nat.testBit_lt_two_pow (lt_of_lt_of_le hx (Nat.pow_le_pow_right (by decide) h))

theorem ValueType.known_value_number (n x : Nat) :
    (ValueType.number n x).known_value = x % 2 ^ n := rfl

theorem ValueType.known_value_add_number (a i : Nat) :
    (ValueType.add (ValueType.number 32 a) (ValueType.number 32 i)).known_value =
      (a + i) % 2 ^ 32 := by
  simp [ValueType.add, ValueType.number, ValueType.known_value, Nat.add_mod]

theorem Policy.writeMemory8_eq (p : Policy) (sr : X86SegmentRegister) (a0 : ValueType 32)
    (data : ValueType 8) (m : Nat) :
    Policy.writeMemory 8 p sr a0 data m =
      (Except.ok (), { p with state := p.state.mem_write_byte sr a0 (ValueType.extract 0 8 data) m }) := by
  simp [Policy.writeMemory]

theorem Policy.writeMemory16_eq (p : Policy) (sr : X86SegmentRegister) (a0 : ValueType 32)
    (data : ValueType 16) (m : Nat) :
    Policy.writeMemory 16 p sr a0 data m =
      (Except.ok (),
        { p with
          state :=
            (p.state.mem_write_byte sr a0 (ValueType.extract 0 8 data) m).mem_write_byte sr
              (ValueType.add a0 (ValueType.number 32 1)) (ValueType.extract 8 16 data) m }) := by
  simp [Policy.writeMemory]

theorem Policy.writeMemory32_eq (p : Policy) (sr : X86SegmentRegister) (a0 : ValueType 32)
    (data : ValueType 32) (m : Nat) :
    Policy.writeMemory 32 p sr a0 data m =
      (Except.ok (),
        { p with
          state :=
            (((p.state.mem_write_byte sr a0 (ValueType.extract 0 8 data) m).mem_write_byte sr
              (ValueType.add a0 (ValueType.number 32 1)) (ValueType.extract 8 16 data) m).mem_write_byte
              sr (ValueType.add a0 (ValueType.number 32 2)) (ValueType.extract 16 24 data) m).mem_write_byte
              sr (ValueType.add a0 (ValueType.number 32 3)) (ValueType.extract 24 32 data) m }) := by
  simp [Policy.writeMemory]

/-- The cells of either map after `writeMemory`, the last byte written taking
precedence. -/
theorem Policy.find_writeMemory (N : Nat) (hN : N = 8 ∨ N = 16 ∨ N = 32) (p : Policy)
    (sr sr' : X86SegmentRegister) (a : Nat) (data : ValueType N) (m : Nat) (b : Nat) :
    ((Policy.writeMemory N p sr (ValueType.number 32 a) data m).2.state.cells sr').find b =
      if (X86SegmentRegister.x86_segreg_ss = sr ↔ X86SegmentRegister.x86_segreg_ss = sr') then
        if 32 ≤ N ∧ b = (a + 3) % 2 ^ 32 then some (MemoryValue.mk (ValueType.extract 24 32 data) m)
        else if 32 ≤ N ∧ b = (a + 2) % 2 ^ 32 then
          some (MemoryValue.mk (ValueType.extract 16 24 data) m)
        else if 16 ≤ N ∧ b = (a + 1) % 2 ^ 32 then
          some (MemoryValue.mk (ValueType.extract 8 16 data) m)
        else if b = a % 2 ^ 32 then some (MemoryValue.mk (ValueType.extract 0 8 data) m)
        else (p.state.cells sr').find b
      else (p.state.cells sr').find b := by
  rcases hN with h | h | h <;> subst h
  · rw [Policy.writeMemory8_eq]
    simp only [State.find_mem_write_byte, ValueType.known_value_number]
    by_cases hs : (X86SegmentRegister.x86_segreg_ss = sr ↔ X86SegmentRegister.x86_segreg_ss = sr')
    · simp [hs]
    · simp [hs]
  · rw [Policy.writeMemory16_eq]
    simp only [State.find_mem_write_byte, ValueType.known_value_number,
      ValueType.known_value_add_number]
    by_cases hs : (X86SegmentRegister.x86_segreg_ss = sr ↔ X86SegmentRegister.x86_segreg_ss = sr')
    · simp [hs]
    · simp [hs]
  · rw [Policy.writeMemory32_eq]
    simp only [State.find_mem_write_byte, ValueType.known_value_number,
      ValueType.known_value_add_number]
    by_cases hs : (X86SegmentRegister.x86_segreg_ss = sr ↔ X86SegmentRegister.x86_segreg_ss = sr')
    · simp [hs]
    · simp [hs]


theorem Policy.readMemory_dword32 (p : Policy) (sr : X86SegmentRegister) (a x m : Nat)
    (hx : x < 2 ^ 32) (rnd : Nat → Nat)
    (h : Policy.holds_bytes 32 p sr a (ValueType.known x hx) m) :
    Policy.readMemory_dword 32 p sr (ValueType.number 32 a) rnd = (ValueType.known x hx, false) := by
  obtain ⟨h0, h1, h23⟩ := h
  obtain ⟨h2, h3⟩ := h23 (le_refl _)
  have h1 := h1 (by decide)
  unfold Policy.readMemory_dword
  simp only [State.mem_read_byte_eq, ValueType.known_value_number,
    ValueType.known_value_add_number, h0, h1, h2, h3]
  simp only [ValueType.extract, ValueType.concat, ValueType.or_, ValueType.number]
  refine Prod.ext ?_ rfl
  simp only [ge_iff_le, Nat.reduceLeDiff, if_true]
  apply ValueType.known_congr
  apply Nat.eq_of_testBit_eq
  intro j
  have hj : 32 ≤ j → x.testBit j = false := testBit_of_lt_pow x j 32 hx
  simp only [Nat.testBit_mod_two_pow, Nat.testBit_or, Nat.testBit_shiftLeft, Nat.testBit_shiftRight,
    Nat.zero_mod, Nat.zero_testBit, Nat.zero_shiftLeft, Bool.or_false, Bool.false_or, Bool.and_false,
    Nat.zero_add, Nat.reduceAdd, Nat.reduceSub]
  by_cases h32 : j < 32
  · by_cases h8 : j < 8
    · have a1 : ¬ j ≥ 8 := by omega
      have a2 : ¬ j ≥ 16 := by omega
      have a3 : ¬ j ≥ 24 := by omega
      simp [h32, h8, a1, a2, a3]
    · by_cases h16 : j < 16
      · have a1 : j ≥ 8 := by omega
        have a2 : ¬ j ≥ 16 := by omega
        have a3 : ¬ j ≥ 24 := by omega
        have b1 : j - 8 < 24 := by omega
        have b2 : j - 8 < 8 := by omega
        have e : 8 + (j - 8) = j := by omega
        simp [h32, h8, a1, a2, a3, b1, b2, e]
      · by_cases h24 : j < 24
        · have a1 : j ≥ 8 := by omega
          have a2 : j ≥ 16 := by omega
          have a3 : ¬ j ≥ 24 := by omega
          have b1 : j - 8 < 24 := by omega
          have b2 : ¬ j - 8 < 8 := by omega
          have c1 : j - 16 < 16 := by omega
          have c2 : j - 16 < 8 := by omega
          have e : 16 + (j - 16) = j := by omega
          simp [h32, h8, a1, a2, a3, b1, b2, c1, c2, e]
        · have a1 : j ≥ 8 := by omega
          have a2 : j ≥ 16 := by omega
          have a3 : j ≥ 24 := by omega
          have b1 : j - 8 < 24 := by omega
          have b2 : ¬ j - 8 < 8 := by omega
          have c1 : j - 16 < 16 := by omega
          have c2 : ¬ j - 16 < 8 := by omega
          have d1 : j - 24 < 8 := by omega
          have e : 24 + (j - 24) = j := by omega
          simp [h32, h8, a1, a2, a3, b1, b2, c1, c2, d1, e]
  · simp [h32, hj (by omega)]


theorem Policy.readMemory_dword16 (p : Policy) (sr : X86SegmentRegister) (a x m : Nat)
    (hx : x < 2 ^ 16) (rnd : Nat → Nat)
    (h : Policy.holds_bytes 16 p sr a (ValueType.known x hx) m) :
    (ValueType.extract 0 16 (Policy.readMemory_dword 16 p sr (ValueType.number 32 a) rnd).1 :
        ValueType 16) = ValueType.known x hx ∧
      (Policy.readMemory_dword 16 p sr (ValueType.number 32 a) rnd).2 = false := by
  obtain ⟨h0, h1, -⟩ := h
  have h1 := h1 (le_refl _)
  unfold Policy.readMemory_dword
  simp only [State.mem_read_byte_eq, ValueType.known_value_number,
    ValueType.known_value_add_number, h0, h1]
  simp only [ValueType.extract, ValueType.concat, ValueType.or_, ValueType.number]
  simp only [ge_iff_le, Nat.reduceLeDiff, if_true, if_false]
  refine ⟨?_, trivial⟩
  apply ValueType.known_congr
  apply Nat.eq_of_testBit_eq
  intro j
  have hj : 16 ≤ j → x.testBit j = false := testBit_of_lt_pow x j 16 hx
  simp only [Nat.testBit_mod_two_pow, Nat.testBit_or, Nat.testBit_shiftLeft, Nat.testBit_shiftRight,
    Nat.zero_mod, Nat.zero_testBit, Nat.zero_shiftLeft, Bool.or_false, Bool.false_or, Bool.and_false,
    Nat.zero_add, Nat.reduceAdd, Nat.reduceSub]
  by_cases h16 : j < 16
  · by_cases h8 : j < 8
    · have a1 : ¬ j ≥ 8 := by omega
      have h32 : j < 32 := by omega
      simp [h16, h32, h8, a1]
    · have a1 : j ≥ 8 := by omega
      have h32 : j < 32 := by omega
      have b1 : j - 8 < 24 := by omega
      have b2 : j - 8 < 8 := by omega
      have e : 8 + (j - 8) = j := by omega
      simp [h16, h32, h8, a1, b1, b2, e]
  · simp [h16, hj (by omega)]

theorem Policy.readMemory_dword8 (p : Policy) (sr : X86SegmentRegister) (a x m : Nat)
    (hx : x < 2 ^ 8) (rnd : Nat → Nat)
    (h : Policy.holds_bytes 8 p sr a (ValueType.known x hx) m) :
    (ValueType.extract 0 8 (Policy.readMemory_dword 8 p sr (ValueType.number 32 a) rnd).1 :
        ValueType 8) = ValueType.known x hx ∧
      (Policy.readMemory_dword 8 p sr (ValueType.number 32 a) rnd).2 = false := by
  obtain ⟨h0, -, -⟩ := h
  unfold Policy.readMemory_dword
  simp only [State.mem_read_byte_eq, ValueType.known_value_number,
    ValueType.known_value_add_number, h0]
  simp only [ValueType.extract, ValueType.concat, ValueType.or_, ValueType.number]
  simp only [ge_iff_le, Nat.reduceLeDiff, if_true, if_false]
  refine ⟨?_, trivial⟩
  apply ValueType.known_congr
  apply Nat.eq_of_testBit_eq
  intro j
  have hj : 8 ≤ j → x.testBit j = false := testBit_of_lt_pow x j 8 hx
  simp only [Nat.testBit_mod_two_pow, Nat.testBit_or, Nat.testBit_shiftLeft, Nat.testBit_shiftRight,
    Nat.zero_mod, Nat.zero_testBit, Nat.zero_shiftLeft, Bool.or_false, Bool.false_or, Bool.and_false,
    Nat.zero_add, Nat.reduceAdd, Nat.reduceSub]
  by_cases h8 : j < 8
  · have h32 : j < 32 := by omega
    simp [h32, h8]
  · simp [h8, hj (by omega)]

/-- When the `N/8` cells at `a` hold the bytes of a known `v`, the byte reads of
`readMemory` assemble `v` and find nothing uninitialized. -/
theorem Policy.readMemory_dword_of_holds (N : Nat) (hN : N = 8 ∨ N = 16 ∨ N = 32) (p : Policy)
    (sr : X86SegmentRegister) (a x m : Nat) (hx : x < 2 ^ N) (rnd : Nat → Nat)
    (h : Policy.holds_bytes N p sr a (ValueType.known x hx) m) :
    (ValueType.extract 0 N (Policy.readMemory_dword N p sr (ValueType.number 32 a) rnd).1 :
        ValueType N) = ValueType.known x hx ∧
      (Policy.readMemory_dword N p sr (ValueType.number 32 a) rnd).2 = false := by
  rcases hN with h8 | h16 | h32
  · subst h8; exact Policy.readMemory_dword8 p sr a x m hx rnd h
  · subst h16; exact Policy.readMemory_dword16 p sr a x m hx rnd h
  · subst h32
    rw [Policy.readMemory_dword32 p sr a x m hx rnd h]
    refine ⟨?_, rfl⟩
    simp only [ValueType.extract, ValueType.number]
    apply ValueType.known_congr
    simp only [Nat.shiftRight_zero, Nat.sub_zero]
    exact Nat.mod_eq_of_lt hx

/-- With all `N/8` cells present and the shortcut for the return address not taken,
`readMemory` returns the stored value and leaves the policy as it is. -/
theorem Policy.readMemory_of_holds (N : Nat) (hN : N = 8 ∨ N = 16 ∨ N = 32) (p : Policy)
    (sr : X86SegmentRegister) (a x m : Nat) (hx : x < 2 ^ N) (rnd : Nat → Nat)
    (hret : Policy.reads_return_address N p (ValueType.number 32 a) = false)
    (h : Policy.holds_bytes N p sr a (ValueType.known x hx) m) :
    Policy.readMemory N p sr (ValueType.number 32 a) rnd = (Except.ok (ValueType.known x hx), p) := by
  have hd := Policy.readMemory_dword_of_holds N hN p sr a x m hx rnd h
  have hN' : (8 = N ∨ 16 = N ∨ 32 = N) := by omega
  unfold Policy.readMemory
  simp only [hret, hN', hd.2, hd.1]
  simp


theorem Policy.writeMemory_ok (N : Nat) (hN : N = 8 ∨ N = 16 ∨ N = 32) (p : Policy)
    (sr : X86SegmentRegister) (a0 : ValueType 32) (data : ValueType N) (m : Nat) :
    (Policy.writeMemory N p sr a0 data m).1 = Except.ok () := by
  have hN' : (8 = N ∨ 16 = N ∨ 32 = N) := by omega
  simp [Policy.writeMemory, hN']

theorem State.mem_write_byte_frame (s : State) (sr : X86SegmentRegister) (addr : ValueType 32)
    (v : ValueType 8) (m : Nat) :
    (s.mem_write_byte sr addr v m).registers = s.registers ∧
    (s.mem_write_byte sr addr v m).register_rw_state = s.register_rw_state ∧
    (s.mem_write_byte sr addr v m).output_group = s.output_group := by
  unfold State.mem_write_byte
  split <;> exact ⟨rfl, rfl, rfl⟩

/-- The method `writeMemory` changes nothing of the policy but the two memory maps. -/
theorem Policy.writeMemory_frame (N : Nat) (p : Policy) (sr : X86SegmentRegister)
    (a0 : ValueType 32) (data : ValueType N) (m : Nat) :
    (Policy.writeMemory N p sr a0 data m).2.inputs = p.inputs ∧
    (Policy.writeMemory N p sr a0 data m).2.pointers = p.pointers ∧
    (Policy.writeMemory N p sr a0 data m).2.interp = p.interp ∧
    (Policy.writeMemory N p sr a0 data m).2.ninsns = p.ninsns ∧
    (Policy.writeMemory N p sr a0 data m).2.address_hasher = p.address_hasher ∧
    (Policy.writeMemory N p sr a0 data m).2.insns = p.insns ∧
    (Policy.writeMemory N p sr a0 data m).2.params = p.params ∧
    (Policy.writeMemory N p sr a0 data m).2.entry2id = p.entry2id ∧
    (Policy.writeMemory N p sr a0 data m).2.cur_insn = p.cur_insn ∧
    (Policy.writeMemory N p sr a0 data m).2.state.registers = p.state.registers ∧
    (Policy.writeMemory N p sr a0 data m).2.state.register_rw_state = p.state.register_rw_state ∧
    (Policy.writeMemory N p sr a0 data m).2.state.output_group = p.state.output_group := by
  unfold Policy.writeMemory
  by_cases hN : (8 = N ∨ 16 = N ∨ 32 = N)
  · simp only [hN, not_true_eq_false, if_false]
    refine ⟨trivial, trivial, trivial, trivial, trivial, trivial, trivial, trivial, trivial,
      ?_, ?_, ?_⟩ <;>
      · repeat' split
        all_goals simp only [(State.mem_write_byte_frame _ _ _ _ _).1,
          (State.mem_write_byte_frame _ _ _ _ _).2.1, (State.mem_write_byte_frame _ _ _ _ _).2.2]
  · simp [hN]

theorem Policy.holds_bytes_writeMemory (N : Nat) (hN : N = 8 ∨ N = 16 ∨ N = 32) (p : Policy)
    (sr : X86SegmentRegister) (a : Nat) (data : ValueType N) (m : Nat) :
    Policy.holds_bytes N (Policy.writeMemory N p sr (ValueType.number 32 a) data m).2 sr a data m := by
  unfold Policy.holds_bytes
  simp only [Policy.find_writeMemory N hN, iff_self, if_true]
  have e0 : ¬ a % 4294967296 = (a + 3) % 4294967296 := by omega
  have e1 : ¬ a % 4294967296 = (a + 2) % 4294967296 := by omega
  have e2 : ¬ a % 4294967296 = (a + 1) % 4294967296 := by omega
  have e3 : ¬ (a + 1) % 4294967296 = (a + 3) % 4294967296 := by omega
  have e4 : ¬ (a + 1) % 4294967296 = (a + 2) % 4294967296 := by omega
  have e5 : ¬ (a + 2) % 4294967296 = (a + 3) % 4294967296 := by omega
  refine ⟨?_, ?_, ?_⟩
  · simp [e0, e1, e2]
  · intro h16
    simp [e3, e4, h16]
  · intro h32
    have h16 : 16 ≤ N := by omega
    simp [e5, h32]


theorem Policy.other_map_writeMemory (N : Nat) (p : Policy) (sr : X86SegmentRegister)
    (a0 : ValueType 32) (data : ValueType N) (m : Nat) :
    (X86SegmentRegister.x86_segreg_ss = sr →
      (Policy.writeMemory N p sr a0 data m).2.state.data_cells = p.state.data_cells) ∧
    (X86SegmentRegister.x86_segreg_ss ≠ sr →
      (Policy.writeMemory N p sr a0 data m).2.state.stack_cells = p.state.stack_cells) := by
  unfold Policy.writeMemory
  by_cases hN : (8 = N ∨ 16 = N ∨ 32 = N)
  · simp only [hN, not_true_eq_false, if_false]
    constructor
    · intro h
      simp only [State.mem_write_byte, h, if_true]
      repeat' split
      all_goals rfl
    · intro h
      simp only [State.mem_write_byte, h, if_false]
      repeat' split
      all_goals rfl
  · simp [hN]

/-- C6: `writeMemory<N>(sr, a, v)` for `N` in {8, 16, 32} (default mask) returns normally
and sets, for each `i < N/8`, the cell at `(a + i) mod 2^32` of the map selected by `sr`
to bits `8i .. 8i+7` of `v` with access mask exactly WRITTEN; every other cell of that
map is as before, and the other map is unchanged. -/
theorem writeMemory_sets_cells (N : Nat) (hN : N = 8 ∨ N = 16 ∨ N = 32) (p : Policy)
    (sr : X86SegmentRegister) (a : Nat) (v : ValueType N) :
    (Policy.writeMemory N p sr (ValueType.number 32 a) v HAS_BEEN_WRITTEN).1 = Except.ok () ∧
    Policy.holds_bytes N (Policy.writeMemory N p sr (ValueType.number 32 a) v HAS_BEEN_WRITTEN).2
      sr a v HAS_BEEN_WRITTEN ∧
    (∀ (x : Nat) (hx : x < 2 ^ N), v = ValueType.known x hx → ∀ i, i < N / 8 →
      ((Policy.writeMemory N p sr (ValueType.number 32 a) v HAS_BEEN_WRITTEN).2.state.cells sr).find
          ((a + i) % 2 ^ 32) =
        some (MemoryValue.mk (ValueType.number 8 (x / 2 ^ (8 * i))) HAS_BEEN_WRITTEN)) ∧
    (∀ b, (∀ i, i < N / 8 → b ≠ (a + i) % 2 ^ 32) →
      ((Policy.writeMemory N p sr (ValueType.number 32 a) v HAS_BEEN_WRITTEN).2.state.cells sr).find b =
        (p.state.cells sr).find b) ∧
    (X86SegmentRegister.x86_segreg_ss = sr →
      (Policy.writeMemory N p sr (ValueType.number 32 a) v HAS_BEEN_WRITTEN).2.state.data_cells =
        p.state.data_cells) ∧
    (X86SegmentRegister.x86_segreg_ss ≠ sr →
      (Policy.writeMemory N p sr (ValueType.number 32 a) v HAS_BEEN_WRITTEN).2.state.stack_cells =
        p.state.stack_cells) := by
  have hb := Policy.holds_bytes_writeMemory N hN p sr a v HAS_BEEN_WRITTEN
  refine ⟨Policy.writeMemory_ok N hN p sr _ v _, hb, ?_, ?_,
    (Policy.other_map_writeMemory N p sr _ v _).1, (Policy.other_map_writeMemory N p sr _ v _).2⟩
  · intro x hx hv i hi
    subst hv
    obtain ⟨h0, h1, h23⟩ := hb
    have hi4 : i < 4 := by omega
    interval_cases i
    · simpa [ValueType.extract] using h0
    · have h16 : 16 ≤ N := by omega
      simpa [ValueType.extract, Nat.shiftRight_eq_div_pow] using h1 h16
    · have h32 : 32 ≤ N := by omega
      simpa [ValueType.extract, Nat.shiftRight_eq_div_pow] using (h23 h32).1
    · have h32 : 32 ≤ N := by omega
      simpa [ValueType.extract, Nat.shiftRight_eq_div_pow] using (h23 h32).2
  · intro b hne
    rw [Policy.find_writeMemory N hN]
    have n0 : b ≠ a % 2 ^ 32 := by
      have := hne 0 (by omega)
      simpa using this
    have n1 : 16 ≤ N → b ≠ (a + 1) % 2 ^ 32 := fun h => hne 1 (by omega)
    have n2 : 32 ≤ N → b ≠ (a + 2) % 2 ^ 32 := fun h => hne 2 (by omega)
    have n3 : 32 ≤ N → b ≠ (a + 3) % 2 ^ 32 := fun h => hne 3 (by omega)
    have c3 : ¬ (32 ≤ N ∧ b = (a + 3) % 2 ^ 32) := fun h => n3 h.1 h.2
    have c2 : ¬ (32 ≤ N ∧ b = (a + 2) % 2 ^ 32) := fun h => n2 h.1 h.2
    have c1 : ¬ (16 ≤ N ∧ b = (a + 1) % 2 ^ 32) := fun h => n1 h.1 h.2
    simp only [iff_self, if_true, c3, c2, c1, n0, if_false]

/-- C5: memory round trip. After `writeMemory<N>(sr, a, v)` with `N` in {8, 16, 32} and a
known `N`-bit `v`, a `readMemory<N>(sr, a)` outside a RET instruction returns `v` and
leaves the whole policy as the write left it: no input is consumed and both memory
maps are unchanged, whatever `rand()` returns. -/
theorem memory_round_trip (N : Nat) (hN : N = 8 ∨ N = 16 ∨ N = 32) (p : Policy)
    (sr : X86SegmentRegister) (a x : Nat) (hx : x < 2 ^ N) (rnd : Nat → Nat)
    (hret : ∀ insn, p.cur_insn = some insn → insn.kind ≠ X86InstructionKind.x86_ret) :
    Policy.readMemory N
        (Policy.writeMemory N p sr (ValueType.number 32 a) (ValueType.known x hx) HAS_BEEN_WRITTEN).2
        sr (ValueType.number 32 a) rnd =
      (Except.ok (ValueType.known x hx),
        (Policy.writeMemory N p sr (ValueType.number 32 a) (ValueType.known x hx)
          HAS_BEEN_WRITTEN).2) := by
  apply Policy.readMemory_of_holds N hN _ sr a x HAS_BEEN_WRITTEN hx rnd
  · have hf := Policy.writeMemory_frame N p sr (ValueType.number 32 a) (ValueType.known x hx)
      HAS_BEEN_WRITTEN
    unfold Policy.reads_return_address
    rw [hf.2.2.2.2.2.2.2.2.1]
    cases hc : p.cur_insn with
    | none => simp
    | some insn =>
      have := hret insn hc
      have h' : ¬ X86InstructionKind.x86_ret = insn.kind := fun e => this e.symm
      simp [h']
  · exact Policy.holds_bytes_writeMemory N hN p sr a _ HAS_BEEN_WRITTEN

/-- C7: while the current instruction is a RET, `readMemory<32>(sr, a)` with
`a = params.initial_stack` (a 32-bit address) returns `FUNC_RET_ADDR = 4083` for every
segment, SS included, whatever the memory holds; the policy is unchanged, so no input is
consumed and no memory cell is created or modified. -/
theorem ret_reads_return_address (p : Policy) (sr : X86SegmentRegister) (insn : SgAsmx86Instruction)
    (rnd : Nat → Nat) (hinsn : p.cur_insn = some insn)
    (hkind : insn.kind = X86InstructionKind.x86_ret) (hstack : p.params.initial_stack < 2 ^ 32) :
    Policy.readMemory 32 p sr (ValueType.number 32 p.params.initial_stack) rnd =
      (Except.ok (ValueType.number 32 4083), p) := by
  have hr : Policy.reads_return_address 32 p (ValueType.number 32 p.params.initial_stack) = true := by
    unfold Policy.reads_return_address
    rw [hinsn, ValueType.known_value_number, Nat.mod_eq_of_lt hstack]
    simp [hkind]
  unfold Policy.readMemory
  rw [hr]
  rfl


/-- Witness for C6: a 32-bit write of `0x11223344` through DS at `0xFFFFFFFF` wraps around;
the cell at address 0 receives bits 8..15, `0x33`, with mask WRITTEN. -/
theorem writeMemory_sets_cells_witness :
    ((Policy.writeMemory 32
        (Policy.new (AddressHasher.mk (LinearCongruentialGenerator.mk 0) []) PolicyParams.new [])
        X86SegmentRegister.x86_segreg_ds (ValueType.number 32 4294967295)
        (ValueType.number 32 0x11223344) HAS_BEEN_WRITTEN).2.state.cells
          X86SegmentRegister.x86_segreg_ds).find 0 =
      some (MemoryValue.mk (ValueType.number 8 0x33) HAS_BEEN_WRITTEN) :=
  (writeMemory_sets_cells 32 (Or.inr (Or.inr rfl))
    (Policy.new (AddressHasher.mk (LinearCongruentialGenerator.mk 0) []) PolicyParams.new [])
    X86SegmentRegister.x86_segreg_ds 4294967295 (ValueType.number 32 0x11223344)).2.2.1
    0x11223344 (by decide) rfl 1 (by decide)

/-- Witness for C5: a 16-bit write of `0xBEEF` through SS at `0x1000`, read back outside any
instruction. -/
theorem memory_round_trip_witness :
    Policy.readMemory 16
        (Policy.writeMemory 16
          (Policy.new (AddressHasher.mk (LinearCongruentialGenerator.mk 0) []) PolicyParams.new [])
          X86SegmentRegister.x86_segreg_ss (ValueType.number 32 0x1000)
          (ValueType.known 0xBEEF (by decide)) HAS_BEEN_WRITTEN).2
        X86SegmentRegister.x86_segreg_ss (ValueType.number 32 0x1000) (fun _ => 0) =
      (Except.ok (ValueType.known 0xBEEF (by decide)),
        (Policy.writeMemory 16
          (Policy.new (AddressHasher.mk (LinearCongruentialGenerator.mk 0) []) PolicyParams.new [])
          X86SegmentRegister.x86_segreg_ss (ValueType.number 32 0x1000)
          (ValueType.known 0xBEEF (by decide)) HAS_BEEN_WRITTEN).2) :=
  memory_round_trip 16 (Or.inr (Or.inl rfl))
    (Policy.new (AddressHasher.mk (LinearCongruentialGenerator.mk 0) []) PolicyParams.new [])
    X86SegmentRegister.x86_segreg_ss 0x1000 0xBEEF (by decide) (fun _ => 0)
    (fun insn h => by cases h)

/-- Witness for C7: with the default parameters and a RET as current instruction, the read
at `0x80000000` through SS returns 4083 although the function has overwritten the four
cells there. -/
theorem ret_reads_return_address_witness :
    Policy.readMemory 32
        { (Policy.writeMemory 32
            (Policy.new (AddressHasher.mk (LinearCongruentialGenerator.mk 0) []) PolicyParams.new [])
            X86SegmentRegister.x86_segreg_ss (ValueType.number 32 0x80000000)
            (ValueType.number 32 0xDEADBEEF) HAS_BEEN_WRITTEN).2 with
          cur_insn := some (SgAsmx86Instruction.mk 4096 1 X86InstructionKind.x86_ret none) }
        X86SegmentRegister.x86_segreg_ss (ValueType.number 32 0x80000000) (fun _ => 0) =
      (Except.ok (ValueType.number 32 4083),
        { (Policy.writeMemory 32
            (Policy.new (AddressHasher.mk (LinearCongruentialGenerator.mk 0) []) PolicyParams.new [])
            X86SegmentRegister.x86_segreg_ss (ValueType.number 32 0x80000000)
            (ValueType.number 32 0xDEADBEEF) HAS_BEEN_WRITTEN).2 with
          cur_insn := some (SgAsmx86Instruction.mk 4096 1 X86InstructionKind.x86_ret none) }) :=
  ret_reads_return_address
    { (Policy.writeMemory 32
        (Policy.new (AddressHasher.mk (LinearCongruentialGenerator.mk 0) []) PolicyParams.new [])
        X86SegmentRegister.x86_segreg_ss (ValueType.number 32 0x80000000)
        (ValueType.number 32 0xDEADBEEF) HAS_BEEN_WRITTEN).2 with
      cur_insn := some (SgAsmx86Instruction.mk 4096 1 X86InstructionKind.x86_ret none) }
    X86SegmentRegister.x86_segreg_ss
    (SgAsmx86Instruction.mk 4096 1 X86InstructionKind.x86_ret none) (fun _ => 0) rfl rfl (by decide)

/-- Witness for C9: a pool `[5, 6]` with the cursor at its end yields 0, and three calls
after a reset leave `integers_consumed() = 3`. -/
theorem consumption_without_limit_witness :
    (InputGroup.mk [5, 6] [9] 2 0 false).next_integer.1 = Except.ok 0 ∧
    (InputGroup.next_integers 3 (InputGroup.mk [5, 6] [9] 2 0 false).reset).2.integers_consumed = 3 ∧
    (InputGroup.next_integers 3 (InputGroup.mk [5, 6] [9] 2 0 false).reset).1 =
      [Except.ok 5, Except.ok 6, Except.ok 0] :=
  ⟨(consumption_without_limit (InputGroup.mk [5, 6] [9] 2 0 false) rfl).1.1,
    ((consumption_without_limit (InputGroup.mk [5, 6] [9] 2 0 false) rfl).2.1 3).1,
    ((consumption_without_limit (InputGroup.mk [5, 6] [9] 2 0 false) rfl).2.1 3).2.2⟩


/-! ## Output projection -/

theorem OutputGroup.mem_add_value (g : OutputGroup) (value x : Nat) :
    x ∈ (g.add_value value).values ↔ x = value % 2 ^ 32 ∨ x ∈ g.values := by
  simp [OutputGroup.add_value]

theorem OutputGroup.add_value_frame (g : OutputGroup) (value : Nat) :
    (g.add_value value).fault = g.fault ∧ (g.add_value value).ninsns = g.ninsns ∧
    (g.add_value value).callee_ids = g.callee_ids ∧ (g.add_value value).syscalls = g.syscalls :=
  ⟨rfl, rfl, rfl, rfl⟩

/-- What one written, known cell contributes: its byte. -/
theorem State.cell_output_spec (o : OutputGroup) (mv : MemoryValue) (x : Nat) (emit : Bool) :
    x ∈ (if ((mv.rw_state &&& HAS_BEEN_WRITTEN != 0) && mv.val.is_known) = true then
          (if emit = true then o.add_value mv.val.known_value else o) else o).values ↔
      x ∈ o.values ∨ (mv.rw_state &&& HAS_BEEN_WRITTEN ≠ 0 ∧ emit = true ∧
        ∃ (b : Nat) (hb : b < 2 ^ 8), mv.val = ValueType.known b hb ∧ x = b) := by
  cases hv : mv.val with
  | unknown =>
    have c : ((mv.rw_state &&& HAS_BEEN_WRITTEN != 0) && (ValueType.unknown : ValueType 8).is_known)
        = false := by simp [ValueType.is_known]
    rw [c]
    simp
  | known b hb =>
    have hb32 : b % 2 ^ 32 = b := Nat.mod_eq_of_lt (lt_trans hb (by decide))
    by_cases hw : mv.rw_state &&& HAS_BEEN_WRITTEN = 0
    · have c : ((mv.rw_state &&& HAS_BEEN_WRITTEN != 0) &&
          (ValueType.known b hb : ValueType 8).is_known) = false := by simp [hw]
      rw [c]
      simp [hw]
    · have c : ((mv.rw_state &&& HAS_BEEN_WRITTEN != 0) &&
          (ValueType.known b hb : ValueType 8).is_known) = true := by
        simp [hw, ValueType.is_known]
      rw [c]
      cases emit with
      | false => simp
      | true =>
        simp only [if_true, OutputGroup.mem_add_value, ValueType.known_value, hb32]
        constructor
        · rintro (h | h)
          · exact Or.inr ⟨hw, trivial, b, hb, rfl, h⟩
          · exact Or.inl h
        · rintro (h | ⟨_, _, b', hb', hbe, hx⟩)
          · exact Or.inr h
          · have hbb : b = b' := by injection hbe
            exact Or.inl (hx.trans hbb.symm)

theorem State.cell_output_frame (o : OutputGroup) (mv : MemoryValue) (emit : Bool) :
    (if ((mv.rw_state &&& HAS_BEEN_WRITTEN != 0) && mv.val.is_known) = true then
        (if emit = true then o.add_value mv.val.known_value else o) else o).fault = o.fault ∧
    (if ((mv.rw_state &&& HAS_BEEN_WRITTEN != 0) && mv.val.is_known) = true then
        (if emit = true then o.add_value mv.val.known_value else o) else o).ninsns = o.ninsns ∧
    (if ((mv.rw_state &&& HAS_BEEN_WRITTEN != 0) && mv.val.is_known) = true then
        (if emit = true then o.add_value mv.val.known_value else o) else o).callee_ids =
      o.callee_ids ∧
    (if ((mv.rw_state &&& HAS_BEEN_WRITTEN != 0) && mv.val.is_known) = true then
        (if emit = true then o.add_value mv.val.known_value else o) else o).syscalls =
      o.syscalls := by
  refine ⟨?_, ?_, ?_, ?_⟩ <;>
    · split
      · split <;> rfl
      · rfl


theorem OutputGroup.foldl_spec {α : Type} (f : OutputGroup → α → OutputGroup) (Q : α → Nat → Prop)
    (hf : ∀ o c x, x ∈ (f o c).values ↔ x ∈ o.values ∨ Q c x)
    (hfr : ∀ o c, (f o c).fault = o.fault ∧ (f o c).ninsns = o.ninsns ∧
      (f o c).callee_ids = o.callee_ids ∧ (f o c).syscalls = o.syscalls)
    (l : List α) (o : OutputGroup) :
    (∀ x, x ∈ (l.foldl f o).values ↔ x ∈ o.values ∨ ∃ c, c ∈ l ∧ Q c x) ∧
    (l.foldl f o).fault = o.fault ∧ (l.foldl f o).ninsns = o.ninsns ∧
    (l.foldl f o).callee_ids = o.callee_ids ∧ (l.foldl f o).syscalls = o.syscalls := by
  induction l generalizing o with
  | nil => simp
  | cons c rest ih =>
    simp only [List.foldl_cons]
    obtain ⟨ihv, ihf, ihn, ihc, ihs⟩ := ih (f o c)
    obtain ⟨sf, sn, sc, ss⟩ := hfr o c
    refine ⟨?_, by rw [ihf, sf], by rw [ihn, sn], by rw [ihc, sc], by rw [ihs, ss]⟩
    intro x
    rw [ihv x, hf o c x]
    constructor
    · rintro ((h | h) | ⟨c', hm, hq⟩)
      · exact Or.inl h
      · exact Or.inr ⟨c, List.mem_cons_self _ _, h⟩
      · exact Or.inr ⟨c', List.mem_cons_of_mem _ hm, hq⟩
    · rintro (h | ⟨c', hm, hq⟩)
      · exact Or.inl (Or.inl h)
      · rcases List.mem_cons.mp hm with he | hm'
        · subst he
          exact Or.inl (Or.inr hq)
        · exact Or.inr ⟨c', hm', hq⟩

theorem State.eax_output_spec (o : OutputGroup) (rw : Nat) (r : ValueType 32) (x : Nat) :
    x ∈ (if ((rw &&& HAS_BEEN_WRITTEN != 0) && r.is_known) = true then
          o.add_value r.known_value else o).values ↔
      x ∈ o.values ∨ (rw &&& HAS_BEEN_WRITTEN ≠ 0 ∧
        ∃ (v : Nat) (hv : v < 2 ^ 32), r = ValueType.known v hv ∧ x = v) := by
  cases r with
  | unknown => simp [ValueType.is_known]
  | known v hv =>
    have hv32 : v % 2 ^ 32 = v := Nat.mod_eq_of_lt hv
    by_cases hw : rw &&& HAS_BEEN_WRITTEN = 0
    · simp [hw]
    · have c : ((rw &&& HAS_BEEN_WRITTEN != 0) && (ValueType.known v hv : ValueType 32).is_known)
          = true := by simp [hw, ValueType.is_known]
      rw [c]
      simp only [if_true, OutputGroup.mem_add_value, ValueType.known_value, hv32]
      constructor
      · rintro (h | h)
        · exact Or.inr ⟨hw, v, hv, rfl, h⟩
        · exact Or.inl h
      · rintro (h | ⟨_, v', hv', hve, hx⟩)
        · exact Or.inr h
        · have hvv : v = v' := by injection hve
          exact Or.inl (hx.trans hvv.symm)

/-- The value set and the other fields of what `get_outputs` returns. -/
theorem State.get_outputs_char (s : State) (stack_frame_top frame_size : Nat) :
    (∀ x, x ∈ (s.get_outputs stack_frame_top frame_size).values ↔
      (x ∈ s.output_group.values ∨
        ((s.register_rw_state.gpr x86_gpr_ax).state &&& HAS_BEEN_WRITTEN ≠ 0 ∧
          ∃ (v : Nat) (hv : v < 2 ^ 32), s.registers.gpr x86_gpr_ax = ValueType.known v hv ∧ x = v) ∨
        (∃ a mv, (a, mv) ∈ s.stack_cells ∧ mv.rw_state &&& HAS_BEEN_WRITTEN ≠ 0 ∧
          State.cell_in_frame a stack_frame_top frame_size = false ∧
          ∃ (b : Nat) (hb : b < 2 ^ 8), mv.val = ValueType.known b hb ∧ x = b) ∨
        (∃ a mv, (a, mv) ∈ s.data_cells ∧ mv.rw_state &&& HAS_BEEN_WRITTEN ≠ 0 ∧
          ∃ (b : Nat) (hb : b < 2 ^ 8), mv.val = ValueType.known b hb ∧ x = b))) ∧
    (s.get_outputs stack_frame_top frame_size).fault = s.output_group.fault ∧
    (s.get_outputs stack_frame_top frame_size).ninsns = s.output_group.ninsns ∧
    (s.get_outputs stack_frame_top frame_size).callee_ids = s.output_group.callee_ids ∧
    (s.get_outputs stack_frame_top frame_size).syscalls = s.output_group.syscalls := by
  -- the three stages of the projection
  have hstack := OutputGroup.foldl_spec (State.add_stack_cell stack_frame_top frame_size)
    (fun c x => c.2.rw_state &&& HAS_BEEN_WRITTEN ≠ 0 ∧
      (!State.cell_in_frame c.1 stack_frame_top frame_size) = true ∧
      ∃ (b : Nat) (hb : b < 2 ^ 8), c.2.val = ValueType.known b hb ∧ x = b)
    (fun o c x => State.cell_output_spec o c.2 x _)
    (fun o c => State.cell_output_frame o c.2 _)
  have hdata := OutputGroup.foldl_spec State.add_data_cell
    (fun c x => c.2.rw_state &&& HAS_BEEN_WRITTEN ≠ 0 ∧ true = true ∧
      ∃ (b : Nat) (hb : b < 2 ^ 8), c.2.val = ValueType.known b hb ∧ x = b)
    (fun o c x => by
      have := State.cell_output_spec o c.2 x true
      simpa [State.add_data_cell] using this)
    (fun o c => by
      have := State.cell_output_frame o c.2 true
      simpa [State.add_data_cell] using this)
  obtain ⟨dv, dfault, dn, dc, ds⟩ := hdata s.data_cells
    (s.stack_cells.foldl (State.add_stack_cell stack_frame_top frame_size)
      (if (((s.register_rw_state.gpr x86_gpr_ax).state &&& HAS_BEEN_WRITTEN != 0) &&
          (s.registers.gpr x86_gpr_ax).is_known) = true then
        s.output_group.add_value (s.registers.gpr x86_gpr_ax).known_value
      else s.output_group))
  obtain ⟨sv, sfault, sn, sc, ss⟩ := hstack s.stack_cells
    (if (((s.register_rw_state.gpr x86_gpr_ax).state &&& HAS_BEEN_WRITTEN != 0) &&
        (s.registers.gpr x86_gpr_ax).is_known) = true then
      s.output_group.add_value (s.registers.gpr x86_gpr_ax).known_value
    else s.output_group)
  have efr : ∀ (c : Bool) (v : Nat),
      (if c = true then s.output_group.add_value v else s.output_group).fault =
          s.output_group.fault ∧
        (if c = true then s.output_group.add_value v else s.output_group).ninsns =
          s.output_group.ninsns ∧
        (if c = true then s.output_group.add_value v else s.output_group).callee_ids =
          s.output_group.callee_ids ∧
        (if c = true then s.output_group.add_value v else s.output_group).syscalls =
          s.output_group.syscalls := by
    intro c v
    cases c <;> exact ⟨rfl, rfl, rfl, rfl⟩
  obtain ⟨ef, en, ec, es⟩ := efr (((s.register_rw_state.gpr x86_gpr_ax).state &&& HAS_BEEN_WRITTEN != 0) &&
    (s.registers.gpr x86_gpr_ax).is_known) (s.registers.gpr x86_gpr_ax).known_value
  unfold State.get_outputs
  refine ⟨?_, by rw [dfault, sfault, ef], by rw [dn, sn, en], by rw [dc, sc, ec],
    by rw [ds, ss, es]⟩
  intro x
  rw [dv x, sv x, State.eax_output_spec]
  constructor
  · rintro (((h | h) | ⟨c, hm, hw, hf, hb⟩) | ⟨c, hm, hw, -, hb⟩)
    · exact Or.inl h
    · exact Or.inr (Or.inl h)
    · exact Or.inr (Or.inr (Or.inl ⟨c.1, c.2, hm, hw, by simpa using hf, hb⟩))
    · exact Or.inr (Or.inr (Or.inr ⟨c.1, c.2, hm, hw, hb⟩))
  · rintro (h | h | ⟨a, mv, hm, hw, hf, hb⟩ | ⟨a, mv, hm, hw, hb⟩)
    · exact Or.inl (Or.inl (Or.inl h))
    · exact Or.inl (Or.inl (Or.inr h))
    · exact Or.inl (Or.inr ⟨(a, mv), hm, hw, by simpa using hf, hb⟩)
    · exact Or.inr ⟨(a, mv), hm, hw, rfl, hb⟩


theorem MemoryCells.mem_assign (m : MemoryCells) (a : Nat) (v : MemoryValue) (c : Nat × MemoryValue)
    (hc : c ∈ MemoryCells.assign m a v) : c = (a, v) ∨ (c ∈ m ∧ c.1 ≠ a) ∨ (c ∈ m ∧ ¬ MemoryCells.wf m) := by
  induction m with
  | nil =>
    simp only [MemoryCells.assign, List.mem_singleton] at hc
    exact Or.inl hc
  | cons d rest ih =>
    obtain ⟨k, w⟩ := d
    by_cases hwf : MemoryCells.wf ((k, w) :: rest)
    swap
    · unfold MemoryCells.assign at hc
      split at hc
      · rcases List.mem_cons.mp hc with h | h
        · exact Or.inl h
        · exact Or.inr (Or.inr ⟨h, hwf⟩)
      · split at hc
        · rcases List.mem_cons.mp hc with h | h
          · exact Or.inl h
          · exact Or.inr (Or.inr ⟨List.mem_cons_of_mem _ h, hwf⟩)
        · rcases List.mem_cons.mp hc with h | h
          · exact Or.inr (Or.inr ⟨h ▸ List.mem_cons_self _ _, hwf⟩)
          · rcases ih h with h' | h' | h'
            · exact Or.inl h'
            · exact Or.inr (Or.inr ⟨List.mem_cons_of_mem _ h'.1, hwf⟩)
            · exact Or.inr (Or.inr ⟨List.mem_cons_of_mem _ h'.1, hwf⟩)
    · have hp := List.pairwise_cons.mp hwf
      unfold MemoryCells.assign at hc
      split at hc
      · rename_i hlt
        rcases List.mem_cons.mp hc with h | h
        · exact Or.inl h
        · refine Or.inr (Or.inl ⟨h, ?_⟩)
          rcases List.mem_cons.mp h with h' | h'
          · rw [h']; exact Nat.ne_of_gt hlt
          · have := hp.1 c h'
            simp only at this
            omega
      · split at hc
        · rename_i hge heq
          rcases List.mem_cons.mp hc with h | h
          · exact Or.inl h
          · refine Or.inr (Or.inl ⟨List.mem_cons_of_mem _ h, ?_⟩)
            have := hp.1 c h
            simp only at this
            omega
        · rename_i hge hne
          rcases List.mem_cons.mp hc with h | h
          · refine Or.inr (Or.inl ⟨h ▸ List.mem_cons_self _ _, ?_⟩)
            rw [h]
            exact fun e => hne e.symm
          · rcases ih h with h' | h' | h'
            · exact Or.inl h'
            · exact Or.inr (Or.inl ⟨List.mem_cons_of_mem _ h'.1, h'.2⟩)
            · exact absurd hp.2 h'.2

/-- The assignment `cells[addr] = mval` keeps the map ordered with one entry per address. -/
theorem MemoryCells.wf_assign (m : MemoryCells) (a : Nat) (v : MemoryValue)
    (h : MemoryCells.wf m) : MemoryCells.wf (MemoryCells.assign m a v) := by
  induction m with
  | nil => simp [MemoryCells.assign, MemoryCells.wf]
  | cons d rest ih =>
    obtain ⟨k, w⟩ := d
    have hp := List.pairwise_cons.mp h
    unfold MemoryCells.assign
    split
    · rename_i hlt
      refine List.pairwise_cons.mpr ⟨?_, h⟩
      intro c hc
      rcases List.mem_cons.mp hc with h' | h'
      · rw [h']; exact hlt
      · have := hp.1 c h'
        simp only at this ⊢
        omega
    · split
      · rename_i hge heq
        refine List.pairwise_cons.mpr ⟨?_, hp.2⟩
        intro c hc
        have := hp.1 c hc
        simp only at this ⊢
        omega
      · rename_i hge hne
        refine List.pairwise_cons.mpr ⟨?_, ih hp.2⟩
        intro c hc
        rcases MemoryCells.mem_assign rest a v c hc with h' | h' | h'
        · rw [h']
          simp only
          omega
        · exact hp.1 c h'.1
        · exact hp.1 c h'.1

/-- In a well-formed map the entries are exactly what `find` returns. -/
theorem MemoryCells.mem_iff_find (m : MemoryCells) (h : MemoryCells.wf m) (a : Nat)
    (mv : MemoryValue) : (a, mv) ∈ m ↔ MemoryCells.find m a = some mv := by
  induction m with
  | nil => simp [MemoryCells.find]
  | cons d rest ih =>
    obtain ⟨k, w⟩ := d
    have hp := List.pairwise_cons.mp h
    unfold MemoryCells.find
    by_cases hk : k = a
    · subst hk
      simp only [if_true, List.mem_cons, Prod.mk.injEq, true_and, Option.some.injEq]
      constructor
      · rintro (h' | h')
        · exact h'.symm
        · have := hp.1 _ h'
          simp at this
      · intro h'
        exact Or.inl h'.symm
    · simp only [hk, if_false, List.mem_cons, Prod.mk.injEq]
      rw [← ih hp.2]
      constructor
      · rintro (h' | h')
        · exact absurd h'.1.symm hk
        · exact h'
      · exact fun h' => Or.inr h'


/-- The frame test of `get_outputs` agrees with the interval `(top - size, top]` of the
integers exactly when the frame does not reach below address zero (`size ≤ top`);
otherwise the unsigned difference wraps around and no cell is in the frame. -/
theorem State.cell_in_frame_iff (a top fs : Nat) (htop : top < 2 ^ 32) (hfs : fs < 2 ^ 64) :
    State.cell_in_frame a top fs = true ↔ (fs ≤ top ∧ top - fs < a ∧ a ≤ top) := by
  unfold State.cell_in_frame
  have e1 : top % 2 ^ 32 = top := Nat.mod_eq_of_lt htop
  have e2 : fs % 2 ^ 64 = fs := Nat.mod_eq_of_lt hfs
  rw [e1, e2]
  simp only [Bool.and_eq_true, decide_eq_true_eq, gt_iff_lt]
  norm_num at htop hfs ⊢
  omega

/-- Where the frame reaches below address zero (`stack_frame_top < frame_size`) the
unsigned difference of the frame test wraps around and the test is false for every
address. -/
theorem State.cell_in_frame_wraps (a top fs : Nat) (htop : top < 2 ^ 32) (hfs : fs < 2 ^ 64)
    (hlt : top < fs) : State.cell_in_frame a top fs = false := by
  cases h : State.cell_in_frame a top fs with
  | false => rfl
  | true =>
    have := (State.cell_in_frame_iff a top fs htop hfs).mp h
    omega

/-- C1: the value set of `get_outputs`, with the frame written as the interval of the
integers. For a 32-bit `stack_frame_top` and a 64-bit `frame_size`:
where `frame_size ≤ stack_frame_top`, the value set is exactly the accumulated
`output_group.values`, EAX if its access mask has WRITTEN and it is known, the byte of
every stack cell that is known, has WRITTEN and whose address `a` does not satisfy
`a ≤ stack_frame_top` and `a > stack_frame_top − frame_size`, and the byte of every data
cell that is known and has WRITTEN;
where `stack_frame_top < frame_size`, no stack cell is left out: the byte of every stack
cell that is known and has WRITTEN is in the value set, also at the addresses inside
`(stack_frame_top − frame_size, stack_frame_top]`.
Fault, instruction count and the two lists are those of `output_group` in both cases. -/
theorem get_outputs_frame_interval (s : State) (stack_frame_top frame_size : Nat)
    (htop : stack_frame_top < 2 ^ 32) (hfs : frame_size < 2 ^ 64) :
    (frame_size ≤ stack_frame_top →
      ∀ x, x ∈ (s.get_outputs stack_frame_top frame_size).values ↔
        (x ∈ s.output_group.values ∨
          ((s.register_rw_state.gpr x86_gpr_ax).state &&& HAS_BEEN_WRITTEN ≠ 0 ∧
            ∃ (v : Nat) (hv : v < 2 ^ 32),
              s.registers.gpr x86_gpr_ax = ValueType.known v hv ∧ x = v) ∨
          (∃ a mv, (a, mv) ∈ s.stack_cells ∧ mv.rw_state &&& HAS_BEEN_WRITTEN ≠ 0 ∧
            ¬ ((a : Int) ≤ (stack_frame_top : Int) ∧
                (a : Int) > (stack_frame_top : Int) - (frame_size : Int)) ∧
            ∃ (b : Nat) (hb : b < 2 ^ 8), mv.val = ValueType.known b hb ∧ x = b) ∨
          (∃ a mv, (a, mv) ∈ s.data_cells ∧ mv.rw_state &&& HAS_BEEN_WRITTEN ≠ 0 ∧
            ∃ (b : Nat) (hb : b < 2 ^ 8), mv.val = ValueType.known b hb ∧ x = b))) ∧
    (stack_frame_top < frame_size →
      ∀ x, x ∈ (s.get_outputs stack_frame_top frame_size).values ↔
        (x ∈ s.output_group.values ∨
          ((s.register_rw_state.gpr x86_gpr_ax).state &&& HAS_BEEN_WRITTEN ≠ 0 ∧
            ∃ (v : Nat) (hv : v < 2 ^ 32),
              s.registers.gpr x86_gpr_ax = ValueType.known v hv ∧ x = v) ∨
          (∃ a mv, (a, mv) ∈ s.stack_cells ∧ mv.rw_state &&& HAS_BEEN_WRITTEN ≠ 0 ∧
            ∃ (b : Nat) (hb : b < 2 ^ 8), mv.val = ValueType.known b hb ∧ x = b) ∨
          (∃ a mv, (a, mv) ∈ s.data_cells ∧ mv.rw_state &&& HAS_BEEN_WRITTEN ≠ 0 ∧
            ∃ (b : Nat) (hb : b < 2 ^ 8), mv.val = ValueType.known b hb ∧ x = b))) ∧
    (s.get_outputs stack_frame_top frame_size).fault = s.output_group.fault ∧
    (s.get_outputs stack_frame_top frame_size).ninsns = s.output_group.ninsns ∧
    (s.get_outputs stack_frame_top frame_size).callee_ids = s.output_group.callee_ids ∧
    (s.get_outputs stack_frame_top frame_size).syscalls = s.output_group.syscalls := by
  obtain ⟨hv, hrest⟩ := State.get_outputs_char s stack_frame_top frame_size
  refine ⟨?_, ?_, hrest⟩
  · intro hge x
    rw [hv x]
    have key : ∀ a : Nat, State.cell_in_frame a stack_frame_top frame_size = false ↔
        ¬ ((a : Int) ≤ (stack_frame_top : Int) ∧
            (a : Int) > (stack_frame_top : Int) - (frame_size : Int)) := by
      intro a
      rw [← Bool.not_eq_true, State.cell_in_frame_iff a stack_frame_top frame_size htop hfs]
      constructor
      · intro h hc
        exact h ⟨hge, by omega, by omega⟩
      · intro h hc
        exact h ⟨by omega, by omega⟩
    constructor
    · rintro (h | h | ⟨a, mv, hm, hw, hf, hb⟩ | h)
      · exact Or.inl h
      · exact Or.inr (Or.inl h)
      · exact Or.inr (Or.inr (Or.inl ⟨a, mv, hm, hw, (key a).mp hf, hb⟩))
      · exact Or.inr (Or.inr (Or.inr h))
    · rintro (h | h | ⟨a, mv, hm, hw, hf, hb⟩ | h)
      · exact Or.inl h
      · exact Or.inr (Or.inl h)
      · exact Or.inr (Or.inr (Or.inl ⟨a, mv, hm, hw, (key a).mpr hf, hb⟩))
      · exact Or.inr (Or.inr (Or.inr h))
  · intro hlt x
    rw [hv x]
    constructor
    · rintro (h | h | ⟨a, mv, hm, hw, -, hb⟩ | h)
      · exact Or.inl h
      · exact Or.inr (Or.inl h)
      · exact Or.inr (Or.inr (Or.inl ⟨a, mv, hm, hw, hb⟩))
      · exact Or.inr (Or.inr (Or.inr h))
    · rintro (h | h | ⟨a, mv, hm, hw, hb⟩ | h)
      · exact Or.inl h
      · exact Or.inr (Or.inl h)
      · exact Or.inr (Or.inr (Or.inl ⟨a, mv, hm, hw,
          State.cell_in_frame_wraps a stack_frame_top frame_size htop hfs hlt, hb⟩))
      · exact Or.inr (Or.inr (Or.inr h))

/-- C1 at `stack_frame_top = 100`, `frame_size = 200`, in the state that holds the single
stack cell 96, written with the known byte 5: the address 96 satisfies `96 ≤ 100` and
`96 > 100 − 200`, so the cell is inside the frame, yet 5 is in the value set that
`get_outputs` returns, which is `{5}`. -/
theorem get_outputs_frame_interval_witness :
    100 < 2 ^ 32 ∧ 200 < 2 ^ 64 ∧ 100 < 200 ∧
    ((96 : Int) ≤ (100 : Int) ∧ (96 : Int) > (100 : Int) - (200 : Int)) ∧
    5 ∈ (State.get_outputs
      { State.new with
        stack_cells := [(96, MemoryValue.mk (ValueType.known 5 (by decide)) HAS_BEEN_WRITTEN)] }
      100 200).values ∧
    (State.get_outputs
      { State.new with
        stack_cells := [(96, MemoryValue.mk (ValueType.known 5 (by decide)) HAS_BEEN_WRITTEN)] }
      100 200).values = {5} :=
  ⟨by decide, by decide, by decide, by decide,
    ((get_outputs_frame_interval
      { State.new with
        stack_cells := [(96, MemoryValue.mk (ValueType.known 5 (by decide)) HAS_BEEN_WRITTEN)] }
      100 200 (by decide) (by decide)).2.1 (by decide) 5).mpr
      (Or.inr (Or.inr (Or.inl ⟨96, MemoryValue.mk (ValueType.known 5 (by decide)) HAS_BEEN_WRITTEN,
        List.mem_singleton.mpr rfl, by decide, 5, by decide, rfl, rfl⟩))),
    by decide⟩

/-- Frame-local suppression where the frame does not reach below address zero: with
`8192 ≤ initial_stack < 2^32`, EAX not written, an empty accumulated output group and
WRITTEN only on stack cells at addresses `α` with `initial_stack − 8192 < α ≤
initial_stack`, `get_outputs(initial_stack, 8192)` returns no value. -/
theorem frame_local_suppression (s : State) (initial_stack : Nat)
    (h32 : initial_stack < 2 ^ 32) (hge : 8192 ≤ initial_stack)
    (heax : (s.register_rw_state.gpr x86_gpr_ax).state &&& HAS_BEEN_WRITTEN = 0)
    (hog : s.output_group.values = ∅)
    (hdata : ∀ a mv, (a, mv) ∈ s.data_cells → mv.rw_state &&& HAS_BEEN_WRITTEN = 0)
    (hstack : ∀ a mv, (a, mv) ∈ s.stack_cells → mv.rw_state &&& HAS_BEEN_WRITTEN ≠ 0 →
      (initial_stack : Int) - 8192 < (a : Int) ∧ a ≤ initial_stack) :
    (s.get_outputs initial_stack 8192).values = ∅ := by
  apply Finset.eq_empty_of_forall_not_mem
  intro x hx
  rcases ((State.get_outputs_char s initial_stack 8192).1 x).mp hx with h | h | h | h
  · rw [hog] at h
    exact absurd h (Finset.not_mem_empty x)
  · exact h.1 heax
  · obtain ⟨a, mv, hm, hw, hf, -⟩ := h
    have hin := hstack a mv hm hw
    have : State.cell_in_frame a initial_stack 8192 = true :=
      (State.cell_in_frame_iff a initial_stack 8192 h32 (by decide)).mpr
        ⟨hge, by omega, hin.2⟩
    rw [this] at hf
    exact absurd hf (by decide)
  · obtain ⟨a, mv, hm, hw, -⟩ := h
    exact hw (hdata a mv hm)

/-- The spec's scenario `MOV [ESP-4], 7` with the default `initial_stack = 0x80000000`: the
write is inside the frame and contributes nothing. -/
theorem frame_local_suppression_example :
    ((Policy.writeMemory 32
        (Policy.new (AddressHasher.mk (LinearCongruentialGenerator.mk 0) []) PolicyParams.new [])
        X86SegmentRegister.x86_segreg_ss (ValueType.number 32 (0x80000000 - 4))
        (ValueType.number 32 7) HAS_BEEN_WRITTEN).2).get_outputs.values = ∅ := by
  decide

/-- C2 at `initial_stack = 4096`: EAX is not written, the accumulated output group is
empty and the only WRITTEN cells are the stack cells 4092..4095, all inside
`(4096 − 8192, 4096]`; yet `get_outputs(4096, 8192)` returns the bytes 7 and 0 of the
local write, because `stack_frame_top - frame_size` wraps around as an unsigned number. -/
theorem frame_suppression_fails_below_8192 :
    ((Policy.writeMemory 32
        (Policy.new (AddressHasher.mk (LinearCongruentialGenerator.mk 0) [])
          (PolicyParams.mk 5000 Verbosity.SILENT false false 4096) [])
        X86SegmentRegister.x86_segreg_ss (ValueType.number 32 (4096 - 4))
        (ValueType.number 32 7) HAS_BEEN_WRITTEN).2).get_outputs.values = {0, 7} ∧
    ((Policy.writeMemory 32
        (Policy.new (AddressHasher.mk (LinearCongruentialGenerator.mk 0) [])
          (PolicyParams.mk 5000 Verbosity.SILENT false false 4096) [])
        X86SegmentRegister.x86_segreg_ss (ValueType.number 32 (4096 - 4))
        (ValueType.number 32 7) HAS_BEEN_WRITTEN).2).state.stack_cells.map (fun c => c.1) =
      [4092, 4093, 4094, 4095] ∧
    ((Policy.writeMemory 32
        (Policy.new (AddressHasher.mk (LinearCongruentialGenerator.mk 0) [])
          (PolicyParams.mk 5000 Verbosity.SILENT false false 4096) [])
        X86SegmentRegister.x86_segreg_ss (ValueType.number 32 (4096 - 4))
        (ValueType.number 32 7) HAS_BEEN_WRITTEN).2).state.data_cells = [] ∧
    (((Policy.writeMemory 32
        (Policy.new (AddressHasher.mk (LinearCongruentialGenerator.mk 0) [])
          (PolicyParams.mk 5000 Verbosity.SILENT false false 4096) [])
        X86SegmentRegister.x86_segreg_ss (ValueType.number 32 (4096 - 4))
        (ValueType.number 32 7) HAS_BEEN_WRITTEN).2).state.register_rw_state.gpr x86_gpr_ax).state =
      NO_ACCESS ∧
    ((Policy.writeMemory 32
        (Policy.new (AddressHasher.mk (LinearCongruentialGenerator.mk 0) [])
          (PolicyParams.mk 5000 Verbosity.SILENT false false 4096) [])
        X86SegmentRegister.x86_segreg_ss (ValueType.number 32 (4096 - 4))
        (ValueType.number 32 7) HAS_BEEN_WRITTEN).2).state.output_group.values = ∅ := by
  decide


/-- C3 on a concrete run: a byte `0xAA` written through DS at address 1 has mask WRITTEN
and is an output; a following `readMemory<16>(DS, 0)`, which finds address 0
uninitialized, rewrites both cells from the consumed input `0x1234`, leaving the cell
at address 1 with value `0x12` and mask READ only. The written byte is no longer an
output. -/
theorem written_mask_lost_by_overlapping_read :
    ((Policy.writeMemory 8
        { Policy.new (AddressHasher.mk (LinearCongruentialGenerator.mk 0) []) PolicyParams.new [] with
          inputs := some (InputGroup.mk [0x1234] [] 0 0 false) }
        X86SegmentRegister.x86_segreg_ds (ValueType.number 32 1) (ValueType.number 8 0xAA)
        HAS_BEEN_WRITTEN).2.state.cells X86SegmentRegister.x86_segreg_ds).find 1 =
      some (MemoryValue.mk (ValueType.number 8 0xAA) HAS_BEEN_WRITTEN) ∧
    (Policy.readMemory 16
        (Policy.writeMemory 8
          { Policy.new (AddressHasher.mk (LinearCongruentialGenerator.mk 0) []) PolicyParams.new [] with
            inputs := some (InputGroup.mk [0x1234] [] 0 0 false) }
          X86SegmentRegister.x86_segreg_ds (ValueType.number 32 1) (ValueType.number 8 0xAA)
          HAS_BEEN_WRITTEN).2
        X86SegmentRegister.x86_segreg_ds (ValueType.number 32 0) (fun _ => 0)).1 =
      Except.ok (ValueType.number 16 0x1234) ∧
    ((Policy.readMemory 16
        (Policy.writeMemory 8
          { Policy.new (AddressHasher.mk (LinearCongruentialGenerator.mk 0) []) PolicyParams.new [] with
            inputs := some (InputGroup.mk [0x1234] [] 0 0 false) }
          X86SegmentRegister.x86_segreg_ds (ValueType.number 32 1) (ValueType.number 8 0xAA)
          HAS_BEEN_WRITTEN).2
        X86SegmentRegister.x86_segreg_ds (ValueType.number 32 0) (fun _ => 0)).2.state.cells
          X86SegmentRegister.x86_segreg_ds).find 1 =
      some (MemoryValue.mk (ValueType.number 8 0x12) HAS_BEEN_READ) ∧
    HAS_BEEN_READ &&& HAS_BEEN_WRITTEN = 0 ∧
    (Policy.writeMemory 8
        { Policy.new (AddressHasher.mk (LinearCongruentialGenerator.mk 0) []) PolicyParams.new [] with
          inputs := some (InputGroup.mk [0x1234] [] 0 0 false) }
        X86SegmentRegister.x86_segreg_ds (ValueType.number 32 1) (ValueType.number 8 0xAA)
        HAS_BEEN_WRITTEN).2.get_outputs.values = {0xAA} ∧
    (Policy.readMemory 16
        (Policy.writeMemory 8
          { Policy.new (AddressHasher.mk (LinearCongruentialGenerator.mk 0) []) PolicyParams.new [] with
            inputs := some (InputGroup.mk [0x1234] [] 0 0 false) }
          X86SegmentRegister.x86_segreg_ds (ValueType.number 32 1) (ValueType.number 8 0xAA)
          HAS_BEEN_WRITTEN).2
        X86SegmentRegister.x86_segreg_ds (ValueType.number 32 0) (fun _ => 0)).2.get_outputs.values =
      ∅ := by
  refine ⟨by decide, rfl, by decide, by decide, by decide, by decide⟩


theorem State.mem_read_byte_flag (s : State) (sr : X86SegmentRegister) (addr : ValueType 32)
    (rnd : Nat) (u : Bool) :
    (s.mem_read_byte sr addr rnd u).2 = (u || ((s.cells sr).find addr.known_value).isNone) := by
  rw [State.mem_read_byte_eq]
  cases (s.cells sr).find addr.known_value <;> simp

/-- A byte without a cell sets the `uninitialized_read` flag of `readMemory`. -/
theorem Policy.readMemory_dword_uninit (N : Nat) (hN : N = 8 ∨ N = 16 ∨ N = 32) (p : Policy)
    (sr : X86SegmentRegister) (a : Nat) (rnd : Nat → Nat)
    (hmiss : ∃ i, i < N / 8 ∧ (p.state.cells sr).find ((a + i) % 2 ^ 32) = none) :
    (Policy.readMemory_dword N p sr (ValueType.number 32 a) rnd).2 = true := by
  obtain ⟨i, hi, hf⟩ := hmiss
  simp only [Nat.reducePow] at hf
  rcases hN with h | h | h <;> subst h
  · have hi0 : i = 0 := by omega
    subst hi0
    unfold Policy.readMemory_dword
    simp only [State.mem_read_byte_flag, ValueType.known_value_number]
    simp only [Nat.add_zero] at hf
    simp [hf]
  · unfold Policy.readMemory_dword
    simp only [State.mem_read_byte_flag, ValueType.known_value_number,
      ValueType.known_value_add_number]
    have hi2 : i < 2 := by omega
    interval_cases i
    · simp only [Nat.add_zero] at hf
      simp [hf]
    · simp [hf]
  · unfold Policy.readMemory_dword
    simp only [State.mem_read_byte_flag, ValueType.known_value_number,
      ValueType.known_value_add_number]
    have hi4 : i < 4 := by omega
    interval_cases i
    · simp only [Nat.add_zero] at hf
      simp [hf]
    · simp [hf]
    · simp [hf]
    · simp [hf]

theorem Policy.eta_inputs (p : Policy) (g : InputGroup) (h : p.inputs = some g) :
    { p with inputs := some g } = p := by
  cases p
  simp only at h
  subst h
  rfl

/-- What `next_input_value` does: it throws INPUT_LIMIT, leaving the policy unchanged, only
in limit mode; otherwise it returns a known value and changes nothing but the input
group. -/
theorem Policy.next_input_value_cases (N : Nat) (type : InputGroup.Type_) (p : Policy) :
    (Policy.next_input_value N type p =
        (Except.error (Thrown.FaultException AnalysisFault.INPUT_LIMIT), p) ∧
      ∃ g, p.inputs = some g ∧ g.limit_consumption_ = true) ∨
    (∃ (w : Nat) (p1 : Policy), Policy.next_input_value N type p =
        (Except.ok (ValueType.number N w), p1) ∧
      p1.state = p.state ∧ p1.cur_insn = p.cur_insn ∧ p1.params = p.params) := by
  unfold Policy.next_input_value
  cases hin : p.inputs with
  | none => exact Or.inr ⟨0, p, rfl, rfl, rfl, rfl⟩
  | some g =>
    have hint := InputGroup.throws_iff g
    cases type with
    | POINTER =>
      simp only
      cases hr : g.next_pointer with
      | mk r g' =>
        cases r with
        | error e =>
          have h1 := hint.2.2 e (by rw [hr])
          rw [hr] at h1
          have hl := (hint.2.1.mp (by rw [hr, h1.1])).1
          simp only at h1
          refine Or.inl ⟨?_, g, rfl, hl⟩
          rw [h1.1, h1.2]
          simp only [Policy.eta_inputs p g hin]
        | ok value => exact Or.inr ⟨value, _, rfl, rfl, rfl, rfl⟩
    | INTEGER =>
      simp only
      cases hr : g.next_integer with
      | mk r g' =>
        cases r with
        | error e =>
          have h1 := hint.1.2 e (by rw [hr])
          rw [hr] at h1
          have hl := (hint.1.1.mp (by rw [hr, h1.1])).1
          simp only at h1
          refine Or.inl ⟨?_, g, rfl, hl⟩
          rw [h1.1, h1.2]
          simp only [Policy.eta_inputs p g hin]
        | ok value => exact Or.inr ⟨value, _, rfl, rfl, rfl, rfl⟩
    | UNKNOWN_TYPE =>
      simp only
      cases hr : g.next_integer with
      | mk r g' =>
        cases r with
        | error e =>
          have h1 := hint.1.2 e (by rw [hr])
          rw [hr] at h1
          have hl := (hint.1.1.mp (by rw [hr, h1.1])).1
          simp only at h1
          refine Or.inl ⟨?_, g, rfl, hl⟩
          rw [h1.1, h1.2]
          simp only [Policy.eta_inputs p g hin]
        | ok value => exact Or.inr ⟨value, _, rfl, rfl, rfl, rfl⟩


theorem Policy.reads_return_address_congr (N : Nat) (p q : Policy) (a0 : ValueType 32)
    (h1 : q.cur_insn = p.cur_insn) (h2 : q.params = p.params) :
    Policy.reads_return_address N q a0 = Policy.reads_return_address N p a0 := by
  unfold Policy.reads_return_address
  rw [h1, h2]

/-- The value `readMemory` materialises for an uninitialized read: an input, or the
address hash. Either INPUT_LIMIT is thrown with the policy unchanged (limit mode only),
or a known value comes back and only the input group has changed. -/
theorem Policy.materialise_cases (N : Nat) (p : Policy) (a0 : ValueType 32) :
    ((if Policy.consume_input p a0 = true then
          Policy.next_input_value N (Policy.input_type p a0) p
        else (Except.ok (ValueType.number N (p.address_hasher.hash a0.known_value)), p)) =
        (Except.error (Thrown.FaultException AnalysisFault.INPUT_LIMIT), p) ∧
      ∃ g, p.inputs = some g ∧ g.limit_consumption_ = true) ∨
    (∃ (w : Nat) (p1 : Policy),
      (if Policy.consume_input p a0 = true then
          Policy.next_input_value N (Policy.input_type p a0) p
        else (Except.ok (ValueType.number N (p.address_hasher.hash a0.known_value)), p)) =
        (Except.ok (ValueType.number N w), p1) ∧
      p1.state = p.state ∧ p1.cur_insn = p.cur_insn ∧ p1.params = p.params) := by
  by_cases hc : Policy.consume_input p a0 = true
  · simp only [hc, if_true]
    exact Policy.next_input_value_cases N _ p
  · simp only [hc, if_false]
    exact Or.inr ⟨_, p, rfl, rfl, rfl, rfl⟩

/-- C4: read-back stability. When `readMemory<N>(sr, a)`, `N` in {8, 16, 32}, looks at memory
(the RET shortcut is not taken) and finds one of its `N/8` bytes without a cell, then
either it returns a known value `v`, has written `v` back to all `N/8` cells
little-endian with mask READ (which has no WRITTEN bit), and an immediately following
`readMemory<N>(sr, a)` returns the same `v` and leaves the policy, its input cursors
included, unchanged; or, in limit mode only, it throws INPUT_LIMIT and changes
nothing. -/
theorem read_back_stability (N : Nat) (hN : N = 8 ∨ N = 16 ∨ N = 32) (p : Policy)
    (sr : X86SegmentRegister) (a : Nat) (rnd rnd' : Nat → Nat)
    (hnr : Policy.reads_return_address N p (ValueType.number 32 a) = false)
    (hmiss : ∃ i, i < N / 8 ∧ (p.state.cells sr).find ((a + i) % 2 ^ 32) = none) :
    (∃ (v : Nat) (hv : v < 2 ^ N) (p' : Policy),
      Policy.readMemory N p sr (ValueType.number 32 a) rnd = (Except.ok (ValueType.known v hv), p') ∧
      Policy.holds_bytes N p' sr a (ValueType.known v hv) HAS_BEEN_READ ∧
      HAS_BEEN_READ &&& HAS_BEEN_WRITTEN = 0 ∧
      Policy.readMemory N p' sr (ValueType.number 32 a) rnd' =
        (Except.ok (ValueType.known v hv), p')) ∨
    (Policy.readMemory N p sr (ValueType.number 32 a) rnd =
        (Except.error (Thrown.FaultException AnalysisFault.INPUT_LIMIT), p) ∧
      ∃ g, p.inputs = some g ∧ g.limit_consumption_ = true) := by
  have hu := Policy.readMemory_dword_uninit N hN p sr a rnd hmiss
  have hN' : (8 = N ∨ 16 = N ∨ 32 = N) := by omega
  have h1 : Policy.readMemory N p sr (ValueType.number 32 a) rnd =
      Policy.andThen
        (if Policy.consume_input p (ValueType.number 32 a) = true then
          Policy.next_input_value N (Policy.input_type p (ValueType.number 32 a)) p
        else (Except.ok (ValueType.number N
          (p.address_hasher.hash (ValueType.number 32 a).known_value)), p))
        (fun retval p1 =>
          Policy.andThen (Policy.writeMemory N p1 sr (ValueType.number 32 a) retval HAS_BEEN_READ)
            (fun _ p2 => (Except.ok retval, p2))) := by
    unfold Policy.readMemory
    simp only [hnr, hN', hu, not_true_eq_false, if_false, if_true, Bool.false_eq_true]
  rw [h1]
  rcases Policy.materialise_cases N p (ValueType.number 32 a) with ⟨he, hg⟩ | ⟨w, p1, hok, hs, hci, hpar⟩
  · right
    rw [he]
    exact ⟨rfl, hg⟩
  · left
    rw [hok]
    have hw : Policy.writeMemory N p1 sr (ValueType.number 32 a) (ValueType.number N w) HAS_BEEN_READ =
        (Except.ok (),
          (Policy.writeMemory N p1 sr (ValueType.number 32 a) (ValueType.number N w)
            HAS_BEEN_READ).2) :=
      Prod.ext (Policy.writeMemory_ok N hN p1 sr _ _ _) rfl
    have hfr := Policy.writeMemory_frame N p1 sr (ValueType.number 32 a) (ValueType.number N w)
      HAS_BEEN_READ
    have hb := Policy.holds_bytes_writeMemory N hN p1 sr a (ValueType.number N w) HAS_BEEN_READ
    refine ⟨w % 2 ^ N, Nat.mod_lt w (Nat.pos_pow_of_pos N (by decide)), _, ?_, hb, by decide, ?_⟩
    · simp only [Policy.andThen]
      rw [hw]
      rfl
    · apply Policy.readMemory_of_holds N hN _ sr a (w % 2 ^ N) HAS_BEEN_READ _ rnd' _ hb
      rw [Policy.reads_return_address_congr N p _ _
        (hfr.2.2.2.2.2.2.2.2.1.trans hci) (hfr.2.2.2.2.2.2.1.trans hpar)]
      exact hnr

/-- Witness for C4: a 32-bit read through DS at `0x2000` in a fresh policy whose input
group holds `0xCAFEBABE`. -/
theorem read_back_stability_witness :
    (∃ (v : Nat) (hv : v < 2 ^ 32) (p' : Policy),
      Policy.readMemory 32
          { Policy.new (AddressHasher.mk (LinearCongruentialGenerator.mk 0) []) PolicyParams.new [] with
            inputs := some (InputGroup.mk [0xCAFEBABE] [] 0 0 false) }
          X86SegmentRegister.x86_segreg_ds (ValueType.number 32 0x2000) (fun _ => 0) =
        (Except.ok (ValueType.known v hv), p') ∧
      Policy.holds_bytes 32 p' X86SegmentRegister.x86_segreg_ds 0x2000 (ValueType.known v hv)
        HAS_BEEN_READ ∧
      HAS_BEEN_READ &&& HAS_BEEN_WRITTEN = 0 ∧
      Policy.readMemory 32 p' X86SegmentRegister.x86_segreg_ds (ValueType.number 32 0x2000)
          (fun _ => 1) =
        (Except.ok (ValueType.known v hv), p')) ∨
    (Policy.readMemory 32
        { Policy.new (AddressHasher.mk (LinearCongruentialGenerator.mk 0) []) PolicyParams.new [] with
          inputs := some (InputGroup.mk [0xCAFEBABE] [] 0 0 false) }
        X86SegmentRegister.x86_segreg_ds (ValueType.number 32 0x2000) (fun _ => 0) =
      (Except.error (Thrown.FaultException AnalysisFault.INPUT_LIMIT),
        { Policy.new (AddressHasher.mk (LinearCongruentialGenerator.mk 0) []) PolicyParams.new [] with
          inputs := some (InputGroup.mk [0xCAFEBABE] [] 0 0 false) }) ∧
      ∃ g,
        ({ Policy.new (AddressHasher.mk (LinearCongruentialGenerator.mk 0) []) PolicyParams.new [] with
          inputs := some (InputGroup.mk [0xCAFEBABE] [] 0 0 false) } : Policy).inputs = some g ∧
        g.limit_consumption_ = true) :=
  read_back_stability 32 (Or.inr (Or.inr rfl))
    { Policy.new (AddressHasher.mk (LinearCongruentialGenerator.mk 0) []) PolicyParams.new [] with
      inputs := some (InputGroup.mk [0xCAFEBABE] [] 0 0 false) }
    X86SegmentRegister.x86_segreg_ds 0x2000 (fun _ => 0) (fun _ => 1) rfl ⟨0, by decide, rfl⟩


/-! ## Registers and reset -/

theorem ValueType.signExtend_self (v : ValueType 32) : ValueType.signExtend 32 v = v := by
  cases v with
  | unknown => rfl
  | known x h =>
    unfold ValueType.signExtend
    simp only [Nat.reduceEqDiff, if_false, Nat.sub_self, Nat.add_zero, ite_self, ValueType.number]
    exact ValueType.known_congr _ _ (Nat.mod_eq_of_lt h)

theorem ValueType.unsignedExtend_self (v : ValueType 32) : ValueType.unsignedExtend 32 v = v := by
  cases v with
  | unknown => rfl
  | known x h =>
    unfold ValueType.unsignedExtend ValueType.number
    exact ValueType.known_congr _ _ (Nat.mod_eq_of_lt h)

theorem Policy.writeRegisterNamed_eip (p : Policy) (v : ValueType 32) :
    Policy.writeRegisterNamed p "eip" v =
      (Except.ok (), Policy.or_ip_rw (Policy.set_ip p v) HAS_BEEN_WRITTEN) := by
  have hf : Policy.findRegister "eip" 32 =
      Except.ok (RegisterDescriptor.mk X86RegisterClass.x86_regclass_ip 0 0 32) := by rfl
  unfold Policy.writeRegisterNamed
  rw [hf]
  simp [Policy.writeRegister, Policy.writeRegister32, ValueType.unsignedExtend_self]

theorem Policy.writeRegister_gpr32 (p : Policy) (i : Nat) (hi : i < 8) (v : ValueType 32) :
    Policy.writeRegister p (RegisterDescriptor.mk X86RegisterClass.x86_regclass_gpr i 0 32) v
        HAS_BEEN_WRITTEN =
      (Except.ok (), Policy.or_gpr_rw (Policy.set_gpr p i v) i HAS_BEEN_WRITTEN) := by
  have h8 : ¬ i ≥ 8 := by omega
  simp [Policy.writeRegister, Policy.writeRegister32, ValueType.signExtend_self, h8]

theorem Policy.writeRegisterNamed_gpr (p : Policy) (regname : String) (i : Nat) (hi : i < 8)
    (v : ValueType 32)
    (hf : Policy.findRegister regname 32 =
      Except.ok (RegisterDescriptor.mk X86RegisterClass.x86_regclass_gpr i 0 32)) :
    Policy.writeRegisterNamed p regname v =
      (Except.ok (), Policy.or_gpr_rw (Policy.set_gpr p i v) i HAS_BEEN_WRITTEN) := by
  unfold Policy.writeRegisterNamed
  rw [hf]
  exact Policy.writeRegister_gpr32 p i hi v

theorem Policy.reset_rval_eq (q : Policy) (g : InputGroup) (hg : q.inputs = some g)
    (hl : g.limit_consumption_ = false) :
    Policy.reset_rval q =
      (Except.ok (ValueType.number 32 (g.integers_.getD g.next_integer_ 0)),
        { q with inputs := some { g with next_integer_ := g.next_integer_ + 1 } }) := by
  unfold Policy.reset_rval
  rw [hg]
  simp only [InputGroup.next_integer_of_no_limit g hl]

/-- The register writes of `reset`, once the input group `g` is installed: the shared seed
is the next integer of `g`. -/
theorem Policy.reset_writes (step : Nat → Nat) (p : Policy) (interp : Option SgAsmInterpretation)
    (func : SgAsmFunction) (inputs : InputGroup) (insns : Option InstructionProvidor)
    (pointers : Option PointerDetector) (q : Policy) (g : InputGroup)
    (hq : Policy.reset_install step p interp inputs insns pointers = (Except.ok (), q))
    (hg : q.inputs = some g) (hl : g.limit_consumption_ = false) :
    Policy.reset step p interp func inputs insns pointers =
      (Except.ok (),
        Policy.or_gpr_rw (Policy.set_gpr
        (Policy.or_gpr_rw (Policy.set_gpr
        (Policy.or_gpr_rw (Policy.set_gpr
        (Policy.or_gpr_rw (Policy.set_gpr
        (Policy.or_gpr_rw (Policy.set_gpr
        (Policy.or_gpr_rw (Policy.set_gpr
          { (Policy.or_gpr_rw (Policy.set_gpr
            (Policy.or_gpr_rw (Policy.set_gpr
            (Policy.or_ip_rw (Policy.set_ip q (ValueType.number 32 func.entry_va)) HAS_BEEN_WRITTEN)
            x86_gpr_sp (ValueType.number 32 q.params.initial_stack)) x86_gpr_sp HAS_BEEN_WRITTEN)
            x86_gpr_bp (ValueType.number 32 q.params.initial_stack)) x86_gpr_bp HAS_BEEN_WRITTEN) with
            inputs := some { g with next_integer_ := g.next_integer_ + 1 } }
        x86_gpr_bx (ValueType.number 32 (g.integers_.getD g.next_integer_ 0))) x86_gpr_bx HAS_BEEN_WRITTEN)
        x86_gpr_si (ValueType.number 32 (g.integers_.getD g.next_integer_ 0))) x86_gpr_si HAS_BEEN_WRITTEN)
        x86_gpr_di (ValueType.number 32 (g.integers_.getD g.next_integer_ 0))) x86_gpr_di HAS_BEEN_WRITTEN)
        x86_gpr_ax (ValueType.number 32 (g.integers_.getD g.next_integer_ 0))) x86_gpr_ax HAS_BEEN_WRITTEN)
        x86_gpr_cx (ValueType.number 32 (g.integers_.getD g.next_integer_ 0))) x86_gpr_cx HAS_BEEN_WRITTEN)
        x86_gpr_dx (ValueType.number 32 (g.integers_.getD g.next_integer_ 0))) x86_gpr_dx HAS_BEEN_WRITTEN) := by
  have step1 : ∀ (r : Policy) (f : Unit → Policy → Outcome Unit),
      Policy.andThen (Except.ok (), r) f = f () r := fun _ _ => rfl
  have step2 : ∀ (v : ValueType 32) (r : Policy) (f : ValueType 32 → Policy → Outcome Unit),
      Policy.andThen (Except.ok v, r) f = f v r := fun _ _ _ => rfl
  have i1 : ∀ (r : Policy) (i : Nat) (v : ValueType 32), (Policy.set_gpr r i v).inputs = r.inputs :=
    fun _ _ _ => rfl
  have i2 : ∀ (r : Policy) (i b : Nat), (Policy.or_gpr_rw r i b).inputs = r.inputs :=
    fun _ _ _ => rfl
  have i3 : ∀ (r : Policy) (v : ValueType 32), (Policy.set_ip r v).inputs = r.inputs :=
    fun _ _ => rfl
  have i4 : ∀ (r : Policy) (b : Nat), (Policy.or_ip_rw r b).inputs = r.inputs := fun _ _ => rfl
  have k1 : ∀ (r : Policy) (i : Nat) (v : ValueType 32), (Policy.set_gpr r i v).params = r.params :=
    fun _ _ _ => rfl
  have k2 : ∀ (r : Policy) (i b : Nat), (Policy.or_gpr_rw r i b).params = r.params :=
    fun _ _ _ => rfl
  have k3 : ∀ (r : Policy) (v : ValueType 32), (Policy.set_ip r v).params = r.params :=
    fun _ _ => rfl
  have k4 : ∀ (r : Policy) (b : Nat), (Policy.or_ip_rw r b).params = r.params := fun _ _ => rfl
  have hrv : ∀ r : Policy, r.inputs = some g → Policy.reset_rval r =
      (Except.ok (ValueType.number 32 (g.integers_.getD g.next_integer_ 0)),
        { r with inputs := some { g with next_integer_ := g.next_integer_ + 1 } }) :=
    fun r h => Policy.reset_rval_eq r g h hl
  have w1 := fun (r : Policy) (v : ValueType 32) =>
    Policy.writeRegisterNamed_gpr r "esp" x86_gpr_sp (by decide) v rfl
  have w2 := fun (r : Policy) (v : ValueType 32) =>
    Policy.writeRegisterNamed_gpr r "ebp" x86_gpr_bp (by decide) v rfl
  have w3 := fun (r : Policy) (v : ValueType 32) =>
    Policy.writeRegisterNamed_gpr r "ebx" x86_gpr_bx (by decide) v rfl
  have w4 := fun (r : Policy) (v : ValueType 32) =>
    Policy.writeRegisterNamed_gpr r "esi" x86_gpr_si (by decide) v rfl
  have w5 := fun (r : Policy) (v : ValueType 32) =>
    Policy.writeRegisterNamed_gpr r "edi" x86_gpr_di (by decide) v rfl
  have w6 := fun (r : Policy) (v : ValueType 32) =>
    Policy.writeRegisterNamed_gpr r "eax" x86_gpr_ax (by decide) v rfl
  have w7 := fun (r : Policy) (v : ValueType 32) =>
    Policy.writeRegisterNamed_gpr r "ecx" x86_gpr_cx (by decide) v rfl
  have w8 := fun (r : Policy) (v : ValueType 32) =>
    Policy.writeRegisterNamed_gpr r "edx" x86_gpr_dx (by decide) v rfl
  unfold Policy.reset
  rw [hq]
  simp only [step1, step2, Policy.writeRegisterNamed_eip, w1, w2, w3, w4, w5, w6, w7, w8,
    i1, i2, i3, i4, k1, k2, k3, k4, hg, hrv]


theorem Policy.reset_install_eq (step : Nat → Nat) (p : Policy)
    (interp : Option SgAsmInterpretation) (inputs : InputGroup)
    (insns : Option InstructionProvidor) (pointers : Option PointerDetector)
    (hl : inputs.limit_consumption_ = false) :
    Policy.reset_install step p interp inputs insns pointers =
      (Except.ok (),
        { p with
          inputs := some { inputs.reset with
            next_integer_ := if p.params.init_memory = true then 1 else 0 },
          insns := insns, pointers := pointers, ninsns := 0, interp := interp,
          state := p.state.reset_for_analysis,
          address_hasher := if p.params.init_memory = true then
              AddressHasher.ofSeed step (inputs.integers_.getD 0 0)
            else p.address_hasher }) := by
  have hr : inputs.reset.limit_consumption_ = false := hl
  have hn := InputGroup.next_integer_of_no_limit inputs.reset hr
  simp only [InputGroup.reset] at hn
  unfold Policy.reset_install
  cases hm : p.params.init_memory with
  | false => simp [hm, InputGroup.reset]
  | true => simp [hm, hn, InputGroup.reset]

/-- C10: after `Policy::reset` with `limit_consumption` off, exactly 1 integer (2 when
`params.init_memory` is set, the first of which seeds the address hasher) and no
pointer has been consumed from the rewound input group; EBX, ESI, EDI, EAX, ECX and EDX
hold the low 32 bits of the same consumed integer (0 when the pool is exhausted);
ESP = EBP = `params.initial_stack`; EIP is the entry address; all nine registers have
access mask WRITTEN; both memory maps are empty; and `get_outputs()` right after the
reset returns exactly the one value, the EAX seed, with no fault and no instruction. -/
theorem reset_spec (step : Nat → Nat) (p : Policy) (interp : Option SgAsmInterpretation)
    (func : SgAsmFunction) (inputs : InputGroup) (insns : Option InstructionProvidor)
    (pointers : Option PointerDetector) (hl : inputs.limit_consumption_ = false) :
    (Policy.reset step p interp func inputs insns pointers).1 = Except.ok () ∧
    (∃ g, (Policy.reset step p interp func inputs insns pointers).2.inputs = some g ∧
      g.integers_consumed = (if p.params.init_memory = true then 2 else 1) ∧
      g.pointers_consumed = 0 ∧ g.integers_ = inputs.integers_ ∧ g.pointers_ = inputs.pointers_) ∧
    (Policy.reset step p interp func inputs insns pointers).2.address_hasher =
      (if p.params.init_memory = true then AddressHasher.ofSeed step (inputs.integers_.getD 0 0)
        else p.address_hasher) ∧
    (∀ i, i = x86_gpr_bx ∨ i = x86_gpr_si ∨ i = x86_gpr_di ∨ i = x86_gpr_ax ∨ i = x86_gpr_cx ∨
        i = x86_gpr_dx →
      (Policy.reset step p interp func inputs insns pointers).2.state.registers.gpr i =
        ValueType.number 32
          (inputs.integers_.getD (if p.params.init_memory = true then 1 else 0) 0)) ∧
    (Policy.reset step p interp func inputs insns pointers).2.state.registers.gpr x86_gpr_sp =
      ValueType.number 32 p.params.initial_stack ∧
    (Policy.reset step p interp func inputs insns pointers).2.state.registers.gpr x86_gpr_bp =
      ValueType.number 32 p.params.initial_stack ∧
    (Policy.reset step p interp func inputs insns pointers).2.state.registers.ip =
      ValueType.number 32 func.entry_va ∧
    (∀ i, i < 8 →
      ((Policy.reset step p interp func inputs insns pointers).2.state.register_rw_state.gpr i).state =
        HAS_BEEN_WRITTEN) ∧
    (Policy.reset step p interp func inputs insns pointers).2.state.register_rw_state.ip.state =
      HAS_BEEN_WRITTEN ∧
    (Policy.reset step p interp func inputs insns pointers).2.state.stack_cells = [] ∧
    (Policy.reset step p interp func inputs insns pointers).2.state.data_cells = [] ∧
    (Policy.reset step p interp func inputs insns pointers).2.get_outputs.values =
      {inputs.integers_.getD (if p.params.init_memory = true then 1 else 0) 0 % 2 ^ 32} ∧
    (Policy.reset step p interp func inputs insns pointers).2.get_outputs.fault =
      AnalysisFault.NONE ∧
    (Policy.reset step p interp func inputs insns pointers).2.get_outputs.ninsns = 0 := by
  have hg : inputs.reset.limit_consumption_ = false := hl
  rw [Policy.reset_writes step p interp func inputs insns pointers _ _
    (Policy.reset_install_eq step p interp inputs insns pointers hl) rfl hl]
  refine ⟨rfl, ?_, rfl, ?_, ?_, ?_, ?_, ?_, ?_, rfl, rfl, ?_, ?_, ?_⟩
  · refine ⟨_, rfl, ?_, rfl, rfl, rfl⟩
    cases p.params.init_memory <;> rfl
  · intro i hi
    rcases hi with h | h | h | h | h | h <;> subst h <;>
      simp [Policy.set_gpr, Policy.or_gpr_rw, Policy.set_ip, Policy.or_ip_rw, Function.update,
        InputGroup.reset]
  · simp [Policy.set_gpr, Policy.or_gpr_rw, Policy.set_ip, Policy.or_ip_rw, Function.update]
  · simp [Policy.set_gpr, Policy.or_gpr_rw, Policy.set_ip, Policy.or_ip_rw, Function.update]
  · simp [Policy.set_gpr, Policy.or_gpr_rw, Policy.set_ip, Policy.or_ip_rw, Function.update]
  · intro i hi
    interval_cases i <;>
      simp [Policy.set_gpr, Policy.or_gpr_rw, Policy.set_ip, Policy.or_ip_rw, Function.update,
        State.reset_for_analysis, RegisterStateX86.clear]
  · simp [Policy.set_gpr, Policy.or_gpr_rw, Policy.set_ip, Policy.or_ip_rw, Function.update,
      State.reset_for_analysis, RegisterStateX86.clear]
  · simp [Policy.get_outputs, State.get_outputs, Policy.set_gpr, Policy.or_gpr_rw, Policy.set_ip,
      Policy.or_ip_rw, Function.update, State.reset_for_analysis, RegisterStateX86.clear,
      OutputGroup.clear, OutputGroup.new, OutputGroup.add_value, ValueType.number,
      ValueType.is_known, ValueType.known_value, InputGroup.reset]
  · simp [Policy.get_outputs, State.get_outputs, Policy.set_gpr, Policy.or_gpr_rw, Policy.set_ip,
      Policy.or_ip_rw, Function.update, State.reset_for_analysis, RegisterStateX86.clear,
      OutputGroup.clear, OutputGroup.new, OutputGroup.add_value, ValueType.number,
      ValueType.is_known, ValueType.known_value, InputGroup.reset]
  · simp [Policy.get_outputs, State.get_outputs, Policy.set_gpr, Policy.or_gpr_rw, Policy.set_ip,
      Policy.or_ip_rw, Function.update, State.reset_for_analysis, RegisterStateX86.clear,
      OutputGroup.clear, OutputGroup.new, OutputGroup.add_value, ValueType.number,
      ValueType.is_known, ValueType.known_value, InputGroup.reset]

/-- Witness for C10: a reset with the default parameters on an input group left at cursors
5 and 3, whose first integer is `0x1122334455`. -/
theorem reset_spec_witness :
    (Policy.reset (fun x => x + 1)
        (Policy.new (AddressHasher.mk (LinearCongruentialGenerator.mk 0) []) PolicyParams.new [])
        none (SgAsmFunction.mk 0x1000 "f") (InputGroup.mk [0x1122334455, 7] [9] 5 3 false)
        none none).2.get_outputs.values = {0x22334455} ∧
    (Policy.reset (fun x => x + 1)
        (Policy.new (AddressHasher.mk (LinearCongruentialGenerator.mk 0) []) PolicyParams.new [])
        none (SgAsmFunction.mk 0x1000 "f") (InputGroup.mk [0x1122334455, 7] [9] 5 3 false)
        none none).2.state.registers.gpr x86_gpr_sp = ValueType.number 32 0x80000000 :=
  ⟨(reset_spec (fun x => x + 1)
      (Policy.new (AddressHasher.mk (LinearCongruentialGenerator.mk 0) []) PolicyParams.new [])
      none (SgAsmFunction.mk 0x1000 "f") (InputGroup.mk [0x1122334455, 7] [9] 5 3 false)
      none none rfl).2.2.2.2.2.2.2.2.2.2.2.1,
    (reset_spec (fun x => x + 1)
      (Policy.new (AddressHasher.mk (LinearCongruentialGenerator.mk 0) []) PolicyParams.new [])
      none (SgAsmFunction.mk 0x1000 "f") (InputGroup.mk [0x1122334455, 7] [9] 5 3 false)
      none none rfl).2.2.2.2.1⟩


/-! ## Byte reads, the two maps and the random source -/

/-- C19: `mem_read_byte(sr, a)` returns the byte of the cell at `a` in the map that `sr`
selects and passes the `uninitialized_read` flag through when that cell exists; when
there is none the flag comes back set (and the byte is `rand() % 256`). The function
yields the byte and the flag only: the state it reads is not part of its result, so no
cell is created or changed. Right after `mem_write_byte(sr, a, v)` it returns `v` with the
flag as it was. -/
theorem mem_read_byte_spec (s : State) (sr : X86SegmentRegister) (a : ValueType 32)
    (rnd : Nat) (flag : Bool) (v : ValueType 8) (rw_state : Nat) :
    (s.mem_read_byte sr a rnd flag =
      match (s.cells sr).find a.known_value with
      | some ci => (ci.val, flag)
      | none => (ValueType.number 8 (rnd % 256), true)) ∧
    (s.mem_write_byte sr a v rw_state).mem_read_byte sr a rnd flag = (v, flag) := by
  refine ⟨State.mem_read_byte_eq s sr a rnd flag, ?_⟩
  rw [State.mem_read_byte_eq, State.find_mem_write_byte]
  simp

/-- C20: the stack map and the data map are disjoint. A byte write through SS leaves the
map of every other segment as it was, a byte write through a segment other than SS
leaves the stack map as it was (whatever the address), and all segments other than SS
select one map: a byte written through one of them at `a` is what a read through any
other of them at `a` returns. -/
theorem stack_and_data_maps_disjoint (s : State) (sr sr' : X86SegmentRegister)
    (a : ValueType 32) (v : ValueType 8) (rw_state : Nat) (rnd : Nat) (flag : Bool)
    (h : sr ≠ X86SegmentRegister.x86_segreg_ss) (h' : sr' ≠ X86SegmentRegister.x86_segreg_ss) :
    (s.mem_write_byte X86SegmentRegister.x86_segreg_ss a v rw_state).cells sr = s.cells sr ∧
    (s.mem_write_byte sr a v rw_state).cells X86SegmentRegister.x86_segreg_ss =
      s.cells X86SegmentRegister.x86_segreg_ss ∧
    s.cells sr = s.cells sr' ∧
    (s.mem_write_byte sr a v rw_state).mem_read_byte sr' a rnd flag = (v, flag) ∧
    (s.mem_write_byte X86SegmentRegister.x86_segreg_ss a v rw_state).mem_read_byte sr a rnd flag =
      s.mem_read_byte sr a rnd flag ∧
    (s.mem_write_byte sr a v rw_state).mem_read_byte X86SegmentRegister.x86_segreg_ss a rnd flag =
      s.mem_read_byte X86SegmentRegister.x86_segreg_ss a rnd flag := by
  have e : ¬ X86SegmentRegister.x86_segreg_ss = sr := fun x => h x.symm
  have e' : ¬ X86SegmentRegister.x86_segreg_ss = sr' := fun x => h' x.symm
  refine ⟨?_, ?_, ?_, ?_, ?_, ?_⟩
  · simp [State.mem_write_byte, State.cells, e]
  · simp [State.mem_write_byte, State.cells, e]
  · simp [State.cells, e, e']
  · rw [State.mem_read_byte_eq, State.find_mem_write_byte]
    simp [e, e']
  · rw [State.mem_read_byte_eq, State.mem_read_byte_eq, State.find_mem_write_byte]
    simp [e, State.cells]
  · rw [State.mem_read_byte_eq, State.mem_read_byte_eq, State.find_mem_write_byte]
    simp [e, State.cells]

/-- Witness for C20: a byte written through DS at address 16 is read back through ES, and
the stack map does not see it. -/
theorem stack_and_data_maps_disjoint_witness :
    ((State.new.mem_write_byte X86SegmentRegister.x86_segreg_ds (ValueType.number 32 16)
        (ValueType.number 8 7) HAS_BEEN_WRITTEN).mem_read_byte
        X86SegmentRegister.x86_segreg_es (ValueType.number 32 16) 0 false =
      (ValueType.number 8 7, false)) ∧
    (State.new.mem_write_byte X86SegmentRegister.x86_segreg_ds (ValueType.number 32 16)
        (ValueType.number 8 7) HAS_BEEN_WRITTEN).cells X86SegmentRegister.x86_segreg_ss = [] :=
  ⟨(stack_and_data_maps_disjoint State.new X86SegmentRegister.x86_segreg_ds
      X86SegmentRegister.x86_segreg_es (ValueType.number 32 16) (ValueType.number 8 7)
      HAS_BEEN_WRITTEN 0 false (by decide) (by decide)).2.2.2.1,
   by decide⟩

theorem Policy.readMemory_dword_rand (N : Nat) (p : Policy) (sr : X86SegmentRegister)
    (a0 : ValueType 32) (rnd rnd' : Nat → Nat) :
    (Policy.readMemory_dword N p sr a0 rnd).2 = (Policy.readMemory_dword N p sr a0 rnd').2 ∧
    ((Policy.readMemory_dword N p sr a0 rnd).2 = false →
      (Policy.readMemory_dword N p sr a0 rnd).1 = (Policy.readMemory_dword N p sr a0 rnd').1) := by
  unfold Policy.readMemory_dword
  simp only [State.mem_read_byte_eq]
  cases (p.state.cells sr).find a0.known_value <;>
  cases (p.state.cells sr).find (ValueType.add a0 (ValueType.number 32 1)).known_value <;>
  cases (p.state.cells sr).find (ValueType.add a0 (ValueType.number 32 2)).known_value <;>
  cases (p.state.cells sr).find (ValueType.add a0 (ValueType.number 32 3)).known_value <;>
  by_cases h16 : N ≥ 16 <;> by_cases h24 : N ≥ 24 <;> by_cases h32 : N ≥ 32 <;>
  simp [h16, h24, h32]

/-- C18: `readMemory` does not depend on the random source. For every policy (state,
input group, pointer oracle, parameters), segment, address and width, the value returned
or the exception thrown and the whole policy afterwards (memory maps, registers, access
masks, input cursors) are the same for any two streams of `rand()` results used by the
byte reads. -/
theorem readMemory_ignores_rand (nBits : Nat) (p : Policy) (sr : X86SegmentRegister)
    (a0 : ValueType 32) (rnd rnd' : Nat → Nat) :
    Policy.readMemory nBits p sr a0 rnd = Policy.readMemory nBits p sr a0 rnd' := by
  obtain ⟨h2, h1⟩ := Policy.readMemory_dword_rand nBits p sr a0 rnd rnd'
  unfold Policy.readMemory
  cases hf : (Policy.readMemory_dword nBits p sr a0 rnd).2
  · have h3 := h1 hf
    rw [hf] at h2
    simp only [hf, ← h2, h3]
  · rw [hf] at h2
    simp only [hf, ← h2, if_true]


/-! ## Inputs that are delivered -/

theorem InputGroup.next_integer_ok (g : InputGroup)
    (h : g.limit_consumption_ = false ∨ g.next_integer_ < g.integers_.length) :
    g.next_integer =
      (Except.ok (g.integers_.getD g.next_integer_ 0),
        { g with next_integer_ := g.next_integer_ + 1 }) := by
  rcases h with h | h
  · exact InputGroup.next_integer_of_no_limit g h
  · unfold InputGroup.next_integer
    have h' : ¬ g.integers_.length ≤ g.next_integer_ := Nat.not_le.mpr h
    simp [h, h']

theorem InputGroup.next_pointer_ok (g : InputGroup)
    (h : g.limit_consumption_ = false ∨ g.next_pointer_ < g.pointers_.length) :
    g.next_pointer =
      (Except.ok (g.pointers_.getD g.next_pointer_ 0),
        { g with next_pointer_ := g.next_pointer_ + 1 }) := by
  rcases h with h | h
  · exact InputGroup.next_pointer_of_no_limit g h
  · unfold InputGroup.next_pointer
    have h' : ¬ g.pointers_.length ≤ g.next_pointer_ := Nat.not_le.mpr h
    simp [h, h']

theorem Policy.next_input_value_integer (N : Nat) (type : InputGroup.Type_)
    (ht : type ≠ InputGroup.Type_.POINTER) (p : Policy) (g : InputGroup) (hg : p.inputs = some g)
    (h : g.limit_consumption_ = false ∨ g.next_integer_ < g.integers_.length) :
    Policy.next_input_value N type p =
      (Except.ok (ValueType.number N (g.integers_.getD g.next_integer_ 0)),
        { p with inputs := some { g with next_integer_ := g.next_integer_ + 1 } }) := by
  unfold Policy.next_input_value
  rw [hg]
  cases type with
  | POINTER => exact absurd rfl ht
  | INTEGER => simp only [InputGroup.next_integer_ok g h]
  | UNKNOWN_TYPE => simp only [InputGroup.next_integer_ok g h]

theorem Policy.next_input_value_pointer (N : Nat) (p : Policy) (g : InputGroup)
    (hg : p.inputs = some g)
    (h : g.limit_consumption_ = false ∨ g.next_pointer_ < g.pointers_.length) :
    Policy.next_input_value N InputGroup.Type_.POINTER p =
      (Except.ok (ValueType.number N (g.pointers_.getD g.next_pointer_ 0)),
        { p with inputs := some { g with next_pointer_ := g.next_pointer_ + 1 } }) := by
  unfold Policy.next_input_value
  rw [hg]
  simp only [InputGroup.next_pointer_ok g h]

theorem Policy.next_input_value_limit (N : Nat) (type : InputGroup.Type_)
    (ht : type ≠ InputGroup.Type_.POINTER) (p : Policy) (g : InputGroup) (hg : p.inputs = some g)
    (h : g.limit_consumption_ = true ∧ g.integers_.length ≤ g.next_integer_) :
    Policy.next_input_value N type p =
      (Except.error (Thrown.FaultException AnalysisFault.INPUT_LIMIT), p) := by
  have hn : g.next_integer = (Except.error (Thrown.FaultException AnalysisFault.INPUT_LIMIT), g) := by
    unfold InputGroup.next_integer
    simp [h.1, h.2]
  unfold Policy.next_input_value
  rw [hg]
  cases type with
  | POINTER => exact absurd rfl ht
  | INTEGER => simp only [hn, Policy.eta_inputs p g hg]
  | UNKNOWN_TYPE => simp only [hn, Policy.eta_inputs p g hg]

/-! ## Interrupts -/

/-- C13: `interrupt(n)` throws the INTERRUPT fault exactly when `n` is not 0x80. When
`interrupt(0x80)` runs with an input group installed, either the group delivers its next
integer: then nothing is thrown, EAX holds the low 32 bits of that integer, WRITTEN is
set in the access mask of EAX, the integer cursor has advanced by one, the pointer cursor
and the pools are as before, and the output group (syscall list, values, fault and
instruction count) and everything else in the policy are unchanged; or the group is in
limit mode with its integers used up: then INPUT_LIMIT is thrown and the policy is
unchanged. -/
theorem interrupt_spec (p : Policy) (n : Fin 256) :
    ((Policy.interrupt p n).1 = Except.error (Thrown.FaultException AnalysisFault.INTERRUPT) ↔
      n.val ≠ 0x80) ∧
    (∀ g, n.val = 0x80 → p.inputs = some g →
      ((g.limit_consumption_ = false ∨ g.next_integer_ < g.integers_.length) ∧
        (Policy.interrupt p n).1 = Except.ok () ∧
        (Policy.interrupt p n).2.state.registers.gpr x86_gpr_ax =
          ValueType.number 32 (g.integers_.getD g.next_integer_ 0) ∧
        ((Policy.interrupt p n).2.state.register_rw_state.gpr x86_gpr_ax).state =
          (p.state.register_rw_state.gpr x86_gpr_ax).state ||| HAS_BEEN_WRITTEN ∧
        (Policy.interrupt p n).2.inputs =
          some { g with next_integer_ := g.next_integer_ + 1 } ∧
        (Policy.interrupt p n).2.state.output_group = p.state.output_group ∧
        (Policy.interrupt p n).2 =
          Policy.or_gpr_rw (Policy.set_gpr
            { p with inputs := some { g with next_integer_ := g.next_integer_ + 1 } }
            x86_gpr_ax (ValueType.number 32 (g.integers_.getD g.next_integer_ 0)))
            x86_gpr_ax HAS_BEEN_WRITTEN) ∨
      ((g.limit_consumption_ = true ∧ g.integers_.length ≤ g.next_integer_) ∧
        Policy.interrupt p n =
          (Except.error (Thrown.FaultException AnalysisFault.INPUT_LIMIT), p))) := by
  constructor
  · by_cases hn : n.val = 0x80
    · have hn' : (128 : Nat) = n.val := hn.symm
      simp only [hn, ne_eq, not_true_eq_false, iff_false]
      unfold Policy.interrupt
      simp only [hn', if_true]
      rcases Policy.next_input_value_cases 32 InputGroup.Type_.INTEGER p with ⟨h, _⟩ | ⟨w, p1, h, _⟩
      · rw [h]; simp [Policy.andThen]
      · rw [h]
        simp only [Policy.andThen]
        rw [Policy.writeRegisterNamed_gpr p1 "eax" x86_gpr_ax (by decide) _ rfl]
        simp
    · have hn' : ¬ (128 : Nat) = n.val := fun e => hn e.symm
      unfold Policy.interrupt
      simp [hn, hn']
  · intro g hn hg
    have hn' : (128 : Nat) = n.val := hn.symm
    by_cases hl : g.limit_consumption_ = false ∨ g.next_integer_ < g.integers_.length
    · left
      have e : Policy.interrupt p n =
          (Except.ok (), Policy.or_gpr_rw (Policy.set_gpr
            { p with inputs := some { g with next_integer_ := g.next_integer_ + 1 } }
            x86_gpr_ax (ValueType.number 32 (g.integers_.getD g.next_integer_ 0)))
            x86_gpr_ax HAS_BEEN_WRITTEN) := by
        unfold Policy.interrupt
        simp only [hn', if_true]
        rw [Policy.next_input_value_integer 32 _ (by decide) p g hg hl]
        simp only [Policy.andThen]
        rw [Policy.writeRegisterNamed_gpr _ "eax" x86_gpr_ax (by decide) _ rfl]
      rw [e]
      refine ⟨hl, rfl, ?_, ?_, rfl, rfl, rfl⟩
      · simp [Policy.or_gpr_rw, Policy.set_gpr]
      · simp [Policy.or_gpr_rw, Policy.set_gpr]
    · right
      have hl' : g.limit_consumption_ = true ∧ g.integers_.length ≤ g.next_integer_ := by
        constructor
        · cases hb : g.limit_consumption_ with
          | true => rfl
          | false => exact absurd (Or.inl hb) hl
        · exact Nat.le_of_not_lt (fun h => hl (Or.inr h))
      refine ⟨hl', ?_⟩
      unfold Policy.interrupt
      simp only [hn', if_true]
      rw [Policy.next_input_value_limit 32 _ (by decide) p g hg hl']
      rfl


/-- Witness for C13: with the integer pool `[0x1122334455]`, `interrupt(0x80)` returns
normally and leaves `0x22334455` in EAX. -/
theorem interrupt_spec_witness :
    (Policy.interrupt
        { Policy.new (AddressHasher.mk (LinearCongruentialGenerator.mk 0) []) PolicyParams.new [] with
          inputs := some (InputGroup.mk [0x1122334455] [] 0 0 true) } ⟨0x80, by decide⟩).1 =
      Except.ok () ∧
    (Policy.interrupt
        { Policy.new (AddressHasher.mk (LinearCongruentialGenerator.mk 0) []) PolicyParams.new [] with
          inputs := some (InputGroup.mk [0x1122334455] [] 0 0 true) }
        ⟨0x80, by decide⟩).2.state.registers.gpr x86_gpr_ax =
      ValueType.number 32 0x22334455 := by
  rcases (interrupt_spec
      { Policy.new (AddressHasher.mk (LinearCongruentialGenerator.mk 0) []) PolicyParams.new [] with
        inputs := some (InputGroup.mk [0x1122334455] [] 0 0 true) } ⟨0x80, by decide⟩).2
      (InputGroup.mk [0x1122334455] [] 0 0 true) rfl rfl with h | h
  · exact ⟨h.2.1, h.2.2.1.trans (by decide)⟩
  · exact absurd h.1.2 (by decide)

/-! ## The instruction budget -/

theorem Policy.startInstruction_limit (p : Policy) (insn_ : Option SgAsmx86Instruction)
    (h : p.ninsns + 1 ≥ p.params.timeout) :
    Policy.startInstruction p insn_ =
      (Except.error (Thrown.FaultException AnalysisFault.INSN_LIMIT),
        { p with ninsns := p.ninsns + 1 }) := by
  unfold Policy.startInstruction
  simp [h]

theorem Policy.startInstruction_ok (p : Policy) (insn : SgAsmx86Instruction)
    (h : p.ninsns + 1 < p.params.timeout) :
    Policy.startInstruction p (some insn) =
      (Except.ok (), Policy.Super_startInstruction
        (Policy.or_ip_rw (Policy.set_ip { p with ninsns := p.ninsns + 1 }
          (ValueType.number 32 insn.address)) HAS_BEEN_WRITTEN) insn) := by
  unfold Policy.startInstruction
  have h' : ¬ p.ninsns + 1 ≥ p.params.timeout := Nat.not_le.mpr h
  simp only [h', if_false]
  rw [Policy.writeRegisterNamed_eip]
  rfl

/-- When `startInstruction` throws INSN_LIMIT: exactly when the incremented counter has
reached `params.timeout` (is greater than or equal to it). -/
theorem Policy.startInstruction_throws_iff (p : Policy) (insn_ : Option SgAsmx86Instruction) :
    (Policy.startInstruction p insn_).1 =
        Except.error (Thrown.FaultException AnalysisFault.INSN_LIMIT) ↔
      p.ninsns + 1 ≥ p.params.timeout := by
  constructor
  · intro h
    by_contra hc
    have hlt : p.ninsns + 1 < p.params.timeout := Nat.lt_of_not_le hc
    cases insn_ with
    | none =>
      unfold Policy.startInstruction at h
      simp [hc] at h
    | some insn =>
      rw [Policy.startInstruction_ok p insn hlt] at h
      simp at h
  · intro h
    rw [Policy.startInstruction_limit p insn_ h]

theorem Policy.finishInstruction_plain (p : Policy) (insn : SgAsmx86Instruction)
    (hk : insn.kind ≠ X86InstructionKind.x86_call) :
    Policy.finishInstruction p (some insn) =
      (Except.ok (), Policy.Super_finishInstruction
        { p with
          state :=
            { p.state with
              output_group :=
                { p.state.output_group with ninsns := p.state.output_group.ninsns + 1 } } }
        insn) := by
  unfold Policy.finishInstruction
  have hk' : ¬ X86InstructionKind.x86_call = insn.kind := fun e => hk e.symm
  simp [hk', Policy.andThen]

/-- A run of instructions that are not calls: as long as the counter stays below the
timeout every instruction starts and finishes, and both counters advance by one each. -/
theorem Policy.run_insns_ok (insn : SgAsmx86Instruction)
    (hk : insn.kind ≠ X86InstructionKind.x86_call) (k : Nat) (p : Policy)
    (h : p.ninsns + k < p.params.timeout) :
    ∃ q, Policy.run_insns insn k p = (Except.ok (), q) ∧ q.ninsns = p.ninsns + k ∧
      q.state.output_group.ninsns = p.state.output_group.ninsns + k ∧ q.params = p.params := by
  induction k generalizing p with
  | zero => exact ⟨p, rfl, rfl, rfl, rfl⟩
  | succ k ih =>
    have h1 : p.ninsns + 1 < p.params.timeout := by omega
    unfold Policy.run_insns
    rw [Policy.startInstruction_ok p insn h1]
    simp only [Policy.andThen]
    rw [Policy.finishInstruction_plain _ insn hk]
    simp only []
    obtain ⟨q, e, a, b, c⟩ := ih (Policy.Super_finishInstruction
        { (Policy.Super_startInstruction
            (Policy.or_ip_rw (Policy.set_ip { p with ninsns := p.ninsns + 1 }
              (ValueType.number 32 insn.address)) HAS_BEEN_WRITTEN) insn) with
          state :=
            { (Policy.Super_startInstruction
                (Policy.or_ip_rw (Policy.set_ip { p with ninsns := p.ninsns + 1 }
                  (ValueType.number 32 insn.address)) HAS_BEEN_WRITTEN) insn).state with
              output_group :=
                { (Policy.Super_startInstruction
                    (Policy.or_ip_rw (Policy.set_ip { p with ninsns := p.ninsns + 1 }
                      (ValueType.number 32 insn.address)) HAS_BEEN_WRITTEN) insn).state.output_group with
                  ninsns := (Policy.Super_startInstruction
                    (Policy.or_ip_rw (Policy.set_ip { p with ninsns := p.ninsns + 1 }
                      (ValueType.number 32 insn.address)) HAS_BEEN_WRITTEN)
                    insn).state.output_group.ninsns + 1 } } } insn)
      (by simp [Policy.Super_finishInstruction, Policy.Super_startInstruction, Policy.or_ip_rw,
            Policy.set_ip]; omega)
    refine ⟨q, e, ?_, ?_, ?_⟩
    · rw [a]; simp [Policy.Super_finishInstruction, Policy.Super_startInstruction, Policy.or_ip_rw,
        Policy.set_ip]; omega
    · rw [b]; simp [Policy.Super_finishInstruction, Policy.Super_startInstruction, Policy.or_ip_rw,
        Policy.set_ip]; omega
    · rw [c]; simp [Policy.Super_finishInstruction, Policy.Super_startInstruction, Policy.or_ip_rw,
        Policy.set_ip]

theorem Policy.run_insns_add (insn : SgAsmx86Instruction) (k j : Nat) (p : Policy) :
    Policy.run_insns insn (k + j) p =
      Policy.andThen (Policy.run_insns insn k p) (fun _ q => Policy.run_insns insn j q) := by
  induction k generalizing p with
  | zero => simp [Policy.run_insns, Policy.andThen]
  | succ k ih =>
    rw [Nat.add_right_comm]
    have el : Policy.run_insns insn (k + j + 1) p =
        Policy.andThen (Policy.startInstruction p (some insn)) (fun _ p =>
          Policy.andThen (Policy.finishInstruction p (some insn)) (fun _ p =>
            Policy.run_insns insn (k + j) p)) := rfl
    have er : Policy.run_insns insn (k + 1) p =
        Policy.andThen (Policy.startInstruction p (some insn)) (fun _ p =>
          Policy.andThen (Policy.finishInstruction p (some insn)) (fun _ p =>
            Policy.run_insns insn k p)) := rfl
    rw [el, er]
    cases Policy.startInstruction p (some insn) with
    | mk r q =>
      cases r with
      | error e => rfl
      | ok u =>
        simp only [Policy.andThen]
        cases Policy.finishInstruction q (some insn) with
        | mk r2 q2 =>
          cases r2 with
          | error e => rfl
          | ok u2 =>
            simp only []
            exact ih q2

/-- The run that exhausts the budget: when the counter is `k + 1` short of the timeout, `k`
instructions start and finish and the next `startInstruction` throws INSN_LIMIT, so the
output group counts `k` instructions more. -/
theorem Policy.run_insns_limit (insn : SgAsmx86Instruction)
    (hk : insn.kind ≠ X86InstructionKind.x86_call) (k : Nat) (p : Policy)
    (h : p.ninsns + k + 1 = p.params.timeout) :
    ∃ q, Policy.run_insns insn (k + 1) p =
        (Except.error (Thrown.FaultException AnalysisFault.INSN_LIMIT), q) ∧
      q.ninsns = p.ninsns + k + 1 ∧
      q.state.output_group.ninsns = p.state.output_group.ninsns + k := by
  obtain ⟨q, e, a, b, c⟩ := Policy.run_insns_ok insn hk k p (by omega)
  rw [Policy.run_insns_add, e]
  simp only [Policy.andThen]
  unfold Policy.run_insns
  rw [Policy.startInstruction_limit q (some insn) (by rw [a, c]; omega)]
  exact ⟨_, rfl, by simp [a], by simp [b]⟩

/-- C11 at `timeout = 100`: from a counter of 0, a run of `JMP .` starts and finishes 99
instructions; the hundredth `startInstruction` increments the counter to 100, which is
not greater than the timeout, and throws INSN_LIMIT all the same. The output group then
counts 99 instructions, not 100. -/
theorem insn_limit_one_instruction_early :
    (Policy.run_insns ⟨0x1000, 2, X86InstructionKind.x86_other, none⟩ 99
        (Policy.new (AddressHasher.mk (LinearCongruentialGenerator.mk 0) [])
          { PolicyParams.new with timeout := 100 } [])).1 = Except.ok () ∧
    (Policy.run_insns ⟨0x1000, 2, X86InstructionKind.x86_other, none⟩ 100
        (Policy.new (AddressHasher.mk (LinearCongruentialGenerator.mk 0) [])
          { PolicyParams.new with timeout := 100 } [])).1 =
      Except.error (Thrown.FaultException AnalysisFault.INSN_LIMIT) ∧
    (Policy.run_insns ⟨0x1000, 2, X86InstructionKind.x86_other, none⟩ 100
        (Policy.new (AddressHasher.mk (LinearCongruentialGenerator.mk 0) [])
          { PolicyParams.new with timeout := 100 } [])).2.ninsns = 100 ∧
    ¬ (100 > (Policy.new (AddressHasher.mk (LinearCongruentialGenerator.mk 0) [])
          { PolicyParams.new with timeout := 100 } []).params.timeout) ∧
    (Policy.run_insns ⟨0x1000, 2, X86InstructionKind.x86_other, none⟩ 100
        (Policy.new (AddressHasher.mk (LinearCongruentialGenerator.mk 0) [])
          { PolicyParams.new with timeout := 100 } [])).2.state.output_group.ninsns = 99 := by
  obtain ⟨q, e, a, b⟩ := Policy.run_insns_limit ⟨0x1000, 2, X86InstructionKind.x86_other, none⟩
    (by decide) 99 (Policy.new (AddressHasher.mk (LinearCongruentialGenerator.mk 0) [])
          { PolicyParams.new with timeout := 100 } []) rfl
  obtain ⟨q', e', _⟩ := Policy.run_insns_ok ⟨0x1000, 2, X86InstructionKind.x86_other, none⟩
    (by decide) 99 (Policy.new (AddressHasher.mk (LinearCongruentialGenerator.mk 0) [])
          { PolicyParams.new with timeout := 100 } []) (by decide)
  rw [e, e']
  exact ⟨rfl, rfl, a, by decide, b⟩


/-! ## Register reads -/

theorem Policy.seed_register_skip {n : Nat} (p : Policy) (type : InputGroup.Type_)
    (store : Policy → ValueType n → Policy) :
    Policy.seed_register p false type store = (Except.ok (), p) := rfl

theorem Policy.seed_register_integer {n : Nat} (p : Policy) (type : InputGroup.Type_)
    (ht : type ≠ InputGroup.Type_.POINTER) (store : Policy → ValueType n → Policy)
    (g : InputGroup) (hg : p.inputs = some g)
    (h : g.limit_consumption_ = false ∨ g.next_integer_ < g.integers_.length) :
    Policy.seed_register p true type store =
      (Except.ok (), store { p with inputs := some { g with next_integer_ := g.next_integer_ + 1 } }
        (ValueType.number n (g.integers_.getD g.next_integer_ 0))) := by
  unfold Policy.seed_register
  simp only [if_true]
  rw [Policy.next_input_value_integer n type ht p g hg h]
  rfl

theorem Policy.seed_register_pointer {n : Nat} (p : Policy)
    (store : Policy → ValueType n → Policy)
    (g : InputGroup) (hg : p.inputs = some g)
    (h : g.limit_consumption_ = false ∨ g.next_pointer_ < g.pointers_.length) :
    Policy.seed_register p true InputGroup.Type_.POINTER store =
      (Except.ok (), store { p with inputs := some { g with next_pointer_ := g.next_pointer_ + 1 } }
        (ValueType.number n (g.pointers_.getD g.next_pointer_ 0))) := by
  unfold Policy.seed_register
  simp only [if_true]
  rw [Policy.next_input_value_pointer n p g hg h]
  rfl

theorem Policy.read_gpr_step_accessed (p : Policy) (i : Nat) (mark : Policy → Policy)
    (type : InputGroup.Type_) (h : (p.state.register_rw_state.gpr i).state ≠ NO_ACCESS) :
    Policy.read_gpr_step p i mark type = (Except.ok (), mark p) := by
  unfold Policy.read_gpr_step
  have h' : ¬ 0 = (p.state.register_rw_state.gpr i).state := fun e => h e.symm
  simp only [h', decide_False]
  rfl

theorem Policy.read_gpr_step_fresh (p : Policy) (i : Nat) (mark : Policy → Policy)
    (type : InputGroup.Type_) (ht : type ≠ InputGroup.Type_.POINTER)
    (h : (p.state.register_rw_state.gpr i).state = NO_ACCESS)
    (g : InputGroup) (hg : (mark p).inputs = some g)
    (hl : g.limit_consumption_ = false ∨ g.next_integer_ < g.integers_.length) :
    Policy.read_gpr_step p i mark type =
      (Except.ok (), Policy.set_gpr
        { mark p with inputs := some { g with next_integer_ := g.next_integer_ + 1 } } i
        (ValueType.number 32 (g.integers_.getD g.next_integer_ 0))) := by
  unfold Policy.read_gpr_step
  have hd : decide (0 = (p.state.register_rw_state.gpr i).state) = true := by
    rw [h]; rfl
  simp only [hd]
  exact Policy.seed_register_integer (mark p) type ht _ g hg hl

theorem Policy.read_ip_step_accessed (p : Policy) (type : InputGroup.Type_)
    (h : p.state.register_rw_state.ip.state ≠ NO_ACCESS) :
    Policy.read_ip_step p type = (Except.ok (), Policy.or_ip_rw p HAS_BEEN_READ) := by
  unfold Policy.read_ip_step
  have h' : ¬ 0 = p.state.register_rw_state.ip.state := fun e => h e.symm
  simp only [h', decide_False]
  rfl

theorem Policy.read_ip_step_fresh (p : Policy)
    (h : p.state.register_rw_state.ip.state = NO_ACCESS)
    (g : InputGroup) (hg : p.inputs = some g)
    (hl : g.limit_consumption_ = false ∨ g.next_pointer_ < g.pointers_.length) :
    Policy.read_ip_step p InputGroup.Type_.POINTER =
      (Except.ok (), Policy.set_ip
        { Policy.or_ip_rw p HAS_BEEN_READ with
          inputs := some { g with next_pointer_ := g.next_pointer_ + 1 } }
        (ValueType.number 32 (g.pointers_.getD g.next_pointer_ 0))) := by
  unfold Policy.read_ip_step
  have hd : decide (0 = p.state.register_rw_state.ip.state) = true := by
    rw [h]; rfl
  simp only [hd]
  exact Policy.seed_register_pointer (Policy.or_ip_rw p HAS_BEEN_READ) _ g hg hl

theorem Policy.readRegister32_gpr (p : Policy) (i nb : Nat) (hi : i < 8) :
    Policy.readRegister 32 p ⟨X86RegisterClass.x86_regclass_gpr, i, 0, nb⟩ =
      Policy.andThen (Policy.read_gpr_step p i (fun q => Policy.or_gpr_rw q i HAS_BEEN_READ)
          InputGroup.Type_.UNKNOWN_TYPE) (fun _ p =>
        (Except.ok (p.state.registers.gpr i), p)) := by
  have h8 : ¬ i ≥ 8 := by omega
  simp [Policy.readRegister, Policy.readRegister32, h8, ValueType.unsignedExtend_self]

theorem Policy.readRegister32_ip (p : Policy) (nb : Nat) :
    Policy.readRegister 32 p ⟨X86RegisterClass.x86_regclass_ip, 0, 0, nb⟩ =
      Policy.andThen (Policy.read_ip_step p InputGroup.Type_.POINTER) (fun _ p =>
        (Except.ok p.state.registers.ip, p)) := by
  simp [Policy.readRegister, Policy.readRegister32, ValueType.unsignedExtend_self]

theorem Policy.readRegister32_gpr_accessed (p : Policy) (i nb : Nat) (hi : i < 8)
    (h : (p.state.register_rw_state.gpr i).state ≠ NO_ACCESS) :
    Policy.readRegister 32 p ⟨X86RegisterClass.x86_regclass_gpr, i, 0, nb⟩ =
      (Except.ok (p.state.registers.gpr i), Policy.or_gpr_rw p i HAS_BEEN_READ) := by
  rw [Policy.readRegister32_gpr p i nb hi, Policy.read_gpr_step_accessed p i _ _ h]
  rfl

theorem Policy.readRegister32_ip_accessed (p : Policy) (nb : Nat)
    (h : p.state.register_rw_state.ip.state ≠ NO_ACCESS) :
    Policy.readRegister 32 p ⟨X86RegisterClass.x86_regclass_ip, 0, 0, nb⟩ =
      (Except.ok p.state.registers.ip, Policy.or_ip_rw p HAS_BEEN_READ) := by
  rw [Policy.readRegister32_ip p nb, Policy.read_ip_step_accessed p _ h]
  rfl

/-- Marking a register that is already marked as read, and nothing else, changes
nothing. -/
theorem Policy.or_gpr_rw_read_idem (p : Policy) (i : Nat)
    (h : (p.state.register_rw_state.gpr i).state = HAS_BEEN_READ) :
    Policy.or_gpr_rw p i HAS_BEEN_READ = p := by
  unfold Policy.or_gpr_rw
  have e : ReadWriteState.mk ((p.state.register_rw_state.gpr i).state ||| HAS_BEEN_READ) =
      p.state.register_rw_state.gpr i := by
    rw [h]
    cases hh : p.state.register_rw_state.gpr i with
    | mk s => rw [hh] at h; simp only at h; rw [h]; rfl
  rw [e, Function.update_eq_self]

theorem Policy.or_ip_rw_read_idem (p : Policy)
    (h : p.state.register_rw_state.ip.state = HAS_BEEN_READ) :
    Policy.or_ip_rw p HAS_BEEN_READ = p := by
  unfold Policy.or_ip_rw
  have e : ReadWriteState.mk (p.state.register_rw_state.ip.state ||| HAS_BEEN_READ) =
      p.state.register_rw_state.ip := by
    rw [h]
    cases hh : p.state.register_rw_state.ip with
    | mk s => rw [hh] at h; simp only at h; rw [h]; rfl
  rw [e]


/-- C14: 32-bit reads of a general-purpose register and of EIP, with an input group
installed. A general-purpose register whose access mask is NO_ACCESS takes the next value
of the integer pool (when the group delivers one): the read returns its low 32 bits, the
register holds them, the mask becomes READ (WRITTEN is not set), the integer cursor has
advanced by one and the pointer cursor has not moved. A never accessed EIP does the same
with the next value of the pointer pool. In both cases a second read returns the same
value and changes nothing at all. A read of a register whose mask is not NO_ACCESS
returns the register, sets READ and leaves the input group untouched. -/
theorem readRegister32_seeds_once (p : Policy) (g : InputGroup) (i nb : Nat) (hi : i < 8)
    (hg : p.inputs = some g) :
    ((p.state.register_rw_state.gpr i).state = NO_ACCESS →
      (g.limit_consumption_ = false ∨ g.next_integer_ < g.integers_.length) →
      ∃ q, Policy.readRegister 32 p ⟨X86RegisterClass.x86_regclass_gpr, i, 0, nb⟩ =
          (Except.ok (ValueType.number 32 (g.integers_.getD g.next_integer_ 0)), q) ∧
        q.state.registers.gpr i = ValueType.number 32 (g.integers_.getD g.next_integer_ 0) ∧
        (q.state.register_rw_state.gpr i).state = HAS_BEEN_READ ∧
        q.inputs = some { g with next_integer_ := g.next_integer_ + 1 } ∧
        Policy.readRegister 32 q ⟨X86RegisterClass.x86_regclass_gpr, i, 0, nb⟩ =
          (Except.ok (ValueType.number 32 (g.integers_.getD g.next_integer_ 0)), q)) ∧
    (p.state.register_rw_state.ip.state = NO_ACCESS →
      (g.limit_consumption_ = false ∨ g.next_pointer_ < g.pointers_.length) →
      ∃ q, Policy.readRegister 32 p ⟨X86RegisterClass.x86_regclass_ip, 0, 0, nb⟩ =
          (Except.ok (ValueType.number 32 (g.pointers_.getD g.next_pointer_ 0)), q) ∧
        q.state.registers.ip = ValueType.number 32 (g.pointers_.getD g.next_pointer_ 0) ∧
        q.state.register_rw_state.ip.state = HAS_BEEN_READ ∧
        q.inputs = some { g with next_pointer_ := g.next_pointer_ + 1 } ∧
        Policy.readRegister 32 q ⟨X86RegisterClass.x86_regclass_ip, 0, 0, nb⟩ =
          (Except.ok (ValueType.number 32 (g.pointers_.getD g.next_pointer_ 0)), q)) ∧
    ((p.state.register_rw_state.gpr i).state ≠ NO_ACCESS →
      Policy.readRegister 32 p ⟨X86RegisterClass.x86_regclass_gpr, i, 0, nb⟩ =
          (Except.ok (p.state.registers.gpr i), Policy.or_gpr_rw p i HAS_BEEN_READ) ∧
        (Policy.readRegister 32 p ⟨X86RegisterClass.x86_regclass_gpr, i, 0, nb⟩).2.inputs =
          p.inputs) ∧
    (p.state.register_rw_state.ip.state ≠ NO_ACCESS →
      Policy.readRegister 32 p ⟨X86RegisterClass.x86_regclass_ip, 0, 0, nb⟩ =
          (Except.ok p.state.registers.ip, Policy.or_ip_rw p HAS_BEEN_READ) ∧
        (Policy.readRegister 32 p ⟨X86RegisterClass.x86_regclass_ip, 0, 0, nb⟩).2.inputs =
          p.inputs) := by
  refine ⟨?_, ?_, ?_, ?_⟩
  · intro h0 hl
    have e1 : Policy.readRegister 32 p ⟨X86RegisterClass.x86_regclass_gpr, i, 0, nb⟩ =
        (Except.ok (ValueType.number 32 (g.integers_.getD g.next_integer_ 0)),
          Policy.set_gpr
            { Policy.or_gpr_rw p i HAS_BEEN_READ with
              inputs := some { g with next_integer_ := g.next_integer_ + 1 } } i
            (ValueType.number 32 (g.integers_.getD g.next_integer_ 0))) := by
      rw [Policy.readRegister32_gpr p i nb hi,
        Policy.read_gpr_step_fresh p i _ _ (by decide) h0 g hg hl]
      simp [Policy.andThen, Policy.set_gpr]
    have hm : ((Policy.set_gpr
            { Policy.or_gpr_rw p i HAS_BEEN_READ with
              inputs := some { g with next_integer_ := g.next_integer_ + 1 } } i
            (ValueType.number 32 (g.integers_.getD g.next_integer_ 0))).state.register_rw_state.gpr
              i).state = HAS_BEEN_READ := by
      simp [Policy.set_gpr, Policy.or_gpr_rw, h0]
    refine ⟨_, e1, ?_, hm, rfl, ?_⟩
    · simp [Policy.set_gpr]
    · rw [Policy.readRegister32_gpr_accessed _ i nb hi (by rw [hm]; decide),
        Policy.or_gpr_rw_read_idem _ i hm]
      simp [Policy.set_gpr]
  · intro h0 hl
    have e1 : Policy.readRegister 32 p ⟨X86RegisterClass.x86_regclass_ip, 0, 0, nb⟩ =
        (Except.ok (ValueType.number 32 (g.pointers_.getD g.next_pointer_ 0)),
          Policy.set_ip
            { Policy.or_ip_rw p HAS_BEEN_READ with
              inputs := some { g with next_pointer_ := g.next_pointer_ + 1 } }
            (ValueType.number 32 (g.pointers_.getD g.next_pointer_ 0))) := by
      rw [Policy.readRegister32_ip p nb, Policy.read_ip_step_fresh p h0 g hg hl]
      simp [Policy.andThen, Policy.set_ip]
    have hm : (Policy.set_ip
            { Policy.or_ip_rw p HAS_BEEN_READ with
              inputs := some { g with next_pointer_ := g.next_pointer_ + 1 } }
            (ValueType.number 32 (g.pointers_.getD g.next_pointer_ 0))).state.register_rw_state.ip.state
              = HAS_BEEN_READ := by
      simp [Policy.set_ip, Policy.or_ip_rw, h0]
    refine ⟨_, e1, ?_, hm, rfl, ?_⟩
    · simp [Policy.set_ip]
    · rw [Policy.readRegister32_ip_accessed _ nb (by rw [hm]; decide),
        Policy.or_ip_rw_read_idem _ hm]
      simp [Policy.set_ip]
  · intro h
    rw [Policy.readRegister32_gpr_accessed p i nb hi h]
    exact ⟨rfl, rfl⟩
  · intro h
    rw [Policy.readRegister32_ip_accessed p nb h]
    exact ⟨rfl, rfl⟩

/-- Witness for C14: on a fresh policy with integers `[0x1122334455, 7]`, the first 32-bit
read of ECX returns `0x22334455`. -/
theorem readRegister32_seeds_once_witness :
    ∃ q, Policy.readRegister 32
        { Policy.new (AddressHasher.mk (LinearCongruentialGenerator.mk 0) []) PolicyParams.new [] with
          inputs := some (InputGroup.mk [0x1122334455, 7] [9] 0 0 true) }
        ⟨X86RegisterClass.x86_regclass_gpr, x86_gpr_cx, 0, 32⟩ =
      (Except.ok (ValueType.number 32 0x22334455), q) ∧
      q.inputs = some (InputGroup.mk [0x1122334455, 7] [9] 1 0 true) := by
  obtain ⟨q, a, _, _, b, _⟩ := (readRegister32_seeds_once
      { Policy.new (AddressHasher.mk (LinearCongruentialGenerator.mk 0) []) PolicyParams.new [] with
        inputs := some (InputGroup.mk [0x1122334455, 7] [9] 0 0 true) }
      (InputGroup.mk [0x1122334455, 7] [9] 0 0 true) x86_gpr_cx 32 (by decide) rfl).1 rfl
      (Or.inr (by decide))
  exact ⟨q, a.trans (by simp [ValueType.number]), b⟩

/-- C15 on a concrete run: a fresh policy with integers `[0x11112222, 0x33334444]`. The
first `readRegister<16>` of AX returns `0x2222` and seeds EAX, but the mask it marks as
read is that of the segment register with the same index (ES); the mask of EAX stays
NO_ACCESS. The second `readRegister<16>` of AX, with no write in between, therefore seeds
EAX again: it returns `0x4444` and a second integer has been consumed. -/
theorem readRegister16_seeds_twice :
    (Policy.readRegister 16
        { Policy.new (AddressHasher.mk (LinearCongruentialGenerator.mk 0) []) PolicyParams.new [] with
          inputs := some (InputGroup.mk [0x11112222, 0x33334444] [] 0 0 false) }
        ⟨X86RegisterClass.x86_regclass_gpr, x86_gpr_ax, 0, 16⟩).1 =
      Except.ok (ValueType.number 16 0x2222) ∧
    ((Policy.readRegister 16
        { Policy.new (AddressHasher.mk (LinearCongruentialGenerator.mk 0) []) PolicyParams.new [] with
          inputs := some (InputGroup.mk [0x11112222, 0x33334444] [] 0 0 false) }
        ⟨X86RegisterClass.x86_regclass_gpr, x86_gpr_ax, 0, 16⟩).2.state.register_rw_state.gpr
          x86_gpr_ax).state = NO_ACCESS ∧
    ((Policy.readRegister 16
        { Policy.new (AddressHasher.mk (LinearCongruentialGenerator.mk 0) []) PolicyParams.new [] with
          inputs := some (InputGroup.mk [0x11112222, 0x33334444] [] 0 0 false) }
        ⟨X86RegisterClass.x86_regclass_gpr, x86_gpr_ax, 0, 16⟩).2.state.register_rw_state.segreg
          0).state = HAS_BEEN_READ ∧
    (Policy.readRegister 16
        (Policy.readRegister 16
          { Policy.new (AddressHasher.mk (LinearCongruentialGenerator.mk 0) []) PolicyParams.new [] with
            inputs := some (InputGroup.mk [0x11112222, 0x33334444] [] 0 0 false) }
          ⟨X86RegisterClass.x86_regclass_gpr, x86_gpr_ax, 0, 16⟩).2
        ⟨X86RegisterClass.x86_regclass_gpr, x86_gpr_ax, 0, 16⟩).1 =
      Except.ok (ValueType.number 16 0x4444) ∧
    (Policy.readRegister 16
        (Policy.readRegister 16
          { Policy.new (AddressHasher.mk (LinearCongruentialGenerator.mk 0) []) PolicyParams.new [] with
            inputs := some (InputGroup.mk [0x11112222, 0x33334444] [] 0 0 false) }
          ⟨X86RegisterClass.x86_regclass_gpr, x86_gpr_ax, 0, 16⟩).2
        ⟨X86RegisterClass.x86_regclass_gpr, x86_gpr_ax, 0, 16⟩).2.inputs =
      some (InputGroup.mk [0x11112222, 0x33334444] [] 2 0 false) := by
  refine ⟨?_, ?_, ?_, ?_, ?_⟩
  · rfl
  · rfl
  · rfl
  · rfl
  · rfl


/-! ## Calls that are not followed -/

theorem Policy.readRegisterNamed_eip (p : Policy) :
    Policy.readRegisterNamed 32 p "eip" =
      Policy.readRegister 32 p ⟨X86RegisterClass.x86_regclass_ip, 0, 0, 32⟩ := rfl

theorem Policy.readRegisterNamed_esp (p : Policy) :
    Policy.readRegisterNamed 32 p "esp" =
      Policy.readRegister 32 p ⟨X86RegisterClass.x86_regclass_gpr, x86_gpr_sp, 0, 32⟩ := rfl

theorem Policy.follows_call_congr (p q : Policy) (v : ValueType 32)
    (h1 : q.params = p.params) (h2 : q.insns = p.insns) :
    Policy.follows_call q v = Policy.follows_call p v := by
  unfold Policy.follows_call
  rw [h1, h2]

theorem Policy.finishInstruction_skipped_call (p : Policy) (g : InputGroup)
    (insn : SgAsmx86Instruction) (hk : insn.kind = X86InstructionKind.x86_call)
    (hip : p.state.register_rw_state.ip.state ≠ NO_ACCESS)
    (hsp : (p.state.register_rw_state.gpr x86_gpr_sp).state ≠ NO_ACCESS)
    (hf : Policy.follows_call p p.state.registers.ip = Except.ok false)
    (hg : p.inputs = some g)
    (hl : g.limit_consumption_ = false ∨ g.next_integer_ < g.integers_.length) :
    Policy.finishInstruction p (some insn) =
      (Except.ok (), Policy.after_skipped_call p g insn) := by
  unfold Policy.finishInstruction
  simp only [hk, if_true]
  rw [Policy.readRegisterNamed_eip, Policy.readRegister32_ip_accessed _ 32 ?_]
  swap
  · exact hip
  simp only [Policy.andThen]
  rw [Policy.follows_call_congr p _ _ ?_ ?_]
  rotate_left
  · rfl
  · rfl
  rw [hf]
  simp only [Bool.not_false, if_true]
  simp only [Policy.skip_call]
  rw [Policy.writeRegisterNamed_eip]
  simp only [Policy.andThen]
  rw [Policy.next_input_value_integer 32 _ (by decide) _ g ?_ hl]
  swap
  · exact hg
  simp only []
  rw [Policy.writeRegisterNamed_gpr _ "eax" x86_gpr_ax (by decide) _ rfl]
  simp only []
  rw [Policy.readRegisterNamed_esp, Policy.readRegister32_gpr_accessed _ x86_gpr_sp 32 (by decide) ?_]
  swap
  · simpa [Policy.or_gpr_rw, Policy.set_gpr, Policy.or_ip_rw, Policy.set_ip] using hsp
  simp only []
  rw [Policy.writeRegisterNamed_gpr _ "esp" x86_gpr_sp (by decide) _ rfl]
  simp only []
  rfl


/-- C12: `finishInstruction` on a CALL at address `A` of size `S` that is not followed
(`follows_call` yields false), in a state where EIP and ESP have been accessed and the
input group delivers its next integer. It returns normally; afterwards EIP is
`(A + S) mod 2^32`, ESP is the old ESP plus 4 (`(e + 4) mod 2^32` for a known old value
`e`), EAX holds the low 32 bits of the next integer input and WRITTEN is set in its mask,
the integer cursor has advanced by one while the pointer cursor and the pools are as
before, the instruction count of the output group has grown by one, and both memory maps
are unchanged. -/
theorem call_not_followed (p : Policy) (g : InputGroup) (insn : SgAsmx86Instruction)
    (hk : insn.kind = X86InstructionKind.x86_call)
    (hip : p.state.register_rw_state.ip.state ≠ NO_ACCESS)
    (hsp : (p.state.register_rw_state.gpr x86_gpr_sp).state ≠ NO_ACCESS)
    (hf : Policy.follows_call p p.state.registers.ip = Except.ok false)
    (hg : p.inputs = some g)
    (hl : g.limit_consumption_ = false ∨ g.next_integer_ < g.integers_.length) :
    ∃ q, Policy.finishInstruction p (some insn) = (Except.ok (), q) ∧
      q.state.registers.ip = ValueType.number 32 (insn.address + insn.size) ∧
      q.state.registers.gpr x86_gpr_sp =
        ValueType.add (p.state.registers.gpr x86_gpr_sp) (ValueType.number 32 4) ∧
      (∀ e he, p.state.registers.gpr x86_gpr_sp = ValueType.known e he →
        q.state.registers.gpr x86_gpr_sp = ValueType.number 32 (e + 4)) ∧
      q.state.registers.gpr x86_gpr_ax =
        ValueType.number 32 (g.integers_.getD g.next_integer_ 0) ∧
      (q.state.register_rw_state.gpr x86_gpr_ax).state =
        (p.state.register_rw_state.gpr x86_gpr_ax).state ||| HAS_BEEN_WRITTEN ∧
      q.inputs = some { g with next_integer_ := g.next_integer_ + 1 } ∧
      q.state.output_group.ninsns = p.state.output_group.ninsns + 1 ∧
      q.state.stack_cells = p.state.stack_cells ∧
      q.state.data_cells = p.state.data_cells := by
  refine ⟨_, Policy.finishInstruction_skipped_call p g insn hk hip hsp hf hg hl,
    ?_, ?_, ?_, ?_, ?_, rfl, rfl, rfl, rfl⟩
  · simp [Policy.after_skipped_call, Policy.Super_finishInstruction, Policy.or_gpr_rw,
      Policy.set_gpr, Policy.or_ip_rw, Policy.set_ip]
  · simp [Policy.after_skipped_call, Policy.Super_finishInstruction, Policy.or_gpr_rw,
      Policy.set_gpr, Policy.or_ip_rw, Policy.set_ip]
  · intro e he h
    simp [Policy.after_skipped_call, Policy.Super_finishInstruction, Policy.or_gpr_rw,
      Policy.set_gpr, Policy.or_ip_rw, Policy.set_ip, h, ValueType.add, ValueType.number]
  · simp [Policy.after_skipped_call, Policy.Super_finishInstruction, Policy.or_gpr_rw,
      Policy.set_gpr, Policy.or_ip_rw, Policy.set_ip]
  · simp [Policy.after_skipped_call, Policy.Super_finishInstruction, Policy.or_gpr_rw,
      Policy.set_gpr, Policy.or_ip_rw, Policy.set_ip]

/-- Witness for C12: a CALL at `0x400` of size 5 with `follow_calls` off, ESP holding
`0x1000` and the integer pool `[0x1122334455]`: afterwards EIP is `0x405`, ESP is `0x1004`
and EAX is `0x22334455`. -/
theorem call_not_followed_witness :
    ∃ q, Policy.finishInstruction
        { Policy.new (AddressHasher.mk (LinearCongruentialGenerator.mk 0) []) PolicyParams.new [] with
          inputs := some (InputGroup.mk [0x1122334455] [] 0 0 true),
          state :=
            { State.new with
              registers :=
                { State.new.registers with gpr := fun _ => ValueType.number 32 0x1000 },
              register_rw_state :=
                { State.new.register_rw_state with
                  ip := ReadWriteState.mk HAS_BEEN_WRITTEN,
                  gpr := fun _ => ReadWriteState.mk HAS_BEEN_WRITTEN } } }
        (some ⟨0x400, 5, X86InstructionKind.x86_call, none⟩) = (Except.ok (), q) ∧
      q.state.registers.ip = ValueType.number 32 0x405 ∧
      q.state.registers.gpr x86_gpr_sp = ValueType.number 32 0x1004 ∧
      q.state.registers.gpr x86_gpr_ax = ValueType.number 32 0x22334455 := by
  obtain ⟨q, e, a, _, b, c, _⟩ := call_not_followed
    { Policy.new (AddressHasher.mk (LinearCongruentialGenerator.mk 0) []) PolicyParams.new [] with
      inputs := some (InputGroup.mk [0x1122334455] [] 0 0 true),
      state :=
        { State.new with
          registers :=
            { State.new.registers with gpr := fun _ => ValueType.number 32 0x1000 },
          register_rw_state :=
            { State.new.register_rw_state with
              ip := ReadWriteState.mk HAS_BEEN_WRITTEN,
              gpr := fun _ => ReadWriteState.mk HAS_BEEN_WRITTEN } } }
    (InputGroup.mk [0x1122334455] [] 0 0 true)
    ⟨0x400, 5, X86InstructionKind.x86_call, none⟩ rfl (by decide) (by decide) rfl rfl
    (Or.inr (by decide))
  exact ⟨q, e, a, (b 0x1000 (by decide) rfl).trans rfl, c.trans (by decide)⟩


theorem ValueType.signExtend8_known (x : Nat) (hx : x < 2 ^ 8) :
    ValueType.signExtend 8 (ValueType.known x hx : ValueType 8) = ValueType.known x hx := by
  have e : ValueType.number 8 x = ValueType.known x hx :=
    ValueType.known_congr _ _ (Nat.mod_eq_of_lt hx)
  simp only [ValueType.signExtend, Nat.sub_self, Nat.add_zero, e]
  simp

theorem ValueType.unsignedExtend_known (n x : Nat) (hx : x < 2 ^ n) :
    ValueType.unsignedExtend n (ValueType.known x hx : ValueType n) = ValueType.known x hx :=
  ValueType.known_congr _ _ (Nat.mod_eq_of_lt hx)

theorem ValueType.merge_low_byte (r x : Nat) (hx : x < 2 ^ 8) :
    (ValueType.signExtend 8 (ValueType.known x hx : ValueType 8)).concat
        (ValueType.extract 8 32 (ValueType.number 32 r)) =
      ValueType.number 32 ((r &&& 0xffffff00) ||| x) := by
  rw [ValueType.signExtend8_known]
  simp only [ValueType.extract, ValueType.concat, ValueType.number]
  apply ValueType.known_congr
  apply Nat.eq_of_testBit_eq
  intro j
  have hc : (4294967040 : Nat) = (2 ^ 24 - 1) <<< 8 := by decide
  have hj : 8 ≤ j → x.testBit j = false := testBit_of_lt_pow x j 8 hx
  rw [hc]
  simp only [Nat.testBit_mod_two_pow, Nat.testBit_or, Nat.testBit_and, Nat.testBit_shiftLeft,
    Nat.testBit_shiftRight, Nat.testBit_two_pow_sub_one, Nat.reduceAdd, Nat.reduceSub]
  by_cases h8 : j < 8
  · have a1 : ¬ j ≥ 8 := by omega
    have a2 : j < 32 := by omega
    simp [h8, a1, a2]
  · by_cases h32 : j < 32
    · have a1 : j ≥ 8 := by omega
      have b1 : j - 8 < 24 := by omega
      have e : 8 + (j - 8) = j := by omega
      simp [h32, a1, b1, e, hj a1]
    · simp [h32]

theorem ValueType.merge_high_byte (r x : Nat) (hx : x < 2 ^ 8) :
    (ValueType.extract 0 8 (ValueType.number 32 r)).concat
        ((ValueType.unsignedExtend 8 (ValueType.known x hx : ValueType 8)).concat
          (ValueType.extract 16 32 (ValueType.number 32 r))) =
      ValueType.number 32 ((r &&& 0xffff00ff) ||| (x <<< 8)) := by
  rw [ValueType.unsignedExtend_known]
  simp only [ValueType.extract, ValueType.concat, ValueType.number]
  apply ValueType.known_congr
  apply Nat.eq_of_testBit_eq
  intro j
  have hc : (4294902015 : Nat) = ((2 ^ 16 - 1) <<< 16) ||| (2 ^ 8 - 1) := by decide
  have hj : 8 ≤ j - 8 → x.testBit (j - 8) = false := testBit_of_lt_pow x (j - 8) 8 hx
  rw [hc]
  simp only [Nat.testBit_mod_two_pow, Nat.testBit_or, Nat.testBit_and, Nat.testBit_shiftLeft,
    Nat.testBit_shiftRight, Nat.testBit_two_pow_sub_one, Nat.reduceAdd, Nat.reduceSub]
  by_cases h8 : j < 8
  · have a1 : ¬ j ≥ 8 := by omega
    have a2 : j < 32 := by omega
    have a3 : ¬ j ≥ 16 := by omega
    simp [h8, a1, a2, a3]
  · by_cases h16 : j < 16
    · have a1 : j ≥ 8 := by omega
      have a2 : j < 32 := by omega
      have a3 : ¬ j ≥ 16 := by omega
      have b1 : j - 8 < 24 := by omega
      have b2 : j - 8 < 8 := by omega
      simp [h8, a1, a2, a3, b1, b2]
    · by_cases h32 : j < 32
      · have a1 : j ≥ 8 := by omega
        have a3 : j ≥ 16 := by omega
        have b1 : j - 8 < 24 := by omega
        have b2 : ¬ j - 8 < 8 := by omega
        have b3 : j - 8 ≥ 8 := by omega
        have c1 : j - 16 < 16 := by omega
        have c2 : j - 8 - 8 < 16 := by omega
        have e : 16 + (j - 16) = j := by omega
        have e2 : 16 + (j - 8 - 8) = j := by omega
        simp [h8, h32, a1, a3, b1, b2, b3, c1, c2, e, e2, hj b3]
      · simp [h32]

theorem ValueType.merge_low_word (r y : Nat) (hy : y < 2 ^ 16) :
    (ValueType.unsignedExtend 16 (ValueType.known y hy : ValueType 16)).concat
        (ValueType.extract 16 32 (ValueType.number 32 r)) =
      ValueType.number 32 ((r &&& 0xffff0000) ||| y) := by
  rw [ValueType.unsignedExtend_known]
  simp only [ValueType.extract, ValueType.concat, ValueType.number]
  apply ValueType.known_congr
  apply Nat.eq_of_testBit_eq
  intro j
  have hc : (4294901760 : Nat) = (2 ^ 16 - 1) <<< 16 := by decide
  have hj : 16 ≤ j → y.testBit j = false := testBit_of_lt_pow y j 16 hy
  rw [hc]
  simp only [Nat.testBit_mod_two_pow, Nat.testBit_or, Nat.testBit_and, Nat.testBit_shiftLeft,
    Nat.testBit_shiftRight, Nat.testBit_two_pow_sub_one, Nat.reduceAdd, Nat.reduceSub]
  by_cases h16 : j < 16
  · have a1 : ¬ j ≥ 16 := by omega
    have a2 : j < 32 := by omega
    simp [h16, a1, a2]
  · by_cases h32 : j < 32
    · have a1 : j ≥ 16 := by omega
      have b1 : j - 16 < 16 := by omega
      have e : 16 + (j - 16) = j := by omega
      simp [h32, a1, b1, e, hj a1]
    · simp [h32]


/-! ## Sub-register writes -/

theorem Policy.write_seed (p : Policy) (i r bits : Nat) (hh : Policy.gpr_holds p i r) :
    ∃ S, (if decide (0 = (p.state.register_rw_state.gpr i).state) = true then
          Policy.andThen (Policy.next_input_value 32 InputGroup.Type_.INTEGER
              (Policy.or_gpr_rw p i bits)) (fun v p1 => (Except.ok (), Policy.set_gpr p1 i v))
        else (Except.ok (), Policy.or_gpr_rw p i bits)) = (Except.ok (), S) ∧
      S.state = Policy.with_gpr p i (ValueType.number 32 r) bits := by
  rcases hh with ⟨h0, hv⟩ | ⟨h0, g, hg, hl, hr⟩
  · have hd : decide (0 = (p.state.register_rw_state.gpr i).state) = false := by
      have h' : ¬ 0 = (p.state.register_rw_state.gpr i).state := fun e => h0 e.symm
      simp [h']
    refine ⟨_, by rw [hd]; rfl, ?_⟩
    simp only [Policy.or_gpr_rw, Policy.with_gpr, ← hv, Function.update_eq_self]
  · have hd : decide (0 = (p.state.register_rw_state.gpr i).state) = true := by
      rw [h0]; rfl
    rw [hd]
    simp only [if_true]
    rw [Policy.next_input_value_integer 32 _ (by decide) _ g ?_ hl]
    swap
    · exact hg
    refine ⟨_, rfl, ?_⟩
    simp only [Policy.or_gpr_rw, Policy.with_gpr, Policy.set_gpr, hr]

theorem Policy.writeRegister8_lo_eq (p : Policy) (i r x : Nat) (hx : x < 2 ^ 8) (hi : i < 8)
    (hh : Policy.gpr_holds p i r) :
    ∃ q, Policy.writeRegister p ⟨X86RegisterClass.x86_regclass_gpr, i, 0, 8⟩
        (ValueType.known x hx : ValueType 8) HAS_BEEN_WRITTEN = (Except.ok (), q) ∧
      q.state = Policy.with_gpr p i (ValueType.number 32 ((r &&& 0xffffff00) ||| x))
        HAS_BEEN_WRITTEN := by
  obtain ⟨S, hS, hst⟩ := Policy.write_seed p i r HAS_BEEN_WRITTEN hh
  have h8 : ¬ i ≥ 8 := by omega
  simp only [Policy.writeRegister, Policy.writeRegister8, h8]
  simp only [OfNat.ofNat_ne_one, if_false, if_true, ne_eq, not_true_eq_false, ge_iff_le,
    Nat.reduceEqDiff]
  rw [hS]
  simp only [Policy.andThen]
  refine ⟨_, rfl, ?_⟩
  simp only [Policy.set_gpr, hst, Policy.with_gpr, Function.update_idem, Function.update_same]
  rw [ValueType.merge_low_byte]

theorem Policy.writeRegister8_hi_eq (p : Policy) (i r x : Nat) (hx : x < 2 ^ 8) (hi : i < 8)
    (hh : Policy.gpr_holds p i r) :
    ∃ q, Policy.writeRegister p ⟨X86RegisterClass.x86_regclass_gpr, i, 8, 8⟩
        (ValueType.known x hx : ValueType 8) HAS_BEEN_WRITTEN = (Except.ok (), q) ∧
      q.state = Policy.with_gpr p i (ValueType.number 32 ((r &&& 0xffff00ff) ||| (x <<< 8)))
        HAS_BEEN_WRITTEN := by
  obtain ⟨S, hS, hst⟩ := Policy.write_seed p i r HAS_BEEN_WRITTEN hh
  have h8 : ¬ i ≥ 8 := by omega
  simp only [Policy.writeRegister, Policy.writeRegister8, h8]
  simp only [OfNat.ofNat_ne_one, if_false, if_true, ne_eq, not_true_eq_false, ge_iff_le,
    Nat.reduceEqDiff, OfNat.ofNat_ne_zero]
  rw [hS]
  simp only [Policy.andThen]
  refine ⟨_, rfl, ?_⟩
  simp only [Policy.set_gpr, hst, Policy.with_gpr, Function.update_idem, Function.update_same]
  rw [ValueType.merge_high_byte]

theorem Policy.writeRegister16_gpr_eq (p : Policy) (i r y : Nat) (hy : y < 2 ^ 16) (hi : i < 8)
    (hh : Policy.gpr_holds p i r) :
    ∃ q, Policy.writeRegister p ⟨X86RegisterClass.x86_regclass_gpr, i, 0, 16⟩
        (ValueType.known y hy : ValueType 16) HAS_BEEN_WRITTEN = (Except.ok (), q) ∧
      q.state = Policy.with_gpr p i (ValueType.number 32 ((r &&& 0xffff0000) ||| y))
        HAS_BEEN_WRITTEN := by
  obtain ⟨S, hS, hst⟩ := Policy.write_seed p i r HAS_BEEN_WRITTEN hh
  have h8 : ¬ i ≥ 8 := by omega
  simp only [Policy.writeRegister, Policy.writeRegister16, h8]
  simp only [OfNat.ofNat_ne_one, if_false, if_true, ne_eq, not_true_eq_false, ge_iff_le,
    Nat.reduceEqDiff]
  rw [hS]
  simp only [Policy.andThen]
  refine ⟨_, rfl, ?_⟩
  simp only [Policy.set_gpr, hst, Policy.with_gpr, Function.update_idem, Function.update_same]
  rw [ValueType.merge_low_word]

/-- C16: sub-register writes merge into the parent. Let general-purpose register `i` hold
`r` (its value when it has been accessed; the next integer input, which the write
consumes first, when its access mask is NO_ACCESS) and let the written value be known.
Then `writeRegister<8>` at offset 0 leaves `(r & 0xffffff00) | v`, `writeRegister<8>` at
offset 8 leaves `(r & 0xffff00ff) | (v << 8)`, and `writeRegister<16>` at offset 0 leaves
`(r & 0xffff0000) | v` in the register. Each returns normally, or-s WRITTEN into the
access mask of that register and leaves every other register, every other access mask,
both memory maps and the output group as they were. -/
theorem sub_register_writes_merge (p : Policy) (i r : Nat) (hi : i < 8)
    (hh : Policy.gpr_holds p i r) :
    (∀ (v : Nat) (hv : v < 2 ^ 8),
      ∃ q, Policy.writeRegister p ⟨X86RegisterClass.x86_regclass_gpr, i, 0, 8⟩
          (ValueType.known v hv : ValueType 8) HAS_BEEN_WRITTEN = (Except.ok (), q) ∧
        q.state = Policy.with_gpr p i (ValueType.number 32 ((r &&& 0xffffff00) ||| v))
          HAS_BEEN_WRITTEN) ∧
    (∀ (v : Nat) (hv : v < 2 ^ 8),
      ∃ q, Policy.writeRegister p ⟨X86RegisterClass.x86_regclass_gpr, i, 8, 8⟩
          (ValueType.known v hv : ValueType 8) HAS_BEEN_WRITTEN = (Except.ok (), q) ∧
        q.state = Policy.with_gpr p i (ValueType.number 32 ((r &&& 0xffff00ff) ||| (v <<< 8)))
          HAS_BEEN_WRITTEN) ∧
    (∀ (v : Nat) (hv : v < 2 ^ 16),
      ∃ q, Policy.writeRegister p ⟨X86RegisterClass.x86_regclass_gpr, i, 0, 16⟩
          (ValueType.known v hv : ValueType 16) HAS_BEEN_WRITTEN = (Except.ok (), q) ∧
        q.state = Policy.with_gpr p i (ValueType.number 32 ((r &&& 0xffff0000) ||| v))
          HAS_BEEN_WRITTEN) :=
  ⟨fun v hv => Policy.writeRegister8_lo_eq p i r v hv hi hh,
   fun v hv => Policy.writeRegister8_hi_eq p i r v hv hi hh,
   fun v hv => Policy.writeRegister16_gpr_eq p i r v hv hi hh⟩

/-- Witness for C16: EAX has never been accessed and the next integer input is
`0x11223344`; writing `0xAB` to AH leaves `0x1122AB44` in EAX with mask WRITTEN, and EBX
is untouched. -/
theorem sub_register_writes_merge_witness :
    ∃ q, Policy.writeRegister
        { Policy.new (AddressHasher.mk (LinearCongruentialGenerator.mk 0) []) PolicyParams.new [] with
          inputs := some (InputGroup.mk [0x11223344] [] 0 0 true) }
        ⟨X86RegisterClass.x86_regclass_gpr, x86_gpr_ax, 8, 8⟩
        (ValueType.known 0xAB (by decide) : ValueType 8) HAS_BEEN_WRITTEN = (Except.ok (), q) ∧
      q.state.registers.gpr x86_gpr_ax = ValueType.number 32 0x1122AB44 ∧
      (q.state.register_rw_state.gpr x86_gpr_ax).state = HAS_BEEN_WRITTEN ∧
      (q.state.register_rw_state.gpr x86_gpr_bx).state = NO_ACCESS := by
  obtain ⟨q, e, a⟩ := (sub_register_writes_merge
    { Policy.new (AddressHasher.mk (LinearCongruentialGenerator.mk 0) []) PolicyParams.new [] with
      inputs := some (InputGroup.mk [0x11223344] [] 0 0 true) } x86_gpr_ax 0x11223344 (by decide)
    (Or.inr ⟨rfl, InputGroup.mk [0x11223344] [] 0 0 true, rfl, Or.inr (by decide), rfl⟩)).2.1
    0xAB (by decide)
  refine ⟨q, e, ?_, ?_, ?_⟩
  · rw [a]; simp [Policy.with_gpr]; decide
  · rw [a]; simp [Policy.with_gpr, Policy.new, State.new, RegisterStateX86.clear]
  · rw [a]; simp [Policy.with_gpr, Policy.new, State.new, RegisterStateX86.clear]


/-! ## Reads of registers that have been accessed -/

theorem or_written_ne_zero (a : Nat) : a ||| HAS_BEEN_WRITTEN ≠ NO_ACCESS := by
  intro h
  have h1 := congrArg (fun n => Nat.testBit n 1) h
  simp at h1
  exact absurd h1.2 (by decide)

theorem Policy.read_segreg_step_accessed (p : Policy) (i : Nat) (type : InputGroup.Type_)
    (h : (p.state.register_rw_state.segreg i).state ≠ NO_ACCESS) :
    Policy.read_segreg_step p i type = (Except.ok (), Policy.or_segreg_rw p i HAS_BEEN_READ) := by
  unfold Policy.read_segreg_step
  have h' : ¬ 0 = (p.state.register_rw_state.segreg i).state := fun e => h e.symm
  simp only [h', decide_False]
  rfl

theorem Policy.read_flag_step_accessed (p : Policy) (i : Nat)
    (h : (p.state.register_rw_state.flag i).state ≠ NO_ACCESS) :
    Policy.read_flag_step p i = (Except.ok (), Policy.or_flag_rw p i HAS_BEEN_READ) := by
  unfold Policy.read_flag_step
  have h' : ¬ 0 = (p.state.register_rw_state.flag i).state := fun e => h e.symm
  simp only [h', decide_False]
  rfl

/-- The loop over flags that have all been accessed: it returns normally and changes only
access masks of flags. -/
theorem Policy.read_flags_loop_accessed (k lo : Nat) (p : Policy)
    (h : ∀ j, lo ≤ j → j < lo + k → (p.state.register_rw_state.flag j).state ≠ NO_ACCESS) :
    ∃ q, Policy.read_flags_loop k lo p = (Except.ok (), q) ∧
      q.state.registers = p.state.registers ∧ q.inputs = p.inputs := by
  induction k generalizing lo p with
  | zero => exact ⟨p, rfl, rfl, rfl⟩
  | succ k ih =>
    have e : Policy.read_flags_loop (k + 1) lo p =
        Policy.andThen (Policy.read_flag_step p lo) (fun _ q =>
          Policy.read_flags_loop k (lo + 1) q) := rfl
    rw [e, Policy.read_flag_step_accessed p lo (h lo (le_refl _) (by omega))]
    simp only [Policy.andThen]
    obtain ⟨q, hq, a, b⟩ := ih (lo + 1) (Policy.or_flag_rw p lo HAS_BEEN_READ) (by
      intro j h1 h2
      have hne : j ≠ lo := by omega
      simpa [Policy.or_flag_rw, Function.update_noteq hne] using h j (by omega) (by omega))
    exact ⟨q, hq, a, b⟩

theorem Policy.readRegister8_lo_accessed (p : Policy) (i : Nat) (hi : i < 8)
    (h : (p.state.register_rw_state.gpr i).state ≠ NO_ACCESS) :
    Policy.readRegister 8 p ⟨X86RegisterClass.x86_regclass_gpr, i, 0, 8⟩ =
      (Except.ok (ValueType.extract 0 8 (p.state.registers.gpr i)),
        Policy.or_gpr_rw p i HAS_BEEN_READ) := by
  have h8 : ¬ i ≥ 8 := by omega
  simp only [Policy.readRegister, Policy.readRegister8, h8]
  simp only [OfNat.ofNat_ne_one, if_false, if_true, ne_eq, not_true_eq_false, ge_iff_le,
    Nat.reduceEqDiff]
  rw [Policy.read_gpr_step_accessed p i _ _ h]
  rfl

theorem Policy.readRegister8_hi_accessed (p : Policy) (i : Nat) (hi : i < 8)
    (h : (p.state.register_rw_state.gpr i).state ≠ NO_ACCESS) :
    Policy.readRegister 8 p ⟨X86RegisterClass.x86_regclass_gpr, i, 8, 8⟩ =
      (Except.ok (ValueType.extract 8 16 (p.state.registers.gpr i)),
        Policy.or_gpr_rw p i HAS_BEEN_READ) := by
  have h8 : ¬ i ≥ 8 := by omega
  simp only [Policy.readRegister, Policy.readRegister8, h8]
  simp only [OfNat.ofNat_ne_one, if_false, if_true, ne_eq, not_true_eq_false, ge_iff_le,
    Nat.reduceEqDiff, OfNat.ofNat_ne_zero]
  rw [Policy.read_gpr_step_accessed p i _ _ h]
  rfl

theorem Policy.readRegister16_gpr_accessed (p : Policy) (i : Nat) (hi : i < 8)
    (h : (p.state.register_rw_state.gpr i).state ≠ NO_ACCESS) :
    Policy.readRegister 16 p ⟨X86RegisterClass.x86_regclass_gpr, i, 0, 16⟩ =
      (Except.ok (ValueType.extract 0 16 (p.state.registers.gpr i)),
        Policy.or_segreg_rw p i HAS_BEEN_READ) := by
  have h8 : ¬ i ≥ 8 := by omega
  simp only [Policy.readRegister, Policy.readRegister16, h8]
  simp only [OfNat.ofNat_ne_one, if_false, if_true, ne_eq, not_true_eq_false, ge_iff_le,
    Nat.reduceEqDiff]
  rw [Policy.read_gpr_step_accessed p i _ _ h]
  rfl

theorem Policy.readRegister16_segreg_accessed (p : Policy) (i : Nat) (hi : i < 6)
    (h : (p.state.register_rw_state.segreg i).state ≠ NO_ACCESS) :
    Policy.readRegister 16 p ⟨X86RegisterClass.x86_regclass_segment, i, 0, 16⟩ =
      (Except.ok (ValueType.unsignedExtend 16 (p.state.registers.segreg i)),
        Policy.or_segreg_rw p i HAS_BEEN_READ) := by
  have h6 : ¬ i ≥ 6 := by omega
  simp only [Policy.readRegister, Policy.readRegister16, h6]
  simp only [OfNat.ofNat_ne_one, if_false, if_true, ne_eq, not_true_eq_false, ge_iff_le,
    Nat.reduceEqDiff]
  rw [Policy.read_segreg_step_accessed p i _ h]
  rfl

theorem Policy.readRegister1_accessed (p : Policy) (off : Nat) (ho : off < 32)
    (h : (p.state.register_rw_state.flag off).state ≠ NO_ACCESS) :
    Policy.readRegister 1 p ⟨X86RegisterClass.x86_regclass_flags, 0, off, 1⟩ =
      (Except.ok (ValueType.unsignedExtend 1 (p.state.registers.flag off)),
        Policy.or_flag_rw p off HAS_BEEN_READ) := by
  have h32 : ¬ off ≥ 32 := by omega
  simp only [Policy.readRegister, Policy.readRegister1, h32]
  simp only [if_true, ne_eq, not_true_eq_false, if_false, or_self]
  rw [Policy.read_flag_step_accessed p off h]
  rfl


/-! ## The flags as a word -/

theorem ValueType.concat_bits (x i j k : Nat) (h : j = i + 1) :
    (ValueType.number 1 (x >>> i)).concat (ValueType.number k (x >>> j)) =
      ValueType.number (1 + k) (x >>> i) := by
  subst h
  simp only [ValueType.concat, ValueType.number]
  apply ValueType.known_congr
  apply Nat.eq_of_testBit_eq
  intro b
  simp only [Nat.testBit_mod_two_pow, Nat.testBit_or, Nat.testBit_shiftLeft,
    Nat.testBit_shiftRight]
  by_cases h0 : b = 0
  · subst h0
    simp
  · have a1 : ¬ b < 1 := by omega
    have a2 : b ≥ 1 := by omega
    have e : i + 1 + (b - 1) = i + b := by omega
    by_cases hk : b < 1 + k
    · have a3 : b - 1 < k := by omega
      simp [a1, a2, a3, e, hk]
    · have a3 : ¬ b - 1 < k := by omega
      simp [a1, a2, a3, hk]

theorem Policy.extract_bit_known {n : Nat} (i x : Nat) (hx : x < 2 ^ n) :
    Policy.extract_bit i (ValueType.known x hx : ValueType n) = ValueType.number 1 (x >>> i) := rfl

theorem Policy.flags16_write (p : Policy) (v : ValueType 16) :
    Policy.writeRegister p ⟨X86RegisterClass.x86_regclass_flags, 0, 0, 16⟩ v HAS_BEEN_WRITTEN =
      (Except.ok (), Policy.or_all_flags_rw
        (Policy.set_flags_from p 0 16 (ValueType.unsignedExtend 16 v)) HAS_BEEN_WRITTEN) := by
  have h16 : ¬ RegisterStateX86.n_flags < 16 := by decide
  simp [Policy.writeRegister, Policy.writeRegister16, Policy.writeRegister_flags16, h16]

theorem Policy.flags16_read (p : Policy)
    (h : ∀ j, j < 16 → (p.state.register_rw_state.flag j).state ≠ NO_ACCESS) :
    ∃ q, Policy.readRegister 16 p ⟨X86RegisterClass.x86_regclass_flags, 0, 0, 16⟩ =
        (Except.ok (ValueType.unsignedExtend 16 (Policy.flags_word16 q)), q) ∧
      q.state.registers = p.state.registers ∧ q.inputs = p.inputs := by
  obtain ⟨q, hq, a, b⟩ := Policy.read_flags_loop_accessed 16 0 p
    (fun j _ h2 => h j (by omega))
  refine ⟨q, ?_, a, b⟩
  simp only [Policy.readRegister, Policy.readRegister16]
  have h16 : ¬ RegisterStateX86.n_flags < 16 := by decide
  simp only [OfNat.ofNat_ne_one, if_false, if_true, ne_eq, not_true_eq_false, ge_iff_le,
    Nat.reduceEqDiff, h16, or_self]
  rw [hq]
  rfl

theorem Policy.flags_word16_of_bits (q : Policy) (x : Nat)
    (h : ∀ j, j < 16 → q.state.registers.flag j = ValueType.number 1 (x >>> j)) :
    ValueType.unsignedExtend 16 (Policy.flags_word16 q) = ValueType.number 16 x := by
  unfold Policy.flags_word16
  simp only [h 0 (by decide), h 1 (by decide), h 2 (by decide), h 3 (by decide), h 4 (by decide),
    h 5 (by decide), h 6 (by decide), h 7 (by decide), h 8 (by decide), h 9 (by decide),
    h 10 (by decide), h 11 (by decide), h 12 (by decide), h 13 (by decide), h 14 (by decide),
    h 15 (by decide)]
  rw [ValueType.concat_bits x 14 15 _ rfl, ValueType.concat_bits x 13 14 _ rfl,
    ValueType.concat_bits x 12 13 _ rfl, ValueType.concat_bits x 11 12 _ rfl,
    ValueType.concat_bits x 10 11 _ rfl, ValueType.concat_bits x 9 10 _ rfl,
    ValueType.concat_bits x 8 9 _ rfl, ValueType.concat_bits x 7 8 _ rfl,
    ValueType.concat_bits x 6 7 _ rfl, ValueType.concat_bits x 5 6 _ rfl,
    ValueType.concat_bits x 4 5 _ rfl, ValueType.concat_bits x 3 4 _ rfl,
    ValueType.concat_bits x 2 3 _ rfl, ValueType.concat_bits x 1 2 _ rfl,
    ValueType.concat_bits x 0 1 _ rfl]
  simp [ValueType.unsignedExtend, ValueType.number]


theorem Policy.flags_word32_of_bits (q : Policy) (x : Nat)
    (h : ∀ j, j < 32 → q.state.registers.flag j = ValueType.number 1 (x >>> j)) :
    ValueType.unsignedExtend 32 (Policy.flags_word32 q) = ValueType.number 32 x := by
  unfold Policy.flags_word32
  simp only [h 0 (by decide), h 1 (by decide), h 2 (by decide), h 3 (by decide), h 4 (by decide), h 5 (by decide), h 6 (by decide), h 7 (by decide), h 8 (by decide), h 9 (by decide), h 10 (by decide), h 11 (by decide), h 12 (by decide), h 13 (by decide), h 14 (by decide), h 15 (by decide), h 16 (by decide), h 17 (by decide), h 18 (by decide), h 19 (by decide), h 20 (by decide), h 21 (by decide), h 22 (by decide), h 23 (by decide), h 24 (by decide), h 25 (by decide), h 26 (by decide), h 27 (by decide), h 28 (by decide), h 29 (by decide), h 30 (by decide), h 31 (by decide)]
  rw [ValueType.concat_bits x 30 31 _ rfl,
    ValueType.concat_bits x 29 30 _ rfl,
    ValueType.concat_bits x 28 29 _ rfl,
    ValueType.concat_bits x 27 28 _ rfl,
    ValueType.concat_bits x 26 27 _ rfl,
    ValueType.concat_bits x 25 26 _ rfl,
    ValueType.concat_bits x 24 25 _ rfl,
    ValueType.concat_bits x 23 24 _ rfl,
    ValueType.concat_bits x 22 23 _ rfl,
    ValueType.concat_bits x 21 22 _ rfl,
    ValueType.concat_bits x 20 21 _ rfl,
    ValueType.concat_bits x 19 20 _ rfl,
    ValueType.concat_bits x 18 19 _ rfl,
    ValueType.concat_bits x 17 18 _ rfl,
    ValueType.concat_bits x 16 17 _ rfl,
    ValueType.concat_bits x 15 16 _ rfl,
    ValueType.concat_bits x 14 15 _ rfl,
    ValueType.concat_bits x 13 14 _ rfl,
    ValueType.concat_bits x 12 13 _ rfl,
    ValueType.concat_bits x 11 12 _ rfl,
    ValueType.concat_bits x 10 11 _ rfl,
    ValueType.concat_bits x 9 10 _ rfl,
    ValueType.concat_bits x 8 9 _ rfl,
    ValueType.concat_bits x 7 8 _ rfl,
    ValueType.concat_bits x 6 7 _ rfl,
    ValueType.concat_bits x 5 6 _ rfl,
    ValueType.concat_bits x 4 5 _ rfl,
    ValueType.concat_bits x 3 4 _ rfl,
    ValueType.concat_bits x 2 3 _ rfl,
    ValueType.concat_bits x 1 2 _ rfl,
    ValueType.concat_bits x 0 1 _ rfl]
  simp [ValueType.unsignedExtend, ValueType.number]

theorem ValueType.bit_of_low_word (x j : Nat) (hj : j < 16) :
    ValueType.number 1 ((x % 2 ^ 16) >>> j) = ValueType.number 1 (x >>> j) := by
  simp only [ValueType.number]
  apply ValueType.known_congr
  apply Nat.eq_of_testBit_eq
  intro b
  simp only [Nat.testBit_mod_two_pow, Nat.testBit_shiftRight]
  by_cases h0 : b = 0
  · subst h0
    simp [hj]
  · have a1 : ¬ b < 1 := by omega
    simp [a1]

theorem Policy.flags32_write (p : Policy) (v : ValueType 32) :
    Policy.writeRegister p ⟨X86RegisterClass.x86_regclass_flags, 0, 0, 32⟩ v HAS_BEEN_WRITTEN =
      (Except.ok (), Policy.or_all_flags_rw
        (Policy.set_flags_from
          (Policy.or_all_flags_rw
            (Policy.set_flags_from p 0 16 (ValueType.unsignedExtend 16 v)) HAS_BEEN_WRITTEN)
          16 32 v) HAS_BEEN_WRITTEN) := by
  have h16 : ¬ RegisterStateX86.n_flags < 16 := by decide
  have h32 : ¬ RegisterStateX86.n_flags < 32 := by decide
  have hf : Policy.findRegister "flags" 16 =
      Except.ok ⟨X86RegisterClass.x86_regclass_flags, 0, 0, 16⟩ := rfl
  simp only [Policy.writeRegister, Policy.writeRegister32, hf, Policy.writeRegister_flags16]
  simp [h16, h32, Policy.andThen]

theorem Policy.flags32_read (p : Policy)
    (h : ∀ j, j < 32 → (p.state.register_rw_state.flag j).state ≠ NO_ACCESS) :
    ∃ q, Policy.readRegister 32 p ⟨X86RegisterClass.x86_regclass_flags, 0, 0, 32⟩ =
        (Except.ok (ValueType.unsignedExtend 32 (Policy.flags_word32 q)), q) ∧
      q.state.registers = p.state.registers ∧ q.inputs = p.inputs := by
  obtain ⟨q, hq, a, b⟩ := Policy.read_flags_loop_accessed 32 0 p
    (fun j _ h2 => h j (by omega))
  refine ⟨q, ?_, a, b⟩
  have h32 : ¬ RegisterStateX86.n_flags < 32 := by decide
  simp only [Policy.readRegister, Policy.readRegister32]
  simp only [OfNat.ofNat_ne_one, if_false, if_true, ne_eq, not_true_eq_false, ge_iff_le,
    Nat.reduceEqDiff, h32, or_self]
  rw [hq]
  rfl


/-! ## Register round trips -/

theorem ValueType.extract_low_byte (r x : Nat) (hx : x < 2 ^ 8) :
    ValueType.extract 0 8 (ValueType.number 32 ((r &&& 0xffffff00) ||| x)) =
      (ValueType.known x hx : ValueType 8) := by
  simp only [ValueType.extract, ValueType.number]
  apply ValueType.known_congr
  apply Nat.eq_of_testBit_eq
  intro j
  have hc : (4294967040 : Nat) = (2 ^ 24 - 1) <<< 8 := by decide
  have hj : 8 ≤ j → x.testBit j = false := testBit_of_lt_pow x j 8 hx
  rw [hc]
  simp only [Nat.testBit_mod_two_pow, Nat.testBit_or, Nat.testBit_and, Nat.testBit_shiftLeft,
    Nat.testBit_shiftRight, Nat.testBit_two_pow_sub_one, Nat.reduceSub, Nat.zero_add]
  by_cases h8 : j < 8
  · have a1 : ¬ j ≥ 8 := by omega
    have a2 : j < 32 := by omega
    simp [h8, a1, a2]
  · simp [h8, hj (by omega)]

theorem ValueType.extract_high_byte (r x : Nat) (hx : x < 2 ^ 8) :
    ValueType.extract 8 16 (ValueType.number 32 ((r &&& 0xffff00ff) ||| (x <<< 8))) =
      (ValueType.known x hx : ValueType 8) := by
  simp only [ValueType.extract, ValueType.number]
  apply ValueType.known_congr
  apply Nat.eq_of_testBit_eq
  intro j
  have hc : (4294902015 : Nat) = ((2 ^ 16 - 1) <<< 16) ||| (2 ^ 8 - 1) := by decide
  have hj : 8 ≤ j → x.testBit j = false := testBit_of_lt_pow x j 8 hx
  rw [hc]
  simp only [Nat.testBit_mod_two_pow, Nat.testBit_or, Nat.testBit_and, Nat.testBit_shiftLeft,
    Nat.testBit_shiftRight, Nat.testBit_two_pow_sub_one, Nat.reduceSub]
  by_cases h8 : j < 8
  · have a1 : 8 + j < 32 := by omega
    have a2 : ¬ 8 + j < 8 := by omega
    have a3 : ¬ 8 + j ≥ 16 := by omega
    have a4 : 8 + j ≥ 8 := by omega
    have e : 8 + j - 8 = j := by omega
    simp [h8, a1, a2, a3, a4, e]
  · simp [h8, hj (by omega)]

theorem ValueType.extract_low_word (r y : Nat) (hy : y < 2 ^ 16) :
    ValueType.extract 0 16 (ValueType.number 32 ((r &&& 0xffff0000) ||| y)) =
      (ValueType.known y hy : ValueType 16) := by
  simp only [ValueType.extract, ValueType.number]
  apply ValueType.known_congr
  apply Nat.eq_of_testBit_eq
  intro j
  have hc : (4294901760 : Nat) = (2 ^ 16 - 1) <<< 16 := by decide
  have hj : 16 ≤ j → y.testBit j = false := testBit_of_lt_pow y j 16 hy
  rw [hc]
  simp only [Nat.testBit_mod_two_pow, Nat.testBit_or, Nat.testBit_and, Nat.testBit_shiftLeft,
    Nat.testBit_shiftRight, Nat.testBit_two_pow_sub_one, Nat.reduceSub, Nat.zero_add]
  by_cases h16 : j < 16
  · have a1 : ¬ j ≥ 16 := by omega
    have a2 : j < 32 := by omega
    simp [h16, a1, a2]
  · simp [h16, hj (by omega)]

theorem Policy.with_gpr_accessed (p q : Policy) (i : Nat) (v : ValueType 32)
    (h : q.state = Policy.with_gpr p i v HAS_BEEN_WRITTEN) :
    (q.state.register_rw_state.gpr i).state ≠ NO_ACCESS ∧ q.state.registers.gpr i = v := by
  rw [h]
  simp only [Policy.with_gpr, Function.update_same]
  exact ⟨or_written_ne_zero _, trivial⟩

theorem Policy.round_trip_flag (p : Policy) (off b : Nat) (hb : b < 2 ^ 1) (ho : off < 32) :
    Policy.round_trips p ⟨X86RegisterClass.x86_regclass_flags, 0, off, 1⟩
      (ValueType.known b hb : ValueType 1) := by
  have h32 : ¬ off ≥ 32 := by omega
  have hw : Policy.writeRegister p ⟨X86RegisterClass.x86_regclass_flags, 0, off, 1⟩
      (ValueType.known b hb : ValueType 1) HAS_BEEN_WRITTEN =
      (Except.ok (), Policy.or_flag_rw (Policy.set_flag p off
        (ValueType.unsignedExtend 1 (ValueType.known b hb : ValueType 1))) off
        HAS_BEEN_WRITTEN) := by
    simp [Policy.writeRegister, h32]
  refine ⟨_, hw, Policy.or_flag_rw (Policy.or_flag_rw (Policy.set_flag p off
      (ValueType.unsignedExtend 1 (ValueType.known b hb : ValueType 1))) off HAS_BEEN_WRITTEN)
      off HAS_BEEN_READ, (Policy.readRegister1_accessed _ off ho ?_).trans ?_, rfl⟩
  · simp only [Policy.or_flag_rw, Policy.set_flag, Function.update_same]
    exact or_written_ne_zero _
  · simp only [Policy.or_flag_rw, Policy.set_flag, Function.update_same,
      ValueType.unsignedExtend_known]

theorem Policy.round_trip_byte_lo (p : Policy) (i r x : Nat) (hx : x < 2 ^ 8) (hi : i < 8)
    (hh : Policy.gpr_holds p i r) :
    Policy.round_trips p ⟨X86RegisterClass.x86_regclass_gpr, i, 0, 8⟩
      (ValueType.known x hx : ValueType 8) := by
  obtain ⟨q, hw, hq⟩ := Policy.writeRegister8_lo_eq p i r x hx hi hh
  obtain ⟨h1, h2⟩ := Policy.with_gpr_accessed p q i _ hq
  refine ⟨q, hw, Policy.or_gpr_rw q i HAS_BEEN_READ,
    (Policy.readRegister8_lo_accessed q i hi h1).trans ?_, rfl⟩
  rw [h2, ValueType.extract_low_byte r x hx]

theorem Policy.round_trip_byte_hi (p : Policy) (i r x : Nat) (hx : x < 2 ^ 8) (hi : i < 8)
    (hh : Policy.gpr_holds p i r) :
    Policy.round_trips p ⟨X86RegisterClass.x86_regclass_gpr, i, 8, 8⟩
      (ValueType.known x hx : ValueType 8) := by
  obtain ⟨q, hw, hq⟩ := Policy.writeRegister8_hi_eq p i r x hx hi hh
  obtain ⟨h1, h2⟩ := Policy.with_gpr_accessed p q i _ hq
  refine ⟨q, hw, Policy.or_gpr_rw q i HAS_BEEN_READ,
    (Policy.readRegister8_hi_accessed q i hi h1).trans ?_, rfl⟩
  rw [h2, ValueType.extract_high_byte r x hx]

theorem Policy.round_trip_word (p : Policy) (i r y : Nat) (hy : y < 2 ^ 16) (hi : i < 8)
    (hh : Policy.gpr_holds p i r) :
    Policy.round_trips p ⟨X86RegisterClass.x86_regclass_gpr, i, 0, 16⟩
      (ValueType.known y hy : ValueType 16) := by
  obtain ⟨q, hw, hq⟩ := Policy.writeRegister16_gpr_eq p i r y hy hi hh
  obtain ⟨h1, h2⟩ := Policy.with_gpr_accessed p q i _ hq
  refine ⟨q, hw, Policy.or_segreg_rw q i HAS_BEEN_READ,
    (Policy.readRegister16_gpr_accessed q i hi h1).trans ?_, rfl⟩
  rw [h2, ValueType.extract_low_word r y hy]

theorem Policy.round_trip_segreg (p : Policy) (i y : Nat) (hy : y < 2 ^ 16) (hi : i < 6) :
    Policy.round_trips p ⟨X86RegisterClass.x86_regclass_segment, i, 0, 16⟩
      (ValueType.known y hy : ValueType 16) := by
  have h6 : ¬ i ≥ 6 := by omega
  have hw : Policy.writeRegister p ⟨X86RegisterClass.x86_regclass_segment, i, 0, 16⟩
      (ValueType.known y hy : ValueType 16) HAS_BEEN_WRITTEN =
      (Except.ok (), Policy.or_segreg_rw (Policy.set_segreg p i
        (ValueType.unsignedExtend 16 (ValueType.known y hy : ValueType 16))) i
        HAS_BEEN_WRITTEN) := by
    simp [Policy.writeRegister, Policy.writeRegister16, h6]
  refine ⟨_, hw, Policy.or_segreg_rw (Policy.or_segreg_rw (Policy.set_segreg p i
      (ValueType.unsignedExtend 16 (ValueType.known y hy : ValueType 16))) i HAS_BEEN_WRITTEN)
      i HAS_BEEN_READ, (Policy.readRegister16_segreg_accessed _ i hi ?_).trans ?_, rfl⟩
  · simp only [Policy.or_segreg_rw, Policy.set_segreg, Function.update_same]
    exact or_written_ne_zero _
  · simp only [Policy.or_segreg_rw, Policy.set_segreg, Function.update_same,
      ValueType.unsignedExtend_known]

theorem Policy.round_trip_flags16 (p : Policy) (y : Nat) (hy : y < 2 ^ 16) :
    Policy.round_trips p ⟨X86RegisterClass.x86_regclass_flags, 0, 0, 16⟩
      (ValueType.known y hy : ValueType 16) := by
  refine ⟨_, Policy.flags16_write p _, ?_⟩
  obtain ⟨q, hq, a, b⟩ := Policy.flags16_read (Policy.or_all_flags_rw
      (Policy.set_flags_from p 0 16
        (ValueType.unsignedExtend 16 (ValueType.known y hy : ValueType 16))) HAS_BEEN_WRITTEN)
    (by
      intro j hj
      have h32 : j < RegisterStateX86.n_flags := by
        show j < 32
        omega
      simp only [Policy.or_all_flags_rw, Policy.set_flags_from, h32, if_true]
      exact or_written_ne_zero _)
  refine ⟨q, hq.trans ?_, b⟩
  rw [Policy.flags_word16_of_bits q y]
  · exact congrArg (fun v => (Except.ok v, q)) (ValueType.known_congr _ _ (Nat.mod_eq_of_lt hy))
  · intro j hj
    rw [a]
    simp only [Policy.or_all_flags_rw, Policy.set_flags_from, Nat.zero_le, hj, and_self, if_true,
      ValueType.unsignedExtend_known, Policy.extract_bit_known]

theorem Policy.round_trip_gpr32 (p : Policy) (i : Nat) (v : ValueType 32) (hi : i < 8) :
    Policy.round_trips p ⟨X86RegisterClass.x86_regclass_gpr, i, 0, 32⟩ v := by
  refine ⟨_, Policy.writeRegister_gpr32 p i hi v,
    Policy.or_gpr_rw (Policy.or_gpr_rw (Policy.set_gpr p i v) i HAS_BEEN_WRITTEN) i HAS_BEEN_READ,
    (Policy.readRegister32_gpr_accessed _ i 32 hi ?_).trans ?_, rfl⟩
  · simp only [Policy.or_gpr_rw, Policy.set_gpr, Function.update_same]
    exact or_written_ne_zero _
  · simp only [Policy.or_gpr_rw, Policy.set_gpr, Function.update_same]

theorem Policy.round_trip_ip (p : Policy) (v : ValueType 32) :
    Policy.round_trips p ⟨X86RegisterClass.x86_regclass_ip, 0, 0, 32⟩ v := by
  have hw : Policy.writeRegister p ⟨X86RegisterClass.x86_regclass_ip, 0, 0, 32⟩ v
      HAS_BEEN_WRITTEN =
      (Except.ok (), Policy.or_ip_rw (Policy.set_ip p v) HAS_BEEN_WRITTEN) := by
    simp [Policy.writeRegister, Policy.writeRegister32, ValueType.unsignedExtend_self]
  refine ⟨_, hw, Policy.or_ip_rw (Policy.or_ip_rw (Policy.set_ip p v) HAS_BEEN_WRITTEN)
      HAS_BEEN_READ, (Policy.readRegister32_ip_accessed _ 32 ?_).trans ?_, rfl⟩
  · simp only [Policy.or_ip_rw, Policy.set_ip]
    exact or_written_ne_zero _
  · simp only [Policy.or_ip_rw, Policy.set_ip]

theorem Policy.round_trip_flags32 (p : Policy) (x : Nat) (hx : x < 2 ^ 32) :
    Policy.round_trips p ⟨X86RegisterClass.x86_regclass_flags, 0, 0, 32⟩
      (ValueType.known x hx : ValueType 32) := by
  refine ⟨_, Policy.flags32_write p _, ?_⟩
  obtain ⟨q, hq, a, b⟩ := Policy.flags32_read (Policy.or_all_flags_rw
        (Policy.set_flags_from
          (Policy.or_all_flags_rw
            (Policy.set_flags_from p 0 16
              (ValueType.unsignedExtend 16 (ValueType.known x hx : ValueType 32)))
            HAS_BEEN_WRITTEN)
          16 32 (ValueType.known x hx : ValueType 32)) HAS_BEEN_WRITTEN)
    (by
      intro j hj
      have h32 : j < RegisterStateX86.n_flags := hj
      simp only [Policy.or_all_flags_rw, Policy.set_flags_from, h32, if_true]
      exact or_written_ne_zero _)
  refine ⟨q, hq.trans ?_, b⟩
  rw [Policy.flags_word32_of_bits q x]
  · exact congrArg (fun v => (Except.ok v, q)) (ValueType.known_congr _ _ (Nat.mod_eq_of_lt hx))
  · intro j hj
    rw [a]
    by_cases h16 : 16 ≤ j
    · simp only [Policy.or_all_flags_rw, Policy.set_flags_from, h16, hj, and_self, if_true,
        Policy.extract_bit_known]
    · have h16' : j < 16 := by omega
      simp only [Policy.or_all_flags_rw, Policy.set_flags_from, h16, false_and, if_false,
        Nat.zero_le, h16', and_self, if_true]
      exact ValueType.bit_of_low_word x j h16'


/-- C17, amended: the register round trip. For every register and width that the policy
accepts and every known value `v` of that width, `writeRegister<N>(r, v)` returns
normally and `readRegister<N>(r)` executed right after it returns `v` and consumes no
input: single flag bits, segment registers, the 16-bit FLAGS, the 32-bit general-purpose
registers and EIP (for these two also when `v` is unknown) and the 32-bit EFLAGS in every
state; the 8-bit slices at offset 0 or 8 and the 16-bit low words of a general-purpose
register when that register holds a number (it has been accessed and its value is known,
or it has never been accessed and the input group delivers the integer that seeds
it). -/
theorem register_round_trip (p : Policy) :
    (∀ (off b : Nat) (hb : b < 2 ^ 1), off < 32 →
      Policy.round_trips p ⟨X86RegisterClass.x86_regclass_flags, 0, off, 1⟩
        (ValueType.known b hb : ValueType 1)) ∧
    (∀ (i x : Nat) (hx : x < 2 ^ 8), i < 8 → (∃ r, Policy.gpr_holds p i r) →
      Policy.round_trips p ⟨X86RegisterClass.x86_regclass_gpr, i, 0, 8⟩
        (ValueType.known x hx : ValueType 8)) ∧
    (∀ (i x : Nat) (hx : x < 2 ^ 8), i < 8 → (∃ r, Policy.gpr_holds p i r) →
      Policy.round_trips p ⟨X86RegisterClass.x86_regclass_gpr, i, 8, 8⟩
        (ValueType.known x hx : ValueType 8)) ∧
    (∀ (i x : Nat) (hx : x < 2 ^ 16), i < 8 → (∃ r, Policy.gpr_holds p i r) →
      Policy.round_trips p ⟨X86RegisterClass.x86_regclass_gpr, i, 0, 16⟩
        (ValueType.known x hx : ValueType 16)) ∧
    (∀ (i x : Nat) (hx : x < 2 ^ 16), i < 6 →
      Policy.round_trips p ⟨X86RegisterClass.x86_regclass_segment, i, 0, 16⟩
        (ValueType.known x hx : ValueType 16)) ∧
    (∀ (x : Nat) (hx : x < 2 ^ 16),
      Policy.round_trips p ⟨X86RegisterClass.x86_regclass_flags, 0, 0, 16⟩
        (ValueType.known x hx : ValueType 16)) ∧
    (∀ (i : Nat) (v : ValueType 32), i < 8 →
      Policy.round_trips p ⟨X86RegisterClass.x86_regclass_gpr, i, 0, 32⟩ v) ∧
    (∀ (v : ValueType 32),
      Policy.round_trips p ⟨X86RegisterClass.x86_regclass_ip, 0, 0, 32⟩ v) ∧
    (∀ (x : Nat) (hx : x < 2 ^ 32),
      Policy.round_trips p ⟨X86RegisterClass.x86_regclass_flags, 0, 0, 32⟩
        (ValueType.known x hx : ValueType 32)) :=
  ⟨fun off b hb ho => Policy.round_trip_flag p off b hb ho,
   fun i x hx hi ⟨r, hh⟩ => Policy.round_trip_byte_lo p i r x hx hi hh,
   fun i x hx hi ⟨r, hh⟩ => Policy.round_trip_byte_hi p i r x hx hi hh,
   fun i x hx hi ⟨r, hh⟩ => Policy.round_trip_word p i r x hx hi hh,
   fun i x hx hi => Policy.round_trip_segreg p i x hx hi,
   fun x hx => Policy.round_trip_flags16 p x hx,
   fun i v hi => Policy.round_trip_gpr32 p i v hi,
   fun v => Policy.round_trip_ip p v,
   fun x hx => Policy.round_trip_flags32 p x hx⟩

/-- Witness for C17: on a fresh policy whose next integer input is `0x11223344`, the value
`0xAB` written to AH is read back from AH. -/
theorem register_round_trip_witness :
    Policy.round_trips
      { Policy.new (AddressHasher.mk (LinearCongruentialGenerator.mk 0) []) PolicyParams.new [] with
        inputs := some (InputGroup.mk [0x11223344] [] 0 0 true) }
      ⟨X86RegisterClass.x86_regclass_gpr, x86_gpr_ax, 8, 8⟩
      (ValueType.known 0xAB (by decide) : ValueType 8) :=
  (register_round_trip
    { Policy.new (AddressHasher.mk (LinearCongruentialGenerator.mk 0) []) PolicyParams.new [] with
      inputs := some (InputGroup.mk [0x11223344] [] 0 0 true) }).2.2.1 x86_gpr_ax 0xAB
    (by decide) (by decide)
    ⟨0x11223344, Or.inr ⟨rfl, InputGroup.mk [0x11223344] [] 0 0 true, rfl, Or.inr (by decide), rfl⟩⟩

/-- C17 as stated fails when the parent register holds an unknown value. On a fresh
policy EAX is written with an unknown 32-bit value; then `writeRegister<8>` of the known
value 5 to AL returns normally, but the merge with the unknown upper lanes is unknown, and
`readRegister<8>` of AL executed right after it returns an unknown value, not 5. -/
theorem register_round_trip_unknown_parent :
    (Policy.writeRegister
        (Policy.writeRegister
          (Policy.new (AddressHasher.mk (LinearCongruentialGenerator.mk 0) []) PolicyParams.new [])
          ⟨X86RegisterClass.x86_regclass_gpr, x86_gpr_ax, 0, 32⟩
          (ValueType.unknown : ValueType 32) HAS_BEEN_WRITTEN).2
        ⟨X86RegisterClass.x86_regclass_gpr, x86_gpr_ax, 0, 8⟩
        (ValueType.number 8 5) HAS_BEEN_WRITTEN).1 = Except.ok () ∧
    (Policy.readRegister 8
        (Policy.writeRegister
          (Policy.writeRegister
            (Policy.new (AddressHasher.mk (LinearCongruentialGenerator.mk 0) []) PolicyParams.new [])
            ⟨X86RegisterClass.x86_regclass_gpr, x86_gpr_ax, 0, 32⟩
            (ValueType.unknown : ValueType 32) HAS_BEEN_WRITTEN).2
          ⟨X86RegisterClass.x86_regclass_gpr, x86_gpr_ax, 0, 8⟩
          (ValueType.number 8 5) HAS_BEEN_WRITTEN).2
        ⟨X86RegisterClass.x86_regclass_gpr, x86_gpr_ax, 0, 8⟩).1 =
      Except.ok ValueType.unknown ∧
    ¬ Policy.round_trips
        (Policy.writeRegister
          (Policy.new (AddressHasher.mk (LinearCongruentialGenerator.mk 0) []) PolicyParams.new [])
          ⟨X86RegisterClass.x86_regclass_gpr, x86_gpr_ax, 0, 32⟩
          (ValueType.unknown : ValueType 32) HAS_BEEN_WRITTEN).2
        ⟨X86RegisterClass.x86_regclass_gpr, x86_gpr_ax, 0, 8⟩ (ValueType.number 8 5) := by
  refine ⟨rfl, rfl, ?_⟩
  rintro ⟨q, hw, q', hr, _⟩
  have e1 : q = (Policy.writeRegister
          (Policy.writeRegister
            (Policy.new (AddressHasher.mk (LinearCongruentialGenerator.mk 0) []) PolicyParams.new [])
            ⟨X86RegisterClass.x86_regclass_gpr, x86_gpr_ax, 0, 32⟩
            (ValueType.unknown : ValueType 32) HAS_BEEN_WRITTEN).2
          ⟨X86RegisterClass.x86_regclass_gpr, x86_gpr_ax, 0, 8⟩
          (ValueType.number 8 5) HAS_BEEN_WRITTEN).2 := by
    rw [hw]
  rw [e1] at hr
  have e2 := congrArg Prod.fst hr
  have e3 : (Except.ok ValueType.unknown : Except Thrown (ValueType 8)) =
      Except.ok (ValueType.number 8 5) := e2
  injection e3 with e4
  exact absurd e4 (by decide)


/-! ## Typed consumption -/

/-- C24: `next_input_value<N>(type)`. With an input group installed that delivers the
value asked for, POINTER takes the next value of the pointer pool and leaves the integer
cursor alone, INTEGER and UNKNOWN_TYPE each take the next value of the integer pool and
leave the pointer cursor alone; the cursor of the pool used advances by exactly one and
the result is the value taken, reduced to its low `N` bits. (The only other outcome with a
group installed is INPUT_LIMIT in limit mode, which consumes nothing.) With no input
group installed the result is 0 and the policy is unchanged. -/
theorem next_input_value_spec (N : Nat) (p : Policy) :
    (∀ g, p.inputs = some g →
      (g.limit_consumption_ = false ∨ g.next_pointer_ < g.pointers_.length) →
      Policy.next_input_value N InputGroup.Type_.POINTER p =
        (Except.ok (ValueType.number N (g.pointers_.getD g.next_pointer_ 0)),
          { p with inputs := some { g with next_pointer_ := g.next_pointer_ + 1 } })) ∧
    (∀ g type, p.inputs = some g →
      (type = InputGroup.Type_.INTEGER ∨ type = InputGroup.Type_.UNKNOWN_TYPE) →
      (g.limit_consumption_ = false ∨ g.next_integer_ < g.integers_.length) →
      Policy.next_input_value N type p =
        (Except.ok (ValueType.number N (g.integers_.getD g.next_integer_ 0)),
          { p with inputs := some { g with next_integer_ := g.next_integer_ + 1 } })) ∧
    (∀ type, p.inputs = none →
      Policy.next_input_value N type p = (Except.ok (ValueType.number N 0), p)) ∧
    (∀ x : Nat, (ValueType.number N x).known_value = x % 2 ^ N) := by
  refine ⟨?_, ?_, ?_, fun x => rfl⟩
  · intro g hg hl
    exact Policy.next_input_value_pointer N p g hg hl
  · intro g type hg ht hl
    refine Policy.next_input_value_integer N type ?_ p g hg hl
    rcases ht with h | h <;> rw [h] <;> decide
  · intro type hn
    unfold Policy.next_input_value
    rw [hn]

/-- Witness for C24: with integers `[0x1FF]` and pointers `[0x2AB]`, an 8-bit POINTER
request yields `0xAB` and advances only the pointer cursor. -/
theorem next_input_value_spec_witness :
    Policy.next_input_value 8 InputGroup.Type_.POINTER
        { Policy.new (AddressHasher.mk (LinearCongruentialGenerator.mk 0) []) PolicyParams.new [] with
          inputs := some (InputGroup.mk [0x1FF] [0x2AB] 0 0 true) } =
      (Except.ok (ValueType.number 8 0x2AB),
        { Policy.new (AddressHasher.mk (LinearCongruentialGenerator.mk 0) []) PolicyParams.new [] with
          inputs := some (InputGroup.mk [0x1FF] [0x2AB] 0 1 true) }) :=
  (next_input_value_spec 8
    { Policy.new (AddressHasher.mk (LinearCongruentialGenerator.mk 0) []) PolicyParams.new [] with
      inputs := some (InputGroup.mk [0x1FF] [0x2AB] 0 0 true) }).1
    (InputGroup.mk [0x1FF] [0x2AB] 0 0 true) rfl (Or.inr (by decide))

/-! ## The address hasher -/

theorem AddressHasher.hash_unfold (h : AddressHasher) (addr : Nat) :
    h.hash addr =
      h.round addr (h.round addr (h.round addr (h.round addr 0 0) 1) 2) 3 := rfl

theorem AddressHasher.round_low (h : AddressHasher) (addr acc i : Nat) (hi : i < 4) :
    h.round addr acc i = h.round (addr % 2 ^ 32) acc i := by
  unfold AddressHasher.round
  have e : (addr % 2 ^ 32) >>> (8 * i) &&& 0xff = addr >>> (8 * i) &&& 0xff := by
    apply Nat.eq_of_testBit_eq
    intro j
    have hc : (255 : Nat) = 2 ^ 8 - 1 := by decide
    rw [hc]
    simp only [Nat.testBit_and, Nat.testBit_shiftRight, Nat.testBit_mod_two_pow,
      Nat.testBit_two_pow_sub_one]
    by_cases h8 : j < 8
    · have a : 8 * i + j < 32 := by omega
      simp [h8, a]
    · simp [h8]
  rw [e]

theorem AddressHasher.getD_byte (tab : List Nat) (hb : ∀ b ∈ tab, b < 256) (k : Nat) :
    tab.getD k 0 % 256 = tab.getD k 0 := by
  apply Nat.mod_eq_of_lt
  by_cases hk : k < tab.length
  · rw [List.getD_eq_getElem tab 0 hk]
    exact hb _ (List.getElem_mem hk)
  · rw [List.getD_eq_default tab 0 (Nat.le_of_not_lt hk)]
    decide

/-- C21: the hash of an address. For a table of 256 bytes the result is `acc 4`, where
`acc 0 = 0` and `acc (i+1) = tab[(acc i + byte_i) & 0xff]` with `byte_i` bits
`8i .. 8i+7` of the address. The result is a byte, it depends only on the table and on
the low 32 bits of the address, and hashers built from the same seed (with the same
generator) return the same byte for every address. -/
theorem address_hash_spec (h : AddressHasher) (addr : Nat) :
    (∀ (lcg : LinearCongruentialGenerator) (tab : List Nat),
      tab.length = 256 → (∀ b ∈ tab, b < 256) →
      (AddressHasher.mk lcg tab).hash addr = AddressHasher.acc tab addr 4) ∧
    h.hash addr < 256 ∧
    h.hash addr = h.hash (addr % 2 ^ 32) ∧
    (∀ h2 : AddressHasher, h2.tab = h.tab → h2.hash addr = h.hash addr) ∧
    (∀ (step : Nat → Nat) (seed seed2 : Nat), seed2 = seed →
      (AddressHasher.ofSeed step seed2).hash addr = (AddressHasher.ofSeed step seed).hash addr) := by
  refine ⟨?_, ?_, ?_, ?_, ?_⟩
  · intro lcg tab _ hb
    rw [AddressHasher.hash_unfold]
    simp only [AddressHasher.round, AddressHasher.acc, AddressHasher.getD_byte tab hb]
  · rw [AddressHasher.hash_unfold]
    unfold AddressHasher.round
    exact Nat.mod_lt _ (by decide)
  · rw [AddressHasher.hash_unfold, AddressHasher.hash_unfold,
      AddressHasher.round_low h addr _ 0 (by decide), AddressHasher.round_low h addr _ 1 (by decide),
      AddressHasher.round_low h addr _ 2 (by decide), AddressHasher.round_low h addr _ 3 (by decide)]
  · intro h2 e
    simp only [AddressHasher.hash_unfold, AddressHasher.round, e]
  · intro step seed seed2 e
    rw [e]

/-- Witness for C21: with the identity table of 256 bytes the hash of `0x01020304` is
`acc 4`. -/
theorem address_hash_spec_witness :
    (AddressHasher.mk (LinearCongruentialGenerator.mk 0) (List.range 256)).hash 0x01020304 =
      AddressHasher.acc (List.range 256) 0x01020304 4 :=
  (address_hash_spec (AddressHasher.mk (LinearCongruentialGenerator.mk 0) []) 0x01020304).1
    (LinearCongruentialGenerator.mk 0) (List.range 256) (List.length_range 256)
    (fun _ hb => List.mem_range.mp hb)


/-! ## The table of the address hasher -/

theorem AddressHasher.fill_table_length (step : Nat → Nat) (n : Nat)
    (g : LinearCongruentialGenerator) : (AddressHasher.fill_table step n g).1.length = n := by
  induction n generalizing g with
  | zero => rfl
  | succ n ih => simp [AddressHasher.fill_table, ih]

theorem AddressHasher.fill_table_bytes (step : Nat → Nat) (n : Nat)
    (g : LinearCongruentialGenerator) : ∀ b ∈ (AddressHasher.fill_table step n g).1, b < 256 := by
  induction n generalizing g with
  | zero => intro b hb; simp [AddressHasher.fill_table] at hb
  | succ n ih =>
    intro b hb
    simp only [AddressHasher.fill_table, List.mem_cons] at hb
    rcases hb with hb | hb
    · rw [hb]
      exact Nat.mod_lt _ (by decide)
    · exact ih _ b hb

theorem AddressHasher.fill_table_getD (step : Nat → Nat) (n : Nat)
    (g : LinearCongruentialGenerator) (i : Nat) (hi : i < n) :
    (AddressHasher.fill_table step n g).1.getD i 0 = step^[i + 1] g.value_ % 256 := by
  induction n generalizing g i with
  | zero => omega
  | succ n ih =>
    cases i with
    | zero => simp [AddressHasher.fill_table, LinearCongruentialGenerator.next]
    | succ i =>
      have h := ih (g.next step).2 i (by omega)
      simp only [AddressHasher.fill_table, List.getD_cons_succ]
      rw [h]
      simp [LinearCongruentialGenerator.next, Function.iterate_succ_apply]

/-- The table that `init_table` builds, for every generator and every seed: it has 256
entries, each of them a byte, and entry `i` is draw number `i + 1` of the generator reduced
modulo 256. Which bytes occur, and how often, is left to the generator. -/
theorem AddressHasher.init_table_entries (step : Nat → Nat) (seed : Nat) :
    (AddressHasher.ofSeed step seed).tab.length = 256 ∧
    (∀ b ∈ (AddressHasher.ofSeed step seed).tab, b < 256) ∧
    (∀ i, i < 256 →
      (AddressHasher.ofSeed step seed).tab.getD i 0 = step^[i + 1] (seed % 2 ^ 32) % 256) := by
  have e : (AddressHasher.ofSeed step seed).tab =
      (AddressHasher.fill_table step 256 (LinearCongruentialGenerator.mk (seed % 2 ^ 32))).1 := rfl
  rw [e]
  exact ⟨AddressHasher.fill_table_length step 256 _, AddressHasher.fill_table_bytes step 256 _,
    fun i hi => AddressHasher.fill_table_getD step 256 _ i hi⟩


/-! ## Which calls are followed -/

theorem Policy.follows_call_eq (p : Policy) (insns : InstructionProvidor) (v : ValueType 32)
    (hi : p.insns = some insns) :
    Policy.follows_call p v =
      Except.ok (p.params.follow_calls &&
        (match insns.get_instruction v.known_value with
         | some insn =>
           match insn.enclosing_function with
           | some f => !decide (f.name.length > 4 ∧ f.name.drop (f.name.length - 4) = "@plt")
           | none => false
         | none => false)) := by
  unfold Policy.follows_call
  rw [hi]
  cases hf : p.params.follow_calls with
  | false => simp
  | true =>
    simp only [if_true, Bool.true_and]
    cases hg : insns.get_instruction v.known_value with
    | none => rfl
    | some insn =>
      simp only []
      cases he : insn.enclosing_function with
      | none => rfl
      | some f =>
        simp only []
        by_cases hn : f.name.length > 4 ∧ f.name.drop (f.name.length - 4) = "@plt"
        · simp [hn]
        · simp [hn]

theorem Policy.finishInstruction_followed (p : Policy) (insn : SgAsmx86Instruction)
    (hk : insn.kind = X86InstructionKind.x86_call)
    (hip : p.state.register_rw_state.ip.state ≠ NO_ACCESS)
    (hf : Policy.follows_call p p.state.registers.ip = Except.ok true) :
    Policy.finishInstruction p (some insn) =
      (Except.ok (), Policy.Super_finishInstruction
        (Policy.or_ip_rw
          { p with
            state :=
              { p.state with
                output_group :=
                  { p.state.output_group with ninsns := p.state.output_group.ninsns + 1 } } }
          HAS_BEEN_READ) insn) := by
  unfold Policy.finishInstruction
  simp only [hk, if_true]
  rw [Policy.readRegisterNamed_eip, Policy.readRegister32_ip_accessed _ 32 ?_]
  swap
  · exact hip
  simp only [Policy.andThen]
  rw [Policy.follows_call_congr p _ _ ?_ ?_]
  rotate_left
  · rfl
  · rfl
  rw [hf]
  rfl

/-- C28, amended: with an instruction provider installed, a CALL is followed exactly when
`follow_calls` is set, the target address has an instruction with an enclosing function,
and it is not the case that the name of that function has more than 4 characters and ends
with `@plt`. A followed CALL (with EIP accessed before) gets no special handling:
`finishInstruction` returns normally having only counted the instruction, marked EIP as
read and cleared the current instruction. -/
theorem call_followed_iff (p : Policy) (insns : InstructionProvidor) (v : ValueType 32)
    (hi : p.insns = some insns) :
    (Policy.follows_call p v = Except.ok true ∨ Policy.follows_call p v = Except.ok false) ∧
    (Policy.follows_call p v = Except.ok true ↔
      (p.params.follow_calls = true ∧
        ∃ insn f, insns.get_instruction v.known_value = some insn ∧
          insn.enclosing_function = some f ∧
          ¬ (f.name.length > 4 ∧ f.name.drop (f.name.length - 4) = "@plt"))) ∧
    (∀ insn : SgAsmx86Instruction, insn.kind = X86InstructionKind.x86_call →
      p.state.register_rw_state.ip.state ≠ NO_ACCESS → v = p.state.registers.ip →
      Policy.follows_call p v = Except.ok true →
      Policy.finishInstruction p (some insn) =
        (Except.ok (), Policy.Super_finishInstruction
          (Policy.or_ip_rw
            { p with
              state :=
                { p.state with
                  output_group :=
                    { p.state.output_group with
                      ninsns := p.state.output_group.ninsns + 1 } } }
            HAS_BEEN_READ) insn)) := by
  have e := Policy.follows_call_eq p insns v hi
  refine ⟨?_, ?_, ?_⟩
  · rw [e]
    cases (p.params.follow_calls &&
        (match insns.get_instruction v.known_value with
         | some insn =>
           match insn.enclosing_function with
           | some f => !decide (f.name.length > 4 ∧ f.name.drop (f.name.length - 4) = "@plt")
           | none => false
         | none => false)) with
    | true => exact Or.inl rfl
    | false => exact Or.inr rfl
  · rw [e]
    constructor
    · intro h
      have h1 : (p.params.follow_calls &&
        (match insns.get_instruction v.known_value with
         | some insn =>
           match insn.enclosing_function with
           | some f => !decide (f.name.length > 4 ∧ f.name.drop (f.name.length - 4) = "@plt")
           | none => false
         | none => false)) = true := by
        injection h
      rw [Bool.and_eq_true] at h1
      refine ⟨h1.1, ?_⟩
      have h2 := h1.2
      cases hg : insns.get_instruction v.known_value with
      | none => rw [hg] at h2; simp at h2
      | some insn =>
        rw [hg] at h2
        simp only [] at h2
        cases he : insn.enclosing_function with
        | none => rw [he] at h2; simp at h2
        | some f =>
          rw [he] at h2
          simp only [Bool.not_eq_true', decide_eq_false_iff_not] at h2
          exact ⟨insn, f, rfl, he, h2⟩
    · rintro ⟨hfc, insn, f, hg, he, hn⟩
      rw [hfc, hg]
      simp only [he, Bool.true_and]
      simp [hn]
  · intro insn hk hip hv hf
    rw [hv] at hf
    exact Policy.finishInstruction_followed p insn hk hip hf


/-- Witness for C28, amended: with `follow_calls` set, a call to the function `main` at
`0x2000` is followed. -/
theorem call_followed_iff_witness :
    Policy.follows_call
        { Policy.new (AddressHasher.mk (LinearCongruentialGenerator.mk 0) [])
            { PolicyParams.new with follow_calls := true } [] with
          insns := some ⟨[(0x2000, ⟨0x2000, 1, X86InstructionKind.x86_other,
            some ⟨0x2000, "main"⟩⟩)]⟩ }
        (ValueType.number 32 0x2000) = Except.ok true :=
  (call_followed_iff
    { Policy.new (AddressHasher.mk (LinearCongruentialGenerator.mk 0) [])
        { PolicyParams.new with follow_calls := true } [] with
      insns := some ⟨[(0x2000, ⟨0x2000, 1, X86InstructionKind.x86_other,
        some ⟨0x2000, "main"⟩⟩)]⟩ }
    ⟨[(0x2000, ⟨0x2000, 1, X86InstructionKind.x86_other, some ⟨0x2000, "main"⟩⟩)]⟩
    (ValueType.number 32 0x2000) rfl).2.1.mpr
    ⟨rfl, ⟨0x2000, 1, X86InstructionKind.x86_other, some ⟨0x2000, "main"⟩⟩, ⟨0x2000, "main"⟩,
      rfl, rfl, by decide⟩

/-- C28 as stated fails for a callee whose name is exactly `@plt`: the name ends with
`@plt`, yet with `follow_calls` set the call is followed, because the test for the suffix
is made only for names of more than 4 characters. `finishInstruction` on a CALL whose
target is that function applies no special handling: EAX is not written. -/
theorem call_to_bare_plt_is_followed :
    ("@plt".drop ("@plt".length - 4) = "@plt") ∧
    Policy.follows_call
        { Policy.new (AddressHasher.mk (LinearCongruentialGenerator.mk 0) [])
            { PolicyParams.new with follow_calls := true } [] with
          insns := some ⟨[(0x2000, ⟨0x2000, 1, X86InstructionKind.x86_other,
            some ⟨0x2000, "@plt"⟩⟩)]⟩ }
        (ValueType.number 32 0x2000) = Except.ok true ∧
    ((Policy.finishInstruction
        { Policy.new (AddressHasher.mk (LinearCongruentialGenerator.mk 0) [])
            { PolicyParams.new with follow_calls := true } [] with
          insns := some ⟨[(0x2000, ⟨0x2000, 1, X86InstructionKind.x86_other,
            some ⟨0x2000, "@plt"⟩⟩)]⟩,
          inputs := some (InputGroup.mk [7] [] 0 0 false),
          state :=
            { State.new with
              registers := { State.new.registers with ip := ValueType.number 32 0x2000 },
              register_rw_state :=
                { State.new.register_rw_state with ip := ReadWriteState.mk HAS_BEEN_WRITTEN } } }
        (some ⟨0x1000, 5, X86InstructionKind.x86_call, none⟩)).2.state.register_rw_state.gpr
          x86_gpr_ax).state = NO_ACCESS ∧
    (Policy.finishInstruction
        { Policy.new (AddressHasher.mk (LinearCongruentialGenerator.mk 0) [])
            { PolicyParams.new with follow_calls := true } [] with
          insns := some ⟨[(0x2000, ⟨0x2000, 1, X86InstructionKind.x86_other,
            some ⟨0x2000, "@plt"⟩⟩)]⟩,
          inputs := some (InputGroup.mk [7] [] 0 0 false),
          state :=
            { State.new with
              registers := { State.new.registers with ip := ValueType.number 32 0x2000 },
              register_rw_state :=
                { State.new.register_rw_state with ip := ReadWriteState.mk HAS_BEEN_WRITTEN } } }
        (some ⟨0x1000, 5, X86InstructionKind.x86_call, none⟩)).2.state.registers.ip =
      ValueType.number 32 0x2000 := by
  refine ⟨by decide, ?_, ?_, ?_⟩
  · rfl
  · rfl
  · rfl


/-! ## Register files: indices and partial writes -/

/-- C29 on a concrete access: `readRegister<16>` of SI (general-purpose index 6) on a
fresh policy with integers `[0x11112222]` is accepted and returns `0x2222`. The access
mask it updates is entry 6 of the segment-register masks, an index that is not below
`n_segregs = 6`, and the access mask of SI itself stays NO_ACCESS. -/
theorem readRegister16_marks_segment_mask :
    (Policy.readRegister 16
        { Policy.new (AddressHasher.mk (LinearCongruentialGenerator.mk 0) []) PolicyParams.new [] with
          inputs := some (InputGroup.mk [0x11112222] [] 0 0 false) }
        ⟨X86RegisterClass.x86_regclass_gpr, x86_gpr_si, 0, 16⟩).1 =
      Except.ok (ValueType.number 16 0x2222) ∧
    ¬ (x86_gpr_si < RegisterStateX86.n_segregs) ∧
    ((Policy.readRegister 16
        { Policy.new (AddressHasher.mk (LinearCongruentialGenerator.mk 0) []) PolicyParams.new [] with
          inputs := some (InputGroup.mk [0x11112222] [] 0 0 false) }
        ⟨X86RegisterClass.x86_regclass_gpr, x86_gpr_si, 0, 16⟩).2.state.register_rw_state.segreg
          x86_gpr_si).state = HAS_BEEN_READ ∧
    ((Policy.readRegister 16
        { Policy.new (AddressHasher.mk (LinearCongruentialGenerator.mk 0) []) PolicyParams.new [] with
          inputs := some (InputGroup.mk [0x11112222] [] 0 0 false) }
        ⟨X86RegisterClass.x86_regclass_gpr, x86_gpr_si, 0, 16⟩).2.state.register_rw_state.gpr
          x86_gpr_si).state = NO_ACCESS := by
  refine ⟨?_, by decide, ?_, ?_⟩
  · rfl
  · rfl
  · rfl

/-- C30 on a concrete run: EAX has never been accessed and the integer pool is
`[0x11223344]`. Writing the known value `0x5566` to AX first seeds EAX with the next
integer input, so EAX as a whole is the known value `0x11225566` afterwards, and
`get_outputs` emits it. -/
theorem partial_write_leaves_eax_known :
    (Policy.writeRegister
        { Policy.new (AddressHasher.mk (LinearCongruentialGenerator.mk 0) []) PolicyParams.new [] with
          inputs := some (InputGroup.mk [0x11223344] [] 0 0 false) }
        ⟨X86RegisterClass.x86_regclass_gpr, x86_gpr_ax, 0, 16⟩
        (ValueType.number 16 0x5566) HAS_BEEN_WRITTEN).1 = Except.ok () ∧
    (Policy.writeRegister
        { Policy.new (AddressHasher.mk (LinearCongruentialGenerator.mk 0) []) PolicyParams.new [] with
          inputs := some (InputGroup.mk [0x11223344] [] 0 0 false) }
        ⟨X86RegisterClass.x86_regclass_gpr, x86_gpr_ax, 0, 16⟩
        (ValueType.number 16 0x5566) HAS_BEEN_WRITTEN).2.state.registers.gpr x86_gpr_ax =
      ValueType.number 32 0x11225566 ∧
    ((Policy.writeRegister
        { Policy.new (AddressHasher.mk (LinearCongruentialGenerator.mk 0) []) PolicyParams.new [] with
          inputs := some (InputGroup.mk [0x11223344] [] 0 0 false) }
        ⟨X86RegisterClass.x86_regclass_gpr, x86_gpr_ax, 0, 16⟩
        (ValueType.number 16 0x5566) HAS_BEEN_WRITTEN).2.state.registers.gpr
          x86_gpr_ax).is_known = true ∧
    (Policy.writeRegister
        { Policy.new (AddressHasher.mk (LinearCongruentialGenerator.mk 0) []) PolicyParams.new [] with
          inputs := some (InputGroup.mk [0x11223344] [] 0 0 false) }
        ⟨X86RegisterClass.x86_regclass_gpr, x86_gpr_ax, 0, 16⟩
        (ValueType.number 16 0x5566) HAS_BEEN_WRITTEN).2.get_outputs.values = {0x11225566} := by
  refine ⟨?_, ?_, ?_, ?_⟩
  · rfl
  · rfl
  · rfl
  · decide


/-! ## What an uninitialized read consumes -/

theorem Policy.consume_input_iff (p : Policy) (a0 : ValueType 32) :
    Policy.consume_input p a0 = true ↔
      (p.params.init_memory = false ∧
        ∀ interp map, p.interp = some interp → interp.get_map = some map →
          map.exists_ a0.known_value = true) := by
  unfold Policy.consume_input
  cases hm : p.params.init_memory with
  | true => simp
  | false =>
    simp only [Bool.not_false, if_true, true_and]
    cases hi : p.interp with
    | none => simp
    | some interp =>
      cases hg : interp.get_map with
      | none =>
        simp only [hg, true_iff]
        intro i m e1 e2
        injection e1 with e1
        rw [← e1, hg] at e2
        exact absurd e2 (by simp)
      | some map =>
        simp only [hg]
        constructor
        · intro h i m e1 e2
          injection e1 with e1
          rw [← e1, hg] at e2
          injection e2 with e2
          rw [← e2]
          exact h
        · intro h
          exact h interp map rfl hg

theorem Policy.input_type_pointer_iff (p : Policy) (a0 : ValueType 32) :
    Policy.input_type p a0 = InputGroup.Type_.POINTER ↔
      ∃ o, p.pointers = some o ∧ o.is_pointer a0.known_value = true := by
  unfold Policy.input_type
  cases hp : p.pointers with
  | none => simp
  | some o =>
    by_cases h : o.is_pointer a0.known_value = true
    · simp [h]
    · simp [h]

theorem Policy.input_type_cases (p : Policy) (a0 : ValueType 32) :
    Policy.input_type p a0 = InputGroup.Type_.POINTER ∨
      Policy.input_type p a0 = InputGroup.Type_.INTEGER := by
  unfold Policy.input_type
  cases p.pointers with
  | none => exact Or.inr rfl
  | some o =>
    by_cases h : o.is_pointer a0.known_value = true
    · simp [h]
    · simp [h]

/-- An uninitialized read that materialises `v` with the policy `p1` returns `v` and
leaves the input group as `p1` has it. -/
theorem Policy.readMemory_materialised (N : Nat) (hN : N = 8 ∨ N = 16 ∨ N = 32) (p p1 : Policy)
    (sr : X86SegmentRegister) (a0 : ValueType 32) (rnd : Nat → Nat) (v : ValueType N)
    (hnr : Policy.reads_return_address N p a0 = false)
    (hu : (Policy.readMemory_dword N p sr a0 rnd).2 = true)
    (hv : (if Policy.consume_input p a0 = true then
          Policy.next_input_value N (Policy.input_type p a0) p
        else (Except.ok (ValueType.number N (p.address_hasher.hash a0.known_value)), p)) =
      (Except.ok v, p1)) :
    (Policy.readMemory N p sr a0 rnd).1 = Except.ok v ∧
      (Policy.readMemory N p sr a0 rnd).2.inputs = p1.inputs := by
  have hN' : (8 = N ∨ 16 = N ∨ 32 = N) := by omega
  have e : Policy.readMemory N p sr a0 rnd =
      Policy.andThen (Policy.writeMemory N p1 sr a0 v HAS_BEEN_READ) (fun _ p2 =>
        (Except.ok v, p2)) := by
    unfold Policy.readMemory
    simp only [hnr, hN', hu, hv, Policy.andThen]
    simp
  have hw := Policy.writeMemory_ok N hN p1 sr a0 v HAS_BEEN_READ
  have hf := (Policy.writeMemory_frame N p1 sr a0 v HAS_BEEN_READ).1
  rw [e]
  cases hr : Policy.writeMemory N p1 sr a0 v HAS_BEEN_READ with
  | mk r q =>
    rw [hr] at hw hf
    simp only at hw hf
    rw [hw]
    exact ⟨rfl, hf⟩


/-- C26, amended: a `readMemory<N>`, `N` in {8, 16, 32}, that looks at memory and finds
an uninitialized byte at address `a`, with an input group installed. It takes an input
exactly in the case that `init_memory` is off and `a` is mapped in the loader image or
there is no loader image (no interpretation, or an interpretation without a map). In
that case it takes one value: the next pointer when the pointer oracle classifies `a` as a
pointer, the next integer otherwise (also when no oracle is installed); the cursor of that
pool advances by one and the other does not move. (In limit mode with that pool used up
INPUT_LIMIT is thrown instead.) In every other case the input group is untouched and the
value is the AddressHasher byte of `a` as an `N`-bit value. -/
theorem uninitialized_read_consumption (N : Nat) (hN : N = 8 ∨ N = 16 ∨ N = 32) (p : Policy)
    (g : InputGroup) (sr : X86SegmentRegister) (a0 : ValueType 32) (rnd : Nat → Nat)
    (hg : p.inputs = some g)
    (hnr : Policy.reads_return_address N p a0 = false)
    (hu : (Policy.readMemory_dword N p sr a0 rnd).2 = true) :
    (Policy.consume_input p a0 = true ↔
      (p.params.init_memory = false ∧
        ∀ interp map, p.interp = some interp → interp.get_map = some map →
          map.exists_ a0.known_value = true)) ∧
    (Policy.consume_input p a0 = true →
      (∃ o, p.pointers = some o ∧ o.is_pointer a0.known_value = true) →
      (g.limit_consumption_ = false ∨ g.next_pointer_ < g.pointers_.length) →
      (Policy.readMemory N p sr a0 rnd).1 =
          Except.ok (ValueType.number N (g.pointers_.getD g.next_pointer_ 0)) ∧
        (Policy.readMemory N p sr a0 rnd).2.inputs =
          some { g with next_pointer_ := g.next_pointer_ + 1 }) ∧
    (Policy.consume_input p a0 = true →
      (¬ ∃ o, p.pointers = some o ∧ o.is_pointer a0.known_value = true) →
      (g.limit_consumption_ = false ∨ g.next_integer_ < g.integers_.length) →
      (Policy.readMemory N p sr a0 rnd).1 =
          Except.ok (ValueType.number N (g.integers_.getD g.next_integer_ 0)) ∧
        (Policy.readMemory N p sr a0 rnd).2.inputs =
          some { g with next_integer_ := g.next_integer_ + 1 }) ∧
    (Policy.consume_input p a0 = false →
      (Policy.readMemory N p sr a0 rnd).1 =
          Except.ok (ValueType.number N (p.address_hasher.hash a0.known_value)) ∧
        (Policy.readMemory N p sr a0 rnd).2.inputs = some g) := by
  refine ⟨Policy.consume_input_iff p a0, ?_, ?_, ?_⟩
  · intro hc ho hl
    have ht := (Policy.input_type_pointer_iff p a0).mpr ho
    exact Policy.readMemory_materialised N hN p _ sr a0 rnd _ hnr hu (by
      rw [hc, ht]
      simp only [if_true]
      exact Policy.next_input_value_pointer N p g hg hl)
  · intro hc ho hl
    have ht : Policy.input_type p a0 = InputGroup.Type_.INTEGER := by
      rcases Policy.input_type_cases p a0 with h | h
      · exact absurd ((Policy.input_type_pointer_iff p a0).mp h) ho
      · exact h
    exact Policy.readMemory_materialised N hN p _ sr a0 rnd _ hnr hu (by
      rw [hc, ht]
      simp only [if_true]
      exact Policy.next_input_value_integer N _ (by decide) p g hg hl)
  · intro hc
    have h := Policy.readMemory_materialised N hN p p sr a0 rnd
      (ValueType.number N (p.address_hasher.hash a0.known_value)) hnr hu (by
        rw [hc]
        simp)
    exact ⟨h.1, h.2.trans hg⟩

/-- Witness for C26, amended: `init_memory` is on, so an 8-bit read of the never written
address 0 takes no input: the input group is as before. -/
theorem uninitialized_read_consumption_witness :
    (Policy.readMemory 8
        { Policy.new (AddressHasher.mk (LinearCongruentialGenerator.mk 0) [])
            { PolicyParams.new with init_memory := true } [] with
          inputs := some (InputGroup.mk [0x1234] [] 0 0 false) }
        X86SegmentRegister.x86_segreg_ds (ValueType.number 32 0) (fun _ => 0)).2.inputs =
      some (InputGroup.mk [0x1234] [] 0 0 false) :=
  ((uninitialized_read_consumption 8 (Or.inl rfl)
    { Policy.new (AddressHasher.mk (LinearCongruentialGenerator.mk 0) [])
        { PolicyParams.new with init_memory := true } [] with
      inputs := some (InputGroup.mk [0x1234] [] 0 0 false) }
    (InputGroup.mk [0x1234] [] 0 0 false) X86SegmentRegister.x86_segreg_ds
    (ValueType.number 32 0) (fun _ => 0) rfl rfl rfl).2.2.2 rfl).2

/-- C26 as stated fails when no loader image is available: `init_memory` is off and no
interpretation is installed, so the address 0 is mapped in no loader image, and yet an
8-bit read of the never written address 0 consumes the next integer `0x1234` and returns
its low byte. -/
theorem uninitialized_read_consumes_without_image :
    ({ Policy.new (AddressHasher.mk (LinearCongruentialGenerator.mk 0) []) PolicyParams.new [] with
        inputs := some (InputGroup.mk [0x1234] [] 0 0 false) } : Policy).interp = none ∧
    (Policy.readMemory 8
        { Policy.new (AddressHasher.mk (LinearCongruentialGenerator.mk 0) []) PolicyParams.new [] with
          inputs := some (InputGroup.mk [0x1234] [] 0 0 false) }
        X86SegmentRegister.x86_segreg_ds (ValueType.number 32 0) (fun _ => 0)).1 =
      Except.ok (ValueType.number 8 0x34) ∧
    (Policy.readMemory 8
        { Policy.new (AddressHasher.mk (LinearCongruentialGenerator.mk 0) []) PolicyParams.new [] with
          inputs := some (InputGroup.mk [0x1234] [] 0 0 false) }
        X86SegmentRegister.x86_segreg_ds (ValueType.number 32 0) (fun _ => 0)).2.inputs =
      some (InputGroup.mk [0x1234] [] 1 0 false) := by
  refine ⟨rfl, ?_, ?_⟩
  · rfl
  · rfl


/-! ## Set semantics of the output values -/

theorem State.mem_get_outputs_iff (s : State) (top fs : Nat) (x : Nat) :
    x ∈ (s.get_outputs top fs).values ↔
      (x ∈ s.output_group.values ∨
        ((s.register_rw_state.gpr x86_gpr_ax).state &&& HAS_BEEN_WRITTEN ≠ 0 ∧
          ∃ (v : Nat) (hv : v < 2 ^ 32), s.registers.gpr x86_gpr_ax = ValueType.known v hv ∧ x = v) ∨
        State.visible_byte s top fs x) := by
  rw [(State.get_outputs_char s top fs).1 x]
  unfold State.visible_byte
  constructor
  · rintro (h | h | ⟨a, mv, h1, h2, h3, b, hb, h4, h5⟩ | ⟨a, mv, h1, h2, b, hb, h4, h5⟩)
    · exact Or.inl h
    · exact Or.inr (Or.inl h)
    · subst h5
      exact Or.inr (Or.inr (Or.inl ⟨a, mv, h1, h2, h3, hb, h4⟩))
    · subst h5
      exact Or.inr (Or.inr (Or.inr ⟨a, mv, h1, h2, hb, h4⟩))
  · rintro (h | h | ⟨a, mv, h1, h2, h3, hb, h4⟩ | ⟨a, mv, h1, h2, hb, h4⟩)
    · exact Or.inl h
    · exact Or.inr (Or.inl h)
    · exact Or.inr (Or.inr (Or.inl ⟨a, mv, h1, h2, h3, x, hb, h4, rfl⟩))
    · exact Or.inr (Or.inr (Or.inr ⟨a, mv, h1, h2, x, hb, h4, rfl⟩))

/-- C25: `OutputGroup::add_value` has set semantics. Adding `x` then `y` gives the same
output group as adding `y` then `x`, and adding `x` twice gives the same as adding it
once. Consequently `get_outputs` depends on the visible written cells only through the
set of bytes they hold: two states with the same accumulated values and the same EAX
(value and access mask) whose externally visible written cells hold the same bytes, at
whatever addresses and in whatever order they were written, project to the same value
set. -/
theorem add_value_set_semantics (g : OutputGroup) (x y : Nat) (s1 s2 : State) (top fs : Nat) :
    (g.add_value x).add_value y = (g.add_value y).add_value x ∧
    (g.add_value x).add_value x = g.add_value x ∧
    (s1.output_group.values = s2.output_group.values →
      s1.registers.gpr x86_gpr_ax = s2.registers.gpr x86_gpr_ax →
      s1.register_rw_state.gpr x86_gpr_ax = s2.register_rw_state.gpr x86_gpr_ax →
      (∀ b, State.visible_byte s1 top fs b ↔ State.visible_byte s2 top fs b) →
      (s1.get_outputs top fs).values = (s2.get_outputs top fs).values) := by
  refine ⟨?_, ?_, ?_⟩
  · simp only [OutputGroup.add_value]
    rw [Finset.Insert.comm]
  · simp only [OutputGroup.add_value, Finset.insert_idem]
  · intro h1 h2 h3 h4
    ext v
    rw [State.mem_get_outputs_iff, State.mem_get_outputs_iff, h1, h2, h3, h4 v]


/-- Witness for C25: one state holds the written bytes 1 and 2 in data cells 10 and 20,
the other holds 2 and 1 in data cells 30 and 40; both project to the same value set. -/
theorem add_value_set_semantics_witness :
    (State.get_outputs
        { State.new with
          data_cells := [(10, MemoryValue.mk (ValueType.number 8 1) HAS_BEEN_WRITTEN),
            (20, MemoryValue.mk (ValueType.number 8 2) HAS_BEEN_WRITTEN)] } 0x80000000 8192).values =
      (State.get_outputs
        { State.new with
          data_cells := [(30, MemoryValue.mk (ValueType.number 8 2) HAS_BEEN_WRITTEN),
            (40, MemoryValue.mk (ValueType.number 8 1) HAS_BEEN_WRITTEN)] } 0x80000000 8192).values :=
  (add_value_set_semantics OutputGroup.new 0 0
    { State.new with
      data_cells := [(10, MemoryValue.mk (ValueType.number 8 1) HAS_BEEN_WRITTEN),
        (20, MemoryValue.mk (ValueType.number 8 2) HAS_BEEN_WRITTEN)] }
    { State.new with
      data_cells := [(30, MemoryValue.mk (ValueType.number 8 2) HAS_BEEN_WRITTEN),
        (40, MemoryValue.mk (ValueType.number 8 1) HAS_BEEN_WRITTEN)] }
    0x80000000 8192).2.2 rfl rfl rfl (by
      intro b
      constructor
      · rintro (⟨a, mv, hm, _⟩ | ⟨a, mv, hm, hw, hb, hv⟩)
        · exact absurd hm (List.not_mem_nil _)
        · have hm' : (a, mv) = (10, MemoryValue.mk (ValueType.number 8 1) HAS_BEEN_WRITTEN) ∨
              (a, mv) = (20, MemoryValue.mk (ValueType.number 8 2) HAS_BEEN_WRITTEN) := by
            simpa using hm
          rcases hm' with h | h
          · have e : mv = MemoryValue.mk (ValueType.number 8 1) HAS_BEEN_WRITTEN :=
              (Prod.mk.inj h).2
            exact Or.inr ⟨40, mv, by rw [e]; simp, hw, hb, hv⟩
          · have e : mv = MemoryValue.mk (ValueType.number 8 2) HAS_BEEN_WRITTEN :=
              (Prod.mk.inj h).2
            exact Or.inr ⟨30, mv, by rw [e]; simp, hw, hb, hv⟩
      · rintro (⟨a, mv, hm, _⟩ | ⟨a, mv, hm, hw, hb, hv⟩)
        · exact absurd hm (List.not_mem_nil _)
        · have hm' : (a, mv) = (30, MemoryValue.mk (ValueType.number 8 2) HAS_BEEN_WRITTEN) ∨
              (a, mv) = (40, MemoryValue.mk (ValueType.number 8 1) HAS_BEEN_WRITTEN) := by
            simpa using hm
          rcases hm' with h | h
          · have e : mv = MemoryValue.mk (ValueType.number 8 2) HAS_BEEN_WRITTEN :=
              (Prod.mk.inj h).2
            exact Or.inr ⟨20, mv, by rw [e]; simp, hw, hb, hv⟩
          · have e : mv = MemoryValue.mk (ValueType.number 8 1) HAS_BEEN_WRITTEN :=
              (Prod.mk.inj h).2
            exact Or.inr ⟨10, mv, by rw [e]; simp, hw, hb, hv⟩)


/-! ## Shuffling the pools -/

theorem InputGroup.swap_entries_length (v : List Nat) (i j : Nat) :
    (InputGroup.swap_entries v i j).length = v.length := by
  simp [InputGroup.swap_entries]

theorem InputGroup.swap_entries_perm (v : List Nat) (i j : Nat) (hi : i < v.length)
    (hj : j < v.length) : (InputGroup.swap_entries v i j).Perm v := by
  rw [List.perm_iff_count]
  intro b
  unfold InputGroup.swap_entries
  have hj' : j < (v.set i (v.getD j 0)).length := by simpa using hj
  rw [List.count_set _ _ _ j hj', List.count_set _ _ _ i hi]
  have e1 : v.getD j 0 = v[j] := List.getD_eq_getElem v 0 hj
  have e2 : v.getD i 0 = v[i] := List.getD_eq_getElem v 0 hi
  have e3 : (v.set i (v.getD j 0))[j] = v[j] := by
    rw [List.getElem_set]
    split
    · exact e1
    · rfl
  rw [e3, e1, e2]
  have c1 : (if (v[i] == b) = true then 1 else 0) ≤ List.count b v := by
    by_cases h : v[i] = b
    · simp only [h, beq_self_eq_true, if_true]
      rw [List.one_le_count_iff]
      rw [← h]
      exact List.getElem_mem hi
    · simp [h]
  omega

theorem InputGroup.shuffle_from_perm (rnd : Nat → Nat) (is v : List Nat)
    (h : ∀ i ∈ is, i < v.length) :
    ∃ w, InputGroup.shuffle_from rnd is v = Except.ok w ∧ w.Perm v := by
  induction is generalizing v with
  | nil => exact ⟨v, rfl, List.Perm.refl v⟩
  | cons i rest ih =>
    have hi : i < v.length := h i (List.mem_cons_self i rest)
    have h0 : ¬ v.length = 0 := by omega
    have hj : rnd i % v.length < v.length := Nat.mod_lt _ (by omega)
    obtain ⟨w, hw, hp⟩ := ih (InputGroup.swap_entries v i (rnd i % v.length)) (by
      intro k hk
      rw [InputGroup.swap_entries_length]
      exact h k (List.mem_cons_of_mem i hk))
    refine ⟨w, ?_, hp.trans (InputGroup.swap_entries_perm v i _ hi hj)⟩
    simp only [InputGroup.shuffle_from, h0, if_false]
    exact hw

theorem InputGroup.shuffle_pool_perm (rnd : Nat → Nat) (v : List Nat) :
    ∃ w, InputGroup.shuffle_pool rnd v = Except.ok w ∧ w.Perm v :=
  InputGroup.shuffle_from_perm rnd (List.range v.length) v (fun _ hi => List.mem_range.mp hi)

/-- C23: `shuffle()`, for every input group and every stream of `rand()` results. It
always returns normally (no remainder by zero is taken, also when a pool is empty), each
pool afterwards is a permutation of what it was before (same length, same values with the
same multiplicities), and the two cursors and the limit flag are unchanged. -/
theorem shuffle_permutes_pools (g : InputGroup) (rnd : Nat → Nat) :
    ∃ g', g.shuffle rnd = Except.ok g' ∧
      g'.integers_.Perm g.integers_ ∧ g'.pointers_.Perm g.pointers_ ∧
      g'.integers_.length = g.integers_.length ∧ g'.pointers_.length = g.pointers_.length ∧
      g'.next_integer_ = g.next_integer_ ∧ g'.next_pointer_ = g.next_pointer_ ∧
      g'.limit_consumption_ = g.limit_consumption_ ∧
      (InputGroup.new.shuffle rnd = Except.ok InputGroup.new) := by
  obtain ⟨wi, hi, pi⟩ := InputGroup.shuffle_pool_perm rnd g.integers_
  obtain ⟨wp, hp, pp⟩ := InputGroup.shuffle_pool_perm (fun k => rnd (g.integers_.length + k))
    g.pointers_
  refine ⟨{ g with integers_ := wi, pointers_ := wp }, ?_, pi, pp, pi.length_eq, pp.length_eq,
    rfl, rfl, rfl, rfl⟩
  unfold InputGroup.shuffle
  rw [hi]
  simp only []
  rw [hp]


/-! ## Consumption never goes back -/

theorem Policy.consumed_le_refl (p : Policy) : Policy.consumed_le p p :=
  ⟨Nat.le_refl _, Nat.le_refl _⟩

theorem Policy.consumed_le_trans {p q r : Policy} (h1 : Policy.consumed_le p q)
    (h2 : Policy.consumed_le q r) : Policy.consumed_le p r :=
  ⟨Nat.le_trans h1.1 h2.1, Nat.le_trans h1.2 h2.2⟩

theorem Policy.consumed_le_of_eq {p q : Policy} (h : q.inputs = p.inputs) :
    Policy.consumed_le p q := by
  unfold Policy.consumed_le Policy.integers_consumed Policy.pointers_consumed
  rw [h]
  exact ⟨Nat.le_refl _, Nat.le_refl _⟩

theorem Policy.consumed_le_andThen {α β : Type} (p : Policy) (r : Outcome α)
    (f : α → Policy → Outcome β) (h1 : Policy.consumed_le p r.2)
    (h2 : ∀ a q, Policy.consumed_le q (f a q).2) :
    Policy.consumed_le p (Policy.andThen r f).2 := by
  obtain ⟨x, q⟩ := r
  cases x with
  | error e => exact h1
  | ok a => exact Policy.consumed_le_trans h1 (h2 a q)

theorem InputGroup.next_integer_mono (g : InputGroup) :
    g.next_integer_ ≤ g.next_integer.2.next_integer_ ∧
      g.next_integer.2.next_pointer_ = g.next_pointer_ := by
  unfold InputGroup.next_integer
  split
  · exact ⟨Nat.le_refl _, rfl⟩
  · exact ⟨Nat.le_succ _, rfl⟩

theorem InputGroup.next_pointer_mono (g : InputGroup) :
    g.next_pointer_ ≤ g.next_pointer.2.next_pointer_ ∧
      g.next_pointer.2.next_integer_ = g.next_integer_ := by
  unfold InputGroup.next_pointer
  split
  · exact ⟨Nat.le_refl _, rfl⟩
  · exact ⟨Nat.le_succ _, rfl⟩

theorem Policy.next_input_value_mono (N : Nat) (type : InputGroup.Type_) (p : Policy) :
    Policy.consumed_le p (Policy.next_input_value N type p).2 := by
  unfold Policy.next_input_value
  cases hin : p.inputs with
  | none => exact Policy.consumed_le_refl p
  | some g =>
    have hi := InputGroup.next_integer_mono g
    have hp := InputGroup.next_pointer_mono g
    cases type with
    | POINTER =>
      simp only
      cases hr : g.next_pointer with
      | mk r g' =>
        rw [hr] at hp
        simp only [] at hp
        cases r <;>
          (simp only [Policy.consumed_le, Policy.integers_consumed, Policy.pointers_consumed, hin,
            InputGroup.integers_consumed, InputGroup.pointers_consumed]
           omega)
    | INTEGER =>
      simp only
      cases hr : g.next_integer with
      | mk r g' =>
        rw [hr] at hi
        simp only [] at hi
        cases r <;>
          (simp only [Policy.consumed_le, Policy.integers_consumed, Policy.pointers_consumed, hin,
            InputGroup.integers_consumed, InputGroup.pointers_consumed]
           omega)
    | UNKNOWN_TYPE =>
      simp only
      cases hr : g.next_integer with
      | mk r g' =>
        rw [hr] at hi
        simp only [] at hi
        cases r <;>
          (simp only [Policy.consumed_le, Policy.integers_consumed, Policy.pointers_consumed, hin,
            InputGroup.integers_consumed, InputGroup.pointers_consumed]
           omega)

theorem Policy.writeMemory_mono (N : Nat) (p : Policy) (sr : X86SegmentRegister)
    (a0 : ValueType 32) (data : ValueType N) (m : Nat) :
    Policy.consumed_le p (Policy.writeMemory N p sr a0 data m).2 :=
  Policy.consumed_le_of_eq (Policy.writeMemory_frame N p sr a0 data m).1

theorem Policy.readMemory_mono (N : Nat) (p : Policy) (sr : X86SegmentRegister)
    (a0 : ValueType 32) (rnd : Nat → Nat) :
    Policy.consumed_le p (Policy.readMemory N p sr a0 rnd).2 := by
  unfold Policy.readMemory
  split
  · exact Policy.consumed_le_refl p
  · split
    · exact Policy.consumed_le_refl p
    · simp only []
      split
      · apply Policy.consumed_le_andThen
        · split
          · exact Policy.next_input_value_mono N _ p
          · exact Policy.consumed_le_refl p
        · intro v q
          apply Policy.consumed_le_andThen
          · exact Policy.writeMemory_mono N q sr a0 v HAS_BEEN_READ
          · intro _ q2
            exact Policy.consumed_le_refl q2
      · exact Policy.consumed_le_refl p


theorem Policy.seed_register_mono {n : Nat} (p : Policy) (never_accessed : Bool)
    (type : InputGroup.Type_) (store : Policy → ValueType n → Policy)
    (hs : ∀ q v, (store q v).inputs = q.inputs) :
    Policy.consumed_le p (Policy.seed_register p never_accessed type store).2 := by
  unfold Policy.seed_register
  split
  · apply Policy.consumed_le_andThen
    · exact Policy.next_input_value_mono n type p
    · intro v q
      exact Policy.consumed_le_of_eq (hs q v)
  · exact Policy.consumed_le_refl p

theorem Policy.read_gpr_step_mono (p : Policy) (i : Nat) (mark : Policy → Policy)
    (type : InputGroup.Type_) (hm : ∀ q, (mark q).inputs = q.inputs) :
    Policy.consumed_le p (Policy.read_gpr_step p i mark type).2 := by
  unfold Policy.read_gpr_step
  exact Policy.consumed_le_trans (Policy.consumed_le_of_eq (hm p))
    (Policy.seed_register_mono (mark p) _ type _ (fun _ _ => rfl))

theorem Policy.read_gpr_step_mono_gpr (p : Policy) (i j : Nat) (type : InputGroup.Type_) :
    Policy.consumed_le p
      (Policy.read_gpr_step p i (fun q => Policy.or_gpr_rw q j HAS_BEEN_READ) type).2 :=
  Policy.read_gpr_step_mono p i _ type (fun _ => rfl)

theorem Policy.read_gpr_step_mono_segreg (p : Policy) (i j : Nat) (type : InputGroup.Type_) :
    Policy.consumed_le p
      (Policy.read_gpr_step p i (fun q => Policy.or_segreg_rw q j HAS_BEEN_READ) type).2 :=
  Policy.read_gpr_step_mono p i _ type (fun _ => rfl)

theorem Policy.read_segreg_step_mono (p : Policy) (i : Nat) (type : InputGroup.Type_) :
    Policy.consumed_le p (Policy.read_segreg_step p i type).2 := by
  unfold Policy.read_segreg_step
  exact Policy.consumed_le_trans
    (Policy.consumed_le_of_eq (p := p) (q := Policy.or_segreg_rw p i HAS_BEEN_READ) rfl)
    (Policy.seed_register_mono _ _ type _ (fun _ _ => rfl))

theorem Policy.read_ip_step_mono (p : Policy) (type : InputGroup.Type_) :
    Policy.consumed_le p (Policy.read_ip_step p type).2 := by
  unfold Policy.read_ip_step
  exact Policy.consumed_le_trans
    (Policy.consumed_le_of_eq (p := p) (q := Policy.or_ip_rw p HAS_BEEN_READ) rfl)
    (Policy.seed_register_mono _ _ type _ (fun _ _ => rfl))

theorem Policy.read_flag_step_mono (p : Policy) (i : Nat) :
    Policy.consumed_le p (Policy.read_flag_step p i).2 := by
  unfold Policy.read_flag_step
  exact Policy.consumed_le_trans
    (Policy.consumed_le_of_eq (p := p) (q := Policy.or_flag_rw p i HAS_BEEN_READ) rfl)
    (Policy.seed_register_mono _ _ _ _ (fun _ _ => rfl))

theorem Policy.read_flags_loop_mono (k lo : Nat) (p : Policy) :
    Policy.consumed_le p (Policy.read_flags_loop k lo p).2 := by
  induction k generalizing lo p with
  | zero => exact Policy.consumed_le_refl p
  | succ k ih =>
    have e : Policy.read_flags_loop (k + 1) lo p =
        Policy.andThen (Policy.read_flag_step p lo) (fun _ q =>
          Policy.read_flags_loop k (lo + 1) q) := rfl
    rw [e]
    exact Policy.consumed_le_andThen p _ _ (Policy.read_flag_step_mono p lo)
      (fun _ q => ih (lo + 1) q)

theorem Policy.readRegister1_mono (N : Nat) (p : Policy) (reg : RegisterDescriptor) :
    Policy.consumed_le p (Policy.readRegister1 N p reg).2 := by
  unfold Policy.readRegister1
  split
  · exact Policy.consumed_le_refl p
  · split
    · exact Policy.consumed_le_refl p
    · split
      · exact Policy.consumed_le_refl p
      · exact Policy.consumed_le_andThen p _ _ (Policy.read_flag_step_mono p _)
          (fun _ q => Policy.consumed_le_refl q)

theorem Policy.readRegister8_mono (N : Nat) (p : Policy) (reg : RegisterDescriptor) :
    Policy.consumed_le p (Policy.readRegister8 N p reg).2 := by
  unfold Policy.readRegister8
  split
  · exact Policy.consumed_le_refl p
  · split
    · exact Policy.consumed_le_refl p
    · split
      · exact Policy.consumed_le_refl p
      · apply Policy.consumed_le_andThen p _ _ (Policy.read_gpr_step_mono_gpr p _ _ _)
        intro _ q
        split
        · exact Policy.consumed_le_refl q
        · split
          · exact Policy.consumed_le_refl q
          · exact Policy.consumed_le_refl q

theorem Policy.readRegister16_mono (N : Nat) (p : Policy) (reg : RegisterDescriptor) :
    Policy.consumed_le p (Policy.readRegister16 N p reg).2 := by
  unfold Policy.readRegister16
  split
  · exact Policy.consumed_le_refl p
  · split
    · exact Policy.consumed_le_refl p
    · split
      · split
        · exact Policy.consumed_le_refl p
        · exact Policy.consumed_le_andThen p _ _ (Policy.read_segreg_step_mono p _ _)
            (fun _ q => Policy.consumed_le_refl q)
      · split
        · exact Policy.consumed_le_refl p
        · exact Policy.consumed_le_andThen p _ _ (Policy.read_gpr_step_mono_segreg p _ _ _)
            (fun _ q => Policy.consumed_le_refl q)
      · split
        · exact Policy.consumed_le_refl p
        · exact Policy.consumed_le_andThen p _ _ (Policy.read_flags_loop_mono 16 0 p)
            (fun _ q => Policy.consumed_le_refl q)
      · exact Policy.consumed_le_refl p

theorem Policy.readRegister32_mono (N : Nat) (p : Policy) (reg : RegisterDescriptor) :
    Policy.consumed_le p (Policy.readRegister32 N p reg).2 := by
  unfold Policy.readRegister32
  split
  · exact Policy.consumed_le_refl p
  · split
    · split
      · exact Policy.consumed_le_refl p
      · exact Policy.consumed_le_andThen p _ _ (Policy.read_gpr_step_mono_gpr p _ _ _)
          (fun _ q => Policy.consumed_le_refl q)
    · split
      · exact Policy.consumed_le_refl p
      · exact Policy.consumed_le_andThen p _ _ (Policy.read_ip_step_mono p _)
          (fun _ q => Policy.consumed_le_refl q)
    · split
      · exact Policy.consumed_le_refl p
      · exact Policy.consumed_le_andThen p _ _ (Policy.read_segreg_step_mono p _ _)
          (fun _ q => Policy.consumed_le_refl q)
    · split
      · exact Policy.consumed_le_refl p
      · split
        · exact Policy.consumed_le_refl p
        · exact Policy.consumed_le_andThen p _ _ (Policy.read_flags_loop_mono 32 0 p)
            (fun _ q => Policy.consumed_le_refl q)
    · exact Policy.consumed_le_refl p

theorem Policy.readRegister_mono (N : Nat) (p : Policy) (reg : RegisterDescriptor) :
    Policy.consumed_le p (Policy.readRegister N p reg).2 := by
  unfold Policy.readRegister
  split
  · exact Policy.readRegister1_mono N p reg
  · split
    · exact Policy.readRegister8_mono N p reg
    · split
      · exact Policy.readRegister16_mono N p reg
      · split
        · exact Policy.readRegister32_mono N p reg
        · exact Policy.consumed_le_refl p

theorem Policy.readRegisterNamed_mono (N : Nat) (p : Policy) (regname : String) :
    Policy.consumed_le p (Policy.readRegisterNamed N p regname).2 := by
  unfold Policy.readRegisterNamed
  split
  · exact Policy.consumed_le_refl p
  · exact Policy.readRegister_mono N p _


theorem Policy.write_seed_mono (p : Policy) (i bits : Nat) (c : Prop) [Decidable c] :
    Policy.consumed_le p
      (if c then
          Policy.andThen (Policy.next_input_value 32 InputGroup.Type_.INTEGER
              (Policy.or_gpr_rw p i bits)) (fun v p1 => (Except.ok (), Policy.set_gpr p1 i v))
        else ((Except.ok (), Policy.or_gpr_rw p i bits) : Outcome Unit)).2 := by
  have h0 : Policy.consumed_le p (Policy.or_gpr_rw p i bits) := Policy.consumed_le_of_eq rfl
  split
  · exact Policy.consumed_le_trans h0
      (Policy.consumed_le_andThen _ _ _ (Policy.next_input_value_mono 32 _ _)
        (fun _ _ => Policy.consumed_le_of_eq rfl))
  · exact h0

theorem Policy.writeRegister_flags16_mono (p : Policy) (reg : RegisterDescriptor)
    (value : ValueType 16) (ua : Nat) :
    Policy.consumed_le p (Policy.writeRegister_flags16 p reg value ua).2 := by
  unfold Policy.writeRegister_flags16
  split
  · exact Policy.consumed_le_refl p
  · exact Policy.consumed_le_of_eq rfl

theorem Policy.writeRegister8_mono {N : Nat} (p : Policy) (reg : RegisterDescriptor)
    (value : ValueType N) (ua : Nat) :
    Policy.consumed_le p (Policy.writeRegister8 p reg value ua).2 := by
  unfold Policy.writeRegister8
  split
  · exact Policy.consumed_le_refl p
  · split
    · exact Policy.consumed_le_refl p
    · split
      · exact Policy.consumed_le_refl p
      · simp only []
        apply Policy.consumed_le_andThen p _ _ (Policy.write_seed_mono p _ _ _)
        intro _ q
        split
        · exact Policy.consumed_le_of_eq rfl
        · split
          · exact Policy.consumed_le_of_eq rfl
          · exact Policy.consumed_le_refl q

theorem Policy.writeRegister16_mono {N : Nat} (p : Policy) (reg : RegisterDescriptor)
    (value : ValueType N) (ua : Nat) :
    Policy.consumed_le p (Policy.writeRegister16 p reg value ua).2 := by
  unfold Policy.writeRegister16
  split
  · exact Policy.consumed_le_refl p
  · split
    · exact Policy.consumed_le_refl p
    · split
      · split
        · exact Policy.consumed_le_refl p
        · exact Policy.consumed_le_of_eq rfl
      · split
        · exact Policy.consumed_le_refl p
        · simp only []
          apply Policy.consumed_le_andThen p _ _ (Policy.write_seed_mono p _ _ _)
          intro _ q
          exact Policy.consumed_le_of_eq rfl
      · exact Policy.writeRegister_flags16_mono p reg _ ua
      · exact Policy.consumed_le_refl p

theorem Policy.writeRegister32_mono {N : Nat} (p : Policy) (reg : RegisterDescriptor)
    (value : ValueType N) (ua : Nat) :
    Policy.consumed_le p (Policy.writeRegister32 p reg value ua).2 := by
  unfold Policy.writeRegister32
  split
  · exact Policy.consumed_le_refl p
  · split
    · split
      · exact Policy.consumed_le_refl p
      · exact Policy.consumed_le_of_eq rfl
    · split
      · exact Policy.consumed_le_refl p
      · exact Policy.consumed_le_of_eq rfl
    · split
      · exact Policy.consumed_le_refl p
      · split
        · exact Policy.consumed_le_refl p
        · split
          · exact Policy.consumed_le_refl p
          · apply Policy.consumed_le_andThen p _ _ (Policy.writeRegister_flags16_mono p _ _ _)
            intro _ q
            exact Policy.consumed_le_of_eq rfl
    · exact Policy.consumed_le_refl p

theorem Policy.writeRegister_mono {N : Nat} (p : Policy) (reg : RegisterDescriptor)
    (value : ValueType N) (ua : Nat) :
    Policy.consumed_le p (Policy.writeRegister p reg value ua).2 := by
  unfold Policy.writeRegister
  split
  · split
    · exact Policy.consumed_le_refl p
    · split
      · exact Policy.consumed_le_refl p
      · split
        · exact Policy.consumed_le_refl p
        · exact Policy.consumed_le_of_eq rfl
  · split
    · exact Policy.writeRegister8_mono p reg value ua
    · split
      · exact Policy.writeRegister16_mono p reg value ua
      · split
        · exact Policy.writeRegister32_mono p reg value ua
        · exact Policy.consumed_le_refl p

theorem Policy.writeRegisterNamed_mono {N : Nat} (p : Policy) (regname : String)
    (value : ValueType N) :
    Policy.consumed_le p (Policy.writeRegisterNamed p regname value).2 := by
  unfold Policy.writeRegisterNamed
  split
  · exact Policy.consumed_le_refl p
  · exact Policy.writeRegister_mono p _ value _

theorem Policy.startInstruction_mono (p : Policy) (insn_ : Option SgAsmx86Instruction) :
    Policy.consumed_le p (Policy.startInstruction p insn_).2 := by
  unfold Policy.startInstruction
  simp only []
  split
  · exact Policy.consumed_le_of_eq rfl
  · split
    · exact Policy.consumed_le_of_eq rfl
    · exact Policy.consumed_le_trans
        (Policy.consumed_le_of_eq (p := p) (q := { p with ninsns := p.ninsns + 1 }) rfl)
        (Policy.consumed_le_andThen _ _ _ (Policy.writeRegisterNamed_mono _ _ _)
          (fun _ _ => Policy.consumed_le_of_eq rfl))

theorem Policy.skip_call_mono (p : Policy) (insn : SgAsmx86Instruction) :
    Policy.consumed_le p (Policy.skip_call p insn).2 := by
  unfold Policy.skip_call
  simp only []
  apply Policy.consumed_le_andThen p _ _ (Policy.writeRegisterNamed_mono p _ _)
  intro _ q
  apply Policy.consumed_le_andThen q _ _ (Policy.next_input_value_mono 32 _ q)
  intro v q
  apply Policy.consumed_le_andThen q _ _ (Policy.writeRegisterNamed_mono q _ _)
  intro _ q
  apply Policy.consumed_le_andThen q _ _ (Policy.readRegisterNamed_mono 32 q _)
  intro esp q
  exact Policy.writeRegisterNamed_mono q _ _

theorem Policy.finishInstruction_mono (p : Policy) (insn : Option SgAsmx86Instruction) :
    Policy.consumed_le p (Policy.finishInstruction p insn).2 := by
  unfold Policy.finishInstruction
  split
  · exact Policy.consumed_le_refl p
  · simp only []
    refine Policy.consumed_le_trans
      (Policy.consumed_le_of_eq (p := p)
        (q := { p with
          state :=
            { p.state with
              output_group :=
                { p.state.output_group with ninsns := p.state.output_group.ninsns + 1 } } }) rfl)
      ?_
    apply Policy.consumed_le_andThen
    · split
      · apply Policy.consumed_le_andThen _ _ _ (Policy.readRegisterNamed_mono 32 _ _)
        intro callee_va q
        split
        · exact Policy.consumed_le_refl q
        · split
          · exact Policy.skip_call_mono q _
          · exact Policy.consumed_le_refl q
      · exact Policy.consumed_le_refl _
    · intro _ q
      exact Policy.consumed_le_of_eq rfl

theorem Policy.interrupt_mono (p : Policy) (inum : Fin 256) :
    Policy.consumed_le p (Policy.interrupt p inum).2 := by
  unfold Policy.interrupt
  split
  · apply Policy.consumed_le_andThen p _ _ (Policy.next_input_value_mono 32 _ p)
    intro v q
    exact Policy.writeRegisterNamed_mono q _ _
  · exact Policy.consumed_le_of_eq rfl

/-- C27: consumption monotonicity. `startInstruction`, `finishInstruction`, `interrupt`,
`readMemory`, `writeMemory`, `readRegister` and `writeRegister`, whether they return or
throw, leave `integers_consumed()` and `pointers_consumed()` at least as large as they
found them (`get_outputs` yields an output group only and has no policy to change).
`InputGroup::reset` and `clear` are what sets the cursors back, to zero. -/
theorem consumption_monotone (p : Policy) :
    (∀ insn_, Policy.consumed_le p (Policy.startInstruction p insn_).2) ∧
    (∀ insn, Policy.consumed_le p (Policy.finishInstruction p insn).2) ∧
    (∀ inum, Policy.consumed_le p (Policy.interrupt p inum).2) ∧
    (∀ N sr a0 rnd, Policy.consumed_le p (Policy.readMemory N p sr a0 rnd).2) ∧
    (∀ N sr a0 (data : ValueType N) rw_state,
      Policy.consumed_le p (Policy.writeMemory N p sr a0 data rw_state).2) ∧
    (∀ N reg, Policy.consumed_le p (Policy.readRegister N p reg).2) ∧
    (∀ N reg (value : ValueType N) update_access,
      Policy.consumed_le p (Policy.writeRegister p reg value update_access).2) ∧
    (∀ g : InputGroup, g.reset.integers_consumed = 0 ∧ g.reset.pointers_consumed = 0 ∧
      g.clear.integers_consumed = 0 ∧ g.clear.pointers_consumed = 0) :=
  ⟨fun insn_ => Policy.startInstruction_mono p insn_,
   fun insn => Policy.finishInstruction_mono p insn,
   fun inum => Policy.interrupt_mono p inum,
   fun N sr a0 rnd => Policy.readMemory_mono N p sr a0 rnd,
   fun N sr a0 data m => Policy.writeMemory_mono N p sr a0 data m,
   fun N reg => Policy.readRegister_mono N p reg,
   fun _ reg value ua => Policy.writeRegister_mono p reg value ua,
   fun _ => ⟨rfl, rfl, rfl, rfl⟩⟩


/-! ## The 16-bit write of FLAGS and the flags above it -/

/-- C38: `writeRegister<16>` on the 16-bit FLAGS register should change the value and the
access mask of flags 0..15 only, so that a never accessed flag among 16..31 is still
seeded on its first read. The code keeps the values of flags 16..31, but its loop over the
access masks runs over all `n_flags == 32` flags: every flag `i` with `16 ≤ i < 32` gets
`HAS_BEEN_WRITTEN` or-ed into its mask, the mask is no longer zero, and the first 1-bit
read of that flag returns the old value and consumes no input. -/
theorem flags16_write_marks_flags_above (p : Policy) (v : ValueType 16) (i : Nat)
    (hlo : 16 ≤ i) (hhi : i < 32) :
    (Policy.writeRegister p ⟨X86RegisterClass.x86_regclass_flags, 0, 0, 16⟩ v
        HAS_BEEN_WRITTEN).1 = Except.ok () ∧
    (Policy.writeRegister p ⟨X86RegisterClass.x86_regclass_flags, 0, 0, 16⟩ v
        HAS_BEEN_WRITTEN).2.state.registers.flag i = p.state.registers.flag i ∧
    ((Policy.writeRegister p ⟨X86RegisterClass.x86_regclass_flags, 0, 0, 16⟩ v
        HAS_BEEN_WRITTEN).2.state.register_rw_state.flag i).state =
      (p.state.register_rw_state.flag i).state ||| HAS_BEEN_WRITTEN ∧
    ((Policy.writeRegister p ⟨X86RegisterClass.x86_regclass_flags, 0, 0, 16⟩ v
        HAS_BEEN_WRITTEN).2.state.register_rw_state.flag i).state ≠ NO_ACCESS ∧
    (Policy.readRegister 1
        (Policy.writeRegister p ⟨X86RegisterClass.x86_regclass_flags, 0, 0, 16⟩ v
          HAS_BEEN_WRITTEN).2 ⟨X86RegisterClass.x86_regclass_flags, 0, i, 1⟩).1 =
      Except.ok (ValueType.unsignedExtend 1 (p.state.registers.flag i)) ∧
    (Policy.readRegister 1
        (Policy.writeRegister p ⟨X86RegisterClass.x86_regclass_flags, 0, 0, 16⟩ v
          HAS_BEEN_WRITTEN).2 ⟨X86RegisterClass.x86_regclass_flags, 0, i, 1⟩).2.inputs =
      p.inputs := by
  have hn : ¬ (i < 16) := by omega
  have hf : i < RegisterStateX86.n_flags := hhi
  have hv : (Policy.or_all_flags_rw (Policy.set_flags_from p 0 16 (ValueType.unsignedExtend 16 v))
      HAS_BEEN_WRITTEN).state.registers.flag i = p.state.registers.flag i := by
    simp only [Policy.or_all_flags_rw, Policy.set_flags_from, hn, and_false, if_false]
  have hm : ((Policy.or_all_flags_rw (Policy.set_flags_from p 0 16 (ValueType.unsignedExtend 16 v))
      HAS_BEEN_WRITTEN).state.register_rw_state.flag i).state =
      (p.state.register_rw_state.flag i).state ||| HAS_BEEN_WRITTEN := by
    simp only [Policy.or_all_flags_rw, Policy.set_flags_from, hf, if_true]
  have hz : ((Policy.or_all_flags_rw (Policy.set_flags_from p 0 16 (ValueType.unsignedExtend 16 v))
      HAS_BEEN_WRITTEN).state.register_rw_state.flag i).state ≠ NO_ACCESS := by
    rw [hm]
    exact or_written_ne_zero _
  rw [Policy.flags16_write p v]
  refine ⟨rfl, hv, hm, hz, ?_, ?_⟩
  · rw [Policy.readRegister1_accessed _ i hhi hz, hv]
  · rw [Policy.readRegister1_accessed _ i hhi hz]
    rfl

theorem flags16_write_marks_flags_above_witness :
    (16 ≤ 20 ∧ 20 < 32) ∧
    ((Policy.writeRegister
        (Policy.new (AddressHasher.mk (LinearCongruentialGenerator.mk 0) []) PolicyParams.new [])
        ⟨X86RegisterClass.x86_regclass_flags, 0, 0, 16⟩ (ValueType.number 16 0)
        HAS_BEEN_WRITTEN).2.state.register_rw_state.flag 20).state ≠ NO_ACCESS :=
  ⟨⟨by decide, by decide⟩,
    (flags16_write_marks_flags_above
      (Policy.new (AddressHasher.mk (LinearCongruentialGenerator.mk 0) []) PolicyParams.new [])
      (ValueType.number 16 0) 20 (by decide) (by decide)).2.2.2.1⟩


/-! ## Malformed register accesses -/

/-- The malformed reads that are rejected on entry: a 1-bit read of a register that is not
a flag, an 8-bit read of a register that is not general purpose, a 16-bit read of a
16-bit register at a non-zero offset, a 32-bit read at a non-zero offset, and a 16-bit
read of a register class without a 16-bit case. Each raises an `Exception` and leaves the
policy as it was. -/
theorem Policy.malformed_read_rejected_on_entry (p : Policy) (reg : RegisterDescriptor) :
    (reg.major ≠ X86RegisterClass.x86_regclass_flags →
      ∃ m, Policy.readRegister 1 p reg = (Except.error (Thrown.Exception m), p)) ∧
    (reg.major ≠ X86RegisterClass.x86_regclass_gpr →
      ∃ m, Policy.readRegister 8 p reg = (Except.error (Thrown.Exception m), p)) ∧
    (reg.offset ≠ 0 →
      ∃ m, Policy.readRegister 16 p reg = (Except.error (Thrown.Exception m), p)) ∧
    (reg.offset ≠ 0 →
      ∃ m, Policy.readRegister 32 p reg = (Except.error (Thrown.Exception m), p)) ∧
    (reg.major = X86RegisterClass.x86_regclass_ip →
      ∃ m, Policy.readRegister 16 p reg = (Except.error (Thrown.Exception m), p)) := by
  refine ⟨?_, ?_, ?_, ?_, ?_⟩
  · intro h
    simp [Policy.readRegister, Policy.readRegister1, h]
  · intro h
    simp [Policy.readRegister, Policy.readRegister8, h]
  · intro h
    by_cases hn : reg.nbits = 16
    · simp [Policy.readRegister, Policy.readRegister16, h, hn]
    · simp [Policy.readRegister, Policy.readRegister16, hn]
  · intro h
    simp [Policy.readRegister, Policy.readRegister32, h]
  · intro h
    by_cases hn : reg.nbits = 16
    · by_cases ho : reg.offset = 0
      · simp [Policy.readRegister, Policy.readRegister16, h, hn, ho]
      · simp [Policy.readRegister, Policy.readRegister16, hn, ho]
    · simp [Policy.readRegister, Policy.readRegister16, hn]

/-- The malformed writes that are rejected on entry, as for the reads. -/
theorem Policy.malformed_write_rejected_on_entry (p : Policy) (reg : RegisterDescriptor)
    (v1 : ValueType 1) (v8 : ValueType 8) (v16 : ValueType 16) (v32 : ValueType 32) (ua : Nat) :
    (reg.major ≠ X86RegisterClass.x86_regclass_flags →
      ∃ m, Policy.writeRegister p reg v1 ua = (Except.error (Thrown.Exception m), p)) ∧
    (reg.major ≠ X86RegisterClass.x86_regclass_gpr →
      ∃ m, Policy.writeRegister p reg v8 ua = (Except.error (Thrown.Exception m), p)) ∧
    (reg.offset ≠ 0 →
      ∃ m, Policy.writeRegister p reg v16 ua = (Except.error (Thrown.Exception m), p)) ∧
    (reg.offset ≠ 0 →
      ∃ m, Policy.writeRegister p reg v32 ua = (Except.error (Thrown.Exception m), p)) ∧
    (reg.major = X86RegisterClass.x86_regclass_ip →
      ∃ m, Policy.writeRegister p reg v16 ua = (Except.error (Thrown.Exception m), p)) := by
  refine ⟨?_, ?_, ?_, ?_, ?_⟩
  · intro h
    simp [Policy.writeRegister, h]
  · intro h
    simp [Policy.writeRegister, Policy.writeRegister8, h]
  · intro h
    by_cases hn : reg.nbits = 16
    · simp [Policy.writeRegister, Policy.writeRegister16, h, hn]
    · simp [Policy.writeRegister, Policy.writeRegister16, hn]
  · intro h
    simp [Policy.writeRegister, Policy.writeRegister32, h]
  · intro h
    by_cases hn : reg.nbits = 16
    · by_cases ho : reg.offset = 0
      · simp [Policy.writeRegister, Policy.writeRegister16, h, hn, ho]
      · simp [Policy.writeRegister, Policy.writeRegister16, hn, ho]
    · simp [Policy.writeRegister, Policy.writeRegister16, hn]

/-- C31: a malformed register access should raise the policy's `Exception` before any
register value, access mask or input cursor has been changed. The 8-bit cases of
`readRegister` and `writeRegister` test the offset last: on a policy that has never
accessed EAX and whose input group holds the integer 7, an 8-bit read or write of the
general purpose register 0 at offset 16 raises the `Exception` about the offset only
after the access mask of EAX has been set, EAX has been seeded with 7 and one integer
has been consumed; with an exhausted input group that limits consumption the same two
accesses raise the `FaultException` for `INPUT_LIMIT` instead of the `Exception`. -/
theorem byte_offset_checked_after_update :
    (Policy.readRegister 8
        { Policy.new (AddressHasher.mk (LinearCongruentialGenerator.mk 0) []) PolicyParams.new [] with
          inputs := some (InputGroup.mk [7] [] 0 0 false) }
        ⟨X86RegisterClass.x86_regclass_gpr, x86_gpr_ax, 16, 8⟩).1 =
      Except.error (Thrown.Exception "invalid one-byte access offset") ∧
    ((Policy.readRegister 8
        { Policy.new (AddressHasher.mk (LinearCongruentialGenerator.mk 0) []) PolicyParams.new [] with
          inputs := some (InputGroup.mk [7] [] 0 0 false) }
        ⟨X86RegisterClass.x86_regclass_gpr, x86_gpr_ax, 16, 8⟩).2.state.register_rw_state.gpr
          x86_gpr_ax).state = HAS_BEEN_READ ∧
    (Policy.readRegister 8
        { Policy.new (AddressHasher.mk (LinearCongruentialGenerator.mk 0) []) PolicyParams.new [] with
          inputs := some (InputGroup.mk [7] [] 0 0 false) }
        ⟨X86RegisterClass.x86_regclass_gpr, x86_gpr_ax, 16, 8⟩).2.state.registers.gpr
          x86_gpr_ax = ValueType.number 32 7 ∧
    (Policy.readRegister 8
        { Policy.new (AddressHasher.mk (LinearCongruentialGenerator.mk 0) []) PolicyParams.new [] with
          inputs := some (InputGroup.mk [7] [] 0 0 false) }
        ⟨X86RegisterClass.x86_regclass_gpr, x86_gpr_ax, 16, 8⟩).2.integers_consumed = 1 ∧
    (Policy.writeRegister
        { Policy.new (AddressHasher.mk (LinearCongruentialGenerator.mk 0) []) PolicyParams.new [] with
          inputs := some (InputGroup.mk [7] [] 0 0 false) }
        ⟨X86RegisterClass.x86_regclass_gpr, x86_gpr_ax, 16, 8⟩ (ValueType.number 8 1)
        HAS_BEEN_WRITTEN).1 = Except.error (Thrown.Exception "invalid byte access offset") ∧
    ((Policy.writeRegister
        { Policy.new (AddressHasher.mk (LinearCongruentialGenerator.mk 0) []) PolicyParams.new [] with
          inputs := some (InputGroup.mk [7] [] 0 0 false) }
        ⟨X86RegisterClass.x86_regclass_gpr, x86_gpr_ax, 16, 8⟩ (ValueType.number 8 1)
        HAS_BEEN_WRITTEN).2.state.register_rw_state.gpr x86_gpr_ax).state = HAS_BEEN_WRITTEN ∧
    (Policy.writeRegister
        { Policy.new (AddressHasher.mk (LinearCongruentialGenerator.mk 0) []) PolicyParams.new [] with
          inputs := some (InputGroup.mk [7] [] 0 0 false) }
        ⟨X86RegisterClass.x86_regclass_gpr, x86_gpr_ax, 16, 8⟩ (ValueType.number 8 1)
        HAS_BEEN_WRITTEN).2.integers_consumed = 1 ∧
    (Policy.readRegister 8
        { Policy.new (AddressHasher.mk (LinearCongruentialGenerator.mk 0) []) PolicyParams.new [] with
          inputs := some (InputGroup.mk [] [] 0 0 true) }
        ⟨X86RegisterClass.x86_regclass_gpr, x86_gpr_ax, 16, 8⟩).1 =
      Except.error (Thrown.FaultException AnalysisFault.INPUT_LIMIT) ∧
    (Policy.writeRegister
        { Policy.new (AddressHasher.mk (LinearCongruentialGenerator.mk 0) []) PolicyParams.new [] with
          inputs := some (InputGroup.mk [] [] 0 0 true) }
        ⟨X86RegisterClass.x86_regclass_gpr, x86_gpr_ax, 16, 8⟩ (ValueType.number 8 1)
        HAS_BEEN_WRITTEN).1 = Except.error (Thrown.FaultException AnalysisFault.INPUT_LIMIT) := by
  refine ⟨?_, ?_, ?_, ?_, ?_, ?_, ?_, ?_, ?_⟩ <;> rfl


/-! ## What memory contributes to the outputs -/

theorem MemoryCells.mem_of_find (m : MemoryCells) (a : Nat) (mv : MemoryValue)
    (h : MemoryCells.find m a = some mv) : (a, mv) ∈ m := by
  induction m with
  | nil => simp [MemoryCells.find] at h
  | cons d rest ih =>
    obtain ⟨k, w⟩ := d
    unfold MemoryCells.find at h
    by_cases hk : k = a
    · simp only [hk, if_true, Option.some.injEq] at h
      subst hk; subst h
      exact List.mem_cons_self _ _
    · simp only [hk, if_false] at h
      exact List.mem_cons_of_mem _ (ih h)

/-- A written data cell holding the byte `b` puts `b` among the outputs. -/
theorem State.data_byte_mem_get_outputs (s : State) (top fs a b : Nat) (hb : b < 2 ^ 8)
    (h : MemoryCells.find s.data_cells a = some (MemoryValue.mk (ValueType.known b hb) HAS_BEEN_WRITTEN)) :
    b ∈ (s.get_outputs top fs).values := by
  rw [State.mem_get_outputs_iff]
  have hw : (HAS_BEEN_WRITTEN &&& HAS_BEEN_WRITTEN) ≠ 0 := by decide
  exact Or.inr (Or.inr (Or.inr ⟨a, _, MemoryCells.mem_of_find _ _ _ h, hw, hb, rfl⟩))

/-- C37: every value that `State::get_outputs` adds for a memory cell is a single byte in
0..255. For every state, an output value is one of the accumulated values, the known and
written EAX, or below 256; hence every output value of 256 or more comes from EAX or from
the values already in the state's output group. A 32-bit write of a known `v` to the
address `a` of the data map contributes the four bytes of `v` (for `0x12345678` these are
`0x78`, `0x56`, `0x34` and `0x12`), and `v` itself, when it is 256 or more, is among the
outputs after the write only if it was an accumulated value or the written EAX before. -/
theorem memory_outputs_are_bytes (s : State) (top fs : Nat) (p : Policy)
    (sr : X86SegmentRegister) (a v : Nat) (hv : v < 2 ^ 32)
    (hsr : X86SegmentRegister.x86_segreg_ss ≠ sr) :
    (∀ x, x ∈ (s.get_outputs top fs).values →
      x ∈ s.output_group.values ∨
      ((s.register_rw_state.gpr x86_gpr_ax).state &&& HAS_BEEN_WRITTEN ≠ 0 ∧
        ∃ (e : Nat) (he : e < 2 ^ 32), s.registers.gpr x86_gpr_ax = ValueType.known e he ∧ x = e) ∨
      x < 256) ∧
    (∀ x, x ∈ (s.get_outputs top fs).values → 256 ≤ x →
      x ∈ s.output_group.values ∨
      ((s.register_rw_state.gpr x86_gpr_ax).state &&& HAS_BEEN_WRITTEN ≠ 0 ∧
        ∃ (e : Nat) (he : e < 2 ^ 32), s.registers.gpr x86_gpr_ax = ValueType.known e he ∧ x = e)) ∧
    (∀ i, i < 4 → v / 2 ^ (8 * i) % 256 ∈
      (Policy.writeMemory 32 p sr (ValueType.number 32 a) (ValueType.known v hv)
        HAS_BEEN_WRITTEN).2.get_outputs.values) ∧
    (256 ≤ v → v ∈ (Policy.writeMemory 32 p sr (ValueType.number 32 a) (ValueType.known v hv)
        HAS_BEEN_WRITTEN).2.get_outputs.values →
      v ∈ p.state.output_group.values ∨
      ((p.state.register_rw_state.gpr x86_gpr_ax).state &&& HAS_BEEN_WRITTEN ≠ 0 ∧
        p.state.registers.gpr x86_gpr_ax = ValueType.known v hv)) := by
  have h1 : ∀ (t : State) (top fs : Nat), ∀ x, x ∈ (t.get_outputs top fs).values →
      x ∈ t.output_group.values ∨
      ((t.register_rw_state.gpr x86_gpr_ax).state &&& HAS_BEEN_WRITTEN ≠ 0 ∧
        ∃ (e : Nat) (he : e < 2 ^ 32), t.registers.gpr x86_gpr_ax = ValueType.known e he ∧ x = e) ∨
      x < 256 := by
    intro t top fs x hx
    rw [State.mem_get_outputs_iff] at hx
    rcases hx with h | h | h
    · exact Or.inl h
    · exact Or.inr (Or.inl h)
    · refine Or.inr (Or.inr ?_)
      rcases h with ⟨_, _, _, _, _, hb, _⟩ | ⟨_, _, _, _, hb, _⟩ <;> exact hb
  refine ⟨h1 s top fs, ?_, ?_, ?_⟩
  · intro x hx h256
    rcases h1 s top fs x hx with h | h | h
    · exact Or.inl h
    · exact Or.inr h
    · omega
  · intro i hi
    have hb := Policy.holds_bytes_writeMemory 32 (Or.inr (Or.inr rfl)) p sr a
      (ValueType.known v hv) HAS_BEEN_WRITTEN
    obtain ⟨h0, h1', h23⟩ := hb
    obtain ⟨h2, h3⟩ := h23 (le_refl _)
    have h1'' := h1' (by decide)
    have hc : ∀ q : Policy, q.state.cells sr = q.state.data_cells := by
      intro q
      simp [State.cells, hsr]
    rw [hc] at h0 h1'' h2 h3
    unfold Policy.get_outputs
    interval_cases i
    · refine State.data_byte_mem_get_outputs _ _ _ (a % 2 ^ 32) _ (Nat.mod_lt _ (by decide)) ?_
      rw [h0]
      simp [ValueType.extract, ValueType.number]
    · refine State.data_byte_mem_get_outputs _ _ _ ((a + 1) % 2 ^ 32) _ (Nat.mod_lt _ (by decide)) ?_
      rw [h1'']
      simp [ValueType.extract, ValueType.number, Nat.shiftRight_eq_div_pow]
    · refine State.data_byte_mem_get_outputs _ _ _ ((a + 2) % 2 ^ 32) _ (Nat.mod_lt _ (by decide)) ?_
      rw [h2]
      simp [ValueType.extract, ValueType.number, Nat.shiftRight_eq_div_pow]
    · refine State.data_byte_mem_get_outputs _ _ _ ((a + 3) % 2 ^ 32) _ (Nat.mod_lt _ (by decide)) ?_
      rw [h3]
      simp [ValueType.extract, ValueType.number, Nat.shiftRight_eq_div_pow]
  · intro h256 hx
    obtain ⟨-, -, -, -, -, -, -, -, -, hr, hrw, ho⟩ := Policy.writeMemory_frame 32 p sr
      (ValueType.number 32 a) (ValueType.known v hv) HAS_BEEN_WRITTEN
    unfold Policy.get_outputs at hx
    rcases h1 _ _ _ v hx with h | ⟨hw, e, he, hk, hve⟩ | h
    · rw [ho] at h
      exact Or.inl h
    · rw [hrw] at hw
      rw [hr] at hk
      subst hve
      exact Or.inr ⟨hw, hk⟩
    · omega

theorem memory_outputs_are_bytes_witness :
    (0x12345678 < 2 ^ 32 ∧ X86SegmentRegister.x86_segreg_ss ≠ X86SegmentRegister.x86_segreg_ds) ∧
    (0x78 ∈ (Policy.writeMemory 32
        (Policy.new (AddressHasher.mk (LinearCongruentialGenerator.mk 0) []) PolicyParams.new [])
        X86SegmentRegister.x86_segreg_ds (ValueType.number 32 4096)
        (ValueType.known 0x12345678 (by decide)) HAS_BEEN_WRITTEN).2.get_outputs.values ∧
      0x56 ∈ (Policy.writeMemory 32
        (Policy.new (AddressHasher.mk (LinearCongruentialGenerator.mk 0) []) PolicyParams.new [])
        X86SegmentRegister.x86_segreg_ds (ValueType.number 32 4096)
        (ValueType.known 0x12345678 (by decide)) HAS_BEEN_WRITTEN).2.get_outputs.values ∧
      0x34 ∈ (Policy.writeMemory 32
        (Policy.new (AddressHasher.mk (LinearCongruentialGenerator.mk 0) []) PolicyParams.new [])
        X86SegmentRegister.x86_segreg_ds (ValueType.number 32 4096)
        (ValueType.known 0x12345678 (by decide)) HAS_BEEN_WRITTEN).2.get_outputs.values ∧
      0x12 ∈ (Policy.writeMemory 32
        (Policy.new (AddressHasher.mk (LinearCongruentialGenerator.mk 0) []) PolicyParams.new [])
        X86SegmentRegister.x86_segreg_ds (ValueType.number 32 4096)
        (ValueType.known 0x12345678 (by decide)) HAS_BEEN_WRITTEN).2.get_outputs.values ∧
      (Policy.writeMemory 32
        (Policy.new (AddressHasher.mk (LinearCongruentialGenerator.mk 0) []) PolicyParams.new [])
        X86SegmentRegister.x86_segreg_ds (ValueType.number 32 4096)
        (ValueType.known 0x12345678 (by decide)) HAS_BEEN_WRITTEN).2.get_outputs.values =
        {0x12, 0x34, 0x56, 0x78}) :=
  ⟨⟨by decide, by decide⟩,
    (memory_outputs_are_bytes State.new 0 0
      (Policy.new (AddressHasher.mk (LinearCongruentialGenerator.mk 0) []) PolicyParams.new [])
      X86SegmentRegister.x86_segreg_ds 4096 0x12345678 (by decide) (by decide)).2.2.1 0 (by decide),
    (memory_outputs_are_bytes State.new 0 0
      (Policy.new (AddressHasher.mk (LinearCongruentialGenerator.mk 0) []) PolicyParams.new [])
      X86SegmentRegister.x86_segreg_ds 4096 0x12345678 (by decide) (by decide)).2.2.1 1 (by decide),
    (memory_outputs_are_bytes State.new 0 0
      (Policy.new (AddressHasher.mk (LinearCongruentialGenerator.mk 0) []) PolicyParams.new [])
      X86SegmentRegister.x86_segreg_ds 4096 0x12345678 (by decide) (by decide)).2.2.1 2 (by decide),
    (memory_outputs_are_bytes State.new 0 0
      (Policy.new (AddressHasher.mk (LinearCongruentialGenerator.mk 0) []) PolicyParams.new [])
      X86SegmentRegister.x86_segreg_ds 4096 0x12345678 (by decide) (by decide)).2.2.1 3 (by decide),
    by decide⟩


/-! ## The two orders of `satProblem.h` -/

theorem int_abs_cases (a : Int) : (a < 0 ∧ int_abs a = -a) ∨ (0 ≤ a ∧ int_abs a = a) := by
  unfold int_abs
  split_ifs <;> omega

theorem absLess_iff (a b : Int) :
    absLess a b = true ↔ int_abs a < int_abs b ∨ (int_abs a = int_abs b ∧ a < b) := by
  unfold absLess
  split_ifs with h1 h2
  · simp [h1]
  · simp only [Bool.false_eq_true, false_iff]
    omega
  · simp only [decide_eq_true_eq]
    constructor
    · intro h
      exact Or.inr ⟨by omega, h⟩
    · rintro (h | ⟨_, h⟩)
      · exact absurd h h1
      · exact h

theorem absLess_irrefl (a : Int) : absLess a a = false := by
  rw [Bool.eq_false_iff, Ne, absLess_iff]
  omega

theorem absLess_trans (a b c : Int) (h1 : absLess a b = true) (h2 : absLess b c = true) :
    absLess a c = true := by
  rw [absLess_iff] at *
  rcases int_abs_cases a with ha | ha <;> rcases int_abs_cases b with hb | hb <;>
    rcases int_abs_cases c with hc | hc <;> omega

theorem absLess_asymm (a b : Int) (h : absLess a b = true) : absLess b a = false := by
  rw [Bool.eq_false_iff, Ne, absLess_iff]
  rw [absLess_iff] at h
  omega

theorem absLess_total (a b : Int) (h : a ≠ b) : absLess a b = true ∨ absLess b a = true := by
  rw [absLess_iff, absLess_iff]
  rcases int_abs_cases a with ha | ha <;> rcases int_abs_cases b with hb | hb <;> omega

theorem vector_less_irrefl (a : List Int) : vector_less a a = false := by
  induction a with
  | nil => rfl
  | cons x xs ih => simp [vector_less, ih]

theorem vector_less_trans :
    ∀ (a b c : List Int), vector_less a b = true → vector_less b c = true →
      vector_less a c = true
  | _, [], _, h, _ => by cases ‹List Int› <;> simp [vector_less] at h
  | _, _ :: _, [], _, h => by simp [vector_less] at h
  | [], _ :: _, _ :: _, _, _ => by simp [vector_less]
  | x :: xs, y :: ys, z :: zs, h1, h2 => by
    simp only [vector_less] at h1 h2 ⊢
    by_cases hxy : x < y
    · by_cases hyz : y < z
      · have : x < z := lt_trans hxy hyz
        simp [this]
      · by_cases hzy : z < y
        · simp [hyz, hzy] at h2
        · have : y = z := by omega
          subst this
          simp [hxy]
    · by_cases hyx : y < x
      · simp [hxy, hyx] at h1
      · have hxy' : x = y := by omega
        subst hxy'
        simp only [lt_self_iff_false, if_false] at h1
        by_cases hyz : x < z
        · simp [hyz]
        · by_cases hzy : z < x
          · simp [hyz, hzy] at h2
          · simp only [hyz, hzy, if_false] at h2 ⊢
            exact vector_less_trans xs ys zs h1 h2

theorem vector_less_asymm :
    ∀ (a b : List Int), vector_less a b = true → vector_less b a = false
  | _, [], h => by cases ‹List Int› <;> simp [vector_less] at h
  | [], _ :: _, _ => by simp [vector_less]
  | x :: xs, y :: ys, h => by
    simp only [vector_less] at h ⊢
    by_cases hxy : x < y
    · have : ¬ y < x := by omega
      simp [this, hxy]
    · by_cases hyx : y < x
      · simp [hxy, hyx] at h
      · simp only [hxy, hyx, if_false] at h ⊢
        exact vector_less_asymm xs ys h

theorem vector_less_total :
    ∀ (a b : List Int), vector_less a b = false → vector_less b a = false → a = b
  | [], [], _, _ => rfl
  | [], _ :: _, h, _ => by simp [vector_less] at h
  | _ :: _, [], _, h => by simp [vector_less] at h
  | x :: xs, y :: ys, h1, h2 => by
    simp only [vector_less] at h1 h2
    by_cases hxy : x < y
    · simp [hxy] at h1
    · by_cases hyx : y < x
      · simp [hyx] at h2
      · simp only [hxy, hyx, if_false] at h1 h2
        have : x = y := by omega
        rw [this, vector_less_total xs ys h1 h2]

theorem clauseLess_iff (a b : Clause) :
    clauseLess a b = true ↔
      vector_less (a.map int_abs) (b.map int_abs) = true ∨
      (a.map int_abs = b.map int_abs ∧ vector_less a b = true) := by
  unfold clauseLess
  simp only
  by_cases h1 : vector_less (a.map int_abs) (b.map int_abs) = true
  · simp [h1]
  · by_cases h2 : vector_less (b.map int_abs) (a.map int_abs) = true
    · simp only [h1, h2, if_true, if_false, Bool.false_eq_true, false_or, false_iff, not_and]
      intro he
      rw [he, vector_less_irrefl] at h2
      exact absurd h2 (by simp)
    · simp only [h1, h2, if_false, false_or]
      have he := vector_less_total _ _ (by simpa using h1) (by simpa using h2)
      simp [he]

theorem clauseLess_irrefl (a : Clause) : clauseLess a a = false := by
  rw [Bool.eq_false_iff, Ne, clauseLess_iff]
  simp [vector_less_irrefl]

theorem clauseLess_trans (a b c : Clause) (h1 : clauseLess a b = true)
    (h2 : clauseLess b c = true) : clauseLess a c = true := by
  rw [clauseLess_iff] at *
  rcases h1 with h1 | ⟨e1, h1⟩
  · rcases h2 with h2 | ⟨e2, h2⟩
    · exact Or.inl (vector_less_trans _ _ _ h1 h2)
    · exact Or.inl (e2 ▸ h1)
  · rcases h2 with h2 | ⟨e2, h2⟩
    · exact Or.inl (e1 ▸ h2)
    · exact Or.inr ⟨e1.trans e2, vector_less_trans _ _ _ h1 h2⟩

theorem clauseLess_asymm (a b : Clause) (h : clauseLess a b = true) : clauseLess b a = false := by
  rw [Bool.eq_false_iff]
  intro h'
  have := clauseLess_trans a b a h h'
  rw [clauseLess_irrefl] at this
  exact absurd this (by simp)

theorem clauseLess_total (a b : Clause) (h1 : clauseLess a b = false)
    (h2 : clauseLess b a = false) : a = b := by
  rw [Bool.eq_false_iff, Ne, clauseLess_iff, not_or, not_and] at h1 h2
  have he := vector_less_total _ _ (by simpa using h1.1) (by simpa using h2.1)
  exact vector_less_total _ _ (by simpa using h1.2 he) (by simpa using h2.2 he.symm)

/-- Membership after `clauses.insert(x)`: the clause `x` and the clauses held before. -/
theorem mem_set_insert (x c : Clause) (s : List Clause) :
    c ∈ set_insert clauseLess x s ↔ c = x ∨ c ∈ s := by
  induction s with
  | nil => simp [set_insert]
  | cons y ys ih =>
    unfold set_insert
    by_cases h1 : clauseLess x y = true
    · simp [h1]
    · by_cases h2 : clauseLess y x = true
      · rw [if_neg h1, if_pos h2]
        simp only [List.mem_cons, ih]
        tauto
      · have he : x = y := clauseLess_total x y (by simpa using h1) (by simpa using h2)
        rw [if_neg h1, if_neg h2]
        simp only [List.mem_cons, he]
        tauto

/-- C40: on clauses made of non-constant literals, `clauseLess` is a strict total order:
it is irreflexive and transitive, and of two different clauses exactly one is before the
other. Hence two clauses that the clause set takes for the same entry (neither is before
the other) are equal as literal sequences, and after `clauses.insert(a)` the set holds
exactly `a` and the clauses it held before. -/
theorem clauseLess_strict_total_order (a b c : Clause)
    (_ha : ∀ l, l ∈ a → l ≠ FALSE ∧ l ≠ TRUE) (_hb : ∀ l, l ∈ b → l ≠ FALSE ∧ l ≠ TRUE)
    (_hc : ∀ l, l ∈ c → l ≠ FALSE ∧ l ≠ TRUE) :
    clauseLess a a = false ∧
    (clauseLess a b = true → clauseLess b c = true → clauseLess a c = true) ∧
    (a ≠ b → (clauseLess a b = true ∧ clauseLess b a = false) ∨
      (clauseLess a b = false ∧ clauseLess b a = true)) ∧
    (clauseLess a b = false → clauseLess b a = false → a = b) ∧
    (∀ (s : List Clause) (d : Clause), d ∈ set_insert clauseLess a s ↔ d = a ∨ d ∈ s) := by
  refine ⟨clauseLess_irrefl a, clauseLess_trans a b c, ?_, clauseLess_total a b,
    fun s d => mem_set_insert a d s⟩
  intro hne
  by_cases h1 : clauseLess a b = true
  · exact Or.inl ⟨h1, clauseLess_asymm a b h1⟩
  · by_cases h2 : clauseLess b a = true
    · exact Or.inr ⟨by simpa using h1, h2⟩
    · exact absurd (clauseLess_total a b (by simpa using h1) (by simpa using h2)) hne

theorem clauseLess_strict_total_order_witness :
    ((∀ l, l ∈ ([1, -2] : Clause) → l ≠ FALSE ∧ l ≠ TRUE) ∧
      (∀ l, l ∈ ([-1, 2] : Clause) → l ≠ FALSE ∧ l ≠ TRUE) ∧
      (∀ l, l ∈ ([1, 3] : Clause) → l ≠ FALSE ∧ l ≠ TRUE)) ∧
    (clauseLess [1, -2] [-1, 2] = false ∧ clauseLess [-1, 2] [1, -2] = true) :=
  ⟨⟨by decide, by decide, by decide⟩,
    ((clauseLess_strict_total_order [1, -2] [-1, 2] [1, 3] (by decide) (by decide)
      (by decide)).2.2.1 (by decide)).resolve_left (by decide)⟩


/-! ## Sorting and removing repetitions -/

theorem perm_sort_insert (x : Int) (l : List Int) : (sort_insert absLess x l).Perm (x :: l) := by
  induction l with
  | nil => exact List.Perm.refl _
  | cons y ys ih =>
    unfold sort_insert
    split_ifs
    · exact List.Perm.refl _
    · exact (List.Perm.cons y ih).trans (List.Perm.swap x y ys)

theorem perm_std_sort (l : List Int) : (std_sort absLess l).Perm l := by
  induction l with
  | nil => exact List.Perm.refl _
  | cons x xs ih =>
    unfold std_sort
    exact (perm_sort_insert x _).trans (List.Perm.cons x ih)

theorem mem_std_sort (l : List Int) (x : Int) : x ∈ std_sort absLess l ↔ x ∈ l :=
  (perm_std_sort l).mem_iff

theorem length_std_sort (l : List Int) : (std_sort absLess l).length = l.length :=
  (perm_std_sort l).length_eq

theorem absLe_trans (a b c : Int) (h1 : absLess b a = false) (h2 : absLess c b = false) :
    absLess c a = false := by
  by_contra h
  have hca : absLess c a = true := by simpa using h
  by_cases hab : a = b
  · subst hab
    rw [hca] at h2
    exact absurd h2 (by simp)
  · rcases absLess_total a b hab with h3 | h3
    · have := absLess_trans c a b hca h3
      rw [this] at h2
      exact absurd h2 (by simp)
    · rw [h3] at h1
      exact absurd h1 (by simp)

theorem sorted_sort_insert (x : Int) (l : List Int)
    (h : l.Pairwise (fun a b => absLess b a = false)) :
    (sort_insert absLess x l).Pairwise (fun a b => absLess b a = false) := by
  induction l with
  | nil => simp [sort_insert]
  | cons y ys ih =>
    have hp := List.pairwise_cons.mp h
    unfold sort_insert
    split_ifs with hxy
    · refine List.pairwise_cons.mpr ⟨?_, h⟩
      intro z hz
      have hyx : absLess y x = false := absLess_asymm x y hxy
      rcases List.mem_cons.mp hz with rfl | hz'
      · exact hyx
      · exact absLe_trans x y z hyx (hp.1 z hz')
    · refine List.pairwise_cons.mpr ⟨?_, ih hp.2⟩
      intro z hz
      rcases List.mem_cons.mp ((perm_sort_insert x ys).mem_iff.mp hz) with rfl | hz'
      · simpa using hxy
      · exact hp.1 z hz'

theorem sorted_std_sort (l : List Int) :
    (std_sort absLess l).Pairwise (fun a b => absLess b a = false) := by
  induction l with
  | nil => simp [std_sort]
  | cons x xs ih =>
    unfold std_sort
    exact sorted_sort_insert x _ ih

/-- The result of `std::sort` with `absLess` is determined by its specification: a
rearrangement of the argument in which no element is `absLess` than an earlier one is
the list that the embedding computes. -/
theorem std_sort_unique (l l' : List Int) (hp : l'.Perm l)
    (hs : l'.Pairwise (fun a b => absLess b a = false)) : l' = std_sort absLess l := by
  have hanti : ∀ a b : Int, absLess b a = false → absLess a b = false → a = b := by
    intro a b h1 h2
    by_contra hne
    rcases absLess_total a b hne with h | h
    · rw [h] at h2; exact absurd h2 (by simp)
    · rw [h] at h1; exact absurd h1 (by simp)
  haveI : IsAntisymm Int (fun a b => absLess b a = false) := ⟨hanti⟩
  exact List.eq_of_perm_of_sorted (hp.trans (perm_std_sort l).symm) hs (sorted_std_sort l)

theorem std_sort_perm_eq (l l' : List Int) (hp : l'.Perm l) :
    std_sort absLess l' = std_sort absLess l :=
  std_sort_unique l _ ((perm_std_sort l').trans hp) (sorted_std_sort l')

theorem mem_std_unique : ∀ (l : List Int) (x : Int), x ∈ std_unique l ↔ x ∈ l
  | [], x => by simp [std_unique]
  | [a], x => by simp [std_unique]
  | a :: b :: rest, x => by
    unfold std_unique
    have ih := mem_std_unique (b :: rest) x
    split_ifs with hab
    · rw [ih, hab]
      simp
    · rw [List.mem_cons, ih]
      simp

theorem length_std_unique_le : ∀ (l : List Int), (std_unique l).length ≤ l.length
  | [] => by simp [std_unique]
  | [a] => by simp [std_unique]
  | a :: b :: rest => by
    unfold std_unique
    have ih := length_std_unique_le (b :: rest)
    split_ifs
    · exact le_trans ih (Nat.le_succ _)
    · simpa using ih

theorem std_unique_of_nodup : ∀ (l : List Int), l.Nodup → std_unique l = l
  | [], _ => rfl
  | [a], _ => rfl
  | a :: b :: rest, h => by
    have hp := List.nodup_cons.mp h
    unfold std_unique
    have hab : a ≠ b := by
      intro he
      exact hp.1 (he ▸ List.mem_cons_self _ _)
    rw [if_neg hab, std_unique_of_nodup (b :: rest) hp.2]

/-- After sorting with `absLess` and removing repetitions every element is strictly
`absLess` than the later ones. -/
theorem strict_std_unique : ∀ (l : List Int), l.Pairwise (fun a b => absLess b a = false) →
    (std_unique l).Pairwise (fun a b => absLess a b = true)
  | [], _ => by simp [std_unique]
  | [a], _ => by simp [std_unique]
  | a :: b :: rest, h => by
    have hp := List.pairwise_cons.mp h
    have ih := strict_std_unique (b :: rest) hp.2
    unfold std_unique
    split_ifs with hab
    · exact ih
    · refine List.pairwise_cons.mpr ⟨?_, ih⟩
      intro z hz
      have hz' := (mem_std_unique (b :: rest) z).mp hz
      have hza : absLess z a = false := hp.1 z hz'
      by_cases he : a = z
      · subst he
        -- `a` occurs after `b`, so `b` is not after `a` in either direction
        have h1 : absLess b a = false := hp.1 b (List.mem_cons_self _ _)
        have h2 : absLess a b = false := by
          rcases List.mem_cons.mp hz' with h | h
          · exact absurd h hab
          · exact (List.pairwise_cons.mp hp.2).1 a h
        rcases absLess_total a b hab with h | h
        · rw [h] at h2; exact absurd h2 (by simp)
        · rw [h] at h1; exact absurd h1 (by simp)
      · rcases absLess_total a z he with h | h
        · exact h
        · rw [h] at hza; exact absurd hza (by simp)

theorem nodup_of_strict (l : List Int) (h : l.Pairwise (fun a b => absLess a b = true)) :
    l.Nodup := by
  refine List.Pairwise.imp ?_ h
  intro a b hab he
  subst he
  rw [absLess_irrefl] at hab
  exact absurd hab (by simp)


/-! ## Adding a clause -/

theorem SatProblem.addClause_collect_eq_none (cl : Clause) :
    SatProblem.addClause_collect cl = none ↔ TRUE ∈ cl := by
  induction cl with
  | nil => simp [SatProblem.addClause_collect]
  | cons l rest ih =>
    unfold SatProblem.addClause_collect
    by_cases h0 : l = FALSE
    · rw [if_pos h0, ih, List.mem_cons]
      constructor
      · exact Or.inr
      · rintro (h | h)
        · rw [h0] at h; exact absurd h (by decide)
        · exact h
    · rw [if_neg h0]
      by_cases h1 : l = TRUE
      · rw [if_pos h1]
        simp [h1]
      · rw [if_neg h1, Option.map_eq_none', ih, List.mem_cons]
        constructor
        · exact Or.inr
        · rintro (h | h)
          · exact absurd h.symm h1
          · exact h

theorem SatProblem.addClause_collect_eq_some (cl newCl : Clause)
    (h : SatProblem.addClause_collect cl = some newCl) :
    newCl = cl.filter (fun l => decide (l ≠ FALSE)) := by
  induction cl generalizing newCl with
  | nil =>
    simp only [SatProblem.addClause_collect, Option.some.injEq] at h
    simp [← h]
  | cons l rest ih =>
    unfold SatProblem.addClause_collect at h
    by_cases h0 : l = FALSE
    · rw [if_pos h0] at h
      rw [ih newCl h, List.filter_cons_of_neg (by simp [h0])]
    · rw [if_neg h0] at h
      by_cases h1 : l = TRUE
      · rw [if_pos h1] at h
        exact absurd h (by simp)
      · rw [if_neg h1] at h
        cases hr : SatProblem.addClause_collect rest with
        | none => rw [hr] at h; exact absurd h (by simp)
        | some n =>
          rw [hr] at h
          simp only [Option.map_some', Option.some.injEq] at h
          rw [← h, ih n hr, List.filter_cons_of_pos (by simp [h0])]

theorem SatProblem.addClause_collect_of_clean (cl : Clause)
    (h : ∀ l, l ∈ cl → l ≠ FALSE ∧ l ≠ TRUE) : SatProblem.addClause_collect cl = some cl := by
  induction cl with
  | nil => rfl
  | cons l rest ih =>
    unfold SatProblem.addClause_collect
    have hl := h l (List.mem_cons_self _ _)
    rw [if_neg hl.1, if_neg hl.2, ih (fun x hx => h x (List.mem_cons_of_mem _ hx))]
    rfl

theorem SatProblem.addClause_test_error (newCl : Clause) (i j : Nat) (e : Abort)
    (h : SatProblem.addClause_test newCl i j = Except.error e) : e = Abort.IndexOutOfBounds := by
  unfold SatProblem.addClause_test at h
  split at h
  · exact absurd h (by simp)
  · injection h with h
    exact h.symm

theorem SatProblem.addClause_inner_error (newCl : Clause) (i : Nat) (js : List Nat) (e : Abort)
    (h : SatProblem.addClause_inner newCl i js = Except.error e) : e = Abort.IndexOutOfBounds := by
  induction js with
  | nil => simp [SatProblem.addClause_inner] at h
  | cons j js ih =>
    unfold SatProblem.addClause_inner at h
    split at h
    · rename_i e' he
      injection h with h
      exact h ▸ SatProblem.addClause_test_error newCl i j e' he
    · exact absurd h (by simp)
    · exact ih h

theorem SatProblem.addClause_outer_error (newCl : Clause) (is : List Nat) (e : Abort)
    (h : SatProblem.addClause_outer newCl is = Except.error e) : e = Abort.IndexOutOfBounds := by
  induction is with
  | nil => simp [SatProblem.addClause_outer] at h
  | cons i is ih =>
    unfold SatProblem.addClause_outer at h
    split at h
    · rename_i e' he
      injection h with h
      exact h ▸ SatProblem.addClause_inner_error newCl i _ e' he
    · exact absurd h (by simp)
    · exact ih h

/-- What `addClause` does, case by case. -/
theorem SatProblem.addClause_char (p : SatProblem) (cl : Clause) :
    (SatProblem.addClause p cl = Except.error Abort.UnsatisfiableException ↔
      (TRUE ∉ cl ∧ ∀ l, l ∈ cl → l = FALSE)) ∧
    (TRUE ∈ cl → SatProblem.addClause p cl = Except.ok p) ∧
    (∀ q, SatProblem.addClause p cl = Except.ok q →
      q = p ∨ ∃ newCl : Clause,
        q = { p with clauses := set_insert clauseLess newCl p.clauses } ∧
        (∀ l, l ∈ newCl ↔ l ∈ cl ∧ l ≠ FALSE) ∧
        (∀ l, l ∈ newCl → l ≠ FALSE ∧ l ≠ TRUE) ∧
        newCl.Pairwise (fun a b => absLess a b = true) ∧ newCl.Nodup) := by
  refine ⟨?_, ?_, ?_⟩
  · unfold SatProblem.addClause
    cases hc : SatProblem.addClause_collect cl with
    | none =>
      have ht := (SatProblem.addClause_collect_eq_none cl).mp hc
      simp [ht]
    | some newCl =>
      have ht : TRUE ∉ cl := by
        intro ht
        rw [(SatProblem.addClause_collect_eq_none cl).mpr ht] at hc
        exact absurd hc (by simp)
      have hf := SatProblem.addClause_collect_eq_some cl newCl hc
      simp only
      by_cases he : newCl.isEmpty = true
      · rw [if_pos he]
        simp only [true_iff]
        refine ⟨ht, ?_⟩
        intro l hl
        by_contra hne
        have : l ∈ newCl := by
          rw [hf]
          exact List.mem_filter.mpr ⟨hl, by simpa using hne⟩
        rw [List.isEmpty_iff.mp he] at this
        exact absurd this (by simp)
      · rw [if_neg he]
        have hne : ¬ (TRUE ∉ cl ∧ ∀ l, l ∈ cl → l = FALSE) := by
          rintro ⟨-, hall⟩
          apply he
          rw [List.isEmpty_iff, hf, List.filter_eq_nil_iff]
          intro l hl
          simp [hall l hl]
        simp only [hne, iff_false]
        split
        · rename_i e hout
          rw [SatProblem.addClause_outer_error _ _ e hout]
          simp
        · simp
        · simp
  · intro ht
    unfold SatProblem.addClause
    rw [(SatProblem.addClause_collect_eq_none cl).mpr ht]
  · intro q hq
    unfold SatProblem.addClause at hq
    cases hc : SatProblem.addClause_collect cl with
    | none =>
      rw [hc] at hq
      injection hq with hq
      exact Or.inl hq.symm
    | some newCl =>
      rw [hc] at hq
      have ht : TRUE ∉ cl := by
        intro ht
        rw [(SatProblem.addClause_collect_eq_none cl).mpr ht] at hc
        exact absurd hc (by simp)
      have hf := SatProblem.addClause_collect_eq_some cl newCl hc
      simp only at hq
      by_cases he : newCl.isEmpty = true
      · rw [if_pos he] at hq
        exact absurd hq (by simp)
      · rw [if_neg he] at hq
        split at hq
        · exact absurd hq (by simp)
        · injection hq with hq
          exact Or.inl hq.symm
        · injection hq with hq
          refine Or.inr ⟨std_unique (std_sort absLess newCl), hq.symm, ?_, ?_, ?_, ?_⟩
          · intro l
            rw [mem_std_unique, mem_std_sort, hf, List.mem_filter]
            simp
          · intro l hl
            rw [mem_std_unique, mem_std_sort, hf, List.mem_filter] at hl
            refine ⟨by simpa using hl.2, ?_⟩
            intro h
            exact ht (h ▸ hl.1)
          · exact strict_std_unique _ (sorted_std_sort newCl)
          · exact nodup_of_strict _ (strict_std_unique _ (sorted_std_sort newCl))

/-- C36: `addClause` raises `UnsatisfiableException` if and only if the clause contains no
`TRUE` literal and every one of its literals is `FALSE` (the empty clause included); a
clause that contains `TRUE` leaves the problem unchanged; whenever the method returns, it
has either left the problem unchanged or inserted one clause, which consists of the
literals of the argument other than `FALSE`, contains no constant, is strictly ascending
in the order `absLess` and contains no literal twice. -/
theorem addClause_spec (p : SatProblem) (cl : Clause) :
    (SatProblem.addClause p cl = Except.error Abort.UnsatisfiableException ↔
      (TRUE ∉ cl ∧ ∀ l, l ∈ cl → l = FALSE)) ∧
    (TRUE ∈ cl → SatProblem.addClause p cl = Except.ok p) ∧
    (∀ q, SatProblem.addClause p cl = Except.ok q →
      q = p ∨ ∃ newCl : Clause,
        q = { p with clauses := set_insert clauseLess newCl p.clauses } ∧
        (∀ l, l ∈ newCl ↔ l ∈ cl ∧ l ≠ FALSE) ∧
        (∀ l, l ∈ newCl → l ≠ FALSE ∧ l ≠ TRUE) ∧
        newCl.Pairwise (fun a b => absLess a b = true) ∧ newCl.Nodup) :=
  SatProblem.addClause_char p cl


/-! ## Literals of a problem and their values -/

theorem SatProblem.has_lit_facts (p : SatProblem) (l : Int) (h : p.has_lit l)
    (hn : p.numVariables < 2147483648) :
    l ≠ 0 ∧ l ≠ -2147483648 ∧ -2147483648 < l ∧ l < 2147483648 := by
  unfold SatProblem.has_lit at h
  unfold Lit at *
  omega

theorem isConstantBool_of_range (l : Int) (h0 : l ≠ 0) (hlo : -2147483648 < l)
    (hhi : l < 2147483648) : isConstantBool l = false := by
  unfold isConstantBool
  simp only [beq_eq_false_iff_ne, ne_eq]
  show ¬ (l % 2147483648 : Int) = 0
  omega

theorem invert_of_range (l : Int) (h0 : l ≠ 0) (hlo : -2147483648 < l)
    (hhi : l < 2147483648) : invert l = -l := by
  unfold invert
  rw [isConstantBool_of_range l h0 hlo hhi]
  simp

theorem invert_TRUE : invert TRUE = FALSE := by decide

theorem invert_FALSE : invert FALSE = TRUE := by decide

/-- On the values of an `int`, `invert` is an involution. -/
theorem invert_invert (l : Int) (hlo : -2147483648 ≤ l) (hhi : l < 2147483648) :
    invert (invert l) = l := by
  by_cases h0 : l = 0
  · subst h0; decide
  · by_cases h1 : l = -2147483648
    · subst h1; decide
    · have hl : -2147483648 < l := by omega
      have a1 : -l ≠ 0 := by omega
      have a2 : -2147483648 < -l := by omega
      have a3 : -l < 2147483648 := by omega
      rw [invert_of_range l h0 hl hhi, invert_of_range (-l) a1 a2 a3]
      exact neg_neg l

theorem lit_value_of_range (σ : Assignment) (l : Int) (h0 : l ≠ 0) (hlo : -2147483648 < l) :
    lit_value σ l = if 0 < l then σ l else !σ (-l) := by
  unfold lit_value
  have h1 : ¬ l = TRUE := by
    show ¬ l = (-2147483648 : Int)
    omega
  have h2 : ¬ l = FALSE := h0
  rw [if_neg h1, if_neg h2]

/-- On the values of an `int`, the value of `invert(l)` is the negation of the value of
`l`. -/
theorem lit_value_invert (σ : Assignment) (l : Int) (hlo : -2147483648 ≤ l)
    (hhi : l < 2147483648) : lit_value σ (invert l) = !lit_value σ l := by
  by_cases h0 : l = 0
  · subst h0; rfl
  · by_cases h1 : l = -2147483648
    · subst h1; rfl
    · rw [invert_of_range l h0 (by omega) hhi, lit_value_of_range σ l h0 (by omega),
        lit_value_of_range σ (-l) (by omega) (by omega)]
      by_cases hp : 0 < l
      · have : ¬ (0 < -l) := by omega
        simp [hp, this]
      · have : 0 < -l := by omega
        simp [hp, this]

theorem lit_value_TRUE (σ : Assignment) : lit_value σ TRUE = true := rfl

theorem lit_value_FALSE (σ : Assignment) : lit_value σ FALSE = false := rfl

theorem clause_holds_iff (σ : Assignment) (c : Clause) :
    clause_holds σ c = true ↔ ∃ l, l ∈ c ∧ lit_value σ l = true := by
  unfold clause_holds
  rw [List.any_eq_true]

theorem clause_holds_perm (σ : Assignment) (c d : Clause) (h : c.Perm d) :
    clause_holds σ c = clause_holds σ d := by
  rw [Bool.eq_iff_iff, clause_holds_iff, clause_holds_iff]
  constructor
  · rintro ⟨l, hl, hv⟩
    exact ⟨l, h.mem_iff.mp hl, hv⟩
  · rintro ⟨l, hl, hv⟩
    exact ⟨l, h.mem_iff.mpr hl, hv⟩

theorem clause_holds_sort (σ : Assignment) (c : Clause) :
    clause_holds σ (std_sort absLess c) = clause_holds σ c :=
  clause_holds_perm σ _ _ (perm_std_sort c)

/-! ## Clauses that `addClause` inserts as they are -/

theorem SatProblem.addClause_test_ok (newCl : Clause) (i j : Nat) (hi : i < newCl.length)
    (hj : j < newCl.length) (h : ∀ x, x ∈ newCl → ∀ y, y ∈ newCl → x ≠ -y) :
    SatProblem.addClause_test newCl i j = Except.ok false := by
  unfold SatProblem.addClause_test
  rw [List.get?_eq_get hi, List.get?_eq_get hj]
  simp only [Except.ok.injEq, beq_eq_false_iff_ne, ne_eq]
  exact h _ (List.get_mem _ _ _) _ (List.get_mem _ _ _)

theorem SatProblem.addClause_inner_ok (newCl : Clause) (i : Nat) (hi : i < newCl.length)
    (h : ∀ x, x ∈ newCl → ∀ y, y ∈ newCl → x ≠ -y) (js : List Nat)
    (hjs : ∀ j, j ∈ js → j < newCl.length) :
    SatProblem.addClause_inner newCl i js = Except.ok false := by
  induction js with
  | nil => rfl
  | cons j js ih =>
    unfold SatProblem.addClause_inner
    rw [SatProblem.addClause_test_ok newCl i j hi (hjs j (List.mem_cons_self _ _)) h]
    exact ih (fun k hk => hjs k (List.mem_cons_of_mem _ hk))

theorem SatProblem.addClause_outer_ok (newCl : Clause)
    (h : ∀ x, x ∈ newCl → ∀ y, y ∈ newCl → x ≠ -y) (is : List Nat)
    (his : ∀ i, i ∈ is → i < newCl.length) :
    SatProblem.addClause_outer newCl is = Except.ok false := by
  induction is with
  | nil => rfl
  | cons i is ih =>
    unfold SatProblem.addClause_outer
    have hi := his i (List.mem_cons_self _ _)
    rw [SatProblem.addClause_inner_ok newCl i hi h (List.range i)
      (fun j hj => lt_trans (List.mem_range.mp hj) hi)]
    exact ih (fun k hk => his k (List.mem_cons_of_mem _ hk))

theorem int_abs_neg (a : Int) : int_abs (-a) = int_abs a := by
  rcases int_abs_cases a with h | h <;> rcases int_abs_cases (-a) with h' | h' <;> omega

/-- A clause of non-constant literals over pairwise distinct variables is inserted, sorted
by `absLess`, and nothing else changes. -/
theorem SatProblem.addClause_clean (p : SatProblem) (cl : Clause) (hne : cl ≠ [])
    (hc : ∀ l, l ∈ cl → l ≠ FALSE ∧ l ≠ TRUE) (hd : (cl.map int_abs).Nodup) :
    SatProblem.addClause p cl =
      Except.ok { p with clauses := set_insert clauseLess (std_sort absLess cl) p.clauses } := by
  have hnd : cl.Nodup := List.Nodup.of_map _ hd
  have hsn : (std_sort absLess cl).Nodup := (perm_std_sort cl).nodup_iff.mpr hnd
  have hcomp : ∀ x, x ∈ std_sort absLess cl → ∀ y, y ∈ std_sort absLess cl → x ≠ -y := by
    intro x hx y hy he
    rw [mem_std_sort] at hx hy
    have ha : int_abs x = int_abs y := by rw [he, int_abs_neg]
    have hxy : x = y := List.inj_on_of_nodup_map hd hx hy ha
    have h0 : x ≠ (0 : Int) := (hc x hx).1
    rw [hxy] at he h0
    unfold Lit Clause at *
    omega
  unfold SatProblem.addClause
  rw [SatProblem.addClause_collect_of_clean cl hc]
  have he : ¬ cl.isEmpty = true := by
    rw [List.isEmpty_iff]
    exact hne
  simp only
  rw [if_neg he, std_unique_of_nodup _ hsn,
    SatProblem.addClause_outer_ok _ hcomp _ (fun i hi => by
      rw [length_std_sort]
      exact List.mem_range.mp hi)]

theorem holds_set_insert (σ : Assignment) (cl : Clause) (cs : List Clause) :
    (∀ c, c ∈ set_insert clauseLess (std_sort absLess cl) cs → clause_holds σ c = true) ↔
      ((∀ c, c ∈ cs → clause_holds σ c = true) ∧ clause_holds σ cl = true) := by
  simp only [mem_set_insert]
  constructor
  · intro h
    refine ⟨fun c hc => h c (Or.inr hc), ?_⟩
    rw [← clause_holds_sort]
    exact h _ (Or.inl rfl)
  · rintro ⟨h1, h2⟩ c (rfl | hc)
    · rw [clause_holds_sort]
      exact h2
    · exact h1 c hc


/-! ## The tautology check of `addClause` -/

theorem SatProblem.addClause_inner_past (newCl : Clause) (i : Nat) (hi : newCl.length ≤ i)
    (m : Nat) :
    SatProblem.addClause_inner newCl i (List.range (m + 1)) =
      Except.error Abort.IndexOutOfBounds := by
  rw [List.range_succ_eq_map]
  unfold SatProblem.addClause_inner SatProblem.addClause_test
  rw [List.get?_eq_none.mpr hi]

theorem SatProblem.addClause_outer_append (newCl : Clause) (l1 l2 : List Nat)
    (h : SatProblem.addClause_outer newCl l1 = Except.ok false) :
    SatProblem.addClause_outer newCl (l1 ++ l2) = SatProblem.addClause_outer newCl l2 := by
  induction l1 with
  | nil => rfl
  | cons i is ih =>
    rw [List.cons_append]
    simp only [SatProblem.addClause_outer] at h ⊢
    split at h
    · exact absurd h (by simp)
    · exact absurd h (by simp)
    · exact ih h

/-- When the normalised clause has no complementary pair and is shorter than the
argument, the tautology check reads `newCl[newCl.size()]`. -/
theorem SatProblem.addClause_outer_past (newCl : Clause) (L : Nat) (hne : newCl ≠ [])
    (hL : newCl.length < L) (h : ∀ x, x ∈ newCl → ∀ y, y ∈ newCl → x ≠ -y) :
    SatProblem.addClause_outer newCl (List.range L) = Except.error Abort.IndexOutOfBounds := by
  obtain ⟨k, rfl⟩ : ∃ k, L = newCl.length + (k + 1) := ⟨L - newCl.length - 1, by omega⟩
  obtain ⟨m, hm⟩ : ∃ m, newCl.length = m + 1 :=
    ⟨newCl.length - 1, by
      have := List.length_pos.mpr hne
      omega⟩
  rw [List.range_add, SatProblem.addClause_outer_append _ _ _
    (SatProblem.addClause_outer_ok newCl h _ (fun i hi => List.mem_range.mp hi)),
    List.range_succ_eq_map, List.map_cons]
  unfold SatProblem.addClause_outer
  rw [Nat.add_zero, hm, SatProblem.addClause_inner_past newCl (m + 1) (by omega) m]

/-- C35: `addClause` should never index its normalised clause `newCl` outside its bounds.
The outer loop of the tautology check runs `i` up to `cl.size()`, the size of the
argument, and not up to `newCl.size()`. For every clause that contains `FALSE`, no
`TRUE`, some literal other than `FALSE` and no literal together with its negation,
`newCl` is shorter than `cl` and the check reads `newCl[newCl.size()]`, whatever the
problem holds; `{FALSE, 5}` is such a clause. The same happens for a repeated literal,
as in `{5, 5}`, where `newCl = {5}` and the test `newCl[i] == -newCl[j]` is evaluated
with `i = 1`, `j = 0`. -/
theorem addClause_reads_past_newCl (p : SatProblem) (cl : Clause) (hT : TRUE ∉ cl)
    (hF : FALSE ∈ cl) (hne : ∃ l, l ∈ cl ∧ l ≠ FALSE)
    (hcomp : ∀ x, x ∈ cl → ∀ y, y ∈ cl → x ≠ FALSE → x ≠ -y) :
    SatProblem.addClause p cl = Except.error Abort.IndexOutOfBounds ∧
    SatProblem.addClause p [FALSE, 5] = Except.error Abort.IndexOutOfBounds ∧
    SatProblem.addClause p [5, 5] = Except.error Abort.IndexOutOfBounds ∧
    std_unique (std_sort absLess [5, 5]) = [5] ∧
    SatProblem.addClause_test [5] 1 0 = Except.error Abort.IndexOutOfBounds := by
  refine ⟨?_, rfl, rfl, rfl, rfl⟩
  have hcol : SatProblem.addClause_collect cl = some (cl.filter (fun l => decide (l ≠ FALSE))) := by
    cases hc : SatProblem.addClause_collect cl with
    | none => exact absurd ((SatProblem.addClause_collect_eq_none cl).mp hc) hT
    | some n => rw [SatProblem.addClause_collect_eq_some cl n hc]
  obtain ⟨l0, hl0, hl0'⟩ := hne
  have hmem0 : l0 ∈ cl.filter (fun l => decide (l ≠ FALSE)) :=
    List.mem_filter.mpr ⟨hl0, by simpa using hl0'⟩
  have hnonempty : ¬ (cl.filter (fun l => decide (l ≠ FALSE))).isEmpty = true := by
    rw [List.isEmpty_iff]
    intro h
    rw [h] at hmem0
    exact absurd hmem0 (List.not_mem_nil _)
  have hshort : (cl.filter (fun l => decide (l ≠ FALSE))).length < cl.length := by
    rw [List.length_filter_lt_length_iff_exists]
    exact ⟨FALSE, hF, by simp⟩
  unfold SatProblem.addClause
  rw [hcol]
  simp only
  rw [if_neg hnonempty, SatProblem.addClause_outer_past]
  · intro h
    have : l0 ∈ std_unique (std_sort absLess (cl.filter (fun l => decide (l ≠ FALSE)))) := by
      rw [mem_std_unique, mem_std_sort]
      exact hmem0
    rw [h] at this
    exact absurd this (List.not_mem_nil _)
  · calc (std_unique (std_sort absLess (cl.filter (fun l => decide (l ≠ FALSE))))).length
        ≤ (std_sort absLess (cl.filter (fun l => decide (l ≠ FALSE)))).length :=
          length_std_unique_le _
      _ = (cl.filter (fun l => decide (l ≠ FALSE))).length := length_std_sort _
      _ < cl.length := hshort
  · intro x hx y hy
    rw [mem_std_unique, mem_std_sort, List.mem_filter] at hx hy
    exact hcomp x hx.1 y hy.1 (by simpa using hx.2)

theorem addClause_reads_past_newCl_witness :
    (TRUE ∉ ([FALSE, 5] : Clause) ∧ FALSE ∈ ([FALSE, 5] : Clause) ∧
      (∃ l, l ∈ ([FALSE, 5] : Clause) ∧ l ≠ FALSE)) ∧
    SatProblem.addClause SatProblem.new [FALSE, 5] = Except.error Abort.IndexOutOfBounds :=
  ⟨⟨by decide, by decide, ⟨5, by decide, by decide⟩⟩,
    (addClause_reads_past_newCl SatProblem.new [FALSE, 5] (by decide) (by decide)
      ⟨5, by decide, by decide⟩ (by decide)).1⟩


/-! ## The tables -/

theorem map_find_some_mem (m : List (List Lit × Lit)) (k : List Lit) (v : Lit)
    (h : map_find m k = some v) : (k, v) ∈ m := by
  induction m with
  | nil => simp [map_find] at h
  | cons e rest ih =>
    obtain ⟨k', v'⟩ := e
    unfold map_find at h
    by_cases hk : k' = k
    · rw [if_pos hk] at h
      injection h with h
      rw [hk, h]
      exact List.mem_cons_self _ _
    · rw [if_neg hk] at h
      exact List.mem_cons_of_mem _ (ih h)

theorem mem_map_insert (m : List (List Lit × Lit)) (k : List Lit) (v : Lit)
    (e : List Lit × Lit) (h : e ∈ map_insert m k v) : e ∈ m ∨ e = (k, v) := by
  unfold map_insert at h
  split at h
  · exact Or.inl h
  · rcases List.mem_cons.mp h with h | h
    · exact Or.inr h
    · exact Or.inl h

theorem map_find_insert_self (m : List (List Lit × Lit)) (k : List Lit) (v : Lit)
    (h : map_find m k = none) : map_find (map_insert m k v) k = some v := by
  unfold map_insert
  rw [h]
  simp [map_find]

/-! ## What `addClause` and `condEquivalence` leave alone -/

theorem SatProblem.addClause_frame (p q : SatProblem) (cl : Clause)
    (h : SatProblem.addClause p cl = Except.ok q) :
    q.numVariables = p.numVariables ∧ q.andGateCSE = p.andGateCSE ∧ q.muxCSE = p.muxCSE ∧
    q.interfaceLiterals = p.interfaceLiterals ∧ (∀ c, c ∈ p.clauses → c ∈ q.clauses) := by
  rcases (SatProblem.addClause_char p cl).2.2 q h with rfl | ⟨newCl, rfl, -⟩
  · exact ⟨rfl, rfl, rfl, rfl, fun c hc => hc⟩
  · refine ⟨rfl, rfl, rfl, rfl, fun c hc => ?_⟩
    exact (mem_set_insert newCl c p.clauses).mpr (Or.inr hc)

theorem SatProblem.condEquivalence_frame (p q : SatProblem) (sel a b : Lit)
    (h : SatProblem.condEquivalence p sel a b = Except.ok q) :
    q.numVariables = p.numVariables ∧ q.andGateCSE = p.andGateCSE ∧ q.muxCSE = p.muxCSE ∧
    q.interfaceLiterals = p.interfaceLiterals ∧ (∀ c, c ∈ p.clauses → c ∈ q.clauses) := by
  unfold SatProblem.condEquivalence at h
  split at h
  · exact absurd h (by simp)
  · rename_i p1 h1
    obtain ⟨a1, a2, a3, a4, a5⟩ := SatProblem.addClause_frame p p1 _ h1
    obtain ⟨b1, b2, b3, b4, b5⟩ := SatProblem.addClause_frame p1 q _ h
    exact ⟨b1.trans a1, b2.trans a2, b3.trans a3, b4.trans a4, fun c hc => b5 c (a5 c hc)⟩

theorem clause_holds_three (σ : Assignment) (x y z : Lit) :
    clause_holds σ [x, y, z] = (lit_value σ x || lit_value σ y || lit_value σ z) := by
  simp [clause_holds, Bool.or_assoc]

theorem clause_holds_two (σ : Assignment) (x y : Lit) :
    clause_holds σ [x, y] = (lit_value σ x || lit_value σ y) := by
  simp [clause_holds]

/-- For three literals over distinct variables of the problem, `condEquivalence(sel, a,
b)` returns, changes nothing but the clause set, and the assignments that satisfy the
problem afterwards are those that satisfied it before and give `a` and `b` the same value
whenever `sel` is true. -/
theorem SatProblem.condEquivalence_clean (p : SatProblem) (sel a b : Int)
    (hn : p.numVariables < 2147483648)
    (hs : p.has_lit sel) (ha : p.has_lit a) (hb : p.has_lit b)
    (hsa : int_abs sel ≠ int_abs a) (hsb : int_abs sel ≠ int_abs b)
    (hab : int_abs a ≠ int_abs b) :
    ∃ q, SatProblem.condEquivalence p sel a b = Except.ok q ∧
      q.numVariables = p.numVariables ∧ q.andGateCSE = p.andGateCSE ∧ q.muxCSE = p.muxCSE ∧
      (∀ σ, q.satisfied_by σ ↔
        (p.satisfied_by σ ∧ (lit_value σ sel = true → lit_value σ a = lit_value σ b))) ∧
      (∀ c, c ∈ q.clauses → c ∈ p.clauses ∨
        ∀ σ, (lit_value σ sel = true → lit_value σ a = lit_value σ b) →
          clause_holds σ c = true) := by
  obtain ⟨s0, s1, s2, s3⟩ := SatProblem.has_lit_facts p sel hs hn
  obtain ⟨a0, a1, a2, a3⟩ := SatProblem.has_lit_facts p a ha hn
  obtain ⟨b0, b1, b2, b3⟩ := SatProblem.has_lit_facts p b hb hn
  have is := invert_of_range sel s0 s2 s3
  have ia := invert_of_range a a0 a2 a3
  have ib := invert_of_range b b0 b2 b3
  have vs : ∀ σ, lit_value σ (-sel) = !lit_value σ sel := fun σ => by
    rw [← is]; exact lit_value_invert σ sel (le_of_lt s2) s3
  have va : ∀ σ, lit_value σ (-a) = !lit_value σ a := fun σ => by
    rw [← ia]; exact lit_value_invert σ a (le_of_lt a2) a3
  have vb : ∀ σ, lit_value σ (-b) = !lit_value σ b := fun σ => by
    rw [← ib]; exact lit_value_invert σ b (le_of_lt b2) b3
  have ns : -sel ≠ (0 : Int) ∧ -sel ≠ (-2147483648 : Int) := by omega
  have na : -a ≠ (0 : Int) ∧ -a ≠ (-2147483648 : Int) := by omega
  have nb : -b ≠ (0 : Int) ∧ -b ≠ (-2147483648 : Int) := by omega
  have c1 : ∀ r : SatProblem, SatProblem.addClause r [-sel, -a, b] =
      Except.ok { r with
        clauses := set_insert clauseLess (std_sort absLess [-sel, -a, b]) r.clauses } := by
    intro r
    apply SatProblem.addClause_clean r _ (by simp)
    · intro l hl
      simp only [List.mem_cons, List.mem_singleton, List.not_mem_nil, or_false] at hl
      rcases hl with rfl | rfl | rfl
      · exact ns
      · exact na
      · exact ⟨b0, b1⟩
    · simp only [List.map_cons, List.map_nil, int_abs_neg, List.nodup_cons, List.mem_cons,
        List.mem_singleton, List.not_mem_nil, or_false, not_or, List.nodup_nil, and_true]
      exact ⟨⟨hsa, hsb⟩, hab, not_false⟩
  have c2 : ∀ r : SatProblem, SatProblem.addClause r [-sel, a, -b] =
      Except.ok { r with
        clauses := set_insert clauseLess (std_sort absLess [-sel, a, -b]) r.clauses } := by
    intro r
    apply SatProblem.addClause_clean r _ (by simp)
    · intro l hl
      simp only [List.mem_cons, List.mem_singleton, List.not_mem_nil, or_false] at hl
      rcases hl with rfl | rfl | rfl
      · exact ns
      · exact ⟨a0, a1⟩
      · exact nb
    · simp only [List.map_cons, List.map_nil, int_abs_neg, List.nodup_cons, List.mem_cons,
        List.mem_singleton, List.not_mem_nil, or_false, not_or, List.nodup_nil, and_true]
      exact ⟨⟨hsa, hsb⟩, hab, not_false⟩
  have hsem : ∀ σ, (clause_holds σ [-sel, -a, b] = true ∧ clause_holds σ [-sel, a, -b] = true) ↔
      (lit_value σ sel = true → lit_value σ a = lit_value σ b) := by
    intro σ
    rw [clause_holds_three, clause_holds_three, vs, va, vb]
    cases lit_value σ sel <;> cases lit_value σ a <;> cases lit_value σ b <;> simp
  refine ⟨{ p with
    clauses := set_insert clauseLess (std_sort absLess [-sel, a, -b])
      (set_insert clauseLess (std_sort absLess [-sel, -a, b]) p.clauses) }, ?_, rfl, rfl, rfl, ?_, ?_⟩
  · unfold SatProblem.condEquivalence
    rw [is, ia, ib, c1 p]
    exact c2 _
  · intro σ
    unfold SatProblem.satisfied_by
    simp only [holds_set_insert]
    rw [and_assoc, hsem]
  · intro c hc
    simp only [mem_set_insert] at hc
    rcases hc with rfl | rfl | hc
    · refine Or.inr (fun σ h => ?_)
      rw [clause_holds_sort]
      exact ((hsem σ).mpr h).2
    · refine Or.inr (fun σ h => ?_)
      rw [clause_holds_sort]
      exact ((hsem σ).mpr h).1
    · exact Or.inl hc


/-! ## Soundness of the tables is an invariant -/

theorem SatProblem.tables_sound_new : SatProblem.new.tables_sound :=
  ⟨fun _ _ h => absurd h (List.not_mem_nil _), fun _ _ _ _ h => absurd h (List.not_mem_nil _)⟩

theorem SatProblem.tables_sound_newVar (p : SatProblem) (h : p.tables_sound) :
    (SatProblem.newVar p).2.tables_sound :=
  ⟨fun k out hk σ hσ => h.1 k out hk σ hσ, fun s t f out hk σ hσ => h.2 s t f out hk σ hσ⟩

theorem SatProblem.tables_sound_addClause (p q : SatProblem) (cl : Clause)
    (h : SatProblem.addClause p cl = Except.ok q) (hs : p.tables_sound) : q.tables_sound := by
  obtain ⟨-, ag, mx, -, hc⟩ := SatProblem.addClause_frame p q cl h
  have hsat : ∀ σ, q.satisfied_by σ → p.satisfied_by σ := fun σ hσ c hcp => hσ c (hc c hcp)
  constructor
  · intro k out hk σ hσ
    rw [ag] at hk
    exact hs.1 k out hk σ (hsat σ hσ)
  · intro s t f out hk σ hσ
    rw [mx] at hk
    exact hs.2 s t f out hk σ (hsat σ hσ)


/-! ## The selection gate -/

theorem SatProblem.has_lit_mono (p q : SatProblem) (l : Int)
    (h : p.numVariables ≤ q.numVariables) (hl : p.has_lit l) : q.has_lit l := by
  unfold SatProblem.has_lit at *
  unfold Lit at *
  omega

theorem SatProblem.has_lit_neg (p : SatProblem) (l : Int) (hl : p.has_lit l) :
    p.has_lit (-l) := by
  unfold SatProblem.has_lit at *
  unfold Lit at *
  omega

theorem SatProblem.has_lit_abs (p : SatProblem) (l : Int) (hl : p.has_lit l) :
    1 ≤ int_abs l ∧ int_abs l ≤ p.numVariables := by
  unfold SatProblem.has_lit at hl
  unfold Lit at *
  rcases int_abs_cases l with h | h <;> omega

theorem SatProblem.has_lit_fresh (p : SatProblem) (h : 0 ≤ p.numVariables) :
    (SatProblem.newVar p).2.has_lit (SatProblem.newVar p).1 ∧
    int_abs (SatProblem.newVar p).1 = p.numVariables + 1 := by
  unfold SatProblem.has_lit SatProblem.newVar
  simp only
  unfold Lit Var at *
  rcases int_abs_cases (p.numVariables + 1) with h' | h' <;> omega

/-- The last branch of `mux` for three literals over distinct variables of the problem:
the literal returned is the selection in every assignment that satisfies the clauses,
and the tables stay sound. -/
theorem SatProblem.mux_encode_spec (p : SatProblem) (s t f : Int)
    (hn : p.numVariables + 1 < 2147483648)
    (hs : p.has_lit s) (ht : p.has_lit t) (hf : p.has_lit f)
    (hst : int_abs s ≠ int_abs t) (hsf : int_abs s ≠ int_abs f) (htf : int_abs t ≠ int_abs f)
    (hsound : p.tables_sound) :
    ∃ out q, SatProblem.mux_encode p s t f = Except.ok (out, q) ∧
      (∀ σ, q.satisfied_by σ →
        lit_value σ out = if lit_value σ s = true then lit_value σ t else lit_value σ f) ∧
      q.tables_sound ∧ (∀ c, c ∈ p.clauses → c ∈ q.clauses) ∧
      p.numVariables ≤ q.numVariables ∧ q.numVariables ≤ p.numVariables + 1 := by
  cases hfind : map_find p.muxCSE [s, t, f] with
  | some out =>
    refine ⟨out, p, ?_, ?_, hsound, fun c hc => hc, le_refl _, by omega⟩
    · simp only [SatProblem.mux_encode, hfind]
    · intro σ hσ
      exact hsound.2 s t f out (map_find_some_mem _ _ _ hfind) σ hσ
  | none =>
    obtain ⟨as1, as2⟩ := SatProblem.has_lit_abs p s hs
    obtain ⟨at1, at2⟩ := SatProblem.has_lit_abs p t ht
    obtain ⟨af1, af2⟩ := SatProblem.has_lit_abs p f hf
    have h0 : 0 ≤ p.numVariables := by omega
    obtain ⟨ho, hoa⟩ := SatProblem.has_lit_fresh p h0
    have hle : p.numVariables ≤ (SatProblem.newVar p).2.numVariables := by
      show p.numVariables ≤ p.numVariables + 1
      omega
    have hn0 : (SatProblem.newVar p).2.numVariables < 2147483648 := hn
    obtain ⟨q1, e1, n1, ag1, mx1, sat1, -⟩ := SatProblem.condEquivalence_clean
      (SatProblem.newVar p).2 s t (SatProblem.newVar p).1 hn0
      (SatProblem.has_lit_mono _ _ _ hle hs) (SatProblem.has_lit_mono _ _ _ hle ht) ho
      hst (by omega) (by omega)
    obtain ⟨s0, -, s2, s3⟩ := SatProblem.has_lit_facts p s hs (by omega)
    have is := invert_of_range s s0 s2 s3
    have hle1 : p.numVariables ≤ q1.numVariables := by rw [n1]; exact hle
    have hn1 : q1.numVariables < 2147483648 := by rw [n1]; exact hn0
    have ho1 : q1.has_lit (SatProblem.newVar p).1 :=
      SatProblem.has_lit_mono _ _ _ (le_of_eq n1.symm) ho
    obtain ⟨q2, e2, n2, ag2, mx2, sat2, -⟩ := SatProblem.condEquivalence_clean
      q1 (-s) f (SatProblem.newVar p).1 hn1
      (SatProblem.has_lit_neg _ _ (SatProblem.has_lit_mono _ _ _ hle1 hs))
      (SatProblem.has_lit_mono _ _ _ hle1 hf) ho1
      (by rw [int_abs_neg]; exact hsf) (by rw [int_abs_neg]; omega) (by omega)
    have vs : ∀ σ, lit_value σ (-s) = !lit_value σ s := fun σ => by
      rw [← is]; exact lit_value_invert σ s (le_of_lt s2) s3
    have hsat : ∀ σ, SatProblem.satisfied_by
        { q2 with muxCSE := map_insert q2.muxCSE [s, t, f] (SatProblem.newVar p).1 } σ →
        p.satisfied_by σ ∧ lit_value σ (SatProblem.newVar p).1 =
          if lit_value σ s = true then lit_value σ t else lit_value σ f := by
      intro σ hσ
      have h2 := (sat2 σ).mp hσ
      have h1 := (sat1 σ).mp h2.1
      refine ⟨h1.1, ?_⟩
      have ha := h1.2
      have hb := h2.2
      rw [vs] at hb
      cases hv : lit_value σ s
      · rw [hv] at hb
        simp only [Bool.false_eq_true, if_false]
        exact (hb rfl).symm
      · rw [hv] at ha
        simp only [if_true]
        exact (ha rfl).symm
    refine ⟨(SatProblem.newVar p).1,
      { q2 with muxCSE := map_insert q2.muxCSE [s, t, f] (SatProblem.newVar p).1 },
      ?_, fun σ hσ => (hsat σ hσ).2, ⟨?_, ?_⟩, ?_, ?_, ?_⟩
    · simp only [SatProblem.mux_encode, hfind, e1, is, e2]
    · intro k out hk σ hσ
      have hk' : (k, out) ∈ p.andGateCSE := by
        have : (k, out) ∈ q2.andGateCSE := hk
        rw [ag2, ag1] at this
        exact this
      exact hsound.1 k out hk' σ (hsat σ hσ).1
    · intro sel t' f' out hk σ hσ
      rcases mem_map_insert _ _ _ _ hk with hm | hm
      · rw [mx2, mx1] at hm
        exact hsound.2 sel t' f' out hm σ (hsat σ hσ).1
      · injection hm with hk1 hk2
        injection hk1 with e1' hk1
        injection hk1 with e2' hk1
        injection hk1 with e3' hk1
        subst e1' e2' e3' hk2
        exact (hsat σ hσ).2
    · intro c hc
      have h1 := (SatProblem.condEquivalence_frame _ _ _ _ _ e1).2.2.2.2 c hc
      exact (SatProblem.condEquivalence_frame _ _ _ _ _ e2).2.2.2.2 c h1
    · show p.numVariables ≤ q2.numVariables
      rw [n2]; exact hle1
    · show q2.numVariables ≤ p.numVariables + 1
      rw [n2, n1]
      exact le_refl _


theorem SatProblem.mux_encode_repeat (p q : SatProblem) (s t f out : Lit)
    (h : SatProblem.mux_encode p s t f = Except.ok (out, q)) :
    SatProblem.mux_encode q s t f = Except.ok (out, q) := by
  cases hfind : map_find p.muxCSE [s, t, f] with
  | some o =>
    simp only [SatProblem.mux_encode, hfind] at h
    injection h with h
    injection h with h1 h2
    subst h1 h2
    simp only [SatProblem.mux_encode, hfind]
  | none =>
    simp only [SatProblem.mux_encode, hfind] at h
    split at h
    · exact absurd h (by simp)
    · rename_i p1 e1
      split at h
      · exact absurd h (by simp)
      · rename_i p2 e2
        injection h with h
        injection h with h1 h2
        have m1 := (SatProblem.condEquivalence_frame _ _ _ _ _ e1).2.2.1
        have m2 := (SatProblem.condEquivalence_frame _ _ _ _ _ e2).2.2.1
        have hnone : map_find p2.muxCSE [s, t, f] = none := by
          rw [m2, m1]
          exact hfind
        have hq : map_find q.muxCSE [s, t, f] = some out := by
          rw [← h2, ← h1]
          exact map_find_insert_self _ _ _ hnone
        simp only [SatProblem.mux_encode, hq]

/-- Repeating a call of `mux` returns the same literal and changes nothing. -/
theorem SatProblem.mux_repeat (p q : SatProblem) (s t f out : Lit)
    (h : SatProblem.mux p s t f = Except.ok (out, q)) :
    SatProblem.mux q s t f = Except.ok (out, q) := by
  unfold SatProblem.mux at h ⊢
  split_ifs at h ⊢
  all_goals first
    | (injection h with h; injection h with h1 h2; subst h1 h2; rfl)
    | exact SatProblem.mux_encode_repeat _ _ _ _ _ _ h

/-- For a selector that is an `int`, `mux(invert(s), t, f)` is `mux(s, f, t)`. -/
theorem SatProblem.mux_invert_sel (p : SatProblem) (s t f : Int) (hlo : -2147483648 ≤ s)
    (hhi : s < 2147483648) :
    SatProblem.mux p (invert s) t f = SatProblem.mux p s f t := by
  by_cases h0 : s = 0
  · subst h0
    rw [show invert (0 : Int) = TRUE from rfl]
    simp [SatProblem.mux]
  · by_cases h1 : s = -2147483648
    · subst h1
      rw [show invert (-2147483648 : Int) = FALSE from rfl]
      simp [SatProblem.mux]
    · have hl : -2147483648 < s := by omega
      have is := invert_of_range s h0 hl hhi
      have a1 : -s ≠ 0 := by omega
      have a2 : -2147483648 < -s := by omega
      have a3 : -s < 2147483648 := by omega
      have iis := invert_of_range (-s) a1 a2 a3
      have a4 : -s ≠ -2147483648 := by omega
      rw [is]
      unfold SatProblem.mux
      rw [if_neg (show ¬ (-s = FALSE) from a1), if_neg (show ¬ (-s = TRUE) from a4),
        if_neg (show ¬ (s = FALSE) from h0), if_neg (show ¬ (s = TRUE) from h1), iis, is]
      by_cases htf : t = f
      · subst htf
        simp
      · have hft : ¬ f = t := fun h => htf h.symm
        rw [if_neg htf, if_neg hft]
        by_cases hc1 : t = TRUE ∧ f = FALSE
        · have hc2 : ¬ (f = TRUE ∧ t = FALSE) := by
            rintro ⟨h, -⟩
            rw [h] at hc1
            exact absurd hc1.2 (by decide)
          rw [if_pos hc1, if_neg hc2, if_pos ⟨hc1.2, hc1.1⟩]
        · rw [if_neg hc1]
          by_cases hc3 : t = FALSE ∧ f = TRUE
          · rw [if_pos hc3, if_pos ⟨hc3.2, hc3.1⟩, neg_neg]
          · have hc4 : ¬ (f = TRUE ∧ t = FALSE) := fun h => hc3 ⟨h.2, h.1⟩
            have hc5 : ¬ (f = FALSE ∧ t = TRUE) := fun h => hc1 ⟨h.2, h.1⟩
            rw [if_neg hc3, if_neg hc4, if_neg hc5]
            by_cases hneg : s < 0
            · have : ¬ (-s < 0) := by omega
              rw [if_neg this, if_pos hneg]
            · have : -s < 0 := by omega
              rw [if_pos this, if_neg hneg, neg_neg]

/-- The selection gate on three literals over distinct variables of the problem. -/
theorem SatProblem.mux_gate (p : SatProblem) (s t f : Int)
    (hn : p.numVariables + 1 < 2147483648)
    (hs : p.has_lit s) (ht : p.has_lit t) (hf : p.has_lit f)
    (hst : int_abs s ≠ int_abs t) (hsf : int_abs s ≠ int_abs f) (htf : int_abs t ≠ int_abs f)
    (hsound : p.tables_sound) :
    ∃ out q, SatProblem.mux p s t f = Except.ok (out, q) ∧
      (∀ σ, q.satisfied_by σ →
        lit_value σ out = if lit_value σ s = true then lit_value σ t else lit_value σ f) ∧
      q.tables_sound ∧ (∀ c, c ∈ p.clauses → c ∈ q.clauses) ∧
      p.numVariables ≤ q.numVariables ∧ q.numVariables ≤ p.numVariables + 1 := by
  obtain ⟨s0, s1, s2, s3⟩ := SatProblem.has_lit_facts p s hs (by omega)
  obtain ⟨t0, t1, -, -⟩ := SatProblem.has_lit_facts p t ht (by omega)
  obtain ⟨f0, f1, -, -⟩ := SatProblem.has_lit_facts p f hf (by omega)
  have htf' : ¬ t = f := fun h => htf (by rw [h])
  have e : SatProblem.mux p s t f =
      if s < 0 then SatProblem.mux_encode p (invert s) f t else SatProblem.mux_encode p s t f := by
    unfold SatProblem.mux
    rw [if_neg (show ¬ (s = FALSE) from s0), if_neg (show ¬ (s = TRUE) from s1), if_neg htf',
      if_neg (show ¬ (t = TRUE ∧ f = FALSE) from fun h => t1 h.1),
      if_neg (show ¬ (t = FALSE ∧ f = TRUE) from fun h => t0 h.1)]
  rw [e]
  by_cases hneg : s < 0
  · rw [if_pos hneg, invert_of_range s s0 s2 s3]
    obtain ⟨out, q, h1, h2, h3⟩ := SatProblem.mux_encode_spec p (-s) f t hn
      (SatProblem.has_lit_neg p s hs) hf ht (by rw [int_abs_neg]; exact hsf)
      (by rw [int_abs_neg]; exact hst) (fun h => htf h.symm) hsound
    refine ⟨out, q, h1, ?_, h3⟩
    intro σ hσ
    rw [h2 σ hσ, ← invert_of_range s s0 s2 s3, lit_value_invert σ s (le_of_lt s2) s3]
    cases lit_value σ s <;> simp
  · rw [if_neg hneg]
    exact SatProblem.mux_encode_spec p s t f hn hs ht hf hst hsf htf hsound

/-- C34: `mux` encodes selection. `mux(TRUE, t, f) = t`, `mux(FALSE, t, f) = f` and
`mux(s, t, t) = t`, each without changing the problem. For non-constant literals `s`,
`t`, `f` over three distinct variables of a problem whose tables are sound and whose
variable counter leaves room for one more `int`, `mux(s, t, f)` returns a literal `out`
such that every truth assignment satisfying the clauses of the problem afterwards gives
`out` the value of `t` when `s` is true and of `f` when `s` is false; the clauses held
before are kept, at most one variable is added and the tables stay sound. For every
selector that is an `int`, `mux(invert(s), t, f)` is `mux(s, f, t)`, and repeating any
call that returned gives the same literal and leaves the problem as it is, also when the
repetition is written with the inverted selector and the branches swapped. -/
theorem mux_spec (p : SatProblem) (s t f : Int)
    (hn : p.numVariables + 1 < 2147483648)
    (hs : p.has_lit s) (ht : p.has_lit t) (hf : p.has_lit f)
    (hst : int_abs s ≠ int_abs t) (hsf : int_abs s ≠ int_abs f) (htf : int_abs t ≠ int_abs f)
    (hsound : p.tables_sound) :
    (∀ t' f' : Lit, SatProblem.mux p TRUE t' f' = Except.ok (t', p) ∧
      SatProblem.mux p FALSE t' f' = Except.ok (f', p)) ∧
    (∀ s' t' : Lit, SatProblem.mux p s' t' t' = Except.ok (t', p)) ∧
    (∃ out q, SatProblem.mux p s t f = Except.ok (out, q) ∧
      (∀ σ, q.satisfied_by σ →
        lit_value σ out = if lit_value σ s = true then lit_value σ t else lit_value σ f) ∧
      q.tables_sound ∧ (∀ c, c ∈ p.clauses → c ∈ q.clauses) ∧
      p.numVariables ≤ q.numVariables ∧ q.numVariables ≤ p.numVariables + 1) ∧
    (∀ s' t' f' : Int, -2147483648 ≤ s' → s' < 2147483648 →
      SatProblem.mux p (invert s') t' f' = SatProblem.mux p s' f' t') ∧
    (∀ (s' t' f' out : Int) (q : SatProblem), SatProblem.mux p s' t' f' = Except.ok (out, q) →
      SatProblem.mux q s' t' f' = Except.ok (out, q) ∧
      (-2147483648 ≤ s' → s' < 2147483648 →
        SatProblem.mux q (invert s') f' t' = Except.ok (out, q))) := by
  refine ⟨?_, ?_, SatProblem.mux_gate p s t f hn hs ht hf hst hsf htf hsound,
    fun s' t' f' h1 h2 => SatProblem.mux_invert_sel p s' t' f' h1 h2, ?_⟩
  · intro t' f'
    constructor
    · simp [SatProblem.mux]
    · simp [SatProblem.mux]
  · intro s' t'
    unfold SatProblem.mux
    split_ifs <;> first | rfl | simp_all
  · intro s' t' f' out q h
    have hr := SatProblem.mux_repeat p q s' t' f' out h
    refine ⟨hr, fun h1 h2 => ?_⟩
    rw [SatProblem.mux_invert_sel q s' f' t' h1 h2]
    exact hr

theorem mux_spec_witness :
    ((SatProblem.newVars 3 SatProblem.new).2.numVariables + 1 < 2147483648 ∧
      (SatProblem.newVars 3 SatProblem.new).2.has_lit 1 ∧
      (SatProblem.newVars 3 SatProblem.new).2.has_lit 2 ∧
      (SatProblem.newVars 3 SatProblem.new).2.has_lit 3 ∧
      (SatProblem.newVars 3 SatProblem.new).2.tables_sound) ∧
    ∃ out q, SatProblem.mux (SatProblem.newVars 3 SatProblem.new).2 1 2 3 = Except.ok (out, q) ∧
      (∀ σ, q.satisfied_by σ →
        lit_value σ out = if lit_value σ 1 = true then lit_value σ 2 else lit_value σ 3) :=
  ⟨⟨by decide, ⟨by decide, by decide, by decide⟩, ⟨by decide, by decide, by decide⟩,
      ⟨by decide, by decide, by decide⟩,
      ⟨fun _ _ h => absurd h (List.not_mem_nil _), fun _ _ _ _ h => absurd h (List.not_mem_nil _)⟩⟩,
    (mux_spec (SatProblem.newVars 3 SatProblem.new).2 1 2 3 (by decide)
      ⟨by decide, by decide, by decide⟩ ⟨by decide, by decide, by decide⟩
      ⟨by decide, by decide, by decide⟩ (by decide) (by decide) (by decide)
      ⟨fun _ _ h => absurd h (List.not_mem_nil _),
        fun _ _ _ _ h => absurd h (List.not_mem_nil _)⟩).2.2.1.imp
      (fun _ h => h.imp (fun _ h' => ⟨h'.1, h'.2.1⟩))⟩


/-! ## The conjunction gate -/

theorem SatProblem.andAcross_collect_eq_none (a : List Lit) :
    SatProblem.andAcross_collect a = none ↔ FALSE ∈ a := by
  induction a with
  | nil => simp [SatProblem.andAcross_collect]
  | cons l rest ih =>
    unfold SatProblem.andAcross_collect
    by_cases h0 : l = FALSE
    · rw [if_pos h0]
      simp [h0]
    · rw [if_neg h0]
      by_cases h1 : l = TRUE
      · rw [if_pos h1, ih, List.mem_cons]
        constructor
        · exact Or.inr
        · rintro (h | h)
          · rw [h1] at h; exact absurd h (by decide)
          · exact h
      · rw [if_neg h1, Option.map_eq_none', ih, List.mem_cons]
        constructor
        · exact Or.inr
        · rintro (h | h)
          · exact absurd h.symm h0
          · exact h

theorem SatProblem.andAcross_collect_eq_some (a newA : List Lit)
    (h : SatProblem.andAcross_collect a = some newA) :
    newA = a.filter (fun l => decide (l ≠ TRUE)) := by
  induction a generalizing newA with
  | nil =>
    simp only [SatProblem.andAcross_collect, Option.some.injEq] at h
    simp [← h]
  | cons l rest ih =>
    unfold SatProblem.andAcross_collect at h
    by_cases h0 : l = FALSE
    · rw [if_pos h0] at h
      exact absurd h (by simp)
    · rw [if_neg h0] at h
      by_cases h1 : l = TRUE
      · rw [if_pos h1] at h
        rw [ih newA h, List.filter_cons_of_neg (by simp [h1])]
      · rw [if_neg h1] at h
        cases hr : SatProblem.andAcross_collect rest with
        | none => rw [hr] at h; exact absurd h (by simp)
        | some n =>
          rw [hr] at h
          simp only [Option.map_some', Option.some.injEq] at h
          rw [← h, ih n hr, List.filter_cons_of_pos (by simp [h1])]

theorem SatProblem.andAcross_collect_of_not_mem (a : List Lit) (h : FALSE ∉ a) :
    SatProblem.andAcross_collect a = some (a.filter (fun l => decide (l ≠ TRUE))) := by
  cases hc : SatProblem.andAcross_collect a with
  | none => exact absurd ((SatProblem.andAcross_collect_eq_none a).mp hc) h
  | some n => rw [SatProblem.andAcross_collect_eq_some a n hc]

theorem all_filter_TRUE (σ : Assignment) (a : List Lit) :
    (a.filter (fun l => decide (l ≠ TRUE))).all (lit_value σ) = a.all (lit_value σ) := by
  induction a with
  | nil => rfl
  | cons l rest ih =>
    by_cases h1 : l = TRUE
    · rw [List.filter_cons_of_neg (by simp [h1]), ih, List.all_cons, h1, lit_value_TRUE]
      simp
    · rw [List.filter_cons_of_pos (by simp [h1]), List.all_cons, List.all_cons, ih]

theorem all_perm (σ : Assignment) (a b : List Lit) (h : a.Perm b) :
    a.all (lit_value σ) = b.all (lit_value σ) := by
  rw [Bool.eq_iff_iff, List.all_eq_true, List.all_eq_true]
  constructor
  · intro h' x hx
    exact h' x (h.mem_iff.mpr hx)
  · intro h' x hx
    exact h' x (h.mem_iff.mp hx)

theorem lit_value_update_old (σ : Assignment) (n : Int) (b : Bool) (x : Int)
    (hx0 : x ≠ 0) (hlo : -n ≤ x) (hhi : x ≤ n) (hn : n < 2147483648) :
    lit_value (Function.update σ (n + 1) b) x = lit_value σ x := by
  rw [lit_value_of_range _ x hx0 (by omega), lit_value_of_range _ x hx0 (by omega)]
  have h1 : x ≠ n + 1 := by omega
  have h2 : -x ≠ n + 1 := by omega
  rw [Function.update_noteq h1, Function.update_noteq h2]

theorem lit_value_update_new (σ : Assignment) (n : Int) (b : Bool) (hn : 0 ≤ n) :
    lit_value (Function.update σ (n + 1) b) (n + 1) = b := by
  rw [lit_value_of_range _ (n + 1) (by omega) (by omega)]
  have : (0 : Int) < n + 1 := by omega
  rw [if_pos this, Function.update_same]

/-- The loop of `andAcross` that adds `(not output) or x` for every collected `x`: for
literals of the problem over variables other than that of `output` it returns, changes
only the clause set, and adds the implications from `output` to each `x`. -/
theorem SatProblem.andAcross_implied_clean (out : Int) (xs : List Int) (p : SatProblem)
    (hn : p.numVariables < 2147483648) (ho : p.has_lit out)
    (hx : ∀ x, x ∈ xs → p.has_lit x ∧ int_abs out ≠ int_abs x) :
    ∃ q, SatProblem.andAcross_implied out xs p = Except.ok q ∧
      q.numVariables = p.numVariables ∧ q.andGateCSE = p.andGateCSE ∧ q.muxCSE = p.muxCSE ∧
      (∀ σ, q.satisfied_by σ ↔
        (p.satisfied_by σ ∧ ∀ x, x ∈ xs → lit_value σ out = true → lit_value σ x = true)) ∧
      (∀ c, c ∈ q.clauses → c ∈ p.clauses ∨
        ∀ σ, (∀ x, x ∈ xs → lit_value σ out = true → lit_value σ x = true) →
          clause_holds σ c = true) := by
  induction xs generalizing p with
  | nil =>
    refine ⟨p, rfl, rfl, rfl, rfl, ?_, fun c hc => Or.inl hc⟩
    intro σ
    simp
  | cons x xs ih =>
    obtain ⟨hxl, hxa⟩ := hx x (List.mem_cons_self _ _)
    obtain ⟨o0, o1, o2, o3⟩ := SatProblem.has_lit_facts p out ho hn
    obtain ⟨x0, x1, x2, x3⟩ := SatProblem.has_lit_facts p x hxl hn
    have io := invert_of_range out o0 o2 o3
    have vo : ∀ σ, lit_value σ (-out) = !lit_value σ out := fun σ => by
      rw [← io]; exact lit_value_invert σ out (le_of_lt o2) o3
    have no : -out ≠ (0 : Int) ∧ -out ≠ (-2147483648 : Int) := by omega
    have c1 : SatProblem.addClause p [-out, x] = Except.ok { p with
        clauses := set_insert clauseLess (std_sort absLess [-out, x]) p.clauses } := by
      apply SatProblem.addClause_clean p _ (by simp)
      · intro l hl
        simp only [List.mem_cons, List.mem_singleton, List.not_mem_nil, or_false] at hl
        rcases hl with rfl | rfl
        · exact no
        · exact ⟨x0, x1⟩
      · simp only [List.map_cons, List.map_nil, int_abs_neg, List.nodup_cons, List.mem_cons,
          List.mem_singleton, List.not_mem_nil, or_false, List.nodup_nil, and_true]
        exact ⟨hxa, not_false⟩
    obtain ⟨q, e, n1, ag, mx, hsat, hcl⟩ := ih
      { p with clauses := set_insert clauseLess (std_sort absLess [-out, x]) p.clauses }
      hn ho (fun y hy => hx y (List.mem_cons_of_mem _ hy))
    have hsem : ∀ σ, clause_holds σ [-out, x] = true ↔
        (lit_value σ out = true → lit_value σ x = true) := by
      intro σ
      rw [clause_holds_two, vo]
      cases lit_value σ out <;> simp
    refine ⟨q, ?_, n1, ag, mx, ?_, ?_⟩
    · unfold SatProblem.andAcross_implied
      rw [io, c1]
      exact e
    · intro σ
      rw [hsat σ]
      unfold SatProblem.satisfied_by
      simp only [holds_set_insert, hsem, List.mem_cons, forall_eq_or_imp]
      tauto
    · intro c hc
      rcases hcl c hc with h | h
      · rcases (mem_set_insert _ _ _).mp h with rfl | h'
        · refine Or.inr (fun σ hσ => ?_)
          rw [clause_holds_sort, hsem]
          exact hσ x (List.mem_cons_self _ _)
        · exact Or.inl h'
      · exact Or.inr (fun σ hσ => h σ (fun y hy => hσ y (List.mem_cons_of_mem _ hy)))

theorem clause_holds_append_singleton (σ : Assignment) (c : Clause) (l : Lit) :
    clause_holds σ (c ++ [l]) = (clause_holds σ c || lit_value σ l) := by
  simp [clause_holds]

theorem clause_holds_map_invert (σ : Assignment) (xs : List Int)
    (hx : ∀ x, x ∈ xs → -2147483648 ≤ x ∧ x < 2147483648) :
    clause_holds σ (xs.map invert) = !(xs.all (lit_value σ)) := by
  induction xs with
  | nil => rfl
  | cons x xs ih =>
    have hx' := hx x (List.mem_cons_self _ _)
    simp only [List.map_cons, List.all_cons, Bool.not_and]
    rw [← ih (fun y hy => hx y (List.mem_cons_of_mem _ hy))]
    simp only [clause_holds, List.any_cons]
    rw [lit_value_invert σ x hx'.1 hx'.2]


theorem SatProblem.andAcross_implied_frame (out : Lit) (xs : List Lit) (p q : SatProblem)
    (h : SatProblem.andAcross_implied out xs p = Except.ok q) :
    q.numVariables = p.numVariables ∧ q.andGateCSE = p.andGateCSE ∧ q.muxCSE = p.muxCSE ∧
    (∀ c, c ∈ p.clauses → c ∈ q.clauses) := by
  induction xs generalizing p with
  | nil =>
    simp only [SatProblem.andAcross_implied, Except.ok.injEq] at h
    subst h
    exact ⟨rfl, rfl, rfl, fun c hc => hc⟩
  | cons x xs ih =>
    unfold SatProblem.andAcross_implied at h
    split at h
    · exact absurd h (by simp)
    · rename_i p1 e1
      obtain ⟨a1, a2, a3, -, a5⟩ := SatProblem.addClause_frame p p1 _ e1
      obtain ⟨b1, b2, b3, b5⟩ := ih p1 h
      exact ⟨b1.trans a1, b2.trans a2, b3.trans a3, fun c hc => b5 c (a5 c hc)⟩

/-- The result of `andAcross` does not depend on the order of its inputs. -/
theorem SatProblem.andAcross_perm (p : SatProblem) (a a' : List Lit) (h : a'.Perm a) :
    SatProblem.andAcross p a' = SatProblem.andAcross p a := by
  by_cases hF : FALSE ∈ a
  · have hF' : FALSE ∈ a' := h.mem_iff.mpr hF
    unfold SatProblem.andAcross
    rw [(SatProblem.andAcross_collect_eq_none a).mpr hF,
      (SatProblem.andAcross_collect_eq_none a').mpr hF']
  · have hF' : FALSE ∉ a' := fun h' => hF (h.mem_iff.mp h')
    have hp : (a'.filter (fun l => decide (l ≠ TRUE))).Perm (a.filter (fun l => decide (l ≠ TRUE))) :=
      h.filter _
    unfold SatProblem.andAcross
    rw [SatProblem.andAcross_collect_of_not_mem a hF,
      SatProblem.andAcross_collect_of_not_mem a' hF']
    simp only
    by_cases h1 : (a.filter (fun l => decide (l ≠ TRUE))).length = 1
    · obtain ⟨l, hl⟩ := List.length_eq_one.mp h1
      rw [hl] at hp
      rw [List.perm_singleton.mp hp, hl]
    · have h1' : ¬ (a'.filter (fun l => decide (l ≠ TRUE))).length = 1 := by
        rw [hp.length_eq]
        exact h1
      rw [if_neg h1, if_neg h1']
      by_cases h2 : (a.filter (fun l => decide (l ≠ TRUE))).isEmpty = true
      · have h2' : (a'.filter (fun l => decide (l ≠ TRUE))).isEmpty = true := by
          rw [List.isEmpty_iff] at h2 ⊢
          rw [h2] at hp
          exact List.perm_nil.mp hp
        rw [if_pos h2, if_pos h2']
      · have h2' : ¬ (a'.filter (fun l => decide (l ≠ TRUE))).isEmpty = true := by
          rw [List.isEmpty_iff] at h2 ⊢
          intro he
          rw [he] at hp
          exact h2 (List.nil_perm.mp hp)
        rw [if_neg h2, if_neg h2', std_sort_perm_eq _ _ hp]

/-- Repeating a call of `andAcross` returns the same literal and changes nothing. -/
theorem SatProblem.andAcross_repeat (p q : SatProblem) (a : List Lit) (out : Lit)
    (h : SatProblem.andAcross p a = Except.ok (out, q)) :
    SatProblem.andAcross q a = Except.ok (out, q) := by
  unfold SatProblem.andAcross at h ⊢
  cases hc : SatProblem.andAcross_collect a with
  | none =>
    rw [hc] at h
    simp only [Except.ok.injEq, Prod.mk.injEq] at h
    obtain ⟨rfl, rfl⟩ := h
    rfl
  | some newA =>
    rw [hc] at h
    simp only at h ⊢
    by_cases h1 : newA.length = 1
    · rw [if_pos h1] at h ⊢
      simp only [Except.ok.injEq, Prod.mk.injEq] at h
      obtain ⟨rfl, rfl⟩ := h
      rfl
    · rw [if_neg h1] at h ⊢
      by_cases h2 : newA.isEmpty = true
      · rw [if_pos h2] at h ⊢
        simp only [Except.ok.injEq, Prod.mk.injEq] at h
        obtain ⟨rfl, rfl⟩ := h
        rfl
      · rw [if_neg h2] at h ⊢
        cases hfind : map_find p.andGateCSE (std_sort absLess newA) with
        | some o =>
          rw [hfind] at h
          simp only [Except.ok.injEq, Prod.mk.injEq] at h
          obtain ⟨rfl, rfl⟩ := h
          rw [hfind]
        | none =>
          rw [hfind] at h
          simp only at h
          split at h
          · exact absurd h (by simp)
          · rename_i p1 e1
            split at h
            · exact absurd h (by simp)
            · rename_i p2 e2
              simp only [Except.ok.injEq, Prod.mk.injEq] at h
              have m1 := (SatProblem.andAcross_implied_frame _ _ _ _ e1).2.1
              have m2 := (SatProblem.addClause_frame _ _ _ e2).2.1
              have hnone : map_find p2.andGateCSE (std_sort absLess newA) = none := by
                rw [m2, m1]
                exact hfind
              have hq : map_find q.andGateCSE (std_sort absLess newA) = some out := by
                rw [← h.2, ← h.1]
                exact map_find_insert_self _ _ _ hnone
              rw [hq]


theorem all_congr_lit (σ τ : Assignment) (xs : List Lit)
    (h : ∀ x, x ∈ xs → lit_value σ x = lit_value τ x) :
    xs.all (lit_value σ) = xs.all (lit_value τ) := by
  induction xs with
  | nil => rfl
  | cons x xs ih =>
    rw [List.all_cons, List.all_cons, h x (List.mem_cons_self _ _),
      ih (fun y hy => h y (List.mem_cons_of_mem _ hy))]

theorem neg_lit_facts (x : Int) (h0 : x ≠ 0) (hlo : -2147483648 < x) (hhi : x < 2147483648) :
    -x ≠ (0 : Int) ∧ -x ≠ (-2147483648 : Int) := by
  omega

/-- The conjunction gate on constants and literals over distinct variables of the
problem. -/
theorem SatProblem.andAcross_gate (p : SatProblem) (a : List Int)
    (hn : p.numVariables + 1 < 2147483648)
    (hin : ∀ l, l ∈ a → l = TRUE ∨ l = FALSE ∨ p.has_lit l)
    (hd : ((a.filter (fun l => decide (l ≠ TRUE ∧ l ≠ FALSE))).map int_abs).Nodup)
    (hsound : p.tables_sound) :
    ∃ out q, SatProblem.andAcross p a = Except.ok (out, q) ∧
      (FALSE ∈ a → out = FALSE ∧ q = p) ∧
      ((∀ l, l ∈ a → l = TRUE) → out = TRUE ∧ q = p) ∧
      (∀ l, FALSE ∉ a → a.filter (fun x => decide (x ≠ TRUE)) = [l] → out = l ∧ q = p) ∧
      (∀ σ, q.satisfied_by σ → lit_value σ out = a.all (lit_value σ)) ∧
      (∀ σ : Assignment, ∃ σ' : Assignment, (∀ v, v ≤ p.numVariables → σ' v = σ v) ∧
        ∀ c, c ∈ q.clauses → c ∈ p.clauses ∨ clause_holds σ' c = true) ∧
      q.tables_sound ∧ (∀ c, c ∈ p.clauses → c ∈ q.clauses) ∧
      p.numVariables ≤ q.numVariables ∧ q.numVariables ≤ p.numVariables + 1 := by
  by_cases hF : FALSE ∈ a
  · refine ⟨FALSE, p, ?_, fun _ => ⟨rfl, rfl⟩, ?_, fun l h => absurd hF h, ?_,
      fun σ => ⟨σ, fun _ _ => rfl, fun c hc => Or.inl hc⟩, hsound, fun c hc => hc,
      le_refl _, by omega⟩
    · unfold SatProblem.andAcross
      rw [(SatProblem.andAcross_collect_eq_none a).mpr hF]
    · intro h
      exact absurd (h _ hF) (by decide)
    · intro σ _
      rw [lit_value_FALSE]
      symm
      rw [List.all_eq_false]
      exact ⟨FALSE, hF, by simp [lit_value_FALSE]⟩
  · have hcol := SatProblem.andAcross_collect_of_not_mem a hF
    have hmem : ∀ x, x ∈ a.filter (fun l => decide (l ≠ TRUE)) → p.has_lit x := by
      intro x hx
      rw [List.mem_filter] at hx
      rcases hin x hx.1 with h | h | h
      · exact absurd h (by simpa using hx.2)
      · exact absurd (h ▸ hx.1) hF
      · exact h
    have hfe : a.filter (fun l => decide (l ≠ TRUE ∧ l ≠ FALSE)) =
        a.filter (fun l => decide (l ≠ TRUE)) := by
      apply List.filter_congr
      intro x hx
      have : x ≠ FALSE := fun h => hF (h ▸ hx)
      simp [this]
    rw [hfe] at hd
    have hall : ∀ σ, (a.filter (fun l => decide (l ≠ TRUE))).all (lit_value σ) =
        a.all (lit_value σ) := fun σ => all_filter_TRUE σ a
    generalize hnewA : a.filter (fun l => decide (l ≠ TRUE)) = newA at hcol hmem hd hall
    by_cases h1 : newA.length = 1
    · obtain ⟨l, hl⟩ := List.length_eq_one.mp h1
      refine ⟨l, p, ?_, fun h => absurd h hF, ?_, ?_, ?_,
        fun σ => ⟨σ, fun _ _ => rfl, fun c hc => Or.inl hc⟩, hsound, fun c hc => hc,
        le_refl _, by omega⟩
      · unfold SatProblem.andAcross
        rw [hcol]
        simp only
        rw [if_pos h1, hl]
        rfl
      · intro h
        have hm : l ∈ a.filter (fun l => decide (l ≠ TRUE)) := by
          rw [hnewA, hl]
          exact List.mem_singleton_self _
        rw [List.mem_filter] at hm
        exact absurd (h l hm.1) (by simpa using hm.2)
      · intro l' _ hl'
        rw [hl] at hl'
        injection hl' with hl' _
        exact ⟨hl', rfl⟩
      · intro σ _
        rw [← hall σ, hl]
        simp
    · by_cases h2 : newA = []
      · refine ⟨TRUE, p, ?_, fun h => absurd h hF, fun _ => ⟨rfl, rfl⟩, ?_, ?_,
          fun σ => ⟨σ, fun _ _ => rfl, fun c hc => Or.inl hc⟩, hsound, fun c hc => hc,
          le_refl _, by omega⟩
        · unfold SatProblem.andAcross
          rw [hcol]
          simp only
          rw [if_neg h1, if_pos (List.isEmpty_iff.mpr h2)]
        · intro l' _ hl'
          rw [h2] at hl'
          exact absurd hl' (by simp)
        · intro σ _
          rw [← hall σ, h2]
          rfl
      · have h2' : ¬ newA.isEmpty = true := fun h => h2 (List.isEmpty_iff.mp h)
        have hsp := perm_std_sort newA
        have hsall : ∀ σ, (std_sort absLess newA).all (lit_value σ) = a.all (lit_value σ) :=
          fun σ => (all_perm σ _ _ hsp).trans (hall σ)
        have hnotall : ¬ ∀ l, l ∈ a → l = TRUE := by
          intro h
          apply h2
          rw [← hnewA, List.filter_eq_nil_iff]
          intro x hx
          simp [h x hx]
        have hnotone : ∀ l, FALSE ∉ a → newA = [l] → False := by
          intro l _ hl
          rw [hl] at h1
          exact h1 rfl
        cases hfind : map_find p.andGateCSE (std_sort absLess newA) with
        | some out =>
          refine ⟨out, p, ?_, fun h => absurd h hF, fun h => absurd h hnotall,
            fun l h h' => (hnotone l h h').elim, ?_,
            fun σ => ⟨σ, fun _ _ => rfl, fun c hc => Or.inl hc⟩, hsound, fun c hc => hc,
            le_refl _, by omega⟩
          · unfold SatProblem.andAcross
            rw [hcol]
            simp only
            rw [if_neg h1, if_neg h2', hfind]
          · intro σ hσ
            rw [← hsall σ]
            exact hsound.1 _ out (map_find_some_mem _ _ _ hfind) σ hσ
        | none =>
          -- the literals collected and the fresh variable
          obtain ⟨x0, hx0⟩ := List.exists_mem_of_ne_nil newA h2
          have h0 : 0 ≤ p.numVariables := by
            have := SatProblem.has_lit_abs p x0 (hmem x0 hx0)
            omega
          obtain ⟨ho, hoa⟩ := SatProblem.has_lit_fresh p h0
          have hle : p.numVariables ≤ (SatProblem.newVar p).2.numVariables := by
            show p.numVariables ≤ p.numVariables + 1
            omega
          have hn0 : (SatProblem.newVar p).2.numVariables < 2147483648 := hn
          have hsm : ∀ x, x ∈ std_sort absLess newA → p.has_lit x :=
            fun x hx => hmem x ((mem_std_sort newA x).mp hx)
          obtain ⟨q1, e1, n1, ag1, mx1, sat1, cl1⟩ := SatProblem.andAcross_implied_clean
            (SatProblem.newVar p).1 (std_sort absLess newA) (SatProblem.newVar p).2 hn0 ho
            (fun x hx => ⟨SatProblem.has_lit_mono _ _ _ hle (hsm x hx), by
              have := SatProblem.has_lit_abs p x (hsm x hx)
              omega⟩)
          have hrange : ∀ x : Int, x ∈ std_sort absLess newA →
              x ≠ 0 ∧ x ≠ -2147483648 ∧ -2147483648 < x ∧ x < 2147483648 :=
            fun x hx => SatProblem.has_lit_facts p x (hsm x hx) (by omega)
          have hinv : (std_sort absLess newA).map invert =
              (std_sort absLess newA).map (fun x => -x) := by
            apply List.map_congr_left
            intro x hx
            obtain ⟨a0, -, a2, a3⟩ := hrange x hx
            exact invert_of_range x a0 a2 a3
          obtain ⟨o0, o1, o2, o3⟩ := SatProblem.has_lit_facts _ _ ho hn0
          have c2 : SatProblem.addClause q1
              ((std_sort absLess newA).map invert ++ [(SatProblem.newVar p).1]) =
              Except.ok { q1 with
                clauses := set_insert clauseLess (std_sort absLess
                  ((std_sort absLess newA).map invert ++ [(SatProblem.newVar p).1]))
                  q1.clauses } := by
            apply SatProblem.addClause_clean q1 _ (by simp)
            · intro l hl
              rw [List.mem_append, List.mem_singleton, hinv, List.mem_map] at hl
              rcases hl with ⟨x, hx, rfl⟩ | rfl
              · obtain ⟨a0, a1, a2, a3⟩ := hrange x hx
                exact neg_lit_facts x a0 a2 a3
              · exact ⟨o0, o1⟩
            · rw [List.map_append, hinv, List.map_map]
              have hm : (std_sort absLess newA).map (int_abs ∘ fun x => -x) =
                  (std_sort absLess newA).map int_abs := by
                apply List.map_congr_left
                intro x _
                exact int_abs_neg x
              rw [hm, List.map_singleton, List.nodup_append]
              refine ⟨(hsp.map int_abs).nodup_iff.mpr hd, List.nodup_singleton _, ?_⟩
              intro y hy hy'
              rw [List.mem_singleton] at hy'
              rw [List.mem_map] at hy
              obtain ⟨x, hx, rfl⟩ := hy
              have := SatProblem.has_lit_abs p x (hsm x hx)
              omega
          have hsem2 : ∀ σ, clause_holds σ
              ((std_sort absLess newA).map invert ++ [(SatProblem.newVar p).1]) =
              (!((std_sort absLess newA).all (lit_value σ)) ||
                lit_value σ (SatProblem.newVar p).1) := by
            intro σ
            rw [clause_holds_append_singleton, clause_holds_map_invert σ _
              (fun x hx => ⟨le_of_lt (hrange x hx).2.2.1, (hrange x hx).2.2.2⟩)]
          have hall_iff : ∀ σ, (∀ x, x ∈ std_sort absLess newA →
              lit_value σ (SatProblem.newVar p).1 = true → lit_value σ x = true) ↔
              (lit_value σ (SatProblem.newVar p).1 = true →
                (std_sort absLess newA).all (lit_value σ) = true) := by
            intro σ
            rw [List.all_eq_true]
            constructor
            · intro h ho x hx
              exact h x hx ho
            · intro h x hx ho
              exact h ho x hx
          have hsat : ∀ σ, SatProblem.satisfied_by
              { q1 with
                clauses := set_insert clauseLess (std_sort absLess
                  ((std_sort absLess newA).map invert ++ [(SatProblem.newVar p).1]))
                  q1.clauses } σ →
              p.satisfied_by σ ∧
                lit_value σ (SatProblem.newVar p).1 = (std_sort absLess newA).all (lit_value σ) := by
            intro σ hσ
            unfold SatProblem.satisfied_by at hσ
            simp only [holds_set_insert] at hσ
            obtain ⟨hq1, hc2⟩ := hσ
            have h1' := (sat1 σ).mp hq1
            refine ⟨h1'.1, ?_⟩
            have hi := (hall_iff σ).mp h1'.2
            rw [hsem2] at hc2
            cases ho' : lit_value σ (SatProblem.newVar p).1
            · rw [ho'] at hc2
              simp only [Bool.or_false, Bool.not_eq_true'] at hc2
              exact hc2.symm
            · exact (hi ho').symm
          refine ⟨(SatProblem.newVar p).1,
            { q1 with
              clauses := set_insert clauseLess (std_sort absLess
                ((std_sort absLess newA).map invert ++ [(SatProblem.newVar p).1]))
                q1.clauses,
              andGateCSE := map_insert q1.andGateCSE (std_sort absLess newA)
                (SatProblem.newVar p).1 },
            ?_, fun h => absurd h hF, fun h => absurd h hnotall,
            fun l h h' => (hnotone l h h').elim, ?_, ?_, ⟨?_, ?_⟩, ?_, ?_, ?_⟩
          · unfold SatProblem.andAcross
            rw [hcol]
            simp only
            rw [if_neg h1, if_neg h2', hfind]
            simp only [e1, c2]
          · intro σ hσ
            rw [← hsall σ]
            exact (hsat σ hσ).2
          · intro σ
            refine ⟨Function.update σ (p.numVariables + 1) (a.all (lit_value σ)), ?_, ?_⟩
            · intro v hv
              have : v ≠ p.numVariables + 1 := by
                unfold Var at *
                omega
              exact Function.update_noteq this _ _
            · have hold : ∀ x, x ∈ std_sort absLess newA →
                  lit_value (Function.update σ (p.numVariables + 1) (a.all (lit_value σ))) x =
                    lit_value σ x := by
                intro x hx
                have hl := hsm x hx
                unfold SatProblem.has_lit at hl
                exact lit_value_update_old σ p.numVariables _ x hl.1 hl.2.1 hl.2.2 (by omega)
              have hnew : lit_value
                  (Function.update σ (p.numVariables + 1) (a.all (lit_value σ)))
                  (SatProblem.newVar p).1 = a.all (lit_value σ) :=
                lit_value_update_new σ p.numVariables _ h0
              have hsall' : (std_sort absLess newA).all (lit_value
                  (Function.update σ (p.numVariables + 1) (a.all (lit_value σ)))) =
                  a.all (lit_value σ) := by
                rw [all_congr_lit _ σ _ hold]
                exact hsall σ
              intro c hc
              rcases (mem_set_insert _ _ _).mp hc with rfl | hc'
              · refine Or.inr ?_
                rw [clause_holds_sort, hsem2, hnew, hsall']
                cases a.all (lit_value σ) <;> rfl
              · rcases cl1 c hc' with h | h
                · exact Or.inl h
                · refine Or.inr (h _ ((hall_iff _).mpr ?_))
                  intro _
                  rw [hsall']
                  rw [hnew] at *
                  assumption
          · intro k out hk σ hσ
            rcases mem_map_insert _ _ _ _ hk with hm | hm
            · rw [ag1] at hm
              exact hsound.1 k out hm σ (hsat σ hσ).1
            · injection hm with hk1 hk2
              subst hk1 hk2
              exact (hsat σ hσ).2
          · intro sel t' f' out hk σ hσ
            have hk' : ([sel, t', f'], out) ∈ p.muxCSE := by
              have : ([sel, t', f'], out) ∈ q1.muxCSE := hk
              rw [mx1] at this
              exact this
            exact hsound.2 sel t' f' out hk' σ (hsat σ hσ).1
          · intro c hc
            have ha := (SatProblem.andAcross_implied_frame _ _ _ _ e1).2.2.2 c hc
            exact (mem_set_insert _ _ _).mpr (Or.inr ha)
          · show p.numVariables ≤ q1.numVariables
            rw [n1]
            exact hle
          · show q1.numVariables ≤ p.numVariables + 1
            rw [n1]
            exact le_refl _


/-- C33: `andAcross` encodes conjunction. For every input list whose literals are
constants or literals of the problem, the non-constant ones over pairwise distinct
variables, on a problem whose tables are sound and whose variable counter leaves room
for one more `int`, the method returns: `FALSE` if some input is `FALSE`, `TRUE` if all
inputs are `TRUE`, the single remaining literal if exactly one input is non-constant
(each without changing the problem), and in every case a literal `out` such that every
truth assignment satisfying the clauses of the problem afterwards makes `out` true
exactly when all inputs are true. The clauses added are satisfiable for every
assignment of the variables allocated before: some assignment that agrees with it on
them satisfies every added clause. The tables stay sound, the clauses held before are
kept and at most one variable is added. A second call with the same inputs in any order
returns the same literal and leaves the problem as it is. -/
theorem andAcross_spec (p : SatProblem) (a : List Int)
    (hn : p.numVariables + 1 < 2147483648)
    (hin : ∀ l, l ∈ a → l = TRUE ∨ l = FALSE ∨ p.has_lit l)
    (hd : ((a.filter (fun l => decide (l ≠ TRUE ∧ l ≠ FALSE))).map int_abs).Nodup)
    (hsound : p.tables_sound) :
    ∃ out q, SatProblem.andAcross p a = Except.ok (out, q) ∧
      (FALSE ∈ a → out = FALSE ∧ q = p) ∧
      ((∀ l, l ∈ a → l = TRUE) → out = TRUE ∧ q = p) ∧
      (∀ l, FALSE ∉ a → a.filter (fun x => decide (x ≠ TRUE)) = [l] → out = l ∧ q = p) ∧
      (∀ σ, q.satisfied_by σ → lit_value σ out = a.all (lit_value σ)) ∧
      (∀ σ : Assignment, ∃ σ' : Assignment, (∀ v, v ≤ p.numVariables → σ' v = σ v) ∧
        ∀ c, c ∈ q.clauses → c ∈ p.clauses ∨ clause_holds σ' c = true) ∧
      q.tables_sound ∧ (∀ c, c ∈ p.clauses → c ∈ q.clauses) ∧
      p.numVariables ≤ q.numVariables ∧ q.numVariables ≤ p.numVariables + 1 ∧
      (∀ a' : List Int, a'.Perm a → SatProblem.andAcross q a' = Except.ok (out, q)) := by
  obtain ⟨out, q, h1, h2, h3, h4, h5, h6, h7, h8, h9, h10⟩ :=
    SatProblem.andAcross_gate p a hn hin hd hsound
  refine ⟨out, q, h1, h2, h3, h4, h5, h6, h7, h8, h9, h10, ?_⟩
  intro a' ha'
  rw [SatProblem.andAcross_perm q a a' ha']
  exact SatProblem.andAcross_repeat p q a out h1

theorem andAcross_spec_witness :
    ((SatProblem.newVars 2 SatProblem.new).2.numVariables + 1 < 2147483648 ∧
      (∀ l, l ∈ ([1, TRUE, 2] : List Int) →
        l = TRUE ∨ l = FALSE ∨ (SatProblem.newVars 2 SatProblem.new).2.has_lit l) ∧
      ((([1, TRUE, 2] : List Int).filter (fun l => decide (l ≠ TRUE ∧ l ≠ FALSE))).map
        int_abs).Nodup ∧
      (SatProblem.newVars 2 SatProblem.new).2.tables_sound) ∧
    ∃ out q, SatProblem.andAcross (SatProblem.newVars 2 SatProblem.new).2 [1, TRUE, 2] =
        Except.ok (out, q) ∧
      (∀ σ, q.satisfied_by σ → lit_value σ out = ([1, TRUE, 2] : List Int).all (lit_value σ)) :=
  ⟨⟨by decide,
      fun l hl => by
        simp only [List.mem_cons, List.mem_singleton, List.not_mem_nil, or_false] at hl
        rcases hl with rfl | rfl | rfl
        · exact Or.inr (Or.inr ⟨by decide, by decide, by decide⟩)
        · exact Or.inl rfl
        · exact Or.inr (Or.inr ⟨by decide, by decide, by decide⟩),
      by decide,
      ⟨fun _ _ h => absurd h (List.not_mem_nil _), fun _ _ _ _ h => absurd h (List.not_mem_nil _)⟩⟩,
    (andAcross_spec (SatProblem.newVars 2 SatProblem.new).2 [1, TRUE, 2] (by decide)
      (fun l hl => by
        simp only [List.mem_cons, List.mem_singleton, List.not_mem_nil, or_false] at hl
        rcases hl with rfl | rfl | rfl
        · exact Or.inr (Or.inr ⟨by decide, by decide, by decide⟩)
        · exact Or.inl rfl
        · exact Or.inr (Or.inr ⟨by decide, by decide, by decide⟩))
      (by decide)
      ⟨fun _ _ h => absurd h (List.not_mem_nil _),
        fun _ _ _ _ h => absurd h (List.not_mem_nil _)⟩).imp
      (fun _ h => h.imp (fun _ h' => ⟨h'.1, h'.2.2.2.2.1⟩))⟩


/-! ## Shifts by a constant count -/

theorem length_number_loop (m n : Nat) : (number_loop m n).length = m := by
  induction m generalizing n with
  | zero => rfl
  | succ k ih => simp [number_loop, ih]

theorem getD_number_loop (m n k : Nat) (hk : k < m) :
    (number_loop m n).getD k FALSE = if n / 2 ^ k % 2 = 1 then TRUE else FALSE := by
  induction m generalizing n k with
  | zero => omega
  | succ j ih =>
    unfold number_loop
    cases k with
    | zero => simp
    | succ i =>
      rw [List.getD_cons_succ, ih (n / 2) i (by omega), Nat.div_div_eq_div_mul, pow_succ,
        Nat.mul_comm]

theorem getD_map_range (n : Nat) (f : Nat → Lit) (i : Nat) (hi : i < n) :
    ((List.range n).map f).getD i FALSE = f i := by
  rw [List.getD_eq_getElem?_getD, List.getElem?_map, List.getElem?_range hi]
  rfl

theorem map_getD_range (l : List Lit) :
    (List.range l.length).map (fun i => l.getD i FALSE) = l := by
  apply List.ext_getElem
  · simp
  · intro i h1 h2
    simp only [List.getElem_map, List.getElem_range]
    rw [List.getD_eq_getElem?_getD, List.getElem?_eq_getElem h2]
    rfl

theorem SatProblem.mux_TRUE (p : SatProblem) (t f : Lit) :
    SatProblem.mux p TRUE t f = Except.ok (t, p) := by
  simp [SatProblem.mux]

theorem SatProblem.mux_FALSE (p : SatProblem) (t f : Lit) :
    SatProblem.mux p FALSE t f = Except.ok (f, p) := by
  simp [SatProblem.mux]

theorem SatProblem.rightShifter_row_TRUE (pow2 : Nat) (result : List Lit) (is : List Nat)
    (p : SatProblem) :
    SatProblem.rightShifter_row TRUE pow2 result is p =
      Except.ok (is.map (fun i => if pow2 ≤ i then result.getD (i - pow2) FALSE else FALSE), p) := by
  induction is with
  | nil => rfl
  | cons i is ih =>
    unfold SatProblem.rightShifter_row
    rw [SatProblem.mux_TRUE]
    simp only [ih, ge_iff_le, List.map_cons]

theorem SatProblem.rightShifter_row_FALSE (pow2 : Nat) (result : List Lit) (is : List Nat)
    (p : SatProblem) :
    SatProblem.rightShifter_row FALSE pow2 result is p =
      Except.ok (is.map (fun i => result.getD i FALSE), p) := by
  induction is with
  | nil => rfl
  | cons i is ih =>
    unfold SatProblem.rightShifter_row
    rw [SatProblem.mux_FALSE]
    simp only [ih, List.map_cons]

theorem SatProblem.leftShifter_row_TRUE (pow2 : Nat) (result : List Lit) (is : List Nat)
    (p : SatProblem) :
    SatProblem.leftShifter_row TRUE pow2 result is p =
      Except.ok (is.map (fun i =>
        if result.length ≤ i + pow2 then FALSE else result.getD (i + pow2) FALSE), p) := by
  induction is with
  | nil => rfl
  | cons i is ih =>
    unfold SatProblem.leftShifter_row
    rw [SatProblem.mux_TRUE]
    simp only [ih, ge_iff_le, List.map_cons]

theorem SatProblem.leftShifter_row_FALSE (pow2 : Nat) (result : List Lit) (is : List Nat)
    (p : SatProblem) :
    SatProblem.leftShifter_row FALSE pow2 result is p =
      Except.ok (is.map (fun i => result.getD i FALSE), p) := by
  induction is with
  | nil => rfl
  | cons i is ih =>
    unfold SatProblem.leftShifter_row
    rw [SatProblem.mux_FALSE]
    simp only [ih, List.map_cons]

/-- The loop of `rightShifter` with a constant shift count: after the iterations for the
bits below `scBit` the word has moved by the value of those bits. -/
theorem SatProblem.rightShifter_loop_const (SCLen s : Nat) (scBit : Nat) (hsc : scBit ≤ SCLen)
    (pow2 : Nat) (hp : 1 ≤ scBit → pow2 = 2 ^ (scBit - 1)) (result : List Lit)
    (p : SatProblem) :
    SatProblem.rightShifter_loop (number_loop SCLen s) scBit pow2 result p =
      Except.ok ((List.range result.length).map (fun i =>
        if s % 2 ^ scBit ≤ i then result.getD (i - s % 2 ^ scBit) FALSE else FALSE), p) := by
  induction scBit generalizing pow2 result with
  | zero =>
    unfold SatProblem.rightShifter_loop
    simp only [pow_zero, Nat.mod_one, Nat.zero_le, if_true, Nat.sub_zero]
    rw [map_getD_range]
  | succ k ih =>
    have hp' : pow2 = 2 ^ k := hp (by omega)
    subst hp'
    have hnext : 1 ≤ k → 2 ^ k / 2 = 2 ^ (k - 1) := by
      intro hk
      obtain ⟨j, rfl⟩ : ∃ j, k = j + 1 := ⟨k - 1, by omega⟩
      rw [pow_succ]
      simp
    unfold SatProblem.rightShifter_loop
    rw [getD_number_loop SCLen s k (by omega), Nat.mod_pow_succ]
    by_cases hb : s / 2 ^ k % 2 = 1
    · rw [if_pos hb, SatProblem.rightShifter_row_TRUE]
      simp only
      rw [ih (by omega) _ hnext]
      simp only [List.length_map, List.length_range, hb, Nat.mul_one]
      congr 1
      congr 1
      apply List.map_congr_left
      intro i hi
      rw [List.mem_range] at hi
      by_cases h1 : s % 2 ^ k ≤ i
      · rw [if_pos h1, getD_map_range _ _ _ (by omega)]
        by_cases h2 : 2 ^ k ≤ i - s % 2 ^ k
        · rw [if_pos h2, if_pos (by omega)]
          congr 1
          omega
        · rw [if_neg h2, if_neg (by omega)]
      · rw [if_neg h1, if_neg (by omega)]
    · have hb0 : s / 2 ^ k % 2 = 0 := by omega
      rw [if_neg hb, SatProblem.rightShifter_row_FALSE]
      simp only
      rw [ih (by omega) _ hnext, map_getD_range]
      simp only [hb0, Nat.mul_zero, Nat.add_zero]

/-- The loop of `leftShifter` with a constant shift count. -/
theorem SatProblem.leftShifter_loop_const (SCLen s : Nat) (scBit : Nat) (hsc : scBit ≤ SCLen)
    (pow2 : Nat) (hp : 1 ≤ scBit → pow2 = 2 ^ (scBit - 1)) (result : List Lit)
    (p : SatProblem) :
    SatProblem.leftShifter_loop (number_loop SCLen s) scBit pow2 result p =
      Except.ok ((List.range result.length).map (fun i =>
        if i + s % 2 ^ scBit < result.length then result.getD (i + s % 2 ^ scBit) FALSE
        else FALSE), p) := by
  induction scBit generalizing pow2 result with
  | zero =>
    unfold SatProblem.leftShifter_loop
    simp only [pow_zero, Nat.mod_one, Nat.add_zero]
    have h : (List.range result.length).map (fun i =>
        if i < result.length then result.getD i FALSE else FALSE) =
        (List.range result.length).map (fun i => result.getD i FALSE) := by
      apply List.map_congr_left
      intro i hi
      rw [if_pos (List.mem_range.mp hi)]
    rw [h, map_getD_range]
  | succ k ih =>
    have hp' : pow2 = 2 ^ k := hp (by omega)
    subst hp'
    have hnext : 1 ≤ k → 2 ^ k / 2 = 2 ^ (k - 1) := by
      intro hk
      obtain ⟨j, rfl⟩ : ∃ j, k = j + 1 := ⟨k - 1, by omega⟩
      rw [pow_succ]
      simp
    unfold SatProblem.leftShifter_loop
    rw [getD_number_loop SCLen s k (by omega), Nat.mod_pow_succ]
    by_cases hb : s / 2 ^ k % 2 = 1
    · rw [if_pos hb, SatProblem.leftShifter_row_TRUE]
      simp only
      rw [ih (by omega) _ hnext]
      simp only [List.length_map, List.length_range, hb, Nat.mul_one]
      congr 1
      congr 1
      apply List.map_congr_left
      intro i hi
      rw [List.mem_range] at hi
      by_cases h1 : i + s % 2 ^ k < result.length
      · rw [if_pos h1, getD_map_range _ _ _ h1]
        by_cases h2 : result.length ≤ i + s % 2 ^ k + 2 ^ k
        · rw [if_pos h2, if_neg (by omega)]
        · rw [if_neg h2, if_pos (by omega)]
          congr 1
          omega
      · rw [if_neg h1, if_neg (by omega)]
    · have hb0 : s / 2 ^ k % 2 = 0 := by omega
      rw [if_neg hb, SatProblem.leftShifter_row_FALSE]
      simp only
      rw [ih (by omega) _ hnext, map_getD_range]
      simp only [hb0, Nat.mul_zero, Nat.add_zero]


/-! ## The value of a shifted word -/

theorem SatProblem.word_value_replicate_append (s : Nat) (l : List Lit) :
    SatProblem.word_value (List.replicate s FALSE ++ l) = 2 ^ s * SatProblem.word_value l := by
  induction s with
  | zero => simp
  | succ k ih =>
    rw [List.replicate_succ, List.cons_append]
    simp only [SatProblem.word_value]
    rw [ih, if_neg (by decide), pow_succ]
    ring

theorem SatProblem.word_value_take (n : Nat) (l : List Lit) :
    SatProblem.word_value (l.take n) = SatProblem.word_value l % 2 ^ n := by
  induction n generalizing l with
  | zero => simp [SatProblem.word_value, Nat.mod_one]
  | succ k ih =>
    cases l with
    | nil => simp [SatProblem.word_value]
    | cons x xs =>
      rw [List.take_succ_cons]
      unfold SatProblem.word_value
      rw [ih xs, pow_succ, Nat.mul_comm (2 ^ k) 2, Nat.mod_mul]
      by_cases hx : x = TRUE
      · rw [if_pos hx]
        have h1 : (1 + 2 * SatProblem.word_value xs) % 2 = 1 := by omega
        have h2 : (1 + 2 * SatProblem.word_value xs) / 2 = SatProblem.word_value xs := by omega
        rw [h1, h2]
      · rw [if_neg hx]
        have h1 : (0 + 2 * SatProblem.word_value xs) % 2 = 0 := by omega
        have h2 : (0 + 2 * SatProblem.word_value xs) / 2 = SatProblem.word_value xs := by omega
        rw [h1, h2]

theorem shifted_eq_take (inp : List Lit) (s : Nat) :
    (List.range inp.length).map (fun i => if s ≤ i then inp.getD (i - s) FALSE else FALSE) =
      (List.replicate s FALSE ++ inp).take inp.length := by
  apply List.ext_getElem?
  intro i
  rw [List.getElem?_map, List.getElem?_take]
  by_cases hi : i < inp.length
  · rw [List.getElem?_range hi, if_pos hi]
    simp only [Option.map_some']
    by_cases hs : s ≤ i
    · rw [if_pos hs, List.getElem?_append_right (by simpa using hs)]
      simp only [List.length_replicate]
      rw [List.getD_eq_getElem?_getD]
      have : i - s < inp.length := by omega
      rw [List.getElem?_eq_getElem this]
      rfl
    · rw [if_neg hs, List.getElem?_append_left (by simpa using hs)]
      simp only [List.getElem?_replicate]
      rw [if_pos (by omega)]
  · rw [if_neg hi, List.getElem?_eq_none (by simpa using hi)]
    rfl

/-- The word that `rightShifter` returns for the constant count `s` has the value of the
argument times `2^s`, modulo `2^Len`. -/
theorem SatProblem.word_value_shifted (inp : List Lit) (s : Nat) :
    SatProblem.word_value ((List.range inp.length).map (fun i =>
      if s ≤ i then inp.getD (i - s) FALSE else FALSE)) =
      SatProblem.word_value inp * 2 ^ s % 2 ^ inp.length := by
  rw [shifted_eq_take, SatProblem.word_value_take, SatProblem.word_value_replicate_append,
    Nat.mul_comm]


theorem SatProblem.size_t_pred_pos (SCLen : Nat) (h1 : 1 ≤ SCLen) :
    SatProblem.size_t_pred SCLen = SCLen - 1 := by
  unfold SatProblem.size_t_pred
  rw [if_neg (by omega)]

/-- C39, for shift counts of 1 to 31 bits: for every word `in` (any literals, `Len` its
length), every `SCLen` with `1 ≤ SCLen ≤ 31` and every constant shift count `s <
2^SCLen` given as `number<SCLen>(s)`, `rightShifter(in, s)` returns the word `r` with
`r[i] = in[i - s]` for `i ≥ s` and `r[i] = FALSE` for `i < s`, `leftShifter(in, s)`
returns `r` with `r[i] = in[i + s]` for `i + s < Len` and `FALSE` otherwise, and neither
changes the problem: no variable and no clause is added. The word that `rightShifter`
returns is the LSB-first list moved `s` places towards higher indices: its value is the
value of `in` times `2^s`, modulo `2^Len`. -/
theorem shifters_constant_count (p : SatProblem) (inp : List Lit) (SCLen s : Nat)
    (h1 : 1 ≤ SCLen) (h31 : SCLen ≤ 31) (hs : s < 2 ^ SCLen) :
    SatProblem.rightShifter p inp (number SCLen s) =
      Except.ok ((List.range inp.length).map (fun i =>
        if s ≤ i then inp.getD (i - s) FALSE else FALSE), p) ∧
    SatProblem.leftShifter p inp (number SCLen s) =
      Except.ok ((List.range inp.length).map (fun i =>
        if i + s < inp.length then inp.getD (i + s) FALSE else FALSE), p) ∧
    SatProblem.word_value ((List.range inp.length).map (fun i =>
      if s ≤ i then inp.getD (i - s) FALSE else FALSE)) =
      SatProblem.word_value inp * 2 ^ s % 2 ^ inp.length := by
  have hs32 : s % 2 ^ 32 = s := by
    apply Nat.mod_eq_of_lt
    exact lt_of_lt_of_le hs (Nat.pow_le_pow_right (by decide) (by omega))
  have hlen : (number SCLen s).length = SCLen := length_number_loop _ _
  have hsh : SatProblem.int_shl_one (SCLen - 1) = some (2 ^ (SCLen - 1)) := by
    unfold SatProblem.int_shl_one
    rw [if_pos (by omega)]
  have hmod : s % 2 ^ SCLen = s := Nat.mod_eq_of_lt hs
  refine ⟨?_, ?_, SatProblem.word_value_shifted inp s⟩
  · unfold SatProblem.rightShifter
    rw [hlen, SatProblem.size_t_pred_pos SCLen h1, hsh]
    simp only
    unfold number
    rw [hs32, SatProblem.rightShifter_loop_const SCLen s SCLen (le_refl _) _ (fun _ => rfl), hmod]
  · unfold SatProblem.leftShifter
    rw [hlen, SatProblem.size_t_pred_pos SCLen h1, hsh]
    simp only
    unfold number
    rw [hs32, SatProblem.leftShifter_loop_const SCLen s SCLen (le_refl _) _ (fun _ => rfl), hmod]

theorem shifters_constant_count_witness :
    (1 ≤ 3 ∧ 3 ≤ 31 ∧ 2 < 2 ^ 3) ∧
    SatProblem.rightShifter SatProblem.new [1, 2, 3, 4, 5] (number 3 2) =
      Except.ok ([FALSE, FALSE, 1, 2, 3], SatProblem.new) ∧
    SatProblem.leftShifter SatProblem.new [1, 2, 3, 4, 5] (number 3 2) =
      Except.ok ([3, 4, 5, FALSE, FALSE], SatProblem.new) :=
  ⟨⟨by decide, by decide, by decide⟩,
    (shifters_constant_count SatProblem.new [1, 2, 3, 4, 5] 3 2 (by decide) (by decide)
      (by decide)).1,
    (shifters_constant_count SatProblem.new [1, 2, 3, 4, 5] 3 2 (by decide) (by decide)
      (by decide)).2.1⟩

/-- The counterexample to C39 for a shift count of 32 bits: the initial value of
`pow2scBit` is `1 << 31`, which does not fit an `int`; converted to the 64-bit `size_t`
it is `2^64 - 2^31`, and halving it 31 times gives `2^33 - 1` for bit 0 of the count. A
shift of the word `{5, 6}` by the count `number<32>(1)` then gives `{FALSE, FALSE}` in
both directions, where the right shifter should give `{FALSE, 5}` and the left shifter
`{6, FALSE}`. With 33 bits or more the shift `1 << (SCLen - 1)` is undefined. -/
theorem shifters_count_of_32_bits :
    SatProblem.rightShifter SatProblem.new [5, 6] (number 32 1) =
      Except.ok ([FALSE, FALSE], SatProblem.new) ∧
    SatProblem.leftShifter SatProblem.new [5, 6] (number 32 1) =
      Except.ok ([FALSE, FALSE], SatProblem.new) ∧
    (List.range 2).map (fun i => if 1 ≤ i then ([5, 6] : List Lit).getD (i - 1) FALSE else FALSE) =
      [FALSE, 5] ∧
    (List.range 2).map (fun i =>
      if i + 1 < 2 then ([5, 6] : List Lit).getD (i + 1) FALSE else FALSE) = [6, FALSE] ∧
    SatProblem.rightShifter SatProblem.new [5, 6] (number 33 1) =
      Except.error Abort.ShiftOverflow ∧
    SatProblem.leftShifter SatProblem.new [5, 6] (number 33 1) =
      Except.error Abort.ShiftOverflow := by
  refine ⟨?_, ?_, ?_, ?_, ?_, ?_⟩ <;> rfl


/-! ## The adder -/

/-- C32: `adder` should encode addition for all words whose literals are constants or
literals over pairwise distinct variables. On constants it does, without changing the
problem: `adder(number<8>(200), number<8>(100))` is `number<8>(44)`, with the carries out
of bits 6 and 7. It fails when the table of `mux` already holds the gate of the first
bit: in a new problem with the variables 1 and 2, `xorGate(1, 2)` allocates variable 3
and returns it; `adder<1>({1}, {2}, 3)`, whose three inputs are over the distinct
variables 1, 2 and 3, then finds `xorGate(1, 2) = 3` in the table and calls
`xorGate(3, 3)`, that is `mux(3, -3, 3)`, which allocates variable 4 and adds through
`condEquivalence(3, -3, 4)` the clause `{-3, -3, -4}`. Its normalised form `{-3, -4}` is
shorter than the clause, and the tautology check of `addClause` reads `newCl[2]`,
outside the bounds of `newCl`: the call has no defined result. -/
theorem adder_fails_on_known_gate :
    (∀ p : SatProblem, SatProblem.adder p (number 8 200) (number 8 100) FALSE =
      Except.ok ((number 8 44, number 8 192), p)) ∧
    SatProblem.xorGate (SatProblem.newVars 2 SatProblem.new).2 1 2 =
      Except.ok (3, (SatProblem.mk 3 [[-1, -2, -3], [-1, 2, 3], [1, -2, 3], [1, 2, -3]] []
        [([1, -2, 2], 3)] [])) ∧
    SatProblem.adder (SatProblem.mk 3 [[-1, -2, -3], [-1, 2, 3], [1, -2, 3], [1, 2, -3]] []
        [([1, -2, 2], 3)] [])
      [1] [2] 3 = Except.error Abort.IndexOutOfBounds ∧
    SatProblem.xorGate (SatProblem.mk 3 [[-1, -2, -3], [-1, 2, 3], [1, -2, 3], [1, 2, -3]] []
        [([1, -2, 2], 3)] [])
      3 3 = Except.error Abort.IndexOutOfBounds ∧
    SatProblem.addClause (SatProblem.mk 4 [[-1, -2, -3], [-1, 2, 3], [1, -2, 3], [1, 2, -3]] []
        [([1, -2, 2], 3)] [])
      [-3, -3, -4] = Except.error Abort.IndexOutOfBounds ∧
    std_unique (std_sort absLess [-3, -3, -4]) = [-3, -4] := by
  refine ⟨fun p => ?_, ?_, ?_, ?_, ?_, ?_⟩ <;> rfl

end CloneDetection
